import Mathlib

/-!
# VITA 49.2 (VRT) packet codec of libiio

A shallow embedding of `vita49.h`, `vita49_packet.c` and of the registry, the mapping
file loader and the dispatch of context packets in `iiod/vrt_command.c`.

Conventions of the embedding.

* The host is little-endian: the first branch of the `#if __BYTE_ORDER__` in
  `vita49.h`, and `ntohl`/`htonl` swap bytes.
* A `uint32_t` buffer is a `List Nat`, entry `i` being the value a C read of `buf[i]`
  yields on the host; its length is the capacity of the object the pointer refers to.
  An access outside of it is undefined behaviour in C and is the outcome `fault` here.
* `size_t` is 64 bits wide; sums, differences and products that may wrap are taken
  modulo `2 ^ 64`.
* The bit-field structures `vrt_header` and `vrt_trailer` occupy one 32-bit word, which is
  what the model stores; the bit-fields are read out of that word.
* Pointer arguments `buf` and `pkt` are non-null (a null one is the immediate `-EINVAL`
  of the first check); the `payload` pointer of a record may be null (`none`).
* A record holds the words behind its payload pointer by value: the payload and the
  buffer a packet is serialised into are distinct objects.
* A `double` is its 64-bit IEEE 754 pattern, which is what `memcpy` moves between the
  payload and the value; `0.0` is the pattern 0.
* The registry `vrt_mappings` is the list of its entries from the head on; the host
  library is a record of lookup functions, and the attribute writes of a call are its
  result, in the order they are made.
-/

set_option autoImplicit false

namespace Vita49

/-! ## Machine arithmetic, byte order, memory -/

/-- Value of `EINVAL` in `errno.h`. -/
def EINVAL : Int := 22

/-- Value of `ENOBUFS` in `errno.h`. -/
def ENOBUFS : Int := 105

/-- Number of values of a `size_t`. -/
def SIZE_MOD : Nat := 2 ^ 64

/-- Sum of two `size_t` values. -/
def size_add (a b : Nat) : Nat := (a + b) % SIZE_MOD

/-- Difference of two `size_t` values (wraps below zero). -/
def size_sub (a b : Nat) : Nat := (a % SIZE_MOD + SIZE_MOD - b % SIZE_MOD) % SIZE_MOD

/-- Product of two `size_t` values. -/
def size_mul (a b : Nat) : Nat := (a * b) % SIZE_MOD

/-- Conversion of a `size_t` to the `ssize_t` a function returns. -/
def to_ssize (a : Nat) : Int :=
  if a % SIZE_MOD < 2 ^ 63 then ((a % SIZE_MOD : Nat) : Int)
  else ((a % SIZE_MOD : Nat) : Int) - (SIZE_MOD : Int)

/-- The four bytes a 32-bit word occupies in memory on the host, lowest address first. -/
def host_bytes (x : Nat) : List Nat :=
  [x % 256, x / 2 ^ 8 % 256, x / 2 ^ 16 % 256, x / 2 ^ 24 % 256]

/-- The 32-bit word the host reads from four bytes in memory, lowest address first. -/
def host_word (b : List Nat) : Nat :=
  b.getD 0 0 % 256 + b.getD 1 0 % 256 * 2 ^ 8 + b.getD 2 0 % 256 * 2 ^ 16
    + b.getD 3 0 % 256 * 2 ^ 24

/-- Big-endian (network order) value of four bytes, first byte most significant. -/
def be_decode (b : List Nat) : Nat :=
  b.getD 0 0 % 256 * 2 ^ 24 + b.getD 1 0 % 256 * 2 ^ 16 + b.getD 2 0 % 256 * 2 ^ 8
    + b.getD 3 0 % 256

/-- Big-endian (network order) bytes of a 32-bit value, most significant first. -/
def be_encode (v : Nat) : List Nat :=
  [v / 2 ^ 24 % 256, v / 2 ^ 16 % 256, v / 2 ^ 8 % 256, v % 256]

/-- The libc `ntohl`: the word read from memory is taken as network order and
converted to the host value. -/
def ntohl (x : Nat) : Nat := be_decode (host_bytes x)

/-- The libc `htonl`: the host word whose bytes in memory are the network order of the value. -/
def htonl (v : Nat) : Nat := host_word (be_encode v)

/-- Result of a call: a normal return with a value, a return of a negative errno, or an
access outside a buffer. -/
inductive Outcome (α : Type) where
  | ok (a : α) : Outcome α
  | err (code : Int) : Outcome α
  | fault : Outcome α
deriving DecidableEq, Repr

/-- Sequencing: an error return or a fault ends the function. -/
def Outcome.bind {α β : Type} (x : Outcome α) (f : α → Outcome β) : Outcome β :=
  match x with
  | .ok a => f a
  | .err c => .err c
  | .fault => .fault

/-- Read of `buf[i]`. -/
def load (buf : List Nat) (i : Nat) : Outcome Nat :=
  match buf[i]? with
  | some w => .ok w
  | none => .fault

/-- Write `buf[i] = v`. -/
def store (buf : List Nat) (i : Nat) (v : Nat) : Outcome (List Nat) :=
  if i < buf.length then .ok (buf.set i v) else .fault

/-- The libc `memcpy(&dst[off], src, nbytes)` between word buffers. -/
def memcpy (dst : List Nat) (off : Nat) (src : List Nat) (nbytes : Nat) : Outcome (List Nat) :=
  if nbytes / 4 ≤ src.length ∧ off + nbytes / 4 ≤ dst.length then
    .ok (dst.take off ++ src.take (nbytes / 4) ++ dst.drop (off + nbytes / 4))
  else .fault

/-! ## vita49.h -/

def VRT_PKT_TYPE_IF_DATA_NO_SID : Nat := 0x0
def VRT_PKT_TYPE_IF_DATA_WITH_SID : Nat := 0x1
def VRT_PKT_TYPE_EXT_DATA_NO_SID : Nat := 0x2
def VRT_PKT_TYPE_EXT_DATA_WITH_SID : Nat := 0x3
def VRT_PKT_TYPE_IF_CONTEXT : Nat := 0x4
def VRT_PKT_TYPE_EXT_CONTEXT : Nat := 0x5
def VRT_PKT_TYPE_COMMAND : Nat := 0x6
def VRT_PKT_TYPE_EXT_COMMAND : Nat := 0x7

def VRT_TSI_NONE : Nat := 0
def VRT_TSI_UTC : Nat := 1
def VRT_TSI_GPS : Nat := 2
def VRT_TSI_OTHER : Nat := 3

def VRT_TSF_NONE : Nat := 0
def VRT_TSF_SAMPLE_COUNT : Nat := 1
def VRT_TSF_REAL_TIME : Nat := 2
def VRT_TSF_FREE_RUNNING : Nat := 3

/-- The `struct vrt_header`: one 32-bit word holding the bit-fields. -/
structure vrt_header where
  word : Nat
deriving DecidableEq, Repr

/-- Bit-field `packet_size_words:16`, allocated first (bits 0..15). -/
def vrt_header.packet_size_words (h : vrt_header) : Nat := h.word % 2 ^ 16

/-- Bit-field `packet_count:4` (bits 16..19). -/
def vrt_header.packet_count (h : vrt_header) : Nat := h.word / 2 ^ 16 % 2 ^ 4

/-- Bit-field `ts_fractional_format:2` (bits 20..21). -/
def vrt_header.ts_fractional_format (h : vrt_header) : Nat := h.word / 2 ^ 20 % 2 ^ 2

/-- Bit-field `ts_integer_format:2` (bits 22..23). -/
def vrt_header.ts_integer_format (h : vrt_header) : Nat := h.word / 2 ^ 22 % 2 ^ 2

/-- Bit-field `reserved:2` (bits 24..25). -/
def vrt_header.reserved (h : vrt_header) : Nat := h.word / 2 ^ 24 % 2 ^ 2

/-- Bit-field `has_trailer:1` (bit 26). -/
def vrt_header.has_trailer (h : vrt_header) : Nat := h.word / 2 ^ 26 % 2

/-- Bit-field `has_class_id:1` (bit 27). -/
def vrt_header.has_class_id (h : vrt_header) : Nat := h.word / 2 ^ 27 % 2

/-- Bit-field `packet_type:4` (bits 28..31). -/
def vrt_header.packet_type (h : vrt_header) : Nat := h.word / 2 ^ 28 % 2 ^ 4

/-- Assignment `hdr.packet_size_words = v` to the 16-bit bit-field: the value is
truncated to 16 bits, the other bit-fields keep their bits. -/
def vrt_header.set_packet_size_words (h : vrt_header) (v : Nat) : vrt_header :=
  { word := h.word / 2 ^ 16 * 2 ^ 16 + v % 2 ^ 16 }

/-- The `struct vrt_trailer`: one 32-bit word holding the bit-fields. -/
structure vrt_trailer where
  word : Nat
deriving DecidableEq, Repr

/-- Bit-field `associated_context_packet_count:7` (bits 0..6). -/
def vrt_trailer.associated_context_packet_count (t : vrt_trailer) : Nat := t.word % 2 ^ 7

/-- Bit-field `context_packet_count_enable:1` (bit 7). -/
def vrt_trailer.context_packet_count_enable (t : vrt_trailer) : Nat := t.word / 2 ^ 7 % 2

/-- Bit-field `state_and_event_indicators:12` (bits 8..19). -/
def vrt_trailer.state_and_event_indicators (t : vrt_trailer) : Nat := t.word / 2 ^ 8 % 2 ^ 12

/-- Bit-field `indicator_enables:12` (bits 20..31). -/
def vrt_trailer.indicator_enables (t : vrt_trailer) : Nat := t.word / 2 ^ 20 % 2 ^ 12

/-! ## vita49_packet.h -/

/-- The `struct vrt_packet`. `payload` is the memory the payload pointer refers to
(`none` for a null pointer). -/
structure vrt_packet where
  header : vrt_header
  stream_id : Nat
  class_id : Nat
  timestamp_int : Nat
  timestamp_frac : Nat
  payload : Option (List Nat)
  payload_words : Nat
  trailer : vrt_trailer
  has_stream_id : Bool
  has_class_id : Bool
  has_timestamp_int : Bool
  has_timestamp_frac : Bool
  has_trailer : Bool
deriving DecidableEq, Repr

/-- The record after `memset(pkt, 0, sizeof(*pkt))`. -/
def vrt_packet.zeroed : vrt_packet :=
  { header := { word := 0 }, stream_id := 0, class_id := 0, timestamp_int := 0,
    timestamp_frac := 0, payload := none, payload_words := 0, trailer := { word := 0 },
    has_stream_id := false, has_class_id := false, has_timestamp_int := false,
    has_timestamp_frac := false, has_trailer := false }

/-! ## vita49_packet.c: vrt_parse_packet -/

/-- The local `has_sid` of `vrt_parse_packet` and `vrt_generate_packet`. -/
def has_sid (h : vrt_header) : Bool :=
  h.packet_type == VRT_PKT_TYPE_IF_DATA_WITH_SID ||
  h.packet_type == VRT_PKT_TYPE_EXT_DATA_WITH_SID ||
  h.packet_type == VRT_PKT_TYPE_IF_CONTEXT ||
  h.packet_type == VRT_PKT_TYPE_EXT_CONTEXT ||
  h.packet_type == VRT_PKT_TYPE_COMMAND ||
  h.packet_type == VRT_PKT_TYPE_EXT_COMMAND

/-- Local state of `vrt_parse_packet`: the index `idx` and the record `*pkt`. -/
structure parse_state where
  idx : Nat
  pkt : vrt_packet
deriving DecidableEq, Repr

/-- Lines 42-46: the stream identifier. -/
def parse_stream_id (buf : List Nat) (s : parse_state) : Outcome parse_state :=
  if has_sid s.pkt.header then
    if s.idx ≥ s.pkt.header.packet_size_words then .err (-EINVAL)
    else (load buf s.idx).bind fun w =>
      .ok { idx := s.idx + 1,
            pkt := { s.pkt with stream_id := ntohl w, has_stream_id := true } }
  else .ok s

/-- Lines 49-55: the class identifier. -/
def parse_class_id (buf : List Nat) (s : parse_state) : Outcome parse_state :=
  if s.pkt.header.has_class_id ≠ 0 then
    if s.idx + 1 ≥ s.pkt.header.packet_size_words then .err (-EINVAL)
    else (load buf s.idx).bind fun r1 => (load buf (s.idx + 1)).bind fun r2 =>
      let w1 := ntohl r1
      let w2 := ntohl r2
      .ok { idx := s.idx + 2,
            pkt := { s.pkt with class_id := (w1 <<< 32) ||| w2, has_class_id := true } }
  else .ok s

/-- Lines 58-62: the integer timestamp. -/
def parse_timestamp_int (buf : List Nat) (s : parse_state) : Outcome parse_state :=
  if s.pkt.header.ts_integer_format ≠ VRT_TSI_NONE then
    if s.idx ≥ s.pkt.header.packet_size_words then .err (-EINVAL)
    else (load buf s.idx).bind fun w =>
      .ok { idx := s.idx + 1,
            pkt := { s.pkt with timestamp_int := ntohl w, has_timestamp_int := true } }
  else .ok s

/-- Lines 65-71: the fractional timestamp. -/
def parse_timestamp_frac (buf : List Nat) (s : parse_state) : Outcome parse_state :=
  if s.pkt.header.ts_fractional_format ≠ VRT_TSF_NONE then
    if s.idx + 1 ≥ s.pkt.header.packet_size_words then .err (-EINVAL)
    else (load buf s.idx).bind fun r1 => (load buf (s.idx + 1)).bind fun r2 =>
      let w1 := ntohl r1
      let w2 := ntohl r2
      .ok { idx := s.idx + 2,
            pkt := { s.pkt with timestamp_frac := (w1 <<< 32) ||| w2,
                                has_timestamp_frac := true } }
  else .ok s

/-- Lines 74-87: the trailer and the payload view. -/
def parse_trailer (buf : List Nat) (s : parse_state) : Outcome vrt_packet :=
  if s.pkt.header.has_trailer ≠ 0 then
    if s.pkt.header.packet_size_words < s.idx + 1 then .err (-EINVAL)
    else (load buf (s.pkt.header.packet_size_words - 1)).bind fun w =>
      .ok { s.pkt with
            trailer := { word := ntohl w }, has_trailer := true,
            payload := some (buf.drop s.idx),
            payload_words := size_sub (size_sub s.pkt.header.packet_size_words s.idx) 1 }
  else
    .ok { s.pkt with
          payload := some (buf.drop s.idx),
          payload_words := size_sub s.pkt.header.packet_size_words s.idx }

/-- The function `vrt_parse_packet(buf, words, pkt)`: `ok pkt` is the return of 0 with the
record written through `pkt`. -/
def vrt_parse_packet (buf : List Nat) (words : Nat) : Outcome vrt_packet :=
  if words = 0 then .err (-EINVAL)
  else (load buf 0).bind fun w0 =>
    let pkt : vrt_packet := { vrt_packet.zeroed with header := { word := ntohl w0 } }
    if pkt.header.packet_size_words > words then .err (-EINVAL)
    else
      (parse_stream_id buf { idx := 1, pkt := pkt }).bind fun s1 =>
      (parse_class_id buf s1).bind fun s2 =>
      (parse_timestamp_int buf s2).bind fun s3 =>
      (parse_timestamp_frac buf s3).bind fun s4 =>
      parse_trailer buf s4

/-! ## vita49_packet.c: vrt_generate_packet -/

/-- Local state of `vrt_generate_packet`: the index `idx` and the contents of `buf`. -/
structure gen_state where
  idx : Nat
  buf : List Nat
deriving DecidableEq, Repr

/-- Lines 107-110: the stream identifier. -/
def gen_stream_id (pkt : vrt_packet) (max_words : Nat) (s : gen_state) : Outcome gen_state :=
  if has_sid pkt.header then
    if s.idx ≥ max_words then .err (-ENOBUFS)
    else (store s.buf s.idx (htonl pkt.stream_id)).bind fun b =>
      .ok { idx := s.idx + 1, buf := b }
  else .ok s

/-- Lines 113-117: the class identifier. -/
def gen_class_id (pkt : vrt_packet) (max_words : Nat) (s : gen_state) : Outcome gen_state :=
  if pkt.header.has_class_id ≠ 0 then
    if s.idx + 1 ≥ max_words then .err (-ENOBUFS)
    else (store s.buf s.idx (htonl ((pkt.class_id >>> 32) % 2 ^ 32))).bind fun b1 =>
      (store b1 (s.idx + 1) (htonl ((pkt.class_id &&& 0xFFFFFFFF) % 2 ^ 32))).bind fun b2 =>
      .ok { idx := s.idx + 2, buf := b2 }
  else .ok s

/-- Lines 120-123: the integer timestamp. -/
def gen_timestamp_int (pkt : vrt_packet) (max_words : Nat) (s : gen_state) :
    Outcome gen_state :=
  if pkt.header.ts_integer_format ≠ VRT_TSI_NONE then
    if s.idx ≥ max_words then .err (-ENOBUFS)
    else (store s.buf s.idx (htonl pkt.timestamp_int)).bind fun b =>
      .ok { idx := s.idx + 1, buf := b }
  else .ok s

/-- Lines 126-130: the fractional timestamp. -/
def gen_timestamp_frac (pkt : vrt_packet) (max_words : Nat) (s : gen_state) :
    Outcome gen_state :=
  if pkt.header.ts_fractional_format ≠ VRT_TSF_NONE then
    if s.idx + 1 ≥ max_words then .err (-ENOBUFS)
    else (store s.buf s.idx (htonl ((pkt.timestamp_frac >>> 32) % 2 ^ 32))).bind fun b1 =>
      (store b1 (s.idx + 1) (htonl ((pkt.timestamp_frac &&& 0xFFFFFFFF) % 2 ^ 32))).bind
        fun b2 => .ok { idx := s.idx + 2, buf := b2 }
  else .ok s

/-- Lines 133-138: the payload, copied as it is. -/
def gen_payload (pkt : vrt_packet) (max_words : Nat) (s : gen_state) : Outcome gen_state :=
  match pkt.payload with
  | none => .ok s
  | some p =>
    if pkt.payload_words > 0 then
      if size_add s.idx pkt.payload_words
          > size_sub max_words (if pkt.header.has_trailer ≠ 0 then 1 else 0) then
        .err (-ENOBUFS)
      else (memcpy s.buf s.idx p (size_mul pkt.payload_words 4)).bind fun b =>
        .ok { idx := size_add s.idx pkt.payload_words, buf := b }
    else .ok s

/-- Lines 141-146: the trailer. -/
def gen_trailer (pkt : vrt_packet) (max_words : Nat) (s : gen_state) : Outcome gen_state :=
  if pkt.header.has_trailer ≠ 0 then
    if s.idx ≥ max_words then .err (-ENOBUFS)
    else (store s.buf s.idx (htonl pkt.trailer.word)).bind fun b =>
      .ok { idx := size_add s.idx 1, buf := b }
  else .ok s

/-- Lines 149-154: the size is stored in a copy of the header, which goes to word 0; the
index is returned. -/
def gen_header (pkt : vrt_packet) (s : gen_state) : Outcome (Int × List Nat) :=
  let final_hdr := pkt.header.set_packet_size_words s.idx
  (store s.buf 0 (htonl final_hdr.word)).bind fun b => .ok (to_ssize s.idx, b)

/-- The function `vrt_generate_packet(pkt, buf, max_words)`: `ok (n, out)` is the return of
`n` with `out` the contents of `buf` on return. -/
def vrt_generate_packet (pkt : vrt_packet) (buf : List Nat) (max_words : Nat) :
    Outcome (Int × List Nat) :=
  (gen_stream_id pkt max_words { idx := 1, buf := buf }).bind fun s1 =>
  (gen_class_id pkt max_words s1).bind fun s2 =>
  (gen_timestamp_int pkt max_words s2).bind fun s3 =>
  (gen_timestamp_frac pkt max_words s3).bind fun s4 =>
  (gen_payload pkt max_words s4).bind fun s5 =>
  (gen_trailer pkt max_words s5).bind fun s6 =>
  gen_header pkt s6

/-! ## Quantities the statements are written in

What a header declares, and the words a record serialises to, as the specification
describes them. They are compared with the functions above in the theorems. -/

/-- The header a buffer declares: word 0 decoded from network order. -/
def wire_header (buf : List Nat) : vrt_header := { word := ntohl (buf.getD 0 0) }

/-- Word `i` of a buffer decoded from big-endian: the value of the four bytes it
occupies in memory, first byte most significant. -/
def wire_word (buf : List Nat) (i : Nat) : Nat := be_decode (host_bytes (buf.getD i 0))

/-- Width in words of the stream identifier a header declares (types 1, 3, 4, 5, 6, 7). -/
def sid_words (h : vrt_header) : Nat := if has_sid h then 1 else 0

/-- Width in words of the class identifier a header declares (C bit). -/
def class_words (h : vrt_header) : Nat := if h.has_class_id ≠ 0 then 2 else 0

/-- Width in words of the integer timestamp a header declares (TSI not None). -/
def tsi_words (h : vrt_header) : Nat := if h.ts_integer_format ≠ VRT_TSI_NONE then 1 else 0

/-- Width in words of the fractional timestamp a header declares (TSF not None). -/
def tsf_words (h : vrt_header) : Nat := if h.ts_fractional_format ≠ VRT_TSF_NONE then 2 else 0

/-- Width in words of the trailer a header declares (T bit). -/
def trailer_words (h : vrt_header) : Nat := if h.has_trailer ≠ 0 then 1 else 0

/-- The header word and the metadata words: the index of the first payload word. -/
def meta_words (h : vrt_header) : Nat :=
  1 + sid_words h + class_words h + tsi_words h + tsf_words h

/-- Total width of the optional fields a header declares. -/
def optional_words (h : vrt_header) : Nat :=
  sid_words h + class_words h + tsi_words h + tsf_words h + trailer_words h

/-- The record a packet in a buffer stands for: every declared field read at its place
after the header, in the order stream identifier, class identifier, integer timestamp,
fractional timestamp; the trailer in the last word of the packet. -/
def parsed_record (buf : List Nat) : vrt_packet :=
  let h : vrt_header := { word := ntohl (buf.getD 0 0) }
  { header := h,
    stream_id := if has_sid h then ntohl (buf.getD 1 0) else 0,
    class_id := if h.has_class_id ≠ 0 then
        (ntohl (buf.getD (1 + sid_words h) 0) <<< 32) ||| ntohl (buf.getD (1 + sid_words h + 1) 0)
      else 0,
    timestamp_int := if h.ts_integer_format ≠ VRT_TSI_NONE then
        ntohl (buf.getD (1 + sid_words h + class_words h) 0) else 0,
    timestamp_frac := if h.ts_fractional_format ≠ VRT_TSF_NONE then
        (ntohl (buf.getD (1 + sid_words h + class_words h + tsi_words h) 0) <<< 32)
          ||| ntohl (buf.getD (1 + sid_words h + class_words h + tsi_words h + 1) 0)
      else 0,
    payload := some (buf.drop (meta_words h)),
    payload_words := size_sub (size_sub h.packet_size_words (meta_words h)) (trailer_words h),
    trailer := if h.has_trailer ≠ 0 then { word := ntohl (buf.getD (h.packet_size_words - 1) 0) }
      else { word := 0 },
    has_stream_id := has_sid h,
    has_class_id := decide (h.has_class_id ≠ 0),
    has_timestamp_int := decide (h.ts_integer_format ≠ VRT_TSI_NONE),
    has_timestamp_frac := decide (h.ts_fractional_format ≠ VRT_TSF_NONE),
    has_trailer := decide (h.has_trailer ≠ 0) }

/-- Serialised stream identifier: one big-endian word when the packet type carries one. -/
def sid_chunk (pkt : vrt_packet) : List Nat :=
  if has_sid pkt.header then [htonl pkt.stream_id] else []

/-- Serialised class identifier: high word, then low word, when the C bit is set. -/
def class_chunk (pkt : vrt_packet) : List Nat :=
  if pkt.header.has_class_id ≠ 0 then
    [htonl ((pkt.class_id >>> 32) % 2 ^ 32), htonl ((pkt.class_id &&& 0xFFFFFFFF) % 2 ^ 32)]
  else []

/-- Serialised integer timestamp: one big-endian word when TSI is not None. -/
def tsi_chunk (pkt : vrt_packet) : List Nat :=
  if pkt.header.ts_integer_format ≠ VRT_TSI_NONE then [htonl pkt.timestamp_int] else []

/-- Serialised fractional timestamp: high word, then low word, when TSF is not None. -/
def tsf_chunk (pkt : vrt_packet) : List Nat :=
  if pkt.header.ts_fractional_format ≠ VRT_TSF_NONE then
    [htonl ((pkt.timestamp_frac >>> 32) % 2 ^ 32),
     htonl ((pkt.timestamp_frac &&& 0xFFFFFFFF) % 2 ^ 32)]
  else []

/-- Serialised payload: the first `payload_words` words behind a non-null payload
pointer, as they are. -/
def payload_chunk (pkt : vrt_packet) : List Nat :=
  match pkt.payload with
  | some p => p.take pkt.payload_words
  | none => []

/-- Serialised trailer: one big-endian word when the T bit is set. -/
def trailer_chunk (pkt : vrt_packet) : List Nat :=
  if pkt.header.has_trailer ≠ 0 then [htonl pkt.trailer.word] else []

/-- The words of a serialised packet after its header word, in wire order. -/
def body_chunks (pkt : vrt_packet) : List Nat :=
  sid_chunk pkt ++ class_chunk pkt ++ tsi_chunk pkt ++ tsf_chunk pkt ++ payload_chunk pkt
    ++ trailer_chunk pkt

/-- Number of payload words the serialiser copies: none behind a null pointer. -/
def payload_count (pkt : vrt_packet) : Nat :=
  match pkt.payload with
  | some _ => pkt.payload_words
  | none => 0

/-- The payload pointer, when not null, refers to at least `payload_words` words. -/
def payload_readable (pkt : vrt_packet) : Bool :=
  match pkt.payload with
  | some p => decide (pkt.payload_words ≤ p.length)
  | none => true

/-- Number of words the serialised form of a record needs: header, declared optional
fields, payload, trailer. -/
def serialised_words (pkt : vrt_packet) : Nat :=
  meta_words pkt.header + payload_count pkt + trailer_words pkt.header

/-- State of the serialiser once the words `pre` are written behind word 0 of a buffer
that held `buf0` at entry. -/
def written (buf0 pre : List Nat) : gen_state :=
  { idx := 1 + pre.length, buf := buf0.take 1 ++ pre ++ buf0.drop (1 + pre.length) }

/-! ## Inputs of the unit tests (tests/api/test_vita49.c) -/

/-- The buffer `fill_context_packet` builds: an IF Context packet of 10 words with a
class identifier. -/
def test_context_buf : List Nat :=
  [htonl 0x4800000A, htonl 0x12345678, htonl 0x0012A200, htonl 0x00000001,
   htonl ((1 <<< 21) ||| (1 <<< 30)), htonl 0x40000000, htonl 0x00000000,
   htonl 0x40000000, htonl 0x00000000, htonl 0x00000000]

/-- The record the test expects from parsing `test_context_buf`. -/
def test_context_pkt : vrt_packet :=
  { vrt_packet.zeroed with
    header := { word := 0x4800000A },
    stream_id := 0x12345678,
    class_id := 0x0012A20000000001,
    payload := some [htonl ((1 <<< 21) ||| (1 <<< 30)), htonl 0x40000000, htonl 0x00000000,
                     htonl 0x40000000, htonl 0x00000000, htonl 0x00000000],
    payload_words := 6,
    has_stream_id := true,
    has_class_id := true }

/-- The record `test_vrt_generate_packet_basic` serialises: IF Data with stream
identifier, trailer, TSI UTC, TSF real time, two payload words, trailer bit `e` set. -/
def test_data_pkt : vrt_packet :=
  { vrt_packet.zeroed with
    header := { word := 0x14600000 },
    stream_id := 0x87654321,
    timestamp_int := 1000000,
    timestamp_frac := 2000000,
    payload := some [0xDEADBEEF, 0xCAFEBABE],
    payload_words := 2,
    trailer := { word := 0x80 } }

/-- A header-only record: every header bit clear, no payload. -/
def header_only_pkt : vrt_packet := vrt_packet.zeroed

/-- A data record without stream identifier whose payload has 65535 words. -/
def oversize_pkt : vrt_packet :=
  { vrt_packet.zeroed with
    payload := some (List.replicate 65535 0),
    payload_words := 65535 }

/-! ## vita49_packet.c: the payload helpers

A `double` is its 64-bit IEEE 754 pattern, as `memcpy` moves it; `0.0` is the pattern 0.
A `float` that is copied from a word is its 32-bit pattern. -/

/-- The function `vrt_get_payload_word(pkt, offset)`. -/
def vrt_get_payload_word (pkt : vrt_packet) (offset : Nat) : Outcome Nat :=
  match pkt.payload with
  | none => .ok 0
  | some p =>
    if offset ≥ pkt.payload_words then .ok 0
    else (load p offset).bind fun w => .ok (ntohl w)

/-- The function `vrt_set_payload_word(payload, max_words, offset, val)`; the value is the
buffer on return. -/
def vrt_set_payload_word (payload : List Nat) (max_words offset val : Nat) :
    Outcome (List Nat) :=
  if offset ≥ max_words then .ok payload
  else store payload offset (htonl val)

/-- The function `vrt_get_payload_double(pkt, offset)`; `offset + 1` is a `size_t` sum. -/
def vrt_get_payload_double (pkt : vrt_packet) (offset : Nat) : Outcome Nat :=
  match pkt.payload with
  | none => .ok 0
  | some p =>
    if size_add offset 1 ≥ pkt.payload_words then .ok 0
    else (load p offset).bind fun r1 => (load p (size_add offset 1)).bind fun r2 =>
      let w1 := ntohl r1
      let w2 := ntohl r2
      .ok ((w1 <<< 32) ||| w2)

/-- The function `vrt_set_payload_double(payload, max_words, offset, val)`; the value is
the buffer on return. -/
def vrt_set_payload_double (payload : List Nat) (max_words offset val : Nat) :
    Outcome (List Nat) :=
  if size_add offset 1 ≥ max_words then .ok payload
  else (store payload offset (htonl ((val >>> 32) % 2 ^ 32))).bind fun b =>
    store b (size_add offset 1) (htonl ((val &&& 0xFFFFFFFF) % 2 ^ 32))

/-! ## vita49_packet.h: struct vrt_cif_fields -/

/-- The `struct vrt_cif_fields`. The `double` fields hold 64-bit patterns,
`reference_level` a 32-bit pattern; the gains hold the integers that are converted to
`float` (the conversion is exact); `temperature` holds the value of the `float` stored.
`temperature_unrounded` is not a member of the C structure: it keeps the value of the
expression `(float)integer + ((float)frac / 65536.0f)` before the addition rounds it to
the `float` that `temperature` holds. -/
structure vrt_cif_fields where
  cif0 : Nat
  context_field_change : Bool
  has_reference_point_id : Bool
  reference_point_id : Nat
  has_bandwidth : Bool
  bandwidth : Nat
  has_if_reference_frequency : Bool
  if_reference_frequency : Nat
  has_rf_reference_frequency : Bool
  rf_reference_frequency : Nat
  has_rf_reference_frequency_offset : Bool
  rf_reference_frequency_offset : Nat
  has_if_band_offset : Bool
  if_band_offset : Nat
  has_reference_level : Bool
  reference_level : Nat
  has_gain : Bool
  gain_stage_1 : Int
  gain_stage_2 : Int
  has_over_range_count : Bool
  over_range_count : Nat
  has_sample_rate : Bool
  sample_rate : Nat
  has_timestamp_adjustment : Bool
  timestamp_adjustment : Nat
  has_timestamp_calibration_time : Bool
  timestamp_calibration_time_int : Nat
  timestamp_calibration_time_frac : Nat
  has_temperature : Bool
  temperature : Rat
  temperature_unrounded : Rat
  has_device_identifier : Bool
  device_identifier_oui : Nat
  device_identifier_code : Nat
  has_state_and_event_indicators : Bool
  state_and_event_indicators : Nat
  has_data_packet_payload_format : Bool
  data_packet_payload_format : Nat
deriving DecidableEq

/-- The structure after `memset(cif, 0, sizeof(*cif))`. -/
def vrt_cif_fields.zeroed : vrt_cif_fields :=
  { cif0 := 0, context_field_change := false,
    has_reference_point_id := false, reference_point_id := 0,
    has_bandwidth := false, bandwidth := 0,
    has_if_reference_frequency := false, if_reference_frequency := 0,
    has_rf_reference_frequency := false, rf_reference_frequency := 0,
    has_rf_reference_frequency_offset := false, rf_reference_frequency_offset := 0,
    has_if_band_offset := false, if_band_offset := 0,
    has_reference_level := false, reference_level := 0,
    has_gain := false, gain_stage_1 := 0, gain_stage_2 := 0,
    has_over_range_count := false, over_range_count := 0,
    has_sample_rate := false, sample_rate := 0,
    has_timestamp_adjustment := false, timestamp_adjustment := 0,
    has_timestamp_calibration_time := false, timestamp_calibration_time_int := 0,
    timestamp_calibration_time_frac := 0,
    has_temperature := false, temperature := 0, temperature_unrounded := 0,
    has_device_identifier := false, device_identifier_oui := 0, device_identifier_code := 0,
    has_state_and_event_indicators := false, state_and_event_indicators := 0,
    has_data_packet_payload_format := false, data_packet_payload_format := 0 }

/-! ## Rounding to `float`

A `float` is an IEEE 754 binary32: a significand of 24 bits and a power of two. The one
addition of `float` values in the code has an exact sum `n / 65536` with `|n| ≤ 2 ^ 31`,
between `2 ^ -16` and `2 ^ 15` in magnitude when not 0: far inside the exponent range, so
that only the length of the significand matters. -/

/-- The multiple of `q` nearest to `m`, the even multiple when `m` is half way between
two. -/
def round_half_even (m q : Nat) : Nat :=
  if 2 * (m % q) < q then m / q * q
  else if q < 2 * (m % q) then (m / q + 1) * q
  else if m / q % 2 = 0 then m / q * q
  else (m / q + 1) * q

/-- The distance between consecutive `float` values around `m / 65536`, in units of
`1 / 65536`, for `m < 2 ^ 32`: with a significand of 24 bits every `m` below `2 ^ 24` is
a `float`, and the distance doubles with every further bit of `m`. -/
def float_spacing_q16 (m : Nat) : Nat :=
  if m < 2 ^ 24 then 1 else if m < 2 ^ 25 then 2 else if m < 2 ^ 26 then 4
  else if m < 2 ^ 27 then 8 else if m < 2 ^ 28 then 16 else if m < 2 ^ 29 then 32
  else if m < 2 ^ 30 then 64 else if m < 2 ^ 31 then 128 else 256

/-- The `float` nearest to `n / 65536`, the one with the even significand in a tie (the
rounding of an IEEE 754 operation in the default mode), as its numerator over 65536, for
`|n| < 2 ^ 32`. -/
def float_nearest_q16 (n : Int) : Int :=
  n.sign * ((round_half_even n.natAbs (float_spacing_q16 n.natAbs) : Nat) : Int)

/-! ## vita49_packet.c: vrt_parse_cif_payload -/

/-- The test `cif->cif0 & (1 << b)` of a CIF0 bit (for `b` up to 31, beyond which the
shift is undefined in C and no bit of the 32-bit word is tested here). -/
def cif_bit (cif0 b : Nat) : Bool := (cif0 &&& (1 <<< b)) != 0

/-- Conversion to `int16_t`: the low 16 bits, read in two's complement. -/
def to_int16 (x : Nat) : Int :=
  if x % 2 ^ 16 < 2 ^ 15 then ((x % 2 ^ 16 : Nat) : Int)
  else ((x % 2 ^ 16 : Nat) : Int) - 2 ^ 16

/-- Local state of `vrt_parse_cif_payload`: the offset and the structure `*cif`. -/
structure cif_state where
  offset : Nat
  cif : vrt_cif_fields
deriving DecidableEq

/-- Lines 211-213: bit 31, context field change; it has no payload word. -/
def cif_context_field_change (cif : vrt_cif_fields) : vrt_cif_fields :=
  if cif_bit cif.cif0 31 then { cif with context_field_change := true } else cif

/-- Lines 214-218: bit 30, reference point identifier. -/
def cif_reference_point_id (pkt : vrt_packet) (s : cif_state) : Outcome cif_state :=
  if cif_bit s.cif.cif0 30 then
    (vrt_get_payload_word pkt s.offset).bind fun v =>
      .ok { offset := s.offset + 1,
            cif := { s.cif with has_reference_point_id := true, reference_point_id := v } }
  else .ok s

/-- Lines 219-223: bit 29, bandwidth. -/
def cif_bandwidth (pkt : vrt_packet) (s : cif_state) : Outcome cif_state :=
  if cif_bit s.cif.cif0 29 then
    (vrt_get_payload_double pkt s.offset).bind fun v =>
      .ok { offset := s.offset + 2,
            cif := { s.cif with has_bandwidth := true, bandwidth := v } }
  else .ok s

/-- Lines 224-228: bit 28, IF reference frequency. -/
def cif_if_reference_frequency (pkt : vrt_packet) (s : cif_state) : Outcome cif_state :=
  if cif_bit s.cif.cif0 28 then
    (vrt_get_payload_double pkt s.offset).bind fun v =>
      .ok { offset := s.offset + 2,
            cif := { s.cif with has_if_reference_frequency := true,
                                if_reference_frequency := v } }
  else .ok s

/-- Lines 229-233: bit 27, RF reference frequency. -/
def cif_rf_reference_frequency (pkt : vrt_packet) (s : cif_state) : Outcome cif_state :=
  if cif_bit s.cif.cif0 27 then
    (vrt_get_payload_double pkt s.offset).bind fun v =>
      .ok { offset := s.offset + 2,
            cif := { s.cif with has_rf_reference_frequency := true,
                                rf_reference_frequency := v } }
  else .ok s

/-- Lines 234-238: bit 26, RF reference frequency offset. -/
def cif_rf_reference_frequency_offset (pkt : vrt_packet) (s : cif_state) :
    Outcome cif_state :=
  if cif_bit s.cif.cif0 26 then
    (vrt_get_payload_double pkt s.offset).bind fun v =>
      .ok { offset := s.offset + 2,
            cif := { s.cif with has_rf_reference_frequency_offset := true,
                                rf_reference_frequency_offset := v } }
  else .ok s

/-- Lines 239-243: bit 25, IF band offset. -/
def cif_if_band_offset (pkt : vrt_packet) (s : cif_state) : Outcome cif_state :=
  if cif_bit s.cif.cif0 25 then
    (vrt_get_payload_double pkt s.offset).bind fun v =>
      .ok { offset := s.offset + 2,
            cif := { s.cif with has_if_band_offset := true, if_band_offset := v } }
  else .ok s

/-- Lines 244-251: bit 24, reference level (the word is copied into a `float`). -/
def cif_reference_level (pkt : vrt_packet) (s : cif_state) : Outcome cif_state :=
  if cif_bit s.cif.cif0 24 then
    (vrt_get_payload_word pkt s.offset).bind fun val =>
      .ok { offset := s.offset + 1,
            cif := { s.cif with has_reference_level := true, reference_level := val } }
  else .ok s

/-- Lines 252-260: bit 23, the two gain stages. -/
def cif_gain (pkt : vrt_packet) (s : cif_state) : Outcome cif_state :=
  if cif_bit s.cif.cif0 23 then
    (vrt_get_payload_word pkt s.offset).bind fun val =>
      let stage1 := to_int16 (val >>> 16)
      let stage2 := to_int16 (val &&& 0xFFFF)
      .ok { offset := s.offset + 1,
            cif := { s.cif with has_gain := true, gain_stage_1 := stage1,
                                gain_stage_2 := stage2 } }
  else .ok s

/-- Lines 261-265: bit 22, over-range count. -/
def cif_over_range_count (pkt : vrt_packet) (s : cif_state) : Outcome cif_state :=
  if cif_bit s.cif.cif0 22 then
    (vrt_get_payload_word pkt s.offset).bind fun v =>
      .ok { offset := s.offset + 1,
            cif := { s.cif with has_over_range_count := true, over_range_count := v } }
  else .ok s

/-- Lines 266-270: bit 21, sample rate. -/
def cif_sample_rate (pkt : vrt_packet) (s : cif_state) : Outcome cif_state :=
  if cif_bit s.cif.cif0 21 then
    (vrt_get_payload_double pkt s.offset).bind fun v =>
      .ok { offset := s.offset + 2,
            cif := { s.cif with has_sample_rate := true, sample_rate := v } }
  else .ok s

/-- Lines 271-277: bit 20, timestamp adjustment. -/
def cif_timestamp_adjustment (pkt : vrt_packet) (s : cif_state) : Outcome cif_state :=
  if cif_bit s.cif.cif0 20 then
    (vrt_get_payload_word pkt s.offset).bind fun w1 =>
    (vrt_get_payload_word pkt (s.offset + 1)).bind fun w2 =>
      .ok { offset := s.offset + 2,
            cif := { s.cif with has_timestamp_adjustment := true,
                                timestamp_adjustment := (w1 <<< 32) ||| w2 } }
  else .ok s

/-- Lines 278-285: bit 19, timestamp calibration time. -/
def cif_timestamp_calibration_time (pkt : vrt_packet) (s : cif_state) : Outcome cif_state :=
  if cif_bit s.cif.cif0 19 then
    (vrt_get_payload_word pkt s.offset).bind fun t =>
    (vrt_get_payload_word pkt (s.offset + 1)).bind fun f1 =>
    (vrt_get_payload_word pkt (s.offset + 2)).bind fun f2 =>
      .ok { offset := s.offset + 3,
            cif := { s.cif with has_timestamp_calibration_time := true,
                                timestamp_calibration_time_int := t,
                                timestamp_calibration_time_frac := (f1 <<< 32) ||| f2 } }
  else .ok s

/-- Lines 286-293: bit 18, temperature. The conversions `(float)integer` and
`(float)frac` and the division by `65536.0f` are exact (values of 16 bits, a power of
two); the addition rounds their sum, `(integer * 65536 + frac) / 65536`, to the nearest
`float`, which is stored. -/
def cif_temperature (pkt : vrt_packet) (s : cif_state) : Outcome cif_state :=
  if cif_bit s.cif.cif0 18 then
    (vrt_get_payload_word pkt s.offset).bind fun val =>
      let integer := to_int16 (val >>> 16)
      let frac : Nat := (val &&& 0xFFFF) % 2 ^ 16
      .ok { offset := s.offset + 1,
            cif := { s.cif with
              has_temperature := true,
              temperature :=
                ((float_nearest_q16 (integer * 65536 + (frac : Int)) : Int) : Rat) / 65536,
              temperature_unrounded := (integer : Rat) + (frac : Rat) / 65536 } }
  else .ok s

/-- Lines 294-301: bit 17, device identifier. -/
def cif_device_identifier (pkt : vrt_packet) (s : cif_state) : Outcome cif_state :=
  if cif_bit s.cif.cif0 17 then
    (vrt_get_payload_word pkt s.offset).bind fun oui =>
    (vrt_get_payload_word pkt (s.offset + 1)).bind fun w =>
      let code := (w >>> 16) % 2 ^ 16
      .ok { offset := s.offset + 2,
            cif := { s.cif with has_device_identifier := true,
                                device_identifier_oui := oui &&& 0xFFFFFF,
                                device_identifier_code := code } }
  else .ok s

/-- Lines 302-306: bit 16, state and event indicators. -/
def cif_state_and_event_indicators (pkt : vrt_packet) (s : cif_state) : Outcome cif_state :=
  if cif_bit s.cif.cif0 16 then
    (vrt_get_payload_word pkt s.offset).bind fun v =>
      .ok { offset := s.offset + 1,
            cif := { s.cif with has_state_and_event_indicators := true,
                                state_and_event_indicators := v } }
  else .ok s

/-- Lines 307-313: bit 15, data packet payload format. -/
def cif_data_packet_payload_format (pkt : vrt_packet) (s : cif_state) : Outcome cif_state :=
  if cif_bit s.cif.cif0 15 then
    (vrt_get_payload_word pkt s.offset).bind fun w1 =>
    (vrt_get_payload_word pkt (s.offset + 1)).bind fun w2 =>
      .ok { offset := s.offset + 2,
            cif := { s.cif with has_data_packet_payload_format := true,
                                data_packet_payload_format := (w1 <<< 32) ||| w2 } }
  else .ok s

/-- The function `vrt_parse_cif_payload(pkt, cif)`: `ok (r, c)` is the return of `r` with
`c` the structure written through `cif`. -/
def vrt_parse_cif_payload (pkt : vrt_packet) : Outcome (Int × vrt_cif_fields) :=
  let cif := vrt_cif_fields.zeroed
  if pkt.header.packet_type ≠ VRT_PKT_TYPE_IF_CONTEXT ∧
      pkt.header.packet_type ≠ VRT_PKT_TYPE_EXT_CONTEXT then .ok (-1, cif)
  else if pkt.payload_words < 1 then .ok (-1, cif)
  else (vrt_get_payload_word pkt 0).bind fun w =>
    let cif := { cif with cif0 := w }
    let cif := cif_context_field_change cif
    (cif_reference_point_id pkt { offset := 1, cif := cif }).bind fun s =>
    (cif_bandwidth pkt s).bind fun s =>
    (cif_if_reference_frequency pkt s).bind fun s =>
    (cif_rf_reference_frequency pkt s).bind fun s =>
    (cif_rf_reference_frequency_offset pkt s).bind fun s =>
    (cif_if_band_offset pkt s).bind fun s =>
    (cif_reference_level pkt s).bind fun s =>
    (cif_gain pkt s).bind fun s =>
    (cif_over_range_count pkt s).bind fun s =>
    (cif_sample_rate pkt s).bind fun s =>
    (cif_timestamp_adjustment pkt s).bind fun s =>
    (cif_timestamp_calibration_time pkt s).bind fun s =>
    (cif_temperature pkt s).bind fun s =>
    (cif_device_identifier pkt s).bind fun s =>
    (cif_state_and_event_indicators pkt s).bind fun s =>
    (cif_data_packet_payload_format pkt s).bind fun s =>
    .ok (0, s.cif)

/-! ## iiod/vrt_command.h, iiod/vrt_command.c -/

def VRT_ATTR_TYPE_CHANNEL : Nat := 0
def VRT_ATTR_TYPE_DEVICE : Nat := 1
def VRT_ATTR_TYPE_DEBUG : Nat := 2

/-- The `struct vrt_mapping` without its `next` pointer: the registry `vrt_mappings` is
the list of the entries in the order the `next` pointers give, head first. -/
structure vrt_mapping where
  stream_id : Nat
  cif0_bit : Nat
  device_name : String
  attr_type : Nat
  channel_name : String
  is_output : Bool
  attr_name : String
deriving DecidableEq, Repr

/-- The part of the host library (`iio/iio.h`) that `vrt_process_command_packet` calls,
for one `struct iio_context`. Devices, channels and attributes are handles; a lookup that
returns `NULL` is `none`. The lookups do not depend on the attribute writes made before. -/
structure iio_context where
  iio_context_find_device : String → Option Nat
  iio_device_find_channel : Nat → String → Bool → Option Nat
  iio_channel_find_attr : Nat → String → Option Nat
  iio_device_find_attr : Nat → String → Option Nat
  iio_device_find_debug_attr : Nat → String → Option Nat
  iio_attr_write_double : Nat → Nat → Int

/-- The conversion `snprintf(dst, 64, "%s", src)` into a `char[64]`: the first 63 bytes
(names are ASCII here: one character is one byte). -/
def snprintf64 (src : String) : String := String.mk (src.data.take 63)

/-- The function `vrt_command_add_mapping`: the return value and the registry on return.
`calloc_ok` tells whether the allocation succeeds; `channel_name` is `none` for a null
pointer. -/
def vrt_command_add_mapping (calloc_ok : Bool) (vrt_mappings : List vrt_mapping)
    (stream_id cif0_bit : Nat) (device_name : String) (attr_type : Nat)
    (channel_name : Option String) (is_output : Bool) (attr_name : String) :
    Int × List vrt_mapping :=
  if !calloc_ok then (-1, vrt_mappings)
  else
    let m : vrt_mapping :=
      { stream_id := stream_id, cif0_bit := cif0_bit,
        device_name := snprintf64 device_name,
        attr_type := attr_type,
        channel_name := snprintf64 (match channel_name with | some c => c | none => ""),
        is_output := is_output,
        attr_name := snprintf64 attr_name }
    (0, m :: vrt_mappings)

/-- Lines 227-253 of the loop body: the attribute a mapping names, `none` when the device,
the channel (in either direction) or the attribute is not found. -/
def find_mapping_attr (ctx : iio_context) (m : vrt_mapping) : Option Nat :=
  match ctx.iio_context_find_device m.device_name with
  | none => none
  | some dev =>
    if m.attr_type = VRT_ATTR_TYPE_CHANNEL then
      match ctx.iio_device_find_channel dev m.channel_name m.is_output with
      | some chn => ctx.iio_channel_find_attr chn m.attr_name
      | none =>
        match ctx.iio_device_find_channel dev m.channel_name (!m.is_output) with
        | some chn => ctx.iio_channel_find_attr chn m.attr_name
        | none => none
    else if m.attr_type = VRT_ATTR_TYPE_DEVICE then
      ctx.iio_device_find_attr dev m.attr_name
    else if m.attr_type = VRT_ATTR_TYPE_DEBUG then
      ctx.iio_device_find_debug_attr dev m.attr_name
    else none

/-- Lines 255-272 of the loop body: the value taken from the decoded structure, `none`
on the branch "Unsupported CIF0 bit extraction". -/
def mapping_value (cif : vrt_cif_fields) (m : vrt_mapping) : Option Nat :=
  if m.cif0_bit = 29 ∧ cif.has_bandwidth then some cif.bandwidth
  else if m.cif0_bit = 28 ∧ cif.has_if_reference_frequency then some cif.if_reference_frequency
  else if m.cif0_bit = 27 ∧ cif.has_rf_reference_frequency then some cif.rf_reference_frequency
  else if m.cif0_bit = 26 ∧ cif.has_rf_reference_frequency_offset then
    some cif.rf_reference_frequency_offset
  else if m.cif0_bit = 25 ∧ cif.has_if_band_offset then some cif.if_band_offset
  else if m.cif0_bit = 21 ∧ cif.has_sample_rate then some cif.sample_rate
  else none

/-- One turn of the loop of `vrt_process_command_packet`: the call
`iio_attr_write_double(attr, val)` it makes, as the pair `(attr, val)`, or `none` when it
ends in `continue`. The shift `1 << m->cif0_bit` of an `int` is undefined for a count of
32 or more. The result of the write is only logged. -/
def process_mapping (ctx : iio_context) (pkt : vrt_packet) (cif : vrt_cif_fields)
    (m : vrt_mapping) : Outcome (Option (Nat × Nat)) :=
  if pkt.stream_id ≠ m.stream_id then .ok none
  else if 32 ≤ m.cif0_bit then .fault
  else if !cif_bit cif.cif0 m.cif0_bit then .ok none
  else
    match find_mapping_attr ctx m with
    | none => .ok none
    | some attr =>
      match mapping_value cif m with
      | none => .ok none
      | some val =>
        let ret := ctx.iio_attr_write_double attr val
        if ret < 0 then .ok (some (attr, val)) else .ok (some (attr, val))

/-- The loop `for (m = vrt_mappings; m != NULL; m = m->next)`: the attribute writes it
makes, in the order they are made. -/
def process_mappings (ctx : iio_context) (pkt : vrt_packet) (cif : vrt_cif_fields) :
    List vrt_mapping → Outcome (List (Nat × Nat))
  | [] => .ok []
  | m :: rest =>
    (process_mapping ctx pkt cif m).bind fun w =>
    (process_mappings ctx pkt cif rest).bind fun ws =>
      .ok (match w with
           | some x => x :: ws
           | none => ws)

/-- The function `vrt_process_command_packet(ctx, pkt)` with the registry it walks:
`ok (r, ws)` is the return of `r` after the attribute writes `ws`, each a pair of the
attribute and the 64-bit pattern of the `double` written. A null `ctx` or `pkt` is
`none`. -/
def vrt_process_command_packet (ctx : Option iio_context) (vrt_mappings : List vrt_mapping)
    (pkt : Option vrt_packet) : Outcome (Int × List (Nat × Nat)) :=
  match ctx, pkt with
  | some ctx, some pkt =>
    if pkt.header.packet_type ≠ VRT_PKT_TYPE_IF_CONTEXT then .ok (0, [])
    else if !pkt.has_stream_id then .ok (0, [])
    else (vrt_parse_cif_payload pkt).bind fun r =>
      if r.1 < 0 then .ok (0, [])
      else (process_mappings ctx pkt r.2 vrt_mappings).bind fun ws => .ok (0, ws)
  | _, _ => .ok (-1, [])

/-! ## Quantities the statements on the CIF0 payload are written in -/

/-- Bit `b` of a word, by arithmetic. -/
def bit_set (w b : Nat) : Bool := decide (w / 2 ^ b % 2 = 1)

/-- The table of the specification: the widths in words of the fields of bits 30 down
to 15. -/
def cif_widths : List Nat := [1, 2, 2, 2, 2, 2, 1, 1, 1, 2, 2, 3, 1, 2, 1, 2]

/-- The payload offset of the field of bit `b`: 1 plus the table widths of the set bits
in 30..b+1. With `b = 14` it is the number of payload words the CIF0 word declares. -/
def cif_offset (cif0 b : Nat) : Nat :=
  1 + ((List.range (30 - b)).map fun k =>
        if bit_set cif0 (30 - k) then cif_widths.getD k 0 else 0).sum

/-- Payload word `off` decoded from big-endian; 0 for a word that is not inside the
payload. -/
def payload_word (pkt : vrt_packet) (off : Nat) : Nat :=
  match pkt.payload with
  | some p => if off < pkt.payload_words then wire_word p off else 0
  | none => 0

/-- The 64-bit pattern in the payload words `off` (high half) and `off + 1` (low half);
0 when the two words are not both inside the payload. -/
def payload_double (pkt : vrt_packet) (off : Nat) : Nat :=
  if off + 1 < pkt.payload_words then
    payload_word pkt off * 2 ^ 32 + payload_word pkt (off + 1)
  else 0

/-- The 64-bit value in the words `off` (high half) and `off + 1` (low half) of a buffer,
each decoded from big-endian. -/
def wire_double (buf : List Nat) (off : Nat) : Nat :=
  wire_word buf off * 2 ^ 32 + wire_word buf (off + 1)

/-- Two's-complement reading of the low 16 bits of a number. -/
def int16_of (x : Nat) : Int :=
  if x % 2 ^ 16 < 2 ^ 15 then (x % 2 ^ 16 : Nat) else (x % 2 ^ 16 : Nat) - 65536

/-- The decoding of a CIF0 payload as the specification tables it: the flag of every bit
31..15, and every declared field read at its table offset, high word first. -/
def cif_decoded (pkt : vrt_packet) : vrt_cif_fields :=
  let c := payload_word pkt 0
  let w : Nat → Nat := fun b => payload_word pkt (cif_offset c b)
  let w1 : Nat → Nat := fun b => payload_word pkt (cif_offset c b + 1)
  let w2 : Nat → Nat := fun b => payload_word pkt (cif_offset c b + 2)
  let d : Nat → Nat := fun b => payload_double pkt (cif_offset c b)
  { cif0 := c,
    context_field_change := bit_set c 31,
    has_reference_point_id := bit_set c 30,
    reference_point_id := if bit_set c 30 then w 30 else 0,
    has_bandwidth := bit_set c 29,
    bandwidth := if bit_set c 29 then d 29 else 0,
    has_if_reference_frequency := bit_set c 28,
    if_reference_frequency := if bit_set c 28 then d 28 else 0,
    has_rf_reference_frequency := bit_set c 27,
    rf_reference_frequency := if bit_set c 27 then d 27 else 0,
    has_rf_reference_frequency_offset := bit_set c 26,
    rf_reference_frequency_offset := if bit_set c 26 then d 26 else 0,
    has_if_band_offset := bit_set c 25,
    if_band_offset := if bit_set c 25 then d 25 else 0,
    has_reference_level := bit_set c 24,
    reference_level := if bit_set c 24 then w 24 else 0,
    has_gain := bit_set c 23,
    gain_stage_1 := if bit_set c 23 then int16_of (w 23 / 2 ^ 16) else 0,
    gain_stage_2 := if bit_set c 23 then int16_of (w 23) else 0,
    has_over_range_count := bit_set c 22,
    over_range_count := if bit_set c 22 then w 22 else 0,
    has_sample_rate := bit_set c 21,
    sample_rate := if bit_set c 21 then d 21 else 0,
    has_timestamp_adjustment := bit_set c 20,
    timestamp_adjustment := if bit_set c 20 then w 20 * 2 ^ 32 + w1 20 else 0,
    has_timestamp_calibration_time := bit_set c 19,
    timestamp_calibration_time_int := if bit_set c 19 then w 19 else 0,
    timestamp_calibration_time_frac := if bit_set c 19 then w1 19 * 2 ^ 32 + w2 19 else 0,
    has_temperature := bit_set c 18,
    temperature := if bit_set c 18 then
        ((float_nearest_q16 (int16_of (w 18 / 2 ^ 16) * 65536 + ((w 18 % 2 ^ 16 : Nat) : Int))
          : Int) : Rat) / 65536
      else 0,
    temperature_unrounded := if bit_set c 18 then
        (int16_of (w 18 / 2 ^ 16) : Rat) + ((w 18 % 2 ^ 16 : Nat) : Rat) / 65536
      else 0,
    has_device_identifier := bit_set c 17,
    device_identifier_oui := if bit_set c 17 then w 17 % 2 ^ 24 else 0,
    device_identifier_code := if bit_set c 17 then w1 17 / 2 ^ 16 else 0,
    has_state_and_event_indicators := bit_set c 16,
    state_and_event_indicators := if bit_set c 16 then w 16 else 0,
    has_data_packet_payload_format := bit_set c 15,
    data_packet_payload_format := if bit_set c 15 then w 15 * 2 ^ 32 + w1 15 else 0 }

/-- The decoded value `vrt_process_command_packet` writes for a CIF0 bit: the field of
bits 29, 28, 27, 26, 25 and 21. -/
def cif_value (pkt : vrt_packet) (b : Nat) : Nat :=
  payload_double pkt (cif_offset (payload_word pkt 0) b)

/-- The CIF0 bits `vrt_process_command_packet` extracts a value for. -/
def supported_bit (b : Nat) : Bool := b = 21 || b = 25 || b = 26 || b = 27 || b = 28 || b = 29

/-! ## Inputs of tests/api/test_vrt_iiod.c -/

/-- The 64-bit pattern of the `double` 56e6. -/
def double_56e6 : Nat := 0x418AB3F000000000

/-- The 64-bit pattern of the `double` 100e6. -/
def double_100e6 : Nat := 0x4197D78400000000

/-- The payload of the packet of the test, as the three setter calls leave a buffer of
ten zero words: CIF0 with bits 21 and 29, then 56e6 and 100e6, high word first. -/
def scenario3_payload : List Nat :=
  [htonl ((1 <<< 21) ||| (1 <<< 29)), htonl 0x418AB3F0, htonl 0, htonl 0x4197D784, htonl 0,
   0, 0, 0, 0, 0]

/-- The packet of the test: IF Context, stream identifier 0x12345678, five payload
words. -/
def scenario3_pkt : vrt_packet :=
  { vrt_packet.zeroed with
    header := { word := 0x40000000 },
    has_stream_id := true,
    stream_id := 0x12345678,
    payload := some scenario3_payload,
    payload_words := 5 }

/-- The registry of the test: the mapping of bit 21 added first, then the one of bit 29,
into an empty registry. -/
def test_registry : List vrt_mapping :=
  (vrt_command_add_mapping true
    (vrt_command_add_mapping true [] 0x12345678 21 "ad9361-phy" VRT_ATTR_TYPE_CHANNEL
      (some "voltage0") true "sampling_frequency").2
    0x12345678 29 "ad9361-phy" VRT_ATTR_TYPE_CHANNEL (some "voltage0") true "rf_bandwidth").2

/-- A host context with the device "ad9361-phy" (handle 0) and its output channel
"voltage0" (handle 0), on which every attribute name resolves; the handle of an attribute
is the length of its name (12 for "rf_bandwidth", 18 for "sampling_frequency"). -/
def test_host : iio_context :=
  { iio_context_find_device := fun n => if n = "ad9361-phy" then some 0 else none,
    iio_device_find_channel := fun _ n o => if n = "voltage0" ∧ o = true then some 0 else none,
    iio_channel_find_attr := fun _ n => some n.length,
    iio_device_find_attr := fun _ _ => none,
    iio_device_find_debug_attr := fun _ _ => none,
    iio_attr_write_double := fun _ _ => 0 }

/-- The write `vrt_process_command_packet` makes for one registry entry, as the
specification describes it: none unless the stream identifier matches, the bit of the
entry is set in CIF0 and is one of 21, 25, 26, 27, 28, 29, and the attribute is found;
then the decoded value of the bit, written to the attribute. -/
def mapping_write (ctx : iio_context) (pkt : vrt_packet) (m : vrt_mapping) :
    Option (Nat × Nat) :=
  if pkt.stream_id = m.stream_id ∧ bit_set (payload_word pkt 0) m.cif0_bit = true
      ∧ supported_bit m.cif0_bit = true then
    (find_mapping_attr ctx m).map fun attr => (attr, cif_value pkt m.cif0_bit)
  else none

/-- A registry with one entry on bit 19 (timestamp calibration time), for which no value
is extracted. -/
def calibration_registry : List vrt_mapping :=
  (vrt_command_add_mapping true [] 0x12345678 19 "ad9361-phy" VRT_ATTR_TYPE_CHANNEL
    (some "voltage0") true "calibration").2

/-- An IF Context packet whose CIF0 word sets bit 19 alone, with the three words of the
field. -/
def calibration_pkt : vrt_packet :=
  { vrt_packet.zeroed with
    header := { word := 0x40000000 },
    has_stream_id := true,
    stream_id := 0x12345678,
    payload := some [htonl (1 <<< 19), htonl 1000, htonl 0, htonl 500],
    payload_words := 4 }

/-! ## iiod/vrt_command.c: vrt_command_load_mappings

Text is a list of characters, one character being one byte; a C string is the characters
before the first NUL. The functions of the C library are modelled after the C standard
(`fgets`, `strtoul`, `strcmp`) and the BSD manual (`strsep`); `unsigned long` is 64 bits
wide. -/

/-- The C string in a buffer: the characters before the first NUL. -/
def c_string (buf : List Char) : List Char := buf.takeWhile fun c => c ≠ Char.ofNat 0

/-- The successive results of `fgets(line, size, f)` on a stream that holds `f`, until it
returns `NULL` at the end of the file: each result holds at most `size - 1` characters and
ends after the first newline, if there is one; `cur` holds the characters of the current
result read so far, last first. -/
def fgets_lines (size : Nat) : List Char → List Char → List (List Char)
  | [], cur => if cur = [] then [] else [cur.reverse]
  | c :: f, cur =>
    if c = '\n' ∨ cur.length + 1 = size - 1 then (c :: cur).reverse :: fgets_lines size f []
    else fgets_lines size f (c :: cur)

/-- The call `strsep(&p, delim)`: the token returned and the new value of `p`, `none` being
`NULL`. The token ends at the first delimiter; `p` is left behind it, or `NULL` when the
string ends without one. -/
def strsep (p : Option (List Char)) (delim : List Char) :
    Option (List Char) × Option (List Char) :=
  match p with
  | none => (none, none)
  | some s =>
    match s.dropWhile fun c => !delim.contains c with
    | [] => (some s, none)
    | _ :: rest => (some (s.takeWhile fun c => !delim.contains c), some rest)

/-- The loop `for (i = 0; i < n; i++) { toks[i] = strsep(&p, ",\r\n"); if (!toks[i]) break; }`:
the tokens stored before the loop ends; their number is the final `i`. -/
def read_tokens : Nat → Option (List Char) → List (List Char)
  | 0, _ => []
  | n + 1, p =>
    match strsep p [',', '\r', '\n'] with
    | (none, _) => []
    | (some tok, p') => tok :: read_tokens n p'

/-- The value of a digit or letter in `strtoul`. -/
def digit_value (c : Char) : Option Nat :=
  if '0' ≤ c ∧ c ≤ '9' then some (c.toNat - '0'.toNat)
  else if 'a' ≤ c ∧ c ≤ 'z' then some (c.toNat - 'a'.toNat + 10)
  else if 'A' ≤ c ∧ c ≤ 'Z' then some (c.toNat - 'A'.toNat + 10)
  else none

/-- The digits of base `base` at the head of a string. -/
def leading_digits (base : Nat) : List Char → List Nat
  | [] => []
  | c :: s =>
    match digit_value c with
    | some d => if d < base then d :: leading_digits base s else []
    | none => []

/-- The test `isspace` in the C locale. -/
def isspace (c : Char) : Bool :=
  c = ' ' || c = '\t' || c = '\n' || c = Char.ofNat 11 || c = Char.ofNat 12 || c = '\r'

/-- The function `strtoul(s, NULL, base)` for base 10 or 16: white space, an optional
sign, for base 16 an optional `0x` before a digit, then the longest run of digits; the
value is `ULONG_MAX` when it does not fit, and is negated in `unsigned long` after a
minus sign. -/
def strtoul (s : List Char) (base : Nat) : Nat :=
  let s1 := s.dropWhile isspace
  let neg := s1.head? = some '-'
  let s2 := if s1.head? = some '-' ∨ s1.head? = some '+' then s1.drop 1 else s1
  let s3 :=
    if base = 16 ∧ s2.head? = some '0' ∧ ((s2.drop 1).head? = some 'x' ∨ (s2.drop 1).head? = some 'X')
        ∧ leading_digits 16 (s2.drop 2) ≠ [] then s2.drop 2
    else s2
  let v := (leading_digits base s3).foldl (fun acc d => acc * base + d) 0
  if 2 ^ 64 ≤ v then 2 ^ 64 - 1
  else if neg then (2 ^ 64 - v) % 2 ^ 64
  else v

/-- The body of the `while` loop of `vrt_command_load_mappings` for one result of `fgets`:
the pair of `count` and the registry after it. The result of `vrt_command_add_mapping`
is not looked at. -/
def load_line (calloc_ok : Bool) (st : Int × List vrt_mapping) (line : List Char) :
    Int × List vrt_mapping :=
  let s := c_string line
  if s.head? = some '#' ∨ s.head? = some '\n' ∨ s.head? = some '\r' then st
  else
    let toks := read_tokens 7 (some s)
    if toks.length = 7 then
      let stream_id := strtoul (toks.getD 0 []) 16 % 2 ^ 32
      let cif0_bit := strtoul (toks.getD 1 []) 10 % 2 ^ 32
      let atype :=
        if toks.getD 3 [] = "device".data then VRT_ATTR_TYPE_DEVICE
        else if toks.getD 3 [] = "debug".data then VRT_ATTR_TYPE_DEBUG
        else VRT_ATTR_TYPE_CHANNEL
      let is_out := decide (toks.getD 5 [] = "true".data ∨ toks.getD 5 [] = "1".data)
      let r := vrt_command_add_mapping calloc_ok st.2 stream_id cif0_bit
        (String.mk (toks.getD 2 [])) atype (some (String.mk (toks.getD 4 []))) is_out
        (String.mk (toks.getD 6 []))
      (st.1 + 1, r.2)
    else st

/-- The function `vrt_command_load_mappings(file_path)`: the return value and the
registry on return. `file` is the content of the file, `none` when `fopen` fails;
`calloc_ok` tells whether the allocations of `vrt_command_add_mapping` succeed. -/
def vrt_command_load_mappings (calloc_ok : Bool) (vrt_mappings : List vrt_mapping)
    (file : Option (List Char)) : Int × List vrt_mapping :=
  match file with
  | none => (-1, vrt_mappings)
  | some f => (fgets_lines 256 f []).foldl (load_line calloc_ok) (0, vrt_mappings)

/-- An IF Context packet whose CIF0 word sets the bits 23 (gain), 18 (temperature) and 17
(device identifier): the gains -2 and -32767, the temperature -0.5, the OUI 0x123456 under
a first byte 0xAB, and the device code 0xBEEF. -/
def gain_temperature_pkt : vrt_packet :=
  { vrt_packet.zeroed with
    header := { word := 0x40000000 },
    has_stream_id := true,
    stream_id := 0x12345678,
    payload := some [htonl ((1 <<< 23) ||| (1 <<< 18) ||| (1 <<< 17)), htonl 0xFFFE8001,
                     htonl 0xFFFF8000, htonl 0xAB123456, htonl 0xBEEF0001],
    payload_words := 5 }

/-- An IF Context packet whose CIF0 word sets bit 18 alone, with the temperature word
0x7FFFFFFF: the sum 32767 + 65535 / 65536 is no `float`; the nearest one is 32768. -/
def rounded_temperature_pkt : vrt_packet :=
  { vrt_packet.zeroed with
    header := { word := 0x40000000 },
    has_stream_id := true,
    stream_id := 0x12345678,
    payload := some [htonl (1 <<< 18), htonl 0x7FFFFFFF],
    payload_words := 2 }

/-! ## Quantities the statements on the mapping file are written in -/

/-- Seven fields joined by commas. -/
def mapping_line (f1 f2 f3 f4 f5 f6 f7 : List Char) : List Char :=
  f1 ++ ',' :: (f2 ++ ',' :: (f3 ++ ',' :: (f4 ++ ',' :: (f5 ++ ',' :: (f6 ++ ',' :: f7)))))

/-- A field of a mapping line: no comma, carriage return, newline or NUL in it. -/
@[reducible]
def is_field (f : List Char) : Prop :=
  ∀ c ∈ f, c ≠ ',' ∧ c ≠ '\r' ∧ c ≠ '\n' ∧ c ≠ Char.ofNat 0

/-- The number a list of digits writes in base `base`. -/
def digits_number (base : Nat) (ds : List Nat) : Nat :=
  ds.foldl (fun acc d => acc * base + d) 0

/-- A character that is a digit of base `base`. -/
def is_digit (base : Nat) (c : Char) : Bool :=
  match digit_value c with
  | some d => decide (d < base)
  | none => false

/-- A text made of digits of base `base` alone. -/
@[reducible]
def is_number (base : Nat) (s : List Char) : Prop := ∀ c ∈ s, is_digit base c = true

/-- The digits of a text, a character that is none counting 0. -/
def text_digits (s : List Char) : List Nat := s.map fun c => (digit_value c).getD 0

/-- The mapping the specification gives for a line of seven fields: hexadecimal stream
identifier, decimal bit, device name, attribute kind, channel name, direction, attribute
name; the names cut to the 63 bytes an entry holds. -/
def line_mapping (f1 f2 f3 f4 f5 f6 f7 : List Char) : vrt_mapping :=
  { stream_id := strtoul f1 16 % 2 ^ 32,
    cif0_bit := strtoul f2 10 % 2 ^ 32,
    device_name := String.mk (f3.take 63),
    attr_type :=
      if f4 = "device".data then VRT_ATTR_TYPE_DEVICE
      else if f4 = "debug".data then VRT_ATTR_TYPE_DEBUG
      else VRT_ATTR_TYPE_CHANNEL,
    channel_name := String.mk (f5.take 63),
    is_output := decide (f6 = "true".data ∨ f6 = "1".data),
    attr_name := String.mk (f7.take 63) }

/-! ## Mapping files -/

/-- A mapping line with six fields and a newline: the attribute name is missing. -/
def six_field_line : List Char := "12345678,21,ad9361-phy,channel,voltage0,true\n".data

/-- The same six fields at the end of a file, without newline. -/
def six_field_last_line : List Char := "12345678,21,ad9361-phy,channel,voltage0,true".data

/-- A mapping line with eight fields. -/
def eight_field_line : List Char :=
  "12345678,21,ad9361-phy,channel,voltage0,true,sampling_frequency,extra\n".data

/-- A line in the format the comment in `vrt_command.h` documents:
`stream_id,cif0_bit,device_name,channel_name,is_output,attr_name`. -/
def documented_line : List Char :=
  "12345678,21,ad9361-phy,voltage0,true,sampling_frequency\n".data

/-- A comment line of 318 characters: `#`, 254 blanks, and a text that has the form of a
mapping line. -/
def long_comment_line : List Char :=
  '#' :: List.replicate 254 ' '
    ++ "12345678,21,ad9361-phy,channel,voltage0,true,sampling_frequency\n".data

/-- A mapping line of seven fields whose device name has 64 characters. -/
def long_name_line : List Char :=
  "12345678,21,".data ++ List.replicate 64 'd'
    ++ ",channel,voltage0,true,sampling_frequency\n".data

/-- A registry entry of kind Channel that names the channel "voltage0" as an input, for
the bandwidth (bit 29). -/
def input_direction_mapping : vrt_mapping :=
  (vrt_command_add_mapping true [] 0x12345678 29 "ad9361-phy" VRT_ATTR_TYPE_CHANNEL
    (some "voltage0") false "rf_bandwidth").2.headD
    { stream_id := 0, cif0_bit := 0, device_name := "", attr_type := 0, channel_name := "",
      is_output := false, attr_name := "" }

/-- The entry the loop body of `vrt_command_load_mappings` adds for one result of
`fgets`, `none` when it adds none: the head of the registry after the body ran on an
empty registry, the allocation succeeding. -/
def line_entry (line : List Char) : Option vrt_mapping :=
  (load_line true (0, []) line).2.head?

/-- A mapping file of two lines: sample rate (bit 21) first, bandwidth (bit 29) second. -/
def two_line_file : List Char :=
  "12345678,21,ad9361-phy,channel,voltage0,true,sampling_frequency\n".data
    ++ "12345678,29,ad9361-phy,channel,voltage0,true,rf_bandwidth\n".data

/-! ## iiod/vrt_command.c: vrt_listener_thread -/

/-- One turn of the listener loop as the environment decides it: the value of
`listener_fd` the loop condition reads, the result of `recv`, and the contents of `buf`
after it. -/
structure listener_event where
  listener_fd : Int
  received : Int
  buf : List Nat
deriving DecidableEq, Repr

/-- Lines 33-35: a datagram is parsed as `received / 4` words and, if `vrt_parse_packet`
returns 0, handed to `vrt_process_command_packet`; the value is the attribute writes
made. -/
def listener_datagram (listener_ctx : Option iio_context) (vrt_mappings : List vrt_mapping)
    (buf : List Nat) (received : Int) : Outcome (List (Nat × Nat)) :=
  match vrt_parse_packet buf (received / 4).toNat with
  | .fault => .fault
  | .err _ => .ok []
  | .ok pkt =>
    (vrt_process_command_packet listener_ctx vrt_mappings (some pkt)).bind fun r => .ok r.2

/-- The function `vrt_listener_thread`: the loop `while (listener_fd >= 0)` over the
datagrams received, left when `recv` returns 0 or less; the value is the attribute writes
made, in order. -/
def vrt_listener_thread (listener_ctx : Option iio_context)
    (vrt_mappings : List vrt_mapping) : List listener_event → Outcome (List (Nat × Nat))
  | [] => .ok []
  | e :: rest =>
    if e.listener_fd < 0 then .ok []
    else if e.received ≤ 0 then .ok []
    else
      (listener_datagram listener_ctx vrt_mappings e.buf e.received).bind fun ws =>
      (vrt_listener_thread listener_ctx vrt_mappings rest).bind fun ws2 => .ok (ws ++ ws2)

/-- A datagram of 16 bytes whose header declares 12 words. -/
def oversized_claim_event : listener_event :=
  { listener_fd := 3, received := 16, buf := [htonl 0x4000000C, 0, 0, 0] }

/-- A datagram of 3 bytes. -/
def three_byte_event : listener_event :=
  { listener_fd := 3, received := 3, buf := [htonl 0x40000001] }

/-- A datagram of 28 bytes: an IF Context packet of 7 words with the stream identifier
0x12345678 and the five payload words of the test. -/
def scenario3_event : listener_event :=
  { listener_fd := 3, received := 28,
    buf := [htonl 0x40000007, htonl 0x12345678] ++ scenario3_payload }

/-! ## vita49.c: the discovery loop of vrt_create_context

The context is the list of the names of its devices, in the order they were added; it
has none when the loop starts. A device added by the loop has its name as identifier, so
`iio_context_find_device` finds it by this name. The channels added to a new device and
the messages logged are left out. -/

/-- The `struct timeval` of `sys/time.h`. -/
structure timeval where
  tv_sec : Int
  tv_usec : Int
deriving DecidableEq, Repr

/-- Lines 179-180: `elapsed_ms`; the division of C truncates towards zero. -/
def elapsed_ms (start_time current_time : timeval) : Int :=
  (current_time.tv_sec - start_time.tv_sec) * 1000
    + (current_time.tv_usec - start_time.tv_usec).tdiv 1000

/-- The digit `d` of the conversion `%x`. -/
def hex_digit (d : Nat) : Char := "0123456789abcdef".data.getD d '0'

/-- The conversion `%08x` of an `unsigned int` of 32 bits: its hexadecimal digits, most
significant first, padded with zeros to the width 8, which such a value never exceeds. -/
def printf_08x (v : Nat) : List Char :=
  [7, 6, 5, 4, 3, 2, 1, 0].map fun k => hex_digit (v % 2 ^ 32 / 16 ^ k % 16)

/-- Line 160: `snprintf(sid_str, sizeof(sid_str), "vrt_device_%08x", sid)`; the 19
characters fit the 32 bytes of `sid_str`. -/
def sid_str (sid : Nat) : String := String.mk ("vrt_device_".data ++ printf_08x sid)

/-- One turn of the discovery loop as the environment decides it: the result of `recv`,
the contents of `buf` after it, whether `iio_context_add_device` succeeds, and the time
`gettimeofday` gives. -/
structure discovery_event where
  received : Int
  buf : List Nat
  add_device_ok : Bool
  current_time : timeval
deriving DecidableEq, Repr

/-- Lines 139-184, one turn of `while (1)`: the devices of the context after it, and
whether the loop is left. -/
def discovery_turn (start_time : timeval) (devices : List String) (e : discovery_event) :
    Outcome (List String × Bool) :=
  if e.received < 0 then .ok (devices, true)
  else
    match vrt_parse_packet e.buf (e.received / 4).toNat with
    | .fault => .fault
    | .err _ => .ok (devices, false)
    | .ok pkt =>
      let devices1 :=
        if pkt.header.packet_type = VRT_PKT_TYPE_IF_CONTEXT ∧ pkt.has_stream_id = true then
          if devices.contains (sid_str pkt.stream_id) then devices
          else if e.add_device_ok then devices ++ [sid_str pkt.stream_id]
          else devices
        else devices
      if elapsed_ms start_time e.current_time ≥ 2000 then .ok (devices1, true)
      else .ok (devices1, false)

/-- The discovery loop on the datagrams the socket delivers: the devices of the context
when the loop is left, and the datagrams not yet read then. When no datagram is left
`recv` times out and the loop is left. -/
def discovery_loop (start_time : timeval) :
    List String → List discovery_event → Outcome (List String × List discovery_event)
  | devices, [] => .ok (devices, [])
  | devices, e :: rest =>
    (discovery_turn start_time devices e).bind fun r =>
      if r.2 then .ok (r.1, rest) else discovery_loop start_time r.1 rest

/-- A datagram of 16 bytes that does not parse (its header declares 12 words), handled
3 seconds after the loop started. -/
def late_garbage_event : discovery_event :=
  { received := 16, buf := [htonl 0x4000000C, 0, 0, 0], add_device_ok := true,
    current_time := { tv_sec := 3, tv_usec := 0 } }

/-- The IF Context packet of the unit test (stream identifier 0x12345678), handled 3.5
seconds after the loop started. -/
def late_context_event : discovery_event :=
  { received := 40, buf := test_context_buf, add_device_ok := true,
    current_time := { tv_sec := 3, tv_usec := 500000 } }

/-- The same packet handled half a second after the loop started. -/
def early_context_event : discovery_event :=
  { received := 40, buf := test_context_buf, add_device_ok := true,
    current_time := { tv_sec := 0, tv_usec := 500000 } }

/-- The stream identifier a datagram announces to the discovery loop: the one of the
IF Context packet it parses to, `none` for a datagram that does not parse, for a packet
of another type, and when `recv` failed. -/
def announced_sid (e : discovery_event) : Option Nat :=
  if e.received < 0 then none
  else
    match vrt_parse_packet e.buf (e.received / 4).toNat with
    | .ok pkt =>
      if pkt.header.packet_type = VRT_PKT_TYPE_IF_CONTEXT then some pkt.stream_id else none
    | _ => none

/-! # Theorems -/

/-! ## Sequencing and memory -/

@[simp]
theorem Outcome.bind_ok {α β : Type} (a : α) (f : α → Outcome β) :
    (Outcome.ok a).bind f = f a := rfl

@[simp]
theorem Outcome.bind_err {α β : Type} (c : Int) (f : α → Outcome β) :
    (Outcome.err c : Outcome α).bind f = .err c := rfl

@[simp]
theorem Outcome.bind_fault {α β : Type} (f : α → Outcome β) :
    (Outcome.fault : Outcome α).bind f = .fault := rfl

theorem load_of_lt (buf : List Nat) (i : Nat) (h : i < buf.length) :
    load buf i = .ok (buf.getD i 0) := by
  simp [load, List.getD, List.getElem?_eq_getElem h]

theorem bind_ite_err {α β : Type} (c : Prop) [Decidable c] (e : Int) (a : α)
    (f : α → Outcome β) :
    (if c then (Outcome.err e : Outcome α) else .ok a).bind f = if c then .err e else f a := by
  split <;> rfl

/-! ## Closed form of the parser

Each block of `vrt_parse_packet` is rewritten, for a buffer that holds the declared
packet, into one conditional; the blocks are then chained. -/

theorem parse_stream_id_eq (buf : List Nat) (s : parse_state)
    (hb : s.pkt.header.packet_size_words ≤ buf.length) :
    parse_stream_id buf s =
      if has_sid s.pkt.header = true ∧ s.pkt.header.packet_size_words ≤ s.idx then
        .err (-EINVAL)
      else .ok { idx := s.idx + sid_words s.pkt.header,
                 pkt := { s.pkt with
                   stream_id := if has_sid s.pkt.header then ntohl (buf.getD s.idx 0)
                     else s.pkt.stream_id,
                   has_stream_id := has_sid s.pkt.header || s.pkt.has_stream_id } } := by
  unfold parse_stream_id sid_words
  by_cases c : has_sid s.pkt.header = true
  · by_cases b : s.pkt.header.packet_size_words ≤ s.idx
    · simp [c, b]
    · simp [c, b, load_of_lt buf s.idx (by omega)]
  · simp [c]

theorem parse_class_id_eq (buf : List Nat) (s : parse_state)
    (hb : s.pkt.header.packet_size_words ≤ buf.length) :
    parse_class_id buf s =
      if s.pkt.header.has_class_id ≠ 0 ∧ s.pkt.header.packet_size_words ≤ s.idx + 1 then
        .err (-EINVAL)
      else .ok { idx := s.idx + class_words s.pkt.header,
                 pkt := { s.pkt with
                   class_id := if s.pkt.header.has_class_id ≠ 0 then
                       (ntohl (buf.getD s.idx 0) <<< 32) ||| ntohl (buf.getD (s.idx + 1) 0)
                     else s.pkt.class_id,
                   has_class_id := decide (s.pkt.header.has_class_id ≠ 0) || s.pkt.has_class_id } } := by
  unfold parse_class_id class_words
  by_cases c : s.pkt.header.has_class_id = 0
  · simp [c]
  · by_cases b : s.pkt.header.packet_size_words ≤ s.idx + 1
    · simp [c, b]
    · simp [c, b, load_of_lt buf s.idx (by omega), load_of_lt buf (s.idx + 1) (by omega)]

theorem parse_timestamp_int_eq (buf : List Nat) (s : parse_state)
    (hb : s.pkt.header.packet_size_words ≤ buf.length) :
    parse_timestamp_int buf s =
      if s.pkt.header.ts_integer_format ≠ VRT_TSI_NONE
          ∧ s.pkt.header.packet_size_words ≤ s.idx then
        .err (-EINVAL)
      else .ok { idx := s.idx + tsi_words s.pkt.header,
                 pkt := { s.pkt with
                   timestamp_int := if s.pkt.header.ts_integer_format ≠ VRT_TSI_NONE then
                       ntohl (buf.getD s.idx 0) else s.pkt.timestamp_int,
                   has_timestamp_int :=
                     decide (s.pkt.header.ts_integer_format ≠ VRT_TSI_NONE)
                       || s.pkt.has_timestamp_int } } := by
  unfold parse_timestamp_int tsi_words
  by_cases c : s.pkt.header.ts_integer_format = VRT_TSI_NONE
  · simp [c]
  · by_cases b : s.pkt.header.packet_size_words ≤ s.idx
    · simp [c, b]
    · simp [c, b, load_of_lt buf s.idx (by omega)]

theorem parse_timestamp_frac_eq (buf : List Nat) (s : parse_state)
    (hb : s.pkt.header.packet_size_words ≤ buf.length) :
    parse_timestamp_frac buf s =
      if s.pkt.header.ts_fractional_format ≠ VRT_TSF_NONE
          ∧ s.pkt.header.packet_size_words ≤ s.idx + 1 then
        .err (-EINVAL)
      else .ok { idx := s.idx + tsf_words s.pkt.header,
                 pkt := { s.pkt with
                   timestamp_frac := if s.pkt.header.ts_fractional_format ≠ VRT_TSF_NONE then
                       (ntohl (buf.getD s.idx 0) <<< 32) ||| ntohl (buf.getD (s.idx + 1) 0)
                     else s.pkt.timestamp_frac,
                   has_timestamp_frac :=
                     decide (s.pkt.header.ts_fractional_format ≠ VRT_TSF_NONE)
                       || s.pkt.has_timestamp_frac } } := by
  unfold parse_timestamp_frac tsf_words
  by_cases c : s.pkt.header.ts_fractional_format = VRT_TSF_NONE
  · simp [c]
  · by_cases b : s.pkt.header.packet_size_words ≤ s.idx + 1
    · simp [c, b]
    · simp [c, b, load_of_lt buf s.idx (by omega), load_of_lt buf (s.idx + 1) (by omega)]

theorem parse_trailer_eq (buf : List Nat) (s : parse_state)
    (hb : s.pkt.header.packet_size_words ≤ buf.length) :
    parse_trailer buf s =
      if s.pkt.header.has_trailer ≠ 0 ∧ s.pkt.header.packet_size_words < s.idx + 1 then
        .err (-EINVAL)
      else .ok { s.pkt with
        trailer := if s.pkt.header.has_trailer ≠ 0 then
            { word := ntohl (buf.getD (s.pkt.header.packet_size_words - 1) 0) }
          else s.pkt.trailer,
        has_trailer := decide (s.pkt.header.has_trailer ≠ 0) || s.pkt.has_trailer,
        payload := some (buf.drop s.idx),
        payload_words :=
          size_sub (size_sub s.pkt.header.packet_size_words s.idx)
            (trailer_words s.pkt.header) } := by
  unfold parse_trailer trailer_words
  have hlt : s.pkt.header.packet_size_words < 2 ^ 64 := by
    unfold vrt_header.packet_size_words; omega
  by_cases c : s.pkt.header.has_trailer = 0
  · have hz : ∀ a, size_sub (size_sub a s.idx) 0 = size_sub a s.idx := by
      intro a; unfold size_sub SIZE_MOD; omega
    simp [c, hz]
  · by_cases b : s.pkt.header.packet_size_words < s.idx + 1
    · simp [c, b]
    · simp [c, b, load_of_lt buf (s.pkt.header.packet_size_words - 1) (by omega)]

/-- The parser on a buffer that holds at least `words` words: it never leaves the buffer,
fails exactly in the three cases of the conditional, and otherwise returns
`parsed_record buf`. -/
theorem parse_closed_form (buf : List Nat) (words : Nat) (hw : words ≤ buf.length) :
    vrt_parse_packet buf words =
      if words = 0 then .err (-EINVAL)
      else if (vrt_header.mk (ntohl (buf.getD 0 0))).packet_size_words > words then .err (-EINVAL)
      else if optional_words ⟨ntohl (buf.getD 0 0)⟩ ≠ 0 ∧
          (vrt_header.mk (ntohl (buf.getD 0 0))).packet_size_words
            < 1 + optional_words ⟨ntohl (buf.getD 0 0)⟩ then .err (-EINVAL)
      else .ok (parsed_record buf) := by
  unfold vrt_parse_packet
  by_cases h0 : words = 0
  · simp [h0]
  rw [if_neg h0, if_neg h0, load_of_lt buf 0 (by omega), Outcome.bind_ok]
  simp only []
  unfold parsed_record
  generalize vrt_header.mk (ntohl (buf.getD 0 0)) = h
  by_cases hS : h.packet_size_words > words
  · simp [hS, vrt_packet.zeroed]
  have hS2 : h.packet_size_words ≤ buf.length := by omega
  simp only [vrt_packet.zeroed, hS, if_false]
  rw [parse_stream_id_eq buf _ hS2, bind_ite_err]
  simp only []
  rw [parse_class_id_eq buf _ hS2, bind_ite_err]
  simp only []
  rw [parse_timestamp_int_eq buf _ hS2, bind_ite_err]
  simp only []
  rw [parse_timestamp_frac_eq buf _ hS2, bind_ite_err]
  simp only []
  rw [parse_trailer_eq buf _ hS2]
  simp only [Bool.or_false, meta_words]
  by_cases c1 : has_sid h = true <;> by_cases c2 : h.has_class_id = 0 <;>
  by_cases c3 : h.ts_integer_format = VRT_TSI_NONE <;>
  by_cases c4 : h.ts_fractional_format = VRT_TSF_NONE <;>
  by_cases c5 : h.has_trailer = 0 <;>
  simp only [optional_words, sid_words, class_words, tsi_words, tsf_words, trailer_words,
    c1, c2, c3, c4, c5, ne_eq, not_true_eq_false, not_false_eq_true, if_true, if_false,
    true_and, false_and, Bool.false_eq_true] <;>
  (split_ifs <;> first | rfl | (exfalso; simp only [not_false_eq_true, true_and, not_true_eq_false, false_and] at *; omega))

/-! ## Byte order and 64-bit fields -/

theorem bytes_of_sum (b0 b1 b2 b3 : Nat) (h0 : b0 < 256) (h1 : b1 < 256) (h2 : b2 < 256)
    (h3 : b3 < 256) :
    (b0 + b1 * 2 ^ 8 + b2 * 2 ^ 16 + b3 * 2 ^ 24) % 256 = b0 ∧
    (b0 + b1 * 2 ^ 8 + b2 * 2 ^ 16 + b3 * 2 ^ 24) / 2 ^ 8 % 256 = b1 ∧
    (b0 + b1 * 2 ^ 8 + b2 * 2 ^ 16 + b3 * 2 ^ 24) / 2 ^ 16 % 256 = b2 ∧
    (b0 + b1 * 2 ^ 8 + b2 * 2 ^ 16 + b3 * 2 ^ 24) / 2 ^ 24 % 256 = b3 := by
  refine ⟨?_, ?_, ?_, ?_⟩ <;> omega

theorem host_bytes_host_word (b0 b1 b2 b3 : Nat) (h0 : b0 < 256) (h1 : b1 < 256)
    (h2 : b2 < 256) (h3 : b3 < 256) :
    host_bytes (host_word [b0, b1, b2, b3]) = [b0, b1, b2, b3] := by
  obtain ⟨e0, e1, e2, e3⟩ := bytes_of_sum b0 b1 b2 b3 h0 h1 h2 h3
  simp only [host_bytes, host_word, List.getD_cons_zero, List.getD_cons_succ,
    Nat.mod_eq_of_lt h0, Nat.mod_eq_of_lt h1, Nat.mod_eq_of_lt h2, Nat.mod_eq_of_lt h3,
    e0, e1, e2, e3]

theorem host_bytes_htonl (v : Nat) : host_bytes (htonl v) = be_encode v := by
  unfold htonl be_encode
  exact host_bytes_host_word _ _ _ _ (Nat.mod_lt _ (by norm_num)) (Nat.mod_lt _ (by norm_num))
    (Nat.mod_lt _ (by norm_num)) (Nat.mod_lt _ (by norm_num))

theorem be_decode_be_encode (v : Nat) : be_decode (be_encode v) = v % 2 ^ 32 := by
  simp only [be_decode, be_encode, List.getD_cons_zero, List.getD_cons_succ]
  omega

theorem ntohl_htonl (v : Nat) : ntohl (htonl v) = v % 2 ^ 32 := by
  unfold ntohl
  rw [host_bytes_htonl, be_decode_be_encode]

theorem ntohl_lt (x : Nat) : ntohl x < 2 ^ 32 := by
  simp only [ntohl, be_decode, host_bytes, List.getD_cons_zero, List.getD_cons_succ]
  omega

theorem htonl_lt (x : Nat) : htonl x < 2 ^ 32 := by
  simp only [htonl, be_encode, host_word, List.getD_cons_zero, List.getD_cons_succ]
  omega

theorem be_encode_be_decode (b0 b1 b2 b3 : Nat) (h0 : b0 < 256) (h1 : b1 < 256)
    (h2 : b2 < 256) (h3 : b3 < 256) :
    be_encode (be_decode [b0, b1, b2, b3]) = [b0, b1, b2, b3] := by
  simp only [be_encode, be_decode, List.getD_cons_zero, List.getD_cons_succ,
    Nat.mod_eq_of_lt h0, Nat.mod_eq_of_lt h1, Nat.mod_eq_of_lt h2, Nat.mod_eq_of_lt h3,
    List.cons.injEq, and_true]
  refine ⟨?_, ?_, ?_, ?_⟩ <;> omega

theorem host_word_host_bytes (x : Nat) : host_word (host_bytes x) = x % 2 ^ 32 := by
  simp only [host_bytes, host_word, List.getD_cons_zero, List.getD_cons_succ]
  omega

theorem htonl_ntohl (x : Nat) : htonl (ntohl x) = x % 2 ^ 32 := by
  unfold htonl ntohl host_bytes
  rw [be_encode_be_decode _ _ _ _ (Nat.mod_lt _ (by norm_num)) (Nat.mod_lt _ (by norm_num))
    (Nat.mod_lt _ (by norm_num)) (Nat.mod_lt _ (by norm_num))]
  exact host_word_host_bytes x

theorem shl32_or (a b : Nat) (hb : b < 2 ^ 32) : (a <<< 32) ||| b = a * 2 ^ 32 + b := by
  rw [Nat.shiftLeft_eq, Nat.mul_comm, ← Nat.mul_add_lt_is_or hb]

theorem shr32 (c : Nat) : c >>> 32 = c / 2 ^ 32 := Nat.shiftRight_eq_div_pow c 32

theorem and_low32 (c : Nat) : c &&& 0xFFFFFFFF = c % 2 ^ 32 := by
  have := Nat.and_pow_two_sub_one_eq_mod c 32
  simpa using this

theorem join_split (c : Nat) (hc : c < 2 ^ 64) :
    (ntohl (htonl ((c >>> 32) % 2 ^ 32)) <<< 32) ||| ntohl (htonl ((c &&& 0xFFFFFFFF) % 2 ^ 32))
      = c := by
  rw [shl32_or _ _ (ntohl_lt _), ntohl_htonl, ntohl_htonl, shr32, and_low32]
  omega

theorem split_join (a b : Nat) (ha : a < 2 ^ 32) (hb : b < 2 ^ 32) :
    (((a <<< 32) ||| b) >>> 32) % 2 ^ 32 = a ∧ ((((a <<< 32) ||| b) &&& 0xFFFFFFFF) % 2 ^ 32) = b := by
  rw [shl32_or _ _ hb, shr32, and_low32]
  constructor <;> omega

/-! ## Closed form of the serialiser

The state of `vrt_generate_packet` after each block is `written buf0 pre`, with `pre` the
words stored so far; each block is rewritten into a conditional with three outcomes. -/

theorem written_length (buf0 pre : List Nat) (h : 1 + pre.length ≤ buf0.length) :
    (written buf0 pre).buf.length = buf0.length := by
  simp only [written, List.length_append, List.length_take, List.length_drop]
  omega

theorem store_written (buf0 pre : List Nat) (v : Nat) :
    store (written buf0 pre).buf (1 + pre.length) v =
      if buf0.length < 1 + pre.length + 1 then .fault
      else .ok (written buf0 (pre ++ [v])).buf := by
  by_cases hL : buf0.length < 1 + pre.length + 1
  · rw [if_pos hL]
    unfold store
    have : (written buf0 pre).buf.length ≤ 1 + pre.length := by
      simp only [written, List.length_append, List.length_take, List.length_drop]
      omega
    rw [if_neg (by omega)]
  · rw [if_neg hL]
    unfold store
    rw [if_pos (by rw [written_length buf0 pre (by omega)]; omega)]
    congr 1
    simp only [written]
    have h1 : (List.take 1 buf0 ++ pre).length = 1 + pre.length := by
      simp only [List.length_append, List.length_take]; omega
    rw [List.set_append, if_neg (by omega), h1, Nat.sub_self]
    rw [List.drop_eq_getElem_cons (by omega : 1 + pre.length < buf0.length)]
    simp [List.append_assoc, Nat.add_assoc]

theorem bind3 {α β : Type} (c d : Prop) [Decidable c] [Decidable d] (e : Int) (a : α)
    (f : α → Outcome β) :
    (if c then (Outcome.err e : Outcome α) else if d then .fault else .ok a).bind f
      = if c then .err e else if d then .fault else f a := by
  split
  · rfl
  · split <;> rfl

theorem bind_fault_ite {α β : Type} (d : Prop) [Decidable d] (a : α) (f : α → Outcome β) :
    (if d then (Outcome.fault : Outcome α) else .ok a).bind f = if d then .fault else f a := by
  split <;> rfl

theorem written_snoc (buf0 pre : List Nat) (v : Nat) :
    ({ idx := 1 + pre.length + 1, buf := (written buf0 (pre ++ [v])).buf } : gen_state)
      = written buf0 (pre ++ [v]) := by
  simp [written, Nat.add_assoc]

theorem gen_store1 (buf0 pre : List Nat) (v : Nat) :
    ((store (written buf0 pre).buf (written buf0 pre).idx v).bind fun b =>
        (Outcome.ok { idx := (written buf0 pre).idx + 1, buf := b } : Outcome gen_state))
      = if buf0.length < 1 + pre.length + 1 then .fault
        else .ok (written buf0 (pre ++ [v])) := by
  show ((store (written buf0 pre).buf (1 + pre.length) v).bind fun b =>
        (Outcome.ok { idx := 1 + pre.length + 1, buf := b } : Outcome gen_state)) = _
  rw [store_written, bind_fault_ite, written_snoc]

theorem gen_store2 (buf0 pre : List Nat) (v1 v2 : Nat) :
    ((store (written buf0 pre).buf (written buf0 pre).idx v1).bind fun b1 =>
      (store b1 ((written buf0 pre).idx + 1) v2).bind fun b2 =>
        (Outcome.ok { idx := (written buf0 pre).idx + 2, buf := b2 } : Outcome gen_state))
      = if buf0.length < 1 + pre.length + 2 then .fault
        else .ok (written buf0 (pre ++ [v1, v2])) := by
  show ((store (written buf0 pre).buf (1 + pre.length) v1).bind fun b1 =>
      (store b1 (1 + pre.length + 1) v2).bind fun b2 =>
        (Outcome.ok { idx := 1 + pre.length + 2, buf := b2 } : Outcome gen_state)) = _
  rw [store_written, bind_fault_ite]
  have e1 : 1 + pre.length + 1 = 1 + (pre ++ [v1]).length := by simp; omega
  have e2 : 1 + pre.length + 2 = 1 + (pre ++ [v1]).length + 1 := by simp; omega
  rw [e2, e1, store_written, bind_fault_ite, written_snoc]
  have e3 : pre ++ [v1] ++ [v2] = pre ++ [v1, v2] := by simp
  rw [e3]
  simp only [List.length_append, List.length_singleton]
  split_ifs <;> first | rfl | (exfalso; omega)

theorem gen_stream_id_eq (pkt : vrt_packet) (mw : Nat) (buf0 pre : List Nat) :
    gen_stream_id pkt mw (written buf0 pre) =
      if has_sid pkt.header = true ∧ mw ≤ 1 + pre.length then .err (-ENOBUFS)
      else if has_sid pkt.header = true ∧ buf0.length < 1 + pre.length + 1 then .fault
      else .ok (written buf0 (pre ++ sid_chunk pkt)) := by
  unfold gen_stream_id sid_chunk
  by_cases c : has_sid pkt.header = true
  · rw [if_pos c, gen_store1]
    simp only [c, true_and, if_true, ge_iff_le]
    rfl
  · simp [c]

theorem gen_class_id_eq (pkt : vrt_packet) (mw : Nat) (buf0 pre : List Nat) :
    gen_class_id pkt mw (written buf0 pre) =
      if pkt.header.has_class_id ≠ 0 ∧ mw ≤ 1 + pre.length + 1 then .err (-ENOBUFS)
      else if pkt.header.has_class_id ≠ 0 ∧ buf0.length < 1 + pre.length + 2 then .fault
      else .ok (written buf0 (pre ++ class_chunk pkt)) := by
  unfold gen_class_id class_chunk
  by_cases c : pkt.header.has_class_id ≠ 0
  · rw [if_pos c, gen_store2]
    simp only [c, true_and, if_true, ge_iff_le, not_false_eq_true, ne_eq]
    rfl
  · simp [c]

theorem gen_timestamp_int_eq (pkt : vrt_packet) (mw : Nat) (buf0 pre : List Nat) :
    gen_timestamp_int pkt mw (written buf0 pre) =
      if pkt.header.ts_integer_format ≠ VRT_TSI_NONE ∧ mw ≤ 1 + pre.length then
        .err (-ENOBUFS)
      else if pkt.header.ts_integer_format ≠ VRT_TSI_NONE ∧ buf0.length < 1 + pre.length + 1 then
        .fault
      else .ok (written buf0 (pre ++ tsi_chunk pkt)) := by
  unfold gen_timestamp_int tsi_chunk
  by_cases c : pkt.header.ts_integer_format ≠ VRT_TSI_NONE
  · rw [if_pos c, gen_store1]
    simp only [c, true_and, if_true, ge_iff_le, not_false_eq_true, ne_eq]
    rfl
  · simp [c]

theorem gen_timestamp_frac_eq (pkt : vrt_packet) (mw : Nat) (buf0 pre : List Nat) :
    gen_timestamp_frac pkt mw (written buf0 pre) =
      if pkt.header.ts_fractional_format ≠ VRT_TSF_NONE ∧ mw ≤ 1 + pre.length + 1 then
        .err (-ENOBUFS)
      else if pkt.header.ts_fractional_format ≠ VRT_TSF_NONE
          ∧ buf0.length < 1 + pre.length + 2 then .fault
      else .ok (written buf0 (pre ++ tsf_chunk pkt)) := by
  unfold gen_timestamp_frac tsf_chunk
  by_cases c : pkt.header.ts_fractional_format ≠ VRT_TSF_NONE
  · rw [if_pos c, gen_store2]
    simp only [c, true_and, if_true, ge_iff_le, not_false_eq_true, ne_eq]
    rfl
  · simp [c]

theorem memcpy_written (buf0 pre p : List Nat) (n : Nat) (hn : 0 < n) :
    memcpy (written buf0 pre).buf (1 + pre.length) p (4 * n) =
      if p.length < n ∨ buf0.length < 1 + pre.length + n then .fault
      else .ok (written buf0 (pre ++ p.take n)).buf := by
  unfold memcpy
  have hd : 4 * n / 4 = n := by omega
  rw [hd]
  by_cases hL : buf0.length < 1 + pre.length + n
  · have : (written buf0 pre).buf.length < 1 + pre.length + n := by
      simp only [written, List.length_append, List.length_take, List.length_drop]
      omega
    rw [if_neg (by omega), if_pos (Or.inr hL)]
  · by_cases hp : p.length < n
    · rw [if_neg (by omega), if_pos (Or.inl hp)]
    · rw [if_pos ⟨by omega, by rw [written_length buf0 pre (by omega)]; omega⟩,
        if_neg (by omega)]
      congr 1
      simp only [written]
      have h1 : (List.take 1 buf0 ++ pre).length = 1 + pre.length := by
        simp only [List.length_append, List.length_take]; omega
      have ht : (p.take n).length = n := by simp; omega
      rw [List.take_append_eq_append_take, List.drop_append_eq_append_drop, h1]
      simp only [List.length_append, ht]
      rw [List.take_of_length_le (by omega : (List.take 1 buf0 ++ pre).length ≤ 1 + pre.length),
        List.drop_of_length_le (by omega : (List.take 1 buf0 ++ pre).length ≤ 1 + pre.length + n)]
      simp [Nat.add_assoc]

theorem gen_payload_none (pkt : vrt_packet) (mw : Nat) (buf0 pre : List Nat)
    (hp : pkt.payload = none) :
    gen_payload pkt mw (written buf0 pre) = .ok (written buf0 (pre ++ payload_chunk pkt)) := by
  simp [gen_payload, payload_chunk, hp]

theorem gen_payload_some (pkt : vrt_packet) (mw : Nat) (buf0 pre p : List Nat)
    (hp : pkt.payload = some p) (hpw : pkt.payload_words < 2 ^ 62) (hpre : pre.length < 2 ^ 62) :
    gen_payload pkt mw (written buf0 pre) =
      if 0 < pkt.payload_words ∧
          1 + pre.length + pkt.payload_words
            > size_sub mw (if pkt.header.has_trailer ≠ 0 then 1 else 0) then
        .err (-ENOBUFS)
      else if 0 < pkt.payload_words ∧
          (p.length < pkt.payload_words ∨ buf0.length < 1 + pre.length + pkt.payload_words) then
        .fault
      else .ok (written buf0 (pre ++ payload_chunk pkt)) := by
  unfold gen_payload payload_chunk
  simp only [hp]
  have ha : size_add (written buf0 pre).idx pkt.payload_words
      = 1 + pre.length + pkt.payload_words := by
    simp only [size_add, SIZE_MOD, written]; omega
  have hm : size_mul pkt.payload_words 4 = 4 * pkt.payload_words := by
    simp only [size_mul, SIZE_MOD]; omega
  rw [ha, hm]
  by_cases c : 0 < pkt.payload_words
  · rw [if_pos c]
    show (if _ then _ else (memcpy (written buf0 pre).buf (1 + pre.length) p _).bind _) = _
    rw [memcpy_written buf0 pre p _ c, bind_fault_ite]
    simp only [c, true_and]
    have e : ({ idx := 1 + pre.length + pkt.payload_words,
                buf := (written buf0 (pre ++ List.take pkt.payload_words p)).buf } : gen_state)
        = written buf0 (pre ++ List.take pkt.payload_words p) ∨ 
          (p.length < pkt.payload_words ∨ buf0.length < 1 + pre.length + pkt.payload_words) := by
      by_cases hq : p.length < pkt.payload_words
      · exact Or.inr (Or.inl hq)
      · left
        simp only [written, List.length_append, List.length_take]
        congr 1; omega
    rcases e with e | e
    · rw [e]
    · simp [e]
  · have c0 : pkt.payload_words = 0 := by omega
    simp [c0]

theorem gen_trailer_eq (pkt : vrt_packet) (mw : Nat) (buf0 pre : List Nat)
    (hpre : pre.length < 2 ^ 63) :
    gen_trailer pkt mw (written buf0 pre) =
      if pkt.header.has_trailer ≠ 0 ∧ mw ≤ 1 + pre.length then .err (-ENOBUFS)
      else if pkt.header.has_trailer ≠ 0 ∧ buf0.length < 1 + pre.length + 1 then .fault
      else .ok (written buf0 (pre ++ trailer_chunk pkt)) := by
  unfold gen_trailer trailer_chunk
  have ha : size_add (written buf0 pre).idx 1 = (written buf0 pre).idx + 1 := by
    simp only [size_add, SIZE_MOD, written]; omega
  rw [ha]
  by_cases c : pkt.header.has_trailer ≠ 0
  · rw [if_pos c, gen_store1]
    simp only [c, true_and, if_true, ge_iff_le, not_false_eq_true, ne_eq]
    rfl
  · simp [c]

theorem gen_header_eq (pkt : vrt_packet) (buf0 pre : List Nat)
    (hL : 1 + pre.length ≤ buf0.length) :
    gen_header pkt (written buf0 pre) =
      .ok (to_ssize (1 + pre.length),
           htonl (pkt.header.set_packet_size_words (1 + pre.length)).word
             :: (pre ++ buf0.drop (1 + pre.length))) := by
  unfold gen_header store
  simp only []
  rw [if_pos (by rw [written_length buf0 pre hL]; omega)]
  simp only [Outcome.bind_ok, written]
  congr 2
  obtain ⟨x, rest, rfl⟩ : ∃ x rest, buf0 = x :: rest := by
    cases buf0 with
    | nil => simp at hL
    | cons x rest => exact ⟨x, rest, rfl⟩
  simp

theorem gen_header_nil (pkt : vrt_packet) : gen_header pkt (written [] []) = .fault := by
  simp [gen_header, store, written]

theorem sid_chunk_length (pkt : vrt_packet) : (sid_chunk pkt).length = sid_words pkt.header := by
  unfold sid_chunk sid_words; split <;> rfl

theorem class_chunk_length (pkt : vrt_packet) :
    (class_chunk pkt).length = class_words pkt.header := by
  unfold class_chunk class_words; split <;> rfl

theorem tsi_chunk_length (pkt : vrt_packet) : (tsi_chunk pkt).length = tsi_words pkt.header := by
  unfold tsi_chunk tsi_words; split <;> rfl

theorem tsf_chunk_length (pkt : vrt_packet) : (tsf_chunk pkt).length = tsf_words pkt.header := by
  unfold tsf_chunk tsf_words; split <;> rfl

theorem trailer_chunk_length (pkt : vrt_packet) :
    (trailer_chunk pkt).length = trailer_words pkt.header := by
  unfold trailer_chunk trailer_words; split <;> rfl

theorem sid_words_le (h : vrt_header) : sid_words h ≤ 1 := by unfold sid_words; split <;> omega

theorem class_words_le (h : vrt_header) : class_words h ≤ 2 := by
  unfold class_words; split <;> omega

theorem tsi_words_le (h : vrt_header) : tsi_words h ≤ 1 := by unfold tsi_words; split <;> omega

theorem tsf_words_le (h : vrt_header) : tsf_words h ≤ 2 := by unfold tsf_words; split <;> omega

theorem trailer_words_le (h : vrt_header) : trailer_words h ≤ 1 := by
  unfold trailer_words; split <;> omega

theorem payload_chunk_length_le (pkt : vrt_packet) :
    (payload_chunk pkt).length ≤ pkt.payload_words := by
  unfold payload_chunk
  split
  · simp only [List.length_take]; omega
  · simp

theorem generate_form_some (pkt : vrt_packet) (buf : List Nat) (mw : Nat) (p : List Nat)
    (hp : pkt.payload = some p) (hpw : pkt.payload_words < 2 ^ 62) :
    vrt_generate_packet pkt buf mw =
      if has_sid pkt.header = true ∧ mw ≤ 1 then .err (-ENOBUFS)
      else if has_sid pkt.header = true ∧ buf.length < 1 + 1 then .fault
      else if pkt.header.has_class_id ≠ 0 ∧ mw ≤ 1 + sid_words pkt.header + 1 then
        .err (-ENOBUFS)
      else if pkt.header.has_class_id ≠ 0 ∧ buf.length < 1 + sid_words pkt.header + 2 then
        .fault
      else if pkt.header.ts_integer_format ≠ VRT_TSI_NONE
          ∧ mw ≤ 1 + (sid_words pkt.header + class_words pkt.header) then .err (-ENOBUFS)
      else if pkt.header.ts_integer_format ≠ VRT_TSI_NONE
          ∧ buf.length < 1 + (sid_words pkt.header + class_words pkt.header) + 1 then .fault
      else if pkt.header.ts_fractional_format ≠ VRT_TSF_NONE
          ∧ mw ≤ 1 + (sid_words pkt.header + class_words pkt.header + tsi_words pkt.header) + 1
          then .err (-ENOBUFS)
      else if pkt.header.ts_fractional_format ≠ VRT_TSF_NONE
          ∧ buf.length
            < 1 + (sid_words pkt.header + class_words pkt.header + tsi_words pkt.header) + 2
          then .fault
      else if 0 < pkt.payload_words ∧
          1 + (meta_words pkt.header - 1) + pkt.payload_words
            > size_sub mw (if pkt.header.has_trailer ≠ 0 then 1 else 0) then .err (-ENOBUFS)
      else if 0 < pkt.payload_words ∧
          (p.length < pkt.payload_words
            ∨ buf.length < 1 + (meta_words pkt.header - 1) + pkt.payload_words) then .fault
      else if pkt.header.has_trailer ≠ 0
          ∧ mw ≤ 1 + (meta_words pkt.header - 1 + (payload_chunk pkt).length) then
        .err (-ENOBUFS)
      else if pkt.header.has_trailer ≠ 0
          ∧ buf.length < 1 + (meta_words pkt.header - 1 + (payload_chunk pkt).length) + 1 then
        .fault
      else gen_header pkt (written buf (body_chunks pkt)) := by
  unfold vrt_generate_packet
  have e0 : ({ idx := 1, buf := buf } : gen_state) = written buf [] := by
    simp only [written, List.length_nil, List.append_nil, Nat.add_zero, List.take_append_drop]
  have l4 : (([] : List Nat) ++ sid_chunk pkt ++ class_chunk pkt ++ tsi_chunk pkt
      ++ tsf_chunk pkt).length = meta_words pkt.header - 1 := by
    simp only [List.length_append, List.length_nil, sid_chunk_length, class_chunk_length,
      tsi_chunk_length, tsf_chunk_length, meta_words]
    omega
  have b1 := sid_words_le pkt.header
  have b2 := class_words_le pkt.header
  have b3 := tsi_words_le pkt.header
  have b4 := tsf_words_le pkt.header
  have b5 := payload_chunk_length_le pkt
  rw [e0, gen_stream_id_eq, bind3]
  rw [gen_class_id_eq, bind3]
  rw [gen_timestamp_int_eq, bind3]
  rw [gen_timestamp_frac_eq, bind3]
  rw [gen_payload_some pkt mw buf _ p hp hpw (by rw [l4]; unfold meta_words; omega), bind3]
  rw [gen_trailer_eq pkt mw buf _ (by
    rw [List.length_append, l4]; unfold meta_words; omega)]
  rw [bind3]
  simp only [List.length_append, l4]
  simp only [List.length_nil, List.nil_append, sid_chunk_length, class_chunk_length,
    tsi_chunk_length, tsf_chunk_length, Nat.zero_add, body_chunks]

theorem generate_form_none (pkt : vrt_packet) (buf : List Nat) (mw : Nat)
    (hp : pkt.payload = none) :
    vrt_generate_packet pkt buf mw =
      if has_sid pkt.header = true ∧ mw ≤ 1 then .err (-ENOBUFS)
      else if has_sid pkt.header = true ∧ buf.length < 1 + 1 then .fault
      else if pkt.header.has_class_id ≠ 0 ∧ mw ≤ 1 + sid_words pkt.header + 1 then
        .err (-ENOBUFS)
      else if pkt.header.has_class_id ≠ 0 ∧ buf.length < 1 + sid_words pkt.header + 2 then
        .fault
      else if pkt.header.ts_integer_format ≠ VRT_TSI_NONE
          ∧ mw ≤ 1 + (sid_words pkt.header + class_words pkt.header) then .err (-ENOBUFS)
      else if pkt.header.ts_integer_format ≠ VRT_TSI_NONE
          ∧ buf.length < 1 + (sid_words pkt.header + class_words pkt.header) + 1 then .fault
      else if pkt.header.ts_fractional_format ≠ VRT_TSF_NONE
          ∧ mw ≤ 1 + (sid_words pkt.header + class_words pkt.header + tsi_words pkt.header) + 1
          then .err (-ENOBUFS)
      else if pkt.header.ts_fractional_format ≠ VRT_TSF_NONE
          ∧ buf.length
            < 1 + (sid_words pkt.header + class_words pkt.header + tsi_words pkt.header) + 2
          then .fault
      else if pkt.header.has_trailer ≠ 0
          ∧ mw ≤ 1 + (meta_words pkt.header - 1 + (payload_chunk pkt).length) then
        .err (-ENOBUFS)
      else if pkt.header.has_trailer ≠ 0
          ∧ buf.length < 1 + (meta_words pkt.header - 1 + (payload_chunk pkt).length) + 1 then
        .fault
      else gen_header pkt (written buf (body_chunks pkt)) := by
  unfold vrt_generate_packet
  have e0 : ({ idx := 1, buf := buf } : gen_state) = written buf [] := by
    simp only [written, List.length_nil, List.append_nil, Nat.add_zero, List.take_append_drop]
  have l4 : (([] : List Nat) ++ sid_chunk pkt ++ class_chunk pkt ++ tsi_chunk pkt
      ++ tsf_chunk pkt).length = meta_words pkt.header - 1 := by
    simp only [List.length_append, List.length_nil, sid_chunk_length, class_chunk_length,
      tsi_chunk_length, tsf_chunk_length, meta_words]
    omega
  have b1 := sid_words_le pkt.header
  have b2 := class_words_le pkt.header
  have b3 := tsi_words_le pkt.header
  have b4 := tsf_words_le pkt.header
  have b5 : (payload_chunk pkt).length = 0 := by simp [payload_chunk, hp]
  rw [e0, gen_stream_id_eq, bind3]
  rw [gen_class_id_eq, bind3]
  rw [gen_timestamp_int_eq, bind3]
  rw [gen_timestamp_frac_eq, bind3]
  rw [gen_payload_none pkt mw buf _ hp, Outcome.bind_ok]
  rw [gen_trailer_eq pkt mw buf _ (by
    rw [List.length_append, l4]; unfold meta_words; omega)]
  rw [bind3]
  simp only [List.length_append, l4]
  simp only [List.length_nil, List.nil_append, sid_chunk_length, class_chunk_length,
    tsi_chunk_length, tsf_chunk_length, Nat.zero_add, body_chunks]

/-- The serialiser as a chain of conditionals: each block returns `-ENOBUFS`, leaves the
buffer, or goes on; the last block writes the header word. -/
theorem generate_form (pkt : vrt_packet) (buf : List Nat) (mw : Nat)
    (hpw : pkt.payload_words < 2 ^ 62) :
    vrt_generate_packet pkt buf mw =
      if has_sid pkt.header = true ∧ mw ≤ 1 then .err (-ENOBUFS)
      else if has_sid pkt.header = true ∧ buf.length < 1 + 1 then .fault
      else if pkt.header.has_class_id ≠ 0 ∧ mw ≤ 1 + sid_words pkt.header + 1 then
        .err (-ENOBUFS)
      else if pkt.header.has_class_id ≠ 0 ∧ buf.length < 1 + sid_words pkt.header + 2 then
        .fault
      else if pkt.header.ts_integer_format ≠ VRT_TSI_NONE
          ∧ mw ≤ 1 + (sid_words pkt.header + class_words pkt.header) then .err (-ENOBUFS)
      else if pkt.header.ts_integer_format ≠ VRT_TSI_NONE
          ∧ buf.length < 1 + (sid_words pkt.header + class_words pkt.header) + 1 then .fault
      else if pkt.header.ts_fractional_format ≠ VRT_TSF_NONE
          ∧ mw ≤ 1 + (sid_words pkt.header + class_words pkt.header + tsi_words pkt.header) + 1
          then .err (-ENOBUFS)
      else if pkt.header.ts_fractional_format ≠ VRT_TSF_NONE
          ∧ buf.length
            < 1 + (sid_words pkt.header + class_words pkt.header + tsi_words pkt.header) + 2
          then .fault
      else if 0 < payload_count pkt ∧
          1 + (meta_words pkt.header - 1) + payload_count pkt
            > size_sub mw (if pkt.header.has_trailer ≠ 0 then 1 else 0) then .err (-ENOBUFS)
      else if 0 < payload_count pkt ∧
          (payload_readable pkt = false
            ∨ buf.length < 1 + (meta_words pkt.header - 1) + payload_count pkt) then .fault
      else if pkt.header.has_trailer ≠ 0
          ∧ mw ≤ 1 + (meta_words pkt.header - 1 + (payload_chunk pkt).length) then
        .err (-ENOBUFS)
      else if pkt.header.has_trailer ≠ 0
          ∧ buf.length < 1 + (meta_words pkt.header - 1 + (payload_chunk pkt).length) + 1 then
        .fault
      else gen_header pkt (written buf (body_chunks pkt)) := by
  cases hp : pkt.payload with
  | some p =>
    rw [generate_form_some pkt buf mw p hp hpw]
    simp only [payload_count, payload_readable, hp, decide_eq_false_iff_not, not_le]
  | none =>
    rw [generate_form_none pkt buf mw hp]
    simp only [payload_count, payload_readable, hp, Nat.lt_irrefl, false_and, if_false]

theorem to_ssize_small (a : Nat) (h : a < 2 ^ 63) : to_ssize a = (a : Int) := by
  unfold to_ssize SIZE_MOD
  have : a % 2 ^ 64 = a := Nat.mod_eq_of_lt (by omega)
  rw [this, if_pos h]

theorem payload_chunk_length (pkt : vrt_packet) (h : payload_readable pkt = true) :
    (payload_chunk pkt).length = payload_count pkt := by
  unfold payload_chunk payload_count
  unfold payload_readable at h
  cases hp : pkt.payload with
  | none => simp
  | some p =>
    rw [hp] at h
    simp only [decide_eq_true_eq] at h
    simp only [List.length_take]
    omega

theorem readable_of_count_zero (pkt : vrt_packet) (h : payload_count pkt = 0) :
    payload_readable pkt = true := by
  unfold payload_readable
  unfold payload_count at h
  cases hp : pkt.payload with
  | none => rfl
  | some p =>
    rw [hp] at h
    simp only at h
    simp [h]

theorem payload_count_le (pkt : vrt_packet) : payload_count pkt ≤ pkt.payload_words := by
  unfold payload_count; split <;> omega

theorem body_chunks_length (pkt : vrt_packet) (h : payload_readable pkt = true) :
    (body_chunks pkt).length + 1 = serialised_words pkt := by
  simp only [body_chunks, List.length_append, sid_chunk_length, class_chunk_length,
    tsi_chunk_length, tsf_chunk_length, trailer_chunk_length, payload_chunk_length pkt h,
    serialised_words, meta_words]
  omega

theorem ite_err_ok {α : Type} (c : Prop) [Decidable c] (e : Int) (x : Outcome α) (r : α)
    (h : (if c then Outcome.err e else x) = .ok r) : ¬ c ∧ x = .ok r := by
  by_cases hc : c
  · rw [if_pos hc] at h; cases h
  · rw [if_neg hc] at h; exact ⟨hc, h⟩

theorem ite_fault_ok {α : Type} (c : Prop) [Decidable c] (x : Outcome α) (r : α)
    (h : (if c then Outcome.fault else x) = .ok r) : ¬ c ∧ x = .ok r := by
  by_cases hc : c
  · rw [if_pos hc] at h; cases h
  · rw [if_neg hc] at h; exact ⟨hc, h⟩

/-- What a successful call of the serialiser has done: the count returned, the words
written, the room the buffer had. -/
theorem generate_ok_inv (pkt : vrt_packet) (buf : List Nat) (mw : Nat) (n : Int)
    (out : List Nat) (hpw : pkt.payload_words < 2 ^ 62)
    (h : vrt_generate_packet pkt buf mw = .ok (n, out)) :
    n = ((serialised_words pkt : Nat) : Int) ∧ serialised_words pkt ≤ buf.length ∧
    out = htonl (pkt.header.set_packet_size_words (serialised_words pkt)).word
            :: (body_chunks pkt ++ buf.drop (serialised_words pkt)) ∧
    payload_readable pkt = true ∧
    (1 < serialised_words pkt → serialised_words pkt ≤ mw) := by
  rw [generate_form pkt buf mw hpw] at h
  obtain ⟨e1, h⟩ := ite_err_ok _ _ _ _ h
  obtain ⟨f1, h⟩ := ite_fault_ok _ _ _ h
  obtain ⟨e2, h⟩ := ite_err_ok _ _ _ _ h
  obtain ⟨f2, h⟩ := ite_fault_ok _ _ _ h
  obtain ⟨e3, h⟩ := ite_err_ok _ _ _ _ h
  obtain ⟨f3, h⟩ := ite_fault_ok _ _ _ h
  obtain ⟨e4, h⟩ := ite_err_ok _ _ _ _ h
  obtain ⟨f4, h⟩ := ite_fault_ok _ _ _ h
  obtain ⟨e5, h⟩ := ite_err_ok _ _ _ _ h
  obtain ⟨f5, h⟩ := ite_fault_ok _ _ _ h
  obtain ⟨e6, h⟩ := ite_err_ok _ _ _ _ h
  obtain ⟨f6, h⟩ := ite_fault_ok _ _ _ h
  have hr : payload_readable pkt = true := by
    by_cases hc : payload_count pkt = 0
    · exact readable_of_count_zero pkt hc
    · cases hq : payload_readable pkt with
      | true => rfl
      | false => exact absurd ⟨by omega, Or.inl hq⟩ f5
  have hpl := payload_chunk_length pkt hr
  have hbl := body_chunks_length pkt hr
  have hpc := payload_count_le pkt
  rw [hpl] at e6 f6
  have hfacts : serialised_words pkt ≤ buf.length ∨ (buf.length = 0 ∧ body_chunks pkt = []) := by
    by_cases hb0 : buf.length = 0
    · right
      refine ⟨hb0, ?_⟩
      apply List.eq_nil_of_length_eq_zero
      revert e1 f1 e2 f2 e3 f3 e4 f4 e5 f5 e6 f6 hbl
      unfold serialised_words meta_words sid_words class_words tsi_words tsf_words trailer_words
      by_cases c1 : has_sid pkt.header = true <;> by_cases c2 : pkt.header.has_class_id = 0 <;>
      by_cases c3 : pkt.header.ts_integer_format = VRT_TSI_NONE <;>
      by_cases c4 : pkt.header.ts_fractional_format = VRT_TSF_NONE <;>
      by_cases c5 : pkt.header.has_trailer = 0 <;>
      simp only [c1, c2, c3, c4, c5, ne_eq, not_true_eq_false, not_false_eq_true, if_true,
        if_false, true_and, false_and, Bool.false_eq_true] <;>
      intros <;> omega
    · left
      revert e1 f1 e2 f2 e3 f3 e4 f4 e5 f5 e6 f6
      unfold serialised_words meta_words sid_words class_words tsi_words tsf_words trailer_words
      by_cases c1 : has_sid pkt.header = true <;> by_cases c2 : pkt.header.has_class_id = 0 <;>
      by_cases c3 : pkt.header.ts_integer_format = VRT_TSI_NONE <;>
      by_cases c4 : pkt.header.ts_fractional_format = VRT_TSF_NONE <;>
      by_cases c5 : pkt.header.has_trailer = 0 <;>
      simp only [c1, c2, c3, c4, c5, ne_eq, not_true_eq_false, not_false_eq_true, if_true,
        if_false, true_and, false_and, Bool.false_eq_true] <;>
      intros <;> omega
  have hmw : 1 < serialised_words pkt → serialised_words pkt ≤ mw := by
    revert e1 f1 e2 f2 e3 f3 e4 f4 e5 f5 e6 f6
    unfold serialised_words meta_words sid_words class_words tsi_words tsf_words trailer_words
      size_sub SIZE_MOD
    by_cases c1 : has_sid pkt.header = true <;> by_cases c2 : pkt.header.has_class_id = 0 <;>
    by_cases c3 : pkt.header.ts_integer_format = VRT_TSI_NONE <;>
    by_cases c4 : pkt.header.ts_fractional_format = VRT_TSF_NONE <;>
    by_cases c5 : pkt.header.has_trailer = 0 <;>
    simp only [c1, c2, c3, c4, c5, ne_eq, not_true_eq_false, not_false_eq_true, if_true,
      if_false, true_and, false_and, Bool.false_eq_true] <;>
    intros <;> omega
  rcases hfacts with hL | ⟨hb0, hnil⟩
  · have hL2 : 1 + (body_chunks pkt).length ≤ buf.length := by omega
    rw [gen_header_eq pkt buf _ hL2] at h
    have e : 1 + (body_chunks pkt).length = serialised_words pkt := by omega
    rw [e] at h
    injection h with h
    injection h with hn ho
    refine ⟨?_, hL, ho.symm, hr, hmw⟩
    rw [← hn]
    apply to_ssize_small
    unfold serialised_words meta_words
    have b1 := sid_words_le pkt.header
    have b2 := class_words_le pkt.header
    have b3 := tsi_words_le pkt.header
    have b4 := tsf_words_le pkt.header
    have b5 := trailer_words_le pkt.header
    omega
  · have hbn : buf = [] := List.eq_nil_of_length_eq_zero hb0
    rw [hnil, hbn, gen_header_nil] at h
    cases h

theorem serialised_words_lt (pkt : vrt_packet) (hpw : pkt.payload_words < 2 ^ 62) :
    serialised_words pkt < 2 ^ 63 := by
  unfold serialised_words meta_words
  have b1 := sid_words_le pkt.header
  have b2 := class_words_le pkt.header
  have b3 := tsi_words_le pkt.header
  have b4 := tsf_words_le pkt.header
  have b5 := trailer_words_le pkt.header
  have b6 := payload_count_le pkt
  omega

theorem has_sid_iff (h : vrt_header) : has_sid h = true ↔ sid_words h = 1 := by
  unfold sid_words; split <;> simp_all

theorem class_flag_iff (h : vrt_header) : h.has_class_id ≠ 0 ↔ class_words h = 2 := by
  unfold class_words; split <;> simp_all

theorem tsi_flag_iff (h : vrt_header) :
    h.ts_integer_format ≠ VRT_TSI_NONE ↔ tsi_words h = 1 := by
  unfold tsi_words; split <;> simp_all

theorem tsf_flag_iff (h : vrt_header) :
    h.ts_fractional_format ≠ VRT_TSF_NONE ↔ tsf_words h = 2 := by
  unfold tsf_words; split <;> simp_all

theorem trailer_flag_iff (h : vrt_header) : h.has_trailer ≠ 0 ↔ trailer_words h = 1 := by
  unfold trailer_words; split <;> simp_all

theorem sid_words_cases (h : vrt_header) : sid_words h = 0 ∨ sid_words h = 1 := by
  unfold sid_words; split <;> simp

theorem class_words_cases (h : vrt_header) : class_words h = 0 ∨ class_words h = 2 := by
  unfold class_words; split <;> simp

theorem tsi_words_cases (h : vrt_header) : tsi_words h = 0 ∨ tsi_words h = 1 := by
  unfold tsi_words; split <;> simp

theorem tsf_words_cases (h : vrt_header) : tsf_words h = 0 ∨ tsf_words h = 2 := by
  unfold tsf_words; split <;> simp

theorem trailer_words_cases (h : vrt_header) : trailer_words h = 0 ∨ trailer_words h = 1 := by
  unfold trailer_words; split <;> simp

theorem size_sub_trailer (mw : Nat) (h : vrt_header) (hmw1 : 1 ≤ mw) (hmw : mw < 2 ^ 64) :
    size_sub mw (if h.has_trailer ≠ 0 then 1 else 0) = mw - trailer_words h := by
  unfold trailer_words size_sub SIZE_MOD
  split <;> omega

theorem ite_err_of {α : Type} (c : Prop) [Decidable c] (e : Int) (x : Outcome α)
    (h : ¬ c → x = .err e) : (if c then Outcome.err e else x) = .err e := by
  by_cases hc : c
  · rw [if_pos hc]
  · rw [if_neg hc]; exact h hc

/-- The serialiser under its contract (`1 ≤ max_words ≤` capacity of `buf`, payload
readable): `-ENOBUFS` exactly when the record needs more than `max_words` words. -/
theorem generate_closed (pkt : vrt_packet) (buf : List Nat) (mw : Nat)
    (hmw1 : 1 ≤ mw) (hcap : mw ≤ buf.length) (hmw : mw < 2 ^ 64)
    (hpw : pkt.payload_words < 2 ^ 62) (hr : payload_readable pkt = true) :
    vrt_generate_packet pkt buf mw =
      if mw < serialised_words pkt then .err (-ENOBUFS)
      else .ok (((serialised_words pkt : Nat) : Int),
        htonl (pkt.header.set_packet_size_words (serialised_words pkt)).word
          :: (body_chunks pkt ++ buf.drop (serialised_words pkt))) := by
  rw [generate_form pkt buf mw hpw]
  have hpl := payload_chunk_length pkt hr
  have hbl := body_chunks_length pkt hr
  have hpc := payload_count_le pkt
  rw [hpl, size_sub_trailer mw pkt.header hmw1 hmw]
  simp only [has_sid_iff, class_flag_iff, tsi_flag_iff, tsf_flag_iff, trailer_flag_iff, hr,
    Bool.true_eq_false, false_or]
  have c1 := sid_words_cases pkt.header
  have c2 := class_words_cases pkt.header
  have c3 := tsi_words_cases pkt.header
  have c4 := tsf_words_cases pkt.header
  have c5 := trailer_words_cases pkt.header
  have hlt := serialised_words_lt pkt hpw
  clear hpw hmw
  by_cases hN : mw < serialised_words pkt
  · rw [if_pos hN]
    unfold serialised_words meta_words at hN
    unfold meta_words
    clear hlt
    refine ite_err_of _ _ _ (fun e1 => ?_)
    rw [if_neg (by omega)]
    refine ite_err_of _ _ _ (fun e2 => ?_)
    rw [if_neg (by omega)]
    refine ite_err_of _ _ _ (fun e3 => ?_)
    rw [if_neg (by omega)]
    refine ite_err_of _ _ _ (fun e4 => ?_)
    rw [if_neg (by omega)]
    refine ite_err_of _ _ _ (fun e5 => ?_)
    rw [if_neg (by omega)]
    refine ite_err_of _ _ _ (fun e6 => ?_)
    exfalso
    omega
  · rw [if_neg hN]
    have hL2 : 1 + (body_chunks pkt).length ≤ buf.length := by omega
    rw [gen_header_eq pkt buf _ hL2]
    have e : 1 + (body_chunks pkt).length = serialised_words pkt := by omega
    rw [e, to_ssize_small _ hlt]
    clear hlt
    unfold serialised_words meta_words at hN
    unfold meta_words
    repeat rw [if_neg (by omega)]

/-! ## The inputs of the unit tests, field by field -/

/-- The header word of `test_context_buf` is the header the test fills in: type
IF Context, class identifier present, 10 words. -/
theorem test_context_header_fields :
    (wire_header test_context_buf).packet_type = VRT_PKT_TYPE_IF_CONTEXT ∧
    (wire_header test_context_buf).has_class_id = 1 ∧
    (wire_header test_context_buf).has_trailer = 0 ∧
    (wire_header test_context_buf).reserved = 0 ∧
    (wire_header test_context_buf).ts_integer_format = VRT_TSI_NONE ∧
    (wire_header test_context_buf).ts_fractional_format = VRT_TSF_NONE ∧
    (wire_header test_context_buf).packet_count = 0 ∧
    (wire_header test_context_buf).packet_size_words = 10 := by
  decide

/-- The header and trailer words of `test_data_pkt` are the bit-fields the test sets. -/
theorem test_data_pkt_fields :
    test_data_pkt.header.packet_type = VRT_PKT_TYPE_IF_DATA_WITH_SID ∧
    test_data_pkt.header.has_class_id = 0 ∧
    test_data_pkt.header.has_trailer = 1 ∧
    test_data_pkt.header.ts_integer_format = VRT_TSI_UTC ∧
    test_data_pkt.header.ts_fractional_format = VRT_TSF_REAL_TIME ∧
    test_data_pkt.header.packet_size_words = 0 ∧
    test_data_pkt.trailer.context_packet_count_enable = 1 ∧
    test_data_pkt.trailer.associated_context_packet_count = 0 ∧
    test_data_pkt.trailer.state_and_event_indicators = 0 ∧
    test_data_pkt.trailer.indicator_enables = 0 := by
  decide

/-! ## Statements on the parser -/

/-- A successful parse, inverted: the checks that passed and the record returned. -/
theorem parse_ok_record (buf : List Nat) (words : Nat) (pkt : vrt_packet)
    (hw : words ≤ buf.length) (h : vrt_parse_packet buf words = .ok pkt) :
    words ≠ 0 ∧ (wire_header buf).packet_size_words ≤ words ∧
    (optional_words (wire_header buf) = 0
      ∨ 1 + optional_words (wire_header buf) ≤ (wire_header buf).packet_size_words) ∧
    pkt = parsed_record buf := by
  rw [parse_closed_form buf words hw] at h
  unfold wire_header
  by_cases h0 : words = 0
  · rw [if_pos h0] at h; cases h
  rw [if_neg h0] at h
  obtain ⟨h1, h⟩ := ite_err_ok _ _ _ _ h
  obtain ⟨h2, h⟩ := ite_err_ok _ _ _ _ h
  injection h with h
  refine ⟨h0, by omega, ?_, h.symm⟩
  by_cases hz : optional_words { word := ntohl (buf.getD 0 0) } = 0
  · exact Or.inl hz
  · right
    by_contra hc
    exact h2 ⟨hz, by omega⟩

/-- C1: `vrt_parse_packet` returns `-EINVAL` when `words` is 0, when the header declares
more words than `words`, and when the header declares at least one optional field (stream
identifier 1 word, class identifier 2, integer timestamp 1, fractional timestamp 2,
trailer 1) and a packet size below 1 plus the total width of the declared fields. -/
theorem vrt_parse_packet_einval (buf : List Nat) (words : Nat) (hw : words ≤ buf.length)
    (h : words = 0 ∨ (wire_header buf).packet_size_words > words ∨
      (0 < optional_words (wire_header buf) ∧
        (wire_header buf).packet_size_words < 1 + optional_words (wire_header buf))) :
    vrt_parse_packet buf words = .err (-EINVAL) := by
  rw [parse_closed_form buf words hw]
  unfold wire_header at h
  by_cases h0 : words = 0
  · rw [if_pos h0]
  rw [if_neg h0]
  by_cases h1 : (vrt_header.mk (ntohl (buf.getD 0 0))).packet_size_words > words
  · rw [if_pos h1]
  rw [if_neg h1]
  rcases h with h | h | h
  · exact absurd h h0
  · exact absurd h h1
  · rw [if_pos ⟨by omega, h.2⟩]

/-- Witness of C1: four words whose header (type 1) declares 12 words. -/
theorem vrt_parse_packet_einval_witness :
    4 ≤ [htonl 0x1000000C, 0, 0, 0].length ∧
    (wire_header [htonl 0x1000000C, 0, 0, 0]).packet_size_words > 4 ∧
    vrt_parse_packet [htonl 0x1000000C, 0, 0, 0] 4 = .err (-EINVAL) :=
  ⟨by decide, by decide,
    vrt_parse_packet_einval [htonl 0x1000000C, 0, 0, 0] 4 (by decide)
      (Or.inr (Or.inl (by decide)))⟩

/-- C2: on success the header bit-fields are the slices of word 0 decoded from
big-endian, most significant first:
`[packet_type:4][has_class_id:1][has_trailer:1][reserved:2][tsi:2][tsf:2][packet_count:4][packet_size_words:16]`. -/
theorem vrt_parse_packet_header_bits (buf : List Nat) (words : Nat) (pkt : vrt_packet)
    (hw : words ≤ buf.length) (h : vrt_parse_packet buf words = .ok pkt) :
    wire_word buf 0 =
      pkt.header.packet_type * 2 ^ 28 + pkt.header.has_class_id * 2 ^ 27
        + pkt.header.has_trailer * 2 ^ 26 + pkt.header.reserved * 2 ^ 24
        + pkt.header.ts_integer_format * 2 ^ 22 + pkt.header.ts_fractional_format * 2 ^ 20
        + pkt.header.packet_count * 2 ^ 16 + pkt.header.packet_size_words ∧
    pkt.header.packet_type < 2 ^ 4 ∧ pkt.header.has_class_id < 2 ^ 1 ∧
    pkt.header.has_trailer < 2 ^ 1 ∧ pkt.header.reserved < 2 ^ 2 ∧
    pkt.header.ts_integer_format < 2 ^ 2 ∧ pkt.header.ts_fractional_format < 2 ^ 2 ∧
    pkt.header.packet_count < 2 ^ 4 ∧ pkt.header.packet_size_words < 2 ^ 16 := by
  obtain ⟨_, _, _, rfl⟩ := parse_ok_record buf words pkt hw h
  have hlt : ntohl (buf.getD 0 0) < 2 ^ 32 := ntohl_lt _
  show ntohl (buf.getD 0 0) = _ ∧ _
  simp only [parsed_record, vrt_header.packet_type, vrt_header.has_class_id,
    vrt_header.has_trailer, vrt_header.reserved, vrt_header.ts_integer_format,
    vrt_header.ts_fractional_format, vrt_header.packet_count, vrt_header.packet_size_words]
  generalize ntohl (buf.getD 0 0) = w at hlt
  refine ⟨?_, ?_, ?_, ?_, ?_, ?_, ?_, ?_, ?_⟩ <;> omega

/-- Witness of C2: the context packet of the unit test. -/
theorem vrt_parse_packet_header_bits_witness :
    10 ≤ test_context_buf.length ∧
    vrt_parse_packet test_context_buf 10 = .ok test_context_pkt ∧
    wire_word test_context_buf 0 =
      test_context_pkt.header.packet_type * 2 ^ 28
        + test_context_pkt.header.has_class_id * 2 ^ 27
        + test_context_pkt.header.has_trailer * 2 ^ 26
        + test_context_pkt.header.reserved * 2 ^ 24
        + test_context_pkt.header.ts_integer_format * 2 ^ 22
        + test_context_pkt.header.ts_fractional_format * 2 ^ 20
        + test_context_pkt.header.packet_count * 2 ^ 16
        + test_context_pkt.header.packet_size_words :=
  ⟨by decide, by decide,
    (vrt_parse_packet_header_bits test_context_buf 10 test_context_pkt (by decide)
      (by decide)).1⟩

/-- C5 (evaluation at the failing input): a single all-zero word declares a packet of 0
words, less than the header word alone, and is parsed with success; the payload length
is `0 - 1` in `size_t`, that is `2 ^ 64 - 1`. -/
theorem vrt_parse_packet_zero_size :
    (wire_header [0]).packet_size_words = 0 ∧
    vrt_parse_packet [0] 1
      = .ok { vrt_packet.zeroed with payload := some [], payload_words := 2 ^ 64 - 1 } := by
  decide

theorem has_sid_types (h : vrt_header) :
    has_sid h = true ↔ h.packet_type ∈ [1, 3, 4, 5, 6, 7] := by
  simp only [has_sid, VRT_PKT_TYPE_IF_DATA_WITH_SID, VRT_PKT_TYPE_EXT_DATA_WITH_SID,
    VRT_PKT_TYPE_IF_CONTEXT, VRT_PKT_TYPE_EXT_CONTEXT, VRT_PKT_TYPE_COMMAND,
    VRT_PKT_TYPE_EXT_COMMAND, Bool.or_eq_true, beq_iff_eq, List.mem_cons, List.mem_singleton,
    List.mem_nil_iff, or_false, or_assoc]

/-- C3: on success, `has_stream_id` holds exactly for the packet types 1, 3, 4, 5, 6, 7,
`has_class_id` exactly when the C bit is set, `has_timestamp_int` exactly when TSI is not
0, `has_timestamp_frac` exactly when TSF is not 0, `has_trailer` exactly when the T bit is
set; the present fields are the big-endian words that follow the header, in the order
stream identifier, class identifier, integer timestamp, fractional timestamp, the two
64-bit fields being `(w0 << 32) | w1`. -/
theorem vrt_parse_packet_fields (buf : List Nat) (words : Nat) (pkt : vrt_packet)
    (hw : words ≤ buf.length) (h : vrt_parse_packet buf words = .ok pkt) :
    (pkt.has_stream_id = true ↔ pkt.header.packet_type ∈ [1, 3, 4, 5, 6, 7]) ∧
    (pkt.has_class_id = true ↔ pkt.header.has_class_id = 1) ∧
    (pkt.has_timestamp_int = true ↔ pkt.header.ts_integer_format ≠ 0) ∧
    (pkt.has_timestamp_frac = true ↔ pkt.header.ts_fractional_format ≠ 0) ∧
    (pkt.has_trailer = true ↔ pkt.header.has_trailer = 1) ∧
    (pkt.has_stream_id = true → pkt.stream_id = wire_word buf 1) ∧
    (pkt.has_class_id = true →
      pkt.class_id =
        (wire_word buf (1 + (if pkt.has_stream_id then 1 else 0)) <<< 32)
          ||| wire_word buf (1 + (if pkt.has_stream_id then 1 else 0) + 1)) ∧
    (pkt.has_timestamp_int = true →
      pkt.timestamp_int =
        wire_word buf (1 + (if pkt.has_stream_id then 1 else 0)
          + (if pkt.has_class_id then 2 else 0))) ∧
    (pkt.has_timestamp_frac = true →
      pkt.timestamp_frac =
        (wire_word buf (1 + (if pkt.has_stream_id then 1 else 0)
            + (if pkt.has_class_id then 2 else 0)
            + (if pkt.has_timestamp_int then 1 else 0)) <<< 32)
          ||| wire_word buf (1 + (if pkt.has_stream_id then 1 else 0)
            + (if pkt.has_class_id then 2 else 0)
            + (if pkt.has_timestamp_int then 1 else 0) + 1)) := by
  obtain ⟨_, _, _, rfl⟩ := parse_ok_record buf words pkt hw h
  simp only [parsed_record, wire_word, ← ntohl.eq_1]
  have hc : (vrt_header.mk (ntohl (buf.getD 0 0))).has_class_id < 2 := by
    unfold vrt_header.has_class_id; omega
  have ht : (vrt_header.mk (ntohl (buf.getD 0 0))).has_trailer < 2 := by
    unfold vrt_header.has_trailer; omega
  refine ⟨has_sid_types _, ?_, ?_, ?_, ?_, ?_, ?_, ?_, ?_⟩
  · simp only [decide_eq_true_eq]; omega
  · simp only [decide_eq_true_eq, VRT_TSI_NONE]
  · simp only [decide_eq_true_eq, VRT_TSF_NONE]
  · simp only [decide_eq_true_eq]; omega
  · intro hs; rw [if_pos hs]
  · intro hcl
    simp only [decide_eq_true_eq] at hcl
    rw [if_pos hcl]
    rfl
  · intro hi
    simp only [decide_eq_true_eq] at hi
    rw [if_pos hi]
    simp only [sid_words, class_words, decide_eq_true_eq]
  · intro hf
    simp only [decide_eq_true_eq] at hf
    rw [if_pos hf]
    simp only [sid_words, class_words, tsi_words, decide_eq_true_eq]

/-- Witness of C3: the 10-word IF Context packet of the unit test gives stream
identifier 0x12345678, class identifier 0x0012A20000000001 and 6 payload words. -/
theorem vrt_parse_packet_fields_witness :
    10 ≤ test_context_buf.length ∧
    vrt_parse_packet test_context_buf 10 = .ok test_context_pkt ∧
    test_context_pkt.stream_id = 0x12345678 ∧
    test_context_pkt.class_id = 0x0012A20000000001 ∧
    test_context_pkt.payload_words = 6 ∧
    (test_context_pkt.has_stream_id = true →
      test_context_pkt.stream_id = wire_word test_context_buf 1) ∧
    (test_context_pkt.has_class_id = true →
      test_context_pkt.class_id =
        (wire_word test_context_buf (1 + (if test_context_pkt.has_stream_id then 1 else 0))
            <<< 32)
          ||| wire_word test_context_buf
            (1 + (if test_context_pkt.has_stream_id then 1 else 0) + 1)) :=
  ⟨by decide, by decide, rfl, rfl, rfl,
    (vrt_parse_packet_fields test_context_buf 10 test_context_pkt (by decide)
      (by decide)).2.2.2.2.2.1,
    (vrt_parse_packet_fields test_context_buf 10 test_context_pkt (by decide)
      (by decide)).2.2.2.2.2.2.1⟩

/-! ## Statements on the serialiser -/

theorem body_chunks_explicit (pkt : vrt_packet) :
    body_chunks pkt =
      (if pkt.header.packet_type ∈ [1, 3, 4, 5, 6, 7] then [htonl pkt.stream_id] else [])
      ++ (if pkt.header.has_class_id = 1 then
            [htonl (pkt.class_id / 2 ^ 32 % 2 ^ 32), htonl (pkt.class_id % 2 ^ 32)] else [])
      ++ (if pkt.header.ts_integer_format ≠ 0 then [htonl pkt.timestamp_int] else [])
      ++ (if pkt.header.ts_fractional_format ≠ 0 then
            [htonl (pkt.timestamp_frac / 2 ^ 32 % 2 ^ 32), htonl (pkt.timestamp_frac % 2 ^ 32)]
          else [])
      ++ (match pkt.payload with
          | some p => p.take pkt.payload_words
          | none => [])
      ++ (if pkt.header.has_trailer = 1 then [htonl pkt.trailer.word] else []) := by
  have hc : pkt.header.has_class_id < 2 := by unfold vrt_header.has_class_id; omega
  have ht : pkt.header.has_trailer < 2 := by unfold vrt_header.has_trailer; omega
  have e1 : pkt.header.has_class_id ≠ 0 ↔ pkt.header.has_class_id = 1 := by omega
  have e2 : pkt.header.has_trailer ≠ 0 ↔ pkt.header.has_trailer = 1 := by omega
  unfold body_chunks sid_chunk class_chunk tsi_chunk tsf_chunk payload_chunk trailer_chunk
  simp only [shr32, and_low32, Nat.mod_mod, VRT_TSI_NONE, VRT_TSF_NONE]
  rw [if_congr (has_sid_types pkt.header) rfl rfl, if_congr e1 rfl rfl, if_congr e2 rfl rfl]

/-- C8: on success the output is the header word, then the stream identifier if the
packet type is one of 1, 3, 4, 5, 6, 7, the class identifier high word then low word if the
C bit is set, the integer timestamp if TSI is not 0, the fractional timestamp high then low
if TSF is not 0, the `payload_words` payload words as they are if the payload is not null,
and the trailer if the T bit is set; the metadata words are big-endian; the value returned
is the number of these words; the rest of the buffer is untouched; the `has_*` flags of the
record have no influence. -/
theorem vrt_generate_packet_layout (pkt : vrt_packet) (buf : List Nat) (max_words : Nat)
    (n : Int) (out : List Nat) (hpw : 4 * pkt.payload_words < 2 ^ 64)
    (h : vrt_generate_packet pkt buf max_words = .ok (n, out)) :
    out.take n.toNat =
      [htonl (pkt.header.set_packet_size_words n.toNat).word]
      ++ (if pkt.header.packet_type ∈ [1, 3, 4, 5, 6, 7] then [htonl pkt.stream_id] else [])
      ++ (if pkt.header.has_class_id = 1 then
            [htonl (pkt.class_id / 2 ^ 32 % 2 ^ 32), htonl (pkt.class_id % 2 ^ 32)] else [])
      ++ (if pkt.header.ts_integer_format ≠ 0 then [htonl pkt.timestamp_int] else [])
      ++ (if pkt.header.ts_fractional_format ≠ 0 then
            [htonl (pkt.timestamp_frac / 2 ^ 32 % 2 ^ 32), htonl (pkt.timestamp_frac % 2 ^ 32)]
          else [])
      ++ (match pkt.payload with
          | some p => p.take pkt.payload_words
          | none => [])
      ++ (if pkt.header.has_trailer = 1 then [htonl pkt.trailer.word] else []) ∧
    n = ((out.take n.toNat).length : Nat) ∧
    (∀ p, pkt.payload = some p → (p.take pkt.payload_words).length = pkt.payload_words) ∧
    out.drop n.toNat = buf.drop n.toNat ∧
    (∀ v, host_bytes (htonl v) = be_encode v) ∧
    (∀ f1 f2 f3 f4 f5 : Bool,
      vrt_generate_packet
        { pkt with has_stream_id := f1, has_class_id := f2, has_timestamp_int := f3,
                   has_timestamp_frac := f4, has_trailer := f5 } buf max_words
        = vrt_generate_packet pkt buf max_words) := by
  obtain ⟨hn, hL, hout, hr, _⟩ := generate_ok_inv pkt buf max_words n out (by omega) h
  have hbl := body_chunks_length pkt hr
  have hnn : n.toNat = serialised_words pkt := by rw [hn]; exact Int.toNat_natCast _
  have htake : out.take n.toNat
      = htonl (pkt.header.set_packet_size_words n.toNat).word :: body_chunks pkt := by
    rw [hnn, hout, ← hbl, List.take_succ_cons, List.take_left]
  refine ⟨?_, ?_, ?_, ?_, host_bytes_htonl, fun _ _ _ _ _ => rfl⟩
  · rw [htake, body_chunks_explicit]
    simp only [List.singleton_append, List.cons_append, List.append_assoc, List.nil_append]
  · rw [htake, List.length_cons, hbl, hn]
  · intro p hp
    have := payload_chunk_length pkt hr
    unfold payload_chunk payload_count at this
    rw [hp] at this
    exact this
  · rw [hnn, hout, ← hbl, List.drop_succ_cons, List.drop_left]

/-- Witness of C8: the record of the unit test is serialised to 8 words. -/
theorem vrt_generate_packet_layout_witness :
    4 * test_data_pkt.payload_words < 2 ^ 64 ∧
    vrt_generate_packet test_data_pkt (List.replicate 10 0) 10
      = .ok (8, [htonl 0x14600008, htonl 0x87654321, htonl 1000000, htonl 0, htonl 2000000,
                 0xDEADBEEF, 0xCAFEBABE, htonl 0x80, 0, 0]) ∧
    ((8 : Int) = (([htonl 0x14600008, htonl 0x87654321, htonl 1000000, htonl 0,
        htonl 2000000, 0xDEADBEEF, 0xCAFEBABE, htonl 0x80, 0, 0].take
          (8 : Int).toNat).length : Nat)) :=
  ⟨by decide, by decide,
    (vrt_generate_packet_layout test_data_pkt (List.replicate 10 0) 10 8
      [htonl 0x14600008, htonl 0x87654321, htonl 1000000, htonl 0, htonl 2000000,
       0xDEADBEEF, 0xCAFEBABE, htonl 0x80, 0, 0] (by decide) (by decide)).2.1⟩

/-- C10 (evaluation at the failing input): the header-only record needs 1 word; with
`max_words = 0` the serialiser writes word 0 all the same and returns 1, and with a
buffer of no words the write falls outside of it. -/
theorem vrt_generate_packet_no_room :
    serialised_words header_only_pkt = 1 ∧
    vrt_generate_packet header_only_pkt [0xFFFFFFFF] 0 = .ok (1, [htonl 1]) ∧
    vrt_generate_packet header_only_pkt [] 0 = .fault := by
  decide

/-- C6 (evaluation at the failing input): the record parsed from a single all-zero word
has `payload_words = 2 ^ 64 - 1`; the serialiser's bound check wraps around and its copy
of the payload leaves the buffers, whatever room the output buffer has. -/
theorem parse_generate_zero_size :
    vrt_parse_packet [0] 1
      = .ok { vrt_packet.zeroed with payload := some [], payload_words := 2 ^ 64 - 1 } ∧
    vrt_generate_packet
      { vrt_packet.zeroed with payload := some [], payload_words := 2 ^ 64 - 1 } [0] 1
      = .fault ∧
    vrt_generate_packet
      { vrt_packet.zeroed with payload := some [], payload_words := 2 ^ 64 - 1 }
      [0, 0, 0, 0, 0, 0, 0, 0] 8 = .fault := by
  decide

/-- C9 (evaluation at the failing input): a record with 65535 payload words is
serialised to 65536 words, the value returned, while the size field of the generated
header is 0. -/
theorem vrt_generate_packet_size_wraps :
    ∃ out, vrt_generate_packet oversize_pkt (List.replicate 65536 0) 65536
        = .ok (65536, out) ∧
      (wire_header out).packet_size_words = 0 := by
  have hr : payload_readable oversize_pkt = true := by
    simp only [payload_readable, oversize_pkt, List.length_replicate, le_refl, decide_True]
  have hs : serialised_words oversize_pkt = 65536 := by decide
  have hp : oversize_pkt.payload_words < 2 ^ 62 := by
    show 65535 < 2 ^ 62
    norm_num
  have h := generate_closed oversize_pkt (List.replicate 65536 0) 65536 (by norm_num)
    (by rw [List.length_replicate]) (by norm_num) hp hr
  rw [hs, if_neg (by norm_num)] at h
  refine ⟨_, h, ?_⟩
  simp only [wire_header, List.getD_cons_zero, ntohl_htonl]
  decide

/-! ## Round trips between parser and serialiser -/

theorem drop_after (L A R : List Nat) (i : Nat) (h : L.drop i = A ++ R) :
    L.drop (i + A.length) = R := by
  rw [← List.drop_drop, h, List.drop_left]

theorem getD_of_drop_cons (L R : List Nat) (i x : Nat) (h : L.drop i = x :: R) :
    L.getD i 0 = x := by
  have : (L.drop i)[0]? = some x := by rw [h]; simp
  rw [List.getElem?_drop] at this
  simp only [Nat.add_zero] at this
  simp [List.getD, this]

theorem getD_of_drop_cons2 (L R : List Nat) (i x y : Nat) (h : L.drop i = x :: y :: R) :
    L.getD (i + 1) 0 = y := by
  have : (L.drop i)[1]? = some y := by rw [h]; simp
  rw [List.getElem?_drop] at this
  simp [List.getD, this]

theorem drop_one_getD (L : List Nat) (i : Nat) (hi : i < L.length) :
    L.drop i = L.getD i 0 :: L.drop (i + 1) := by
  rw [List.drop_eq_getElem_cons hi]
  simp [List.getD, List.getElem?_eq_getElem hi]

theorem take_one_drop (L : List Nat) (i : Nat) (hi : i < L.length) :
    (L.drop i).take 1 = [L.getD i 0] := by
  rw [drop_one_getD L i hi]; rfl

theorem take_two_drop (L : List Nat) (i : Nat) (hi : i + 1 < L.length) :
    (L.drop i).take 2 = [L.getD i 0, L.getD (i + 1) 0] := by
  rw [drop_one_getD L i (by omega), drop_one_getD L (i + 1) hi]; rfl

theorem take_drop_append (L : List Nat) (i a b : Nat) :
    (L.drop i).take a ++ (L.drop (i + a)).take b = (L.drop i).take (a + b) := by
  rw [List.take_add, List.drop_drop]

theorem getD_lt_of_all (L : List Nat) (hb : ∀ x ∈ L, x < 2 ^ 32) (i : Nat) :
    L.getD i 0 < 2 ^ 32 := by
  by_cases hi : i < L.length
  · have : L.getD i 0 = L[i] := by simp [List.getD, List.getElem?_eq_getElem hi]
    rw [this]
    exact hb _ (List.getElem_mem hi)
  · have : L.getD i 0 = 0 := by
      simp [List.getD, List.getElem?_eq_none (by omega : L.length ≤ i)]
    rw [this]; norm_num

theorem htonl_ntohl_getD (L : List Nat) (hb : ∀ x ∈ L, x < 2 ^ 32) (i : Nat) :
    htonl (ntohl (L.getD i 0)) = L.getD i 0 := by
  rw [htonl_ntohl, Nat.mod_eq_of_lt (getD_lt_of_all L hb i)]

theorem take_drop_at (L : List Nat) (i a b j : Nat) (hj : j = i + a) :
    (L.drop i).take a ++ (L.drop j).take b = (L.drop i).take (a + b) := by
  subst hj
  exact take_drop_append L i a b

theorem parsed_fits (buf : List Nat)
    (hS1 : 1 ≤ (wire_header buf).packet_size_words)
    (hopt : optional_words (wire_header buf) = 0
      ∨ 1 + optional_words (wire_header buf) ≤ (wire_header buf).packet_size_words) :
    meta_words (wire_header buf) + trailer_words (wire_header buf)
      ≤ (wire_header buf).packet_size_words := by
  unfold optional_words at hopt
  unfold meta_words
  omega

theorem parsed_payload_words (buf : List Nat)
    (hm : meta_words (wire_header buf) + trailer_words (wire_header buf)
      ≤ (wire_header buf).packet_size_words) :
    (parsed_record buf).payload_words
      = (wire_header buf).packet_size_words - meta_words (wire_header buf)
          - trailer_words (wire_header buf) := by
  have hlt : (wire_header buf).packet_size_words < 2 ^ 16 := by
    unfold vrt_header.packet_size_words; omega
  show size_sub (size_sub (wire_header buf).packet_size_words (meta_words (wire_header buf)))
      (trailer_words (wire_header buf)) = _
  unfold size_sub SIZE_MOD
  omega

theorem parsed_sid_chunk (buf : List Nat) (hb : ∀ x ∈ buf, x < 2 ^ 32)
    (hL : 1 + sid_words (wire_header buf) ≤ buf.length) :
    sid_chunk (parsed_record buf) = (buf.drop 1).take (sid_words (wire_header buf)) := by
  show (if has_sid (wire_header buf) = true then
      [htonl (if has_sid (wire_header buf) = true then ntohl (buf.getD 1 0) else 0)] else []) = _
  unfold sid_words at hL ⊢
  by_cases c : has_sid (wire_header buf) = true
  · simp only [c, if_true] at hL ⊢
    rw [htonl_ntohl_getD buf hb, take_one_drop buf 1 (by omega)]
  · simp only [c, if_false, Bool.false_eq_true, List.take_zero]

theorem parsed_class_chunk (buf : List Nat) (hb : ∀ x ∈ buf, x < 2 ^ 32) (i : Nat)
    (hi : i = 1 + sid_words (wire_header buf))
    (hL : i + class_words (wire_header buf) ≤ buf.length) :
    class_chunk (parsed_record buf) = (buf.drop i).take (class_words (wire_header buf)) := by
  subst hi
  show (if (wire_header buf).has_class_id ≠ 0 then
      [htonl (((parsed_record buf).class_id >>> 32) % 2 ^ 32),
       htonl (((parsed_record buf).class_id &&& 0xFFFFFFFF) % 2 ^ 32)] else []) = _
  unfold class_words at hL ⊢
  by_cases c : (wire_header buf).has_class_id ≠ 0
  · rw [if_pos c] at hL
    rw [if_pos c, if_pos c]
    have hv : (parsed_record buf).class_id
        = (ntohl (buf.getD (1 + sid_words (wire_header buf)) 0) <<< 32)
          ||| ntohl (buf.getD (1 + sid_words (wire_header buf) + 1) 0) := by
      show (if (wire_header buf).has_class_id ≠ 0 then _ else _) = _
      rw [if_pos c]; rfl
    obtain ⟨e1, e2⟩ := split_join _ _ (ntohl_lt (buf.getD (1 + sid_words (wire_header buf)) 0))
      (ntohl_lt (buf.getD (1 + sid_words (wire_header buf) + 1) 0))
    rw [hv, e1, e2, htonl_ntohl_getD buf hb, htonl_ntohl_getD buf hb,
      take_two_drop buf _ (by omega)]
  · rw [if_neg c, if_neg c]; rfl

theorem parsed_tsi_chunk (buf : List Nat) (hb : ∀ x ∈ buf, x < 2 ^ 32) (i : Nat)
    (hi : i = 1 + sid_words (wire_header buf) + class_words (wire_header buf))
    (hL : i + tsi_words (wire_header buf) ≤ buf.length) :
    tsi_chunk (parsed_record buf) = (buf.drop i).take (tsi_words (wire_header buf)) := by
  subst hi
  show (if (wire_header buf).ts_integer_format ≠ VRT_TSI_NONE then
      [htonl (parsed_record buf).timestamp_int] else []) = _
  unfold tsi_words at hL ⊢
  by_cases c : (wire_header buf).ts_integer_format ≠ VRT_TSI_NONE
  · rw [if_pos c] at hL
    rw [if_pos c, if_pos c]
    have hv : (parsed_record buf).timestamp_int
        = ntohl (buf.getD (1 + sid_words (wire_header buf) + class_words (wire_header buf)) 0)
        := by
      show (if (wire_header buf).ts_integer_format ≠ VRT_TSI_NONE then _ else _) = _
      rw [if_pos c]; rfl
    rw [hv, htonl_ntohl_getD buf hb, take_one_drop buf _ (by omega)]
  · rw [if_neg c, if_neg c]; rfl

theorem parsed_tsf_chunk (buf : List Nat) (hb : ∀ x ∈ buf, x < 2 ^ 32) (i : Nat)
    (hi : i = 1 + sid_words (wire_header buf) + class_words (wire_header buf)
      + tsi_words (wire_header buf))
    (hL : i + tsf_words (wire_header buf) ≤ buf.length) :
    tsf_chunk (parsed_record buf) = (buf.drop i).take (tsf_words (wire_header buf)) := by
  subst hi
  show (if (wire_header buf).ts_fractional_format ≠ VRT_TSF_NONE then
      [htonl (((parsed_record buf).timestamp_frac >>> 32) % 2 ^ 32),
       htonl (((parsed_record buf).timestamp_frac &&& 0xFFFFFFFF) % 2 ^ 32)] else []) = _
  unfold tsf_words at hL ⊢
  by_cases c : (wire_header buf).ts_fractional_format ≠ VRT_TSF_NONE
  · rw [if_pos c] at hL
    rw [if_pos c, if_pos c]
    have hv : (parsed_record buf).timestamp_frac
        = (ntohl (buf.getD (1 + sid_words (wire_header buf) + class_words (wire_header buf)
              + tsi_words (wire_header buf)) 0) <<< 32)
          ||| ntohl (buf.getD (1 + sid_words (wire_header buf) + class_words (wire_header buf)
              + tsi_words (wire_header buf) + 1) 0) := by
      show (if (wire_header buf).ts_fractional_format ≠ VRT_TSF_NONE then _ else _) = _
      rw [if_pos c]; rfl
    obtain ⟨e1, e2⟩ := split_join _ _
      (ntohl_lt (buf.getD (1 + sid_words (wire_header buf) + class_words (wire_header buf)
              + tsi_words (wire_header buf)) 0))
      (ntohl_lt (buf.getD (1 + sid_words (wire_header buf) + class_words (wire_header buf)
              + tsi_words (wire_header buf) + 1) 0))
    rw [hv, e1, e2, htonl_ntohl_getD buf hb, htonl_ntohl_getD buf hb,
      take_two_drop buf _ (by omega)]
  · rw [if_neg c, if_neg c]; rfl

theorem parsed_trailer_chunk (buf : List Nat) (hb : ∀ x ∈ buf, x < 2 ^ 32) (i : Nat)
    (hi : i + trailer_words (wire_header buf) = (wire_header buf).packet_size_words)
    (hL : (wire_header buf).packet_size_words ≤ buf.length) :
    trailer_chunk (parsed_record buf)
      = (buf.drop i).take (trailer_words (wire_header buf)) := by
  show (if (wire_header buf).has_trailer ≠ 0 then
      [htonl (parsed_record buf).trailer.word] else []) = _
  unfold trailer_words at hi ⊢
  by_cases c : (wire_header buf).has_trailer ≠ 0
  · rw [if_pos c] at hi
    rw [if_pos c, if_pos c]
    have hv : (parsed_record buf).trailer
        = { word := ntohl (buf.getD ((wire_header buf).packet_size_words - 1) 0) } := by
      show (if (wire_header buf).has_trailer ≠ 0 then _ else _) = _
      rw [if_pos c]; rfl
    have e : (wire_header buf).packet_size_words - 1 = i := by omega
    rw [hv, e, htonl_ntohl_getD buf hb, take_one_drop buf _ (by omega)]
  · rw [if_neg c, if_neg c]; rfl

theorem parsed_payload_chunk (buf : List Nat) :
    payload_chunk (parsed_record buf)
      = (buf.drop (meta_words (wire_header buf))).take (parsed_record buf).payload_words :=
  rfl

theorem parsed_body_chunks (buf : List Nat) (hb : ∀ x ∈ buf, x < 2 ^ 32)
    (hS1 : 1 ≤ (wire_header buf).packet_size_words)
    (hSL : (wire_header buf).packet_size_words ≤ buf.length)
    (hopt : optional_words (wire_header buf) = 0
      ∨ 1 + optional_words (wire_header buf) ≤ (wire_header buf).packet_size_words) :
    body_chunks (parsed_record buf)
      = (buf.drop 1).take ((wire_header buf).packet_size_words - 1) ∧
    serialised_words (parsed_record buf) = (wire_header buf).packet_size_words ∧
    payload_readable (parsed_record buf) = true := by
  have hm := parsed_fits buf hS1 hopt
  have hpw := parsed_payload_words buf hm
  have hmeta : meta_words (wire_header buf) = 1 + sid_words (wire_header buf)
      + class_words (wire_header buf) + tsi_words (wire_header buf)
      + tsf_words (wire_header buf) := rfl
  refine ⟨?_, ?_, ?_⟩
  · unfold body_chunks
    rw [parsed_sid_chunk buf hb (by omega),
      parsed_class_chunk buf hb _ rfl (by omega),
      parsed_tsi_chunk buf hb _ rfl (by omega),
      parsed_tsf_chunk buf hb _ rfl (by omega),
      parsed_payload_chunk buf,
      parsed_trailer_chunk buf hb (meta_words (wire_header buf)
        + (parsed_record buf).payload_words) (by omega) hSL,
      take_drop_at buf 1 _ _ _ rfl, take_drop_at buf 1 _ _ _ (by omega),
      take_drop_at buf 1 _ _ _ (by omega), take_drop_at buf 1 _ _ _ (by omega),
      take_drop_at buf 1 _ _ _ (by omega)]
    congr 1
    omega
  · show meta_words (wire_header buf) + (parsed_record buf).payload_words
      + trailer_words (wire_header buf) = _
    omega
  · show decide ((parsed_record buf).payload_words
        ≤ (buf.drop (meta_words (wire_header buf))).length) = true
    rw [decide_eq_true_eq, List.length_drop]
    omega

theorem parsed_header_word (buf : List Nat) (hb : ∀ x ∈ buf, x < 2 ^ 32) :
    htonl ((parsed_record buf).header.set_packet_size_words
      (wire_header buf).packet_size_words).word = buf.getD 0 0 := by
  show htonl ((wire_header buf).set_packet_size_words
      (wire_header buf).packet_size_words).word = _
  have e : ((wire_header buf).set_packet_size_words
      (wire_header buf).packet_size_words).word = ntohl (buf.getD 0 0) := by
    simp only [vrt_header.set_packet_size_words, vrt_header.packet_size_words, wire_header]
    omega
  rw [e, htonl_ntohl_getD buf hb]

/-- Serialising a parsed record of declared size at least 1 writes the words of the
packet it was parsed from. -/
theorem parse_generate_general (buf : List Nat) (words : Nat) (pkt : vrt_packet)
    (out : List Nat) (max_words : Nat)
    (hb : ∀ x ∈ buf, x < 2 ^ 32) (hw : words ≤ buf.length)
    (hparse : vrt_parse_packet buf words = .ok pkt)
    (hS1 : 1 ≤ pkt.header.packet_size_words)
    (hmw : pkt.header.packet_size_words ≤ max_words) (hcap : max_words ≤ out.length)
    (hmax : max_words < 2 ^ 64) :
    vrt_generate_packet pkt out max_words
      = .ok (((pkt.header.packet_size_words : Nat) : Int),
          buf.take pkt.header.packet_size_words ++ out.drop pkt.header.packet_size_words) := by
  obtain ⟨_, hSw, hopt, rfl⟩ := parse_ok_record buf words pkt hw hparse
  change 1 ≤ (wire_header buf).packet_size_words at hS1
  change (wire_header buf).packet_size_words ≤ max_words at hmw
  show _ = Outcome.ok ((((wire_header buf).packet_size_words : Nat) : Int),
    buf.take (wire_header buf).packet_size_words ++ out.drop (wire_header buf).packet_size_words)
  obtain ⟨hbody, hser, hrd⟩ := parsed_body_chunks buf hb hS1 (by omega) hopt
  have hpw : (parsed_record buf).payload_words < 2 ^ 62 := by
    rw [parsed_payload_words buf (parsed_fits buf hS1 hopt)]
    have : (wire_header buf).packet_size_words < 2 ^ 16 := by
      unfold vrt_header.packet_size_words; omega
    omega
  rw [generate_closed (parsed_record buf) out max_words (by omega) hcap hmax hpw hrd, hser,
    if_neg (by omega), hbody, parsed_header_word buf hb]
  congr 2
  have hb0 : buf = buf.getD 0 0 :: buf.drop 1 := by
    have := drop_one_getD buf 0 (by omega)
    simpa using this
  have e : (wire_header buf).packet_size_words
      = ((wire_header buf).packet_size_words - 1) + 1 := by omega
  generalize (wire_header buf).packet_size_words - 1 = k at e
  rw [e]
  conv_rhs => rw [hb0]
  rw [List.take_succ_cons]
  simp

/-- C7: a buffer parsed with success as an IF Data packet with stream identifier (type 1)
or as an IF Context packet (type 4), of declared size `S`, is serialised again, with
`max_words` at least `S`, to `S` words that are the first `S` words of the buffer; the
words of the output buffer from `S` on are not touched. -/
theorem parse_generate_identical (buf : List Nat) (words : Nat) (pkt : vrt_packet)
    (out : List Nat) (max_words : Nat)
    (hb : ∀ x ∈ buf, x < 2 ^ 32) (hw : words ≤ buf.length)
    (hparse : vrt_parse_packet buf words = .ok pkt)
    (htype : pkt.header.packet_type = VRT_PKT_TYPE_IF_DATA_WITH_SID
      ∨ pkt.header.packet_type = VRT_PKT_TYPE_IF_CONTEXT)
    (hmw : pkt.header.packet_size_words ≤ max_words) (hcap : max_words ≤ out.length)
    (hmax : max_words < 2 ^ 64) :
    ∃ out', vrt_generate_packet pkt out max_words
        = .ok (((pkt.header.packet_size_words : Nat) : Int), out') ∧
      out'.take pkt.header.packet_size_words = buf.take pkt.header.packet_size_words ∧
      out'.drop pkt.header.packet_size_words = out.drop pkt.header.packet_size_words := by
  have hS1 : 1 ≤ pkt.header.packet_size_words := by
    obtain ⟨_, _, hopt, hp⟩ := parse_ok_record buf words pkt hw hparse
    have hh : pkt.header = wire_header buf := by rw [hp]; rfl
    have hs : has_sid pkt.header = true := by
      unfold has_sid
      rcases htype with h | h <;> rw [h] <;> decide
    have : sid_words pkt.header = 1 := (has_sid_iff _).1 hs
    rw [← hh] at hopt
    unfold optional_words at hopt
    omega
  have hlen : (buf.take pkt.header.packet_size_words).length = pkt.header.packet_size_words := by
    obtain ⟨_, hSw, _, hp⟩ := parse_ok_record buf words pkt hw hparse
    have hh : pkt.header = wire_header buf := by rw [hp]; rfl
    rw [List.length_take, hh]
    omega
  refine ⟨_, parse_generate_general buf words pkt out max_words hb hw hparse hS1 hmw hcap hmax,
    ?_, ?_⟩
  · exact List.take_left' hlen
  · exact List.drop_left' hlen

theorem reparsed_header (h : vrt_header) (N : Nat) (hN : N ≤ 65535) :
    (vrt_header.mk (ntohl (htonl (h.set_packet_size_words N).word))).packet_type
        = h.packet_type ∧
    (vrt_header.mk (ntohl (htonl (h.set_packet_size_words N).word))).has_class_id
        = h.has_class_id ∧
    (vrt_header.mk (ntohl (htonl (h.set_packet_size_words N).word))).has_trailer
        = h.has_trailer ∧
    (vrt_header.mk (ntohl (htonl (h.set_packet_size_words N).word))).reserved
        = h.reserved ∧
    (vrt_header.mk (ntohl (htonl (h.set_packet_size_words N).word))).ts_integer_format
        = h.ts_integer_format ∧
    (vrt_header.mk (ntohl (htonl (h.set_packet_size_words N).word))).ts_fractional_format
        = h.ts_fractional_format ∧
    (vrt_header.mk (ntohl (htonl (h.set_packet_size_words N).word))).packet_count
        = h.packet_count ∧
    (vrt_header.mk (ntohl (htonl (h.set_packet_size_words N).word))).packet_size_words
        = N := by
  rw [ntohl_htonl]
  simp only [vrt_header.set_packet_size_words, vrt_header.packet_type,
    vrt_header.has_class_id, vrt_header.has_trailer, vrt_header.reserved,
    vrt_header.ts_integer_format, vrt_header.ts_fractional_format, vrt_header.packet_count,
    vrt_header.packet_size_words]
  generalize h.word = w
  refine ⟨?_, ?_, ?_, ?_, ?_, ?_, ?_, ?_⟩ <;> omega

theorem has_sid_congr (h h' : vrt_header) (e : h'.packet_type = h.packet_type) :
    has_sid h' = has_sid h := by
  unfold has_sid; rw [e]

theorem sid_words_congr (h h' : vrt_header) (e : h'.packet_type = h.packet_type) :
    sid_words h' = sid_words h := by
  unfold sid_words; rw [has_sid_congr h h' e]

theorem class_words_congr (h h' : vrt_header) (e : h'.has_class_id = h.has_class_id) :
    class_words h' = class_words h := by
  unfold class_words; rw [e]

theorem tsi_words_congr (h h' : vrt_header) (e : h'.ts_integer_format = h.ts_integer_format) :
    tsi_words h' = tsi_words h := by
  unfold tsi_words; rw [e]

theorem tsf_words_congr (h h' : vrt_header)
    (e : h'.ts_fractional_format = h.ts_fractional_format) :
    tsf_words h' = tsf_words h := by
  unfold tsf_words; rw [e]

theorem trailer_words_congr (h h' : vrt_header) (e : h'.has_trailer = h.has_trailer) :
    trailer_words h' = trailer_words h := by
  unfold trailer_words; rw [e]

theorem payload_count_eq (pkt : vrt_packet) (hpay : 0 < pkt.payload_words → pkt.payload ≠ none) :
    payload_count pkt = pkt.payload_words := by
  unfold payload_count
  cases hp : pkt.payload with
  | some p => rfl
  | none =>
    by_cases h0 : 0 < pkt.payload_words
    · exact absurd hp (hpay h0)
    · simp only; omega

/-- C4: when `vrt_generate_packet` succeeds on a record whose fields fit their C types,
whose payload is not null when `payload_words > 0`, and whose serialised length is at
most 65535 words, parsing the generated words succeeds and gives back the packet type,
the class and trailer flags, the TSI and TSF formats, the packet count, every field the
header declares (stream identifier, class identifier, both timestamps, the trailer
word), `payload_words` and the payload words. -/
theorem generate_parse_roundtrip (pkt : vrt_packet) (buf : List Nat) (max_words : Nat)
    (n : Int) (out : List Nat)
    (hsid : pkt.stream_id < 2 ^ 32) (hcid : pkt.class_id < 2 ^ 64)
    (htsi : pkt.timestamp_int < 2 ^ 32) (htsf : pkt.timestamp_frac < 2 ^ 64)
    (htr : pkt.trailer.word < 2 ^ 32)
    (hpay : 0 < pkt.payload_words → pkt.payload ≠ none)
    (hfit : serialised_words pkt ≤ 65535)
    (hgen : vrt_generate_packet pkt buf max_words = .ok (n, out)) :
    ∃ q, vrt_parse_packet out n.toNat = .ok q ∧
      q.header.packet_type = pkt.header.packet_type ∧
      q.header.has_class_id = pkt.header.has_class_id ∧
      q.header.has_trailer = pkt.header.has_trailer ∧
      q.header.ts_integer_format = pkt.header.ts_integer_format ∧
      q.header.ts_fractional_format = pkt.header.ts_fractional_format ∧
      q.header.packet_count = pkt.header.packet_count ∧
      (has_sid pkt.header = true → q.stream_id = pkt.stream_id) ∧
      (pkt.header.has_class_id ≠ 0 → q.class_id = pkt.class_id) ∧
      (pkt.header.ts_integer_format ≠ VRT_TSI_NONE → q.timestamp_int = pkt.timestamp_int) ∧
      (pkt.header.ts_fractional_format ≠ VRT_TSF_NONE →
        q.timestamp_frac = pkt.timestamp_frac) ∧
      (pkt.header.has_trailer ≠ 0 → q.trailer = pkt.trailer) ∧
      q.payload_words = pkt.payload_words ∧
      (∀ p, pkt.payload = some p →
        ∃ p', q.payload = some p' ∧
          p'.take pkt.payload_words = p.take pkt.payload_words ∧
          (p.take pkt.payload_words).length = pkt.payload_words) := by
  have hpc := payload_count_eq pkt hpay
  have hpw : pkt.payload_words < 2 ^ 62 := by
    unfold serialised_words at hfit; omega
  obtain ⟨hn, hL, hout, hr, _⟩ := generate_ok_inv pkt buf max_words n out hpw hgen
  have hbl := body_chunks_length pkt hr
  have hplen := payload_chunk_length pkt hr
  have hnn : n.toNat = serialised_words pkt := by rw [hn]; exact Int.toNat_natCast _
  rw [hnn]
  obtain ⟨e1, e2, e3, _, e5, e6, e7, e8⟩ :=
    reparsed_header pkt.header (serialised_words pkt) hfit
  have hw0 : out.getD 0 0
      = htonl (pkt.header.set_packet_size_words (serialised_words pkt)).word := by
    rw [hout]; rfl
  have hwh : wire_header out = vrt_header.mk (ntohl (htonl
      (pkt.header.set_packet_size_words (serialised_words pkt)).word)) := by
    unfold wire_header; rw [hw0]
  rw [← hwh] at e1 e2 e3 e5 e6 e7 e8
  have s1 := sid_words_congr _ _ e1
  have s2 := class_words_congr _ _ e2
  have s3 := tsi_words_congr _ _ e5
  have s4 := tsf_words_congr _ _ e6
  have s5 := trailer_words_congr _ _ e3
  have hlen : out.length = buf.length := by
    rw [hout, List.length_cons, List.length_append, List.length_drop]; omega
  have hmeta : meta_words (wire_header out) = meta_words pkt.header := by
    unfold meta_words; rw [s1, s2, s3, s4]
  have hoptw : optional_words (wire_header out) = optional_words pkt.header := by
    unfold optional_words; rw [s1, s2, s3, s4, s5]
  have hser : serialised_words pkt
      = meta_words pkt.header + pkt.payload_words + trailer_words pkt.header := by
    unfold serialised_words; rw [hpc]
  have hparse := parse_closed_form out (serialised_words pkt) (by omega)
  have hm1 : 1 ≤ meta_words pkt.header := by unfold meta_words; omega
  rw [if_neg (by omega)] at hparse
  change vrt_parse_packet out (serialised_words pkt) =
    (if (wire_header out).packet_size_words > serialised_words pkt then .err (-EINVAL)
    else if optional_words (wire_header out) ≠ 0 ∧
      (wire_header out).packet_size_words < 1 + optional_words (wire_header out) then
        .err (-EINVAL)
    else .ok (parsed_record out)) at hparse
  rw [e8, if_neg (by omega), hoptw, if_neg (by
    unfold optional_words meta_words at *; omega)] at hparse
  -- layout of the generated words
  have d1 : out.drop 1 = sid_chunk pkt ++ (class_chunk pkt ++ (tsi_chunk pkt ++
      (tsf_chunk pkt ++ (payload_chunk pkt ++ (trailer_chunk pkt
        ++ buf.drop (serialised_words pkt)))))) := by
    rw [hout]
    simp only [List.drop_succ_cons, List.drop_zero, body_chunks, List.append_assoc]
  have d2 := drop_after _ _ _ _ d1
  have d3 := drop_after _ _ _ _ d2
  have d4 := drop_after _ _ _ _ d3
  have d5 := drop_after _ _ _ _ d4
  have d6 := drop_after _ _ _ _ d5
  rw [sid_chunk_length] at d2 d3 d4 d5 d6
  rw [class_chunk_length] at d3 d4 d5 d6
  rw [tsi_chunk_length] at d4 d5 d6
  rw [tsf_chunk_length] at d5 d6
  rw [hplen, hpc] at d6
  refine ⟨parsed_record out, hparse, e1, e2, e3, e5, e6, e7, ?_, ?_, ?_, ?_, ?_, ?_, ?_⟩
  · intro hs
    show (if has_sid (wire_header out) = true then ntohl (out.getD 1 0) else 0) = _
    rw [has_sid_congr _ _ e1, if_pos hs]
    have : sid_chunk pkt = [htonl pkt.stream_id] := by unfold sid_chunk; rw [if_pos hs]
    rw [this] at d1
    rw [getD_of_drop_cons out _ 1 _ d1, ntohl_htonl, Nat.mod_eq_of_lt hsid]
  · intro hc
    show (if (wire_header out).has_class_id ≠ 0 then
      (ntohl (out.getD (1 + sid_words (wire_header out)) 0) <<< 32)
        ||| ntohl (out.getD (1 + sid_words (wire_header out) + 1) 0) else 0) = _
    rw [e2, if_pos hc, s1]
    have : class_chunk pkt = [htonl ((pkt.class_id >>> 32) % 2 ^ 32),
        htonl ((pkt.class_id &&& 0xFFFFFFFF) % 2 ^ 32)] := by
      unfold class_chunk; rw [if_pos hc]
    rw [this] at d2
    rw [getD_of_drop_cons out _ _ _ d2, getD_of_drop_cons2 out _ _ _ _ d2]
    exact join_split pkt.class_id hcid
  · intro hi
    show (if (wire_header out).ts_integer_format ≠ VRT_TSI_NONE then
      ntohl (out.getD (1 + sid_words (wire_header out) + class_words (wire_header out)) 0)
      else 0) = _
    rw [e5, if_pos hi, s1, s2]
    have : tsi_chunk pkt = [htonl pkt.timestamp_int] := by unfold tsi_chunk; rw [if_pos hi]
    rw [this] at d3
    rw [getD_of_drop_cons out _ _ _ d3, ntohl_htonl, Nat.mod_eq_of_lt htsi]
  · intro hf
    show (if (wire_header out).ts_fractional_format ≠ VRT_TSF_NONE then
      (ntohl (out.getD (1 + sid_words (wire_header out) + class_words (wire_header out)
          + tsi_words (wire_header out)) 0) <<< 32)
        ||| ntohl (out.getD (1 + sid_words (wire_header out) + class_words (wire_header out)
          + tsi_words (wire_header out) + 1) 0) else 0) = _
    rw [e6, if_pos hf, s1, s2, s3]
    have : tsf_chunk pkt = [htonl ((pkt.timestamp_frac >>> 32) % 2 ^ 32),
        htonl ((pkt.timestamp_frac &&& 0xFFFFFFFF) % 2 ^ 32)] := by
      unfold tsf_chunk; rw [if_pos hf]
    rw [this] at d4
    rw [getD_of_drop_cons out _ _ _ d4, getD_of_drop_cons2 out _ _ _ _ d4]
    exact join_split pkt.timestamp_frac htsf
  · intro ht
    show (if (wire_header out).has_trailer ≠ 0 then
      vrt_trailer.mk (ntohl (out.getD ((wire_header out).packet_size_words - 1) 0))
      else { word := 0 }) = _
    rw [e3, if_pos ht, e8]
    have : trailer_chunk pkt = [htonl pkt.trailer.word] := by
      unfold trailer_chunk; rw [if_pos ht]
    rw [this] at d6
    have ht1 : trailer_words pkt.header = 1 := (trailer_flag_iff _).1 ht
    have ei : serialised_words pkt - 1
        = 1 + sid_words pkt.header + class_words pkt.header + tsi_words pkt.header
          + tsf_words pkt.header + pkt.payload_words := by
      rw [hser]; unfold meta_words; omega
    rw [ei, getD_of_drop_cons out _ _ _ d6, ntohl_htonl, Nat.mod_eq_of_lt htr]
  · show size_sub (size_sub (wire_header out).packet_size_words (meta_words (wire_header out)))
      (trailer_words (wire_header out)) = _
    rw [e8, hmeta, s5, hser]
    have b5 := trailer_words_le pkt.header
    rw [hser] at hfit
    unfold size_sub SIZE_MOD
    omega
  · intro p hp
    refine ⟨out.drop (meta_words (wire_header out)), rfl, ?_, ?_⟩
    · rw [hmeta]
      unfold meta_words
      rw [d5]
      have hpc' : payload_chunk pkt = p.take pkt.payload_words := by
        unfold payload_chunk; rw [hp]
      have hl : (payload_chunk pkt).length = pkt.payload_words := by rw [hplen, hpc]
      rw [← hpc']
      exact List.take_left' hl
    · have hl : (payload_chunk pkt).length = pkt.payload_words := by rw [hplen, hpc]
      unfold payload_chunk at hl
      rw [hp] at hl
      exact hl

/-- Witness of C4: the IF Data record of the unit test, 8 words. -/
theorem generate_parse_roundtrip_witness :
    test_data_pkt.stream_id < 2 ^ 32 ∧ test_data_pkt.class_id < 2 ^ 64 ∧
    test_data_pkt.timestamp_int < 2 ^ 32 ∧ test_data_pkt.timestamp_frac < 2 ^ 64 ∧
    test_data_pkt.trailer.word < 2 ^ 32 ∧
    serialised_words test_data_pkt ≤ 65535 ∧
    vrt_generate_packet test_data_pkt (List.replicate 10 0) 10
      = .ok (8, [htonl 0x14600008, htonl 0x87654321, htonl 1000000, htonl 0, htonl 2000000,
                 0xDEADBEEF, 0xCAFEBABE, htonl 0x80, 0, 0]) ∧
    ∃ q, vrt_parse_packet [htonl 0x14600008, htonl 0x87654321, htonl 1000000, htonl 0,
          htonl 2000000, 0xDEADBEEF, 0xCAFEBABE, htonl 0x80, 0, 0] (8 : Int).toNat = .ok q ∧
      q.stream_id = 0x87654321 ∧ q.timestamp_int = 1000000 ∧ q.timestamp_frac = 2000000 ∧
      q.payload_words = 2 ∧ q.trailer.context_packet_count_enable = 1 := by
  refine ⟨by decide, by decide, by decide, by decide, by decide, by decide, by decide, ?_⟩
  obtain ⟨q, hq, _, _, _, _, _, _, h1, _, h3, h4, h5, h6, _⟩ :=
    generate_parse_roundtrip test_data_pkt (List.replicate 10 0) 10 8
      [htonl 0x14600008, htonl 0x87654321, htonl 1000000, htonl 0, htonl 2000000,
       0xDEADBEEF, 0xCAFEBABE, htonl 0x80, 0, 0]
      (by decide) (by decide) (by decide) (by decide) (by decide) (by decide) (by decide)
      (by decide)
  exact ⟨q, hq, h1 (by decide), h3 (by decide), h4 (by decide), h6,
    by rw [h5 (by decide)]; decide⟩

/-- Witness of C7: the context packet of the unit test, serialised into a buffer of 10
words. -/
theorem parse_generate_identical_witness :
    (∀ x ∈ test_context_buf, x < 2 ^ 32) ∧ 10 ≤ test_context_buf.length ∧
    vrt_parse_packet test_context_buf 10 = .ok test_context_pkt ∧
    test_context_pkt.header.packet_type = VRT_PKT_TYPE_IF_CONTEXT ∧
    test_context_pkt.header.packet_size_words = 10 ∧
    ∃ out', vrt_generate_packet test_context_pkt (List.replicate 10 0) 10
        = .ok (((test_context_pkt.header.packet_size_words : Nat) : Int), out') ∧
      out'.take test_context_pkt.header.packet_size_words
        = test_context_buf.take test_context_pkt.header.packet_size_words ∧
      out'.drop test_context_pkt.header.packet_size_words
        = (List.replicate 10 0).drop test_context_pkt.header.packet_size_words :=
  ⟨by decide, by decide, by decide, by decide, by decide,
    parse_generate_identical test_context_buf 10 test_context_pkt (List.replicate 10 0) 10
      (by decide) (by decide) (by decide) (Or.inr (by decide)) (by decide) (by decide)
      (by decide)⟩


/-! ## The payload helpers and the CIF0 decoder -/

/-- The bit test of the decoder tests the bit. -/
theorem cif_bit_eq (w b : Nat) : cif_bit w b = bit_set w b := by
  unfold cif_bit bit_set
  rw [Nat.one_shiftLeft, Nat.and_two_pow, ← Nat.testBit_to_div_mod]
  cases h : w.testBit b
  · simp
  · simp [Nat.pos_iff_ne_zero.mp (Nat.two_pow_pos b)]

theorem and_low16 (c : Nat) : c &&& 0xFFFF = c % 2 ^ 16 :=
  Nat.and_pow_two_sub_one_eq_mod c 16

theorem and_low24 (c : Nat) : c &&& 0xFFFFFF = c % 2 ^ 24 :=
  Nat.and_pow_two_sub_one_eq_mod c 24

theorem shr16 (c : Nat) : c >>> 16 = c / 2 ^ 16 := Nat.shiftRight_eq_div_pow c 16

theorem to_int16_eq (x : Nat) : to_int16 x = int16_of x := by
  unfold to_int16 int16_of
  split <;> simp

theorem payload_word_lt (pkt : vrt_packet) (off : Nat) : payload_word pkt off < 2 ^ 32 := by
  unfold payload_word
  cases pkt.payload with
  | none => simp
  | some p =>
    dsimp only
    split
    · exact ntohl_lt _
    · simp

/-- The word getter on a readable payload: it returns, and its value is the guarded
payload word. -/
theorem get_payload_word_eq (pkt : vrt_packet) (off : Nat)
    (hr : payload_readable pkt = true) :
    vrt_get_payload_word pkt off = .ok (payload_word pkt off) := by
  unfold vrt_get_payload_word payload_word
  unfold payload_readable at hr
  cases hp : pkt.payload with
  | none => rfl
  | some p =>
    rw [hp] at hr
    have hl : pkt.payload_words ≤ p.length := of_decide_eq_true hr
    dsimp only
    by_cases h : off < pkt.payload_words
    · rw [if_neg (by omega), if_pos h, load_of_lt p off (by omega)]
      rfl
    · rw [if_pos (by omega), if_neg h]

/-- The double getter on a readable payload, for an offset whose successor does not
wrap. -/
theorem get_payload_double_eq (pkt : vrt_packet) (off : Nat)
    (hr : payload_readable pkt = true) (ho : off + 1 < 2 ^ 64) :
    vrt_get_payload_double pkt off = .ok (payload_double pkt off) := by
  have hs : size_add off 1 = off + 1 := by
    unfold size_add SIZE_MOD
    exact Nat.mod_eq_of_lt ho
  unfold vrt_get_payload_double payload_double payload_word
  unfold payload_readable at hr
  rw [hs]
  cases hp : pkt.payload with
  | none =>
    dsimp only
    split <;> rfl
  | some p =>
    rw [hp] at hr
    have hl : pkt.payload_words ≤ p.length := of_decide_eq_true hr
    dsimp only
    by_cases h : off + 1 < pkt.payload_words
    · rw [if_neg (by omega), if_pos h, if_pos (by omega), if_pos h,
        load_of_lt p off (by omega), load_of_lt p (off + 1) (by omega)]
      simp only [Outcome.bind_ok]
      rw [shl32_or _ _ (ntohl_lt _)]
      rfl
    · rw [if_pos (by omega), if_neg h]

theorem cif_offset_step (c b : Nat) (h1 : 1 ≤ b) (h30 : b ≤ 30) :
    cif_offset c (b - 1)
      = cif_offset c b + (if bit_set c b then cif_widths.getD (30 - b) 0 else 0) := by
  unfold cif_offset
  have e : 30 - (b - 1) = (30 - b) + 1 := by omega
  have e2 : 30 - (30 - b) = b := by omega
  rw [e, List.range_succ, List.map_append, List.sum_append]
  simp only [List.map_cons, List.map_nil, List.sum_cons, List.sum_nil, e2]
  omega

theorem widths_sum_le (n : Nat) :
    ((List.range n).map fun k => cif_widths.getD k 0).sum ≤ 27 := by
  by_cases h : n ≤ 16
  · interval_cases n <;> decide
  · obtain ⟨m, rfl⟩ : ∃ m, n = 16 + m := ⟨n - 16, by omega⟩
    clear h
    induction m with
    | zero => decide
    | succ m ih =>
      rw [← Nat.add_assoc, List.range_succ, List.map_append, List.sum_append]
      have : cif_widths.getD (16 + m) 0 = 0 := by
        unfold cif_widths
        rw [List.getD_eq_default]
        simp
      simp only [List.map_cons, List.map_nil, List.sum_cons, List.sum_nil, this]
      omega

theorem cif_offset_le (c b : Nat) : cif_offset c b ≤ 28 := by
  unfold cif_offset
  have h := widths_sum_le (30 - b)
  have h2 : ((List.range (30 - b)).map fun k =>
      if bit_set c (30 - k) then cif_widths.getD k 0 else 0).sum
      ≤ ((List.range (30 - b)).map fun k => cif_widths.getD k 0).sum := by
    apply List.sum_le_sum
    intro i _
    split
    · exact le_refl _
    · exact Nat.zero_le _
  omega


theorem join_payload_words (pkt : vrt_packet) (a off : Nat) :
    (a <<< 32) ||| payload_word pkt off = a * 2 ^ 32 + payload_word pkt off :=
  shl32_or a _ (payload_word_lt pkt off)

theorem int16_of_mod (x : Nat) : int16_of (x % 2 ^ 16) = int16_of x := by
  unfold int16_of
  rw [Nat.mod_mod]

theorem payload_word_high (pkt : vrt_packet) (off : Nat) :
    payload_word pkt off / 2 ^ 16 % 2 ^ 16 = payload_word pkt off / 2 ^ 16 := by
  have := payload_word_lt pkt off
  omega

/-! ### The sixteen field blocks of `vrt_parse_cif_payload`

Each block, entered at the table offset of its bit on a readable payload, returns; it
leaves the offset at the table offset of the next bit, sets its flag when its bit is set
and stores the words at its offset. -/

theorem cif_reference_point_id_eq (pkt : vrt_packet) (s : cif_state)
    (hr : payload_readable pkt = true) (ho : s.offset = cif_offset s.cif.cif0 30) :
    cif_reference_point_id pkt s
      = .ok { offset := cif_offset s.cif.cif0 29,
              cif := { s.cif with
                has_reference_point_id := bit_set s.cif.cif0 30 || s.cif.has_reference_point_id,
                reference_point_id := if bit_set s.cif.cif0 30
                  then payload_word pkt (cif_offset s.cif.cif0 30)
                  else s.cif.reference_point_id } } := by
  have hb := cif_offset_le s.cif.cif0 30
  have hs := cif_offset_step s.cif.cif0 30 (by omega) (by omega)
  unfold cif_reference_point_id
  rw [cif_bit_eq]
  by_cases h : bit_set s.cif.cif0 30 = true
  · rw [if_pos h, get_payload_word_eq pkt _ hr]
    rw [if_pos h] at hs
    simp only [Outcome.bind_ok, h, Bool.true_or, if_true, ho, shr16, and_low16, and_low24,
      to_int16_eq, join_payload_words, int16_of_mod, payload_word_high, Nat.mod_mod]
    rw [hs]
    rfl
  · rw [if_neg h]
    rw [if_neg h] at hs
    have h' : bit_set s.cif.cif0 30 = false := by simpa using h
    simp only [h', Bool.false_or, Bool.false_eq_true, if_false]
    rw [hs, ← ho]
    rfl

theorem cif_bandwidth_eq (pkt : vrt_packet) (s : cif_state)
    (hr : payload_readable pkt = true) (ho : s.offset = cif_offset s.cif.cif0 29) :
    cif_bandwidth pkt s
      = .ok { offset := cif_offset s.cif.cif0 28,
              cif := { s.cif with
                has_bandwidth := bit_set s.cif.cif0 29 || s.cif.has_bandwidth,
                bandwidth := if bit_set s.cif.cif0 29
                  then payload_double pkt (cif_offset s.cif.cif0 29)
                  else s.cif.bandwidth } } := by
  have hb := cif_offset_le s.cif.cif0 29
  have hs := cif_offset_step s.cif.cif0 29 (by omega) (by omega)
  unfold cif_bandwidth
  rw [cif_bit_eq]
  by_cases h : bit_set s.cif.cif0 29 = true
  · rw [if_pos h, get_payload_double_eq pkt _ hr (by omega)]
    rw [if_pos h] at hs
    simp only [Outcome.bind_ok, h, Bool.true_or, if_true, ho, shr16, and_low16, and_low24,
      to_int16_eq, join_payload_words, int16_of_mod, payload_word_high, Nat.mod_mod]
    rw [hs]
    rfl
  · rw [if_neg h]
    rw [if_neg h] at hs
    have h' : bit_set s.cif.cif0 29 = false := by simpa using h
    simp only [h', Bool.false_or, Bool.false_eq_true, if_false]
    rw [hs, ← ho]
    rfl

theorem cif_if_reference_frequency_eq (pkt : vrt_packet) (s : cif_state)
    (hr : payload_readable pkt = true) (ho : s.offset = cif_offset s.cif.cif0 28) :
    cif_if_reference_frequency pkt s
      = .ok { offset := cif_offset s.cif.cif0 27,
              cif := { s.cif with
                has_if_reference_frequency := bit_set s.cif.cif0 28 || s.cif.has_if_reference_frequency,
                if_reference_frequency := if bit_set s.cif.cif0 28
                  then payload_double pkt (cif_offset s.cif.cif0 28)
                  else s.cif.if_reference_frequency } } := by
  have hb := cif_offset_le s.cif.cif0 28
  have hs := cif_offset_step s.cif.cif0 28 (by omega) (by omega)
  unfold cif_if_reference_frequency
  rw [cif_bit_eq]
  by_cases h : bit_set s.cif.cif0 28 = true
  · rw [if_pos h, get_payload_double_eq pkt _ hr (by omega)]
    rw [if_pos h] at hs
    simp only [Outcome.bind_ok, h, Bool.true_or, if_true, ho, shr16, and_low16, and_low24,
      to_int16_eq, join_payload_words, int16_of_mod, payload_word_high, Nat.mod_mod]
    rw [hs]
    rfl
  · rw [if_neg h]
    rw [if_neg h] at hs
    have h' : bit_set s.cif.cif0 28 = false := by simpa using h
    simp only [h', Bool.false_or, Bool.false_eq_true, if_false]
    rw [hs, ← ho]
    rfl

theorem cif_rf_reference_frequency_eq (pkt : vrt_packet) (s : cif_state)
    (hr : payload_readable pkt = true) (ho : s.offset = cif_offset s.cif.cif0 27) :
    cif_rf_reference_frequency pkt s
      = .ok { offset := cif_offset s.cif.cif0 26,
              cif := { s.cif with
                has_rf_reference_frequency := bit_set s.cif.cif0 27 || s.cif.has_rf_reference_frequency,
                rf_reference_frequency := if bit_set s.cif.cif0 27
                  then payload_double pkt (cif_offset s.cif.cif0 27)
                  else s.cif.rf_reference_frequency } } := by
  have hb := cif_offset_le s.cif.cif0 27
  have hs := cif_offset_step s.cif.cif0 27 (by omega) (by omega)
  unfold cif_rf_reference_frequency
  rw [cif_bit_eq]
  by_cases h : bit_set s.cif.cif0 27 = true
  · rw [if_pos h, get_payload_double_eq pkt _ hr (by omega)]
    rw [if_pos h] at hs
    simp only [Outcome.bind_ok, h, Bool.true_or, if_true, ho, shr16, and_low16, and_low24,
      to_int16_eq, join_payload_words, int16_of_mod, payload_word_high, Nat.mod_mod]
    rw [hs]
    rfl
  · rw [if_neg h]
    rw [if_neg h] at hs
    have h' : bit_set s.cif.cif0 27 = false := by simpa using h
    simp only [h', Bool.false_or, Bool.false_eq_true, if_false]
    rw [hs, ← ho]
    rfl

theorem cif_rf_reference_frequency_offset_eq (pkt : vrt_packet) (s : cif_state)
    (hr : payload_readable pkt = true) (ho : s.offset = cif_offset s.cif.cif0 26) :
    cif_rf_reference_frequency_offset pkt s
      = .ok { offset := cif_offset s.cif.cif0 25,
              cif := { s.cif with
                has_rf_reference_frequency_offset := bit_set s.cif.cif0 26 || s.cif.has_rf_reference_frequency_offset,
                rf_reference_frequency_offset := if bit_set s.cif.cif0 26
                  then payload_double pkt (cif_offset s.cif.cif0 26)
                  else s.cif.rf_reference_frequency_offset } } := by
  have hb := cif_offset_le s.cif.cif0 26
  have hs := cif_offset_step s.cif.cif0 26 (by omega) (by omega)
  unfold cif_rf_reference_frequency_offset
  rw [cif_bit_eq]
  by_cases h : bit_set s.cif.cif0 26 = true
  · rw [if_pos h, get_payload_double_eq pkt _ hr (by omega)]
    rw [if_pos h] at hs
    simp only [Outcome.bind_ok, h, Bool.true_or, if_true, ho, shr16, and_low16, and_low24,
      to_int16_eq, join_payload_words, int16_of_mod, payload_word_high, Nat.mod_mod]
    rw [hs]
    rfl
  · rw [if_neg h]
    rw [if_neg h] at hs
    have h' : bit_set s.cif.cif0 26 = false := by simpa using h
    simp only [h', Bool.false_or, Bool.false_eq_true, if_false]
    rw [hs, ← ho]
    rfl

theorem cif_if_band_offset_eq (pkt : vrt_packet) (s : cif_state)
    (hr : payload_readable pkt = true) (ho : s.offset = cif_offset s.cif.cif0 25) :
    cif_if_band_offset pkt s
      = .ok { offset := cif_offset s.cif.cif0 24,
              cif := { s.cif with
                has_if_band_offset := bit_set s.cif.cif0 25 || s.cif.has_if_band_offset,
                if_band_offset := if bit_set s.cif.cif0 25
                  then payload_double pkt (cif_offset s.cif.cif0 25)
                  else s.cif.if_band_offset } } := by
  have hb := cif_offset_le s.cif.cif0 25
  have hs := cif_offset_step s.cif.cif0 25 (by omega) (by omega)
  unfold cif_if_band_offset
  rw [cif_bit_eq]
  by_cases h : bit_set s.cif.cif0 25 = true
  · rw [if_pos h, get_payload_double_eq pkt _ hr (by omega)]
    rw [if_pos h] at hs
    simp only [Outcome.bind_ok, h, Bool.true_or, if_true, ho, shr16, and_low16, and_low24,
      to_int16_eq, join_payload_words, int16_of_mod, payload_word_high, Nat.mod_mod]
    rw [hs]
    rfl
  · rw [if_neg h]
    rw [if_neg h] at hs
    have h' : bit_set s.cif.cif0 25 = false := by simpa using h
    simp only [h', Bool.false_or, Bool.false_eq_true, if_false]
    rw [hs, ← ho]
    rfl

theorem cif_reference_level_eq (pkt : vrt_packet) (s : cif_state)
    (hr : payload_readable pkt = true) (ho : s.offset = cif_offset s.cif.cif0 24) :
    cif_reference_level pkt s
      = .ok { offset := cif_offset s.cif.cif0 23,
              cif := { s.cif with
                has_reference_level := bit_set s.cif.cif0 24 || s.cif.has_reference_level,
                reference_level := if bit_set s.cif.cif0 24
                  then payload_word pkt (cif_offset s.cif.cif0 24)
                  else s.cif.reference_level } } := by
  have hb := cif_offset_le s.cif.cif0 24
  have hs := cif_offset_step s.cif.cif0 24 (by omega) (by omega)
  unfold cif_reference_level
  rw [cif_bit_eq]
  by_cases h : bit_set s.cif.cif0 24 = true
  · rw [if_pos h, get_payload_word_eq pkt _ hr]
    rw [if_pos h] at hs
    simp only [Outcome.bind_ok, h, Bool.true_or, if_true, ho, shr16, and_low16, and_low24,
      to_int16_eq, join_payload_words, int16_of_mod, payload_word_high, Nat.mod_mod]
    rw [hs]
    rfl
  · rw [if_neg h]
    rw [if_neg h] at hs
    have h' : bit_set s.cif.cif0 24 = false := by simpa using h
    simp only [h', Bool.false_or, Bool.false_eq_true, if_false]
    rw [hs, ← ho]
    rfl

theorem cif_gain_eq (pkt : vrt_packet) (s : cif_state)
    (hr : payload_readable pkt = true) (ho : s.offset = cif_offset s.cif.cif0 23) :
    cif_gain pkt s
      = .ok { offset := cif_offset s.cif.cif0 22,
              cif := { s.cif with
                has_gain := bit_set s.cif.cif0 23 || s.cif.has_gain,
                gain_stage_1 := if bit_set s.cif.cif0 23
                  then int16_of (payload_word pkt (cif_offset s.cif.cif0 23) / 2 ^ 16)
                  else s.cif.gain_stage_1,
                gain_stage_2 := if bit_set s.cif.cif0 23
                  then int16_of (payload_word pkt (cif_offset s.cif.cif0 23))
                  else s.cif.gain_stage_2 } } := by
  have hb := cif_offset_le s.cif.cif0 23
  have hs := cif_offset_step s.cif.cif0 23 (by omega) (by omega)
  unfold cif_gain
  rw [cif_bit_eq]
  by_cases h : bit_set s.cif.cif0 23 = true
  · rw [if_pos h, get_payload_word_eq pkt _ hr]
    rw [if_pos h] at hs
    simp only [Outcome.bind_ok, h, Bool.true_or, if_true, ho, shr16, and_low16, and_low24,
      to_int16_eq, join_payload_words, int16_of_mod, payload_word_high, Nat.mod_mod]
    rw [hs]
    rfl
  · rw [if_neg h]
    rw [if_neg h] at hs
    have h' : bit_set s.cif.cif0 23 = false := by simpa using h
    simp only [h', Bool.false_or, Bool.false_eq_true, if_false]
    rw [hs, ← ho]
    rfl

theorem cif_over_range_count_eq (pkt : vrt_packet) (s : cif_state)
    (hr : payload_readable pkt = true) (ho : s.offset = cif_offset s.cif.cif0 22) :
    cif_over_range_count pkt s
      = .ok { offset := cif_offset s.cif.cif0 21,
              cif := { s.cif with
                has_over_range_count := bit_set s.cif.cif0 22 || s.cif.has_over_range_count,
                over_range_count := if bit_set s.cif.cif0 22
                  then payload_word pkt (cif_offset s.cif.cif0 22)
                  else s.cif.over_range_count } } := by
  have hb := cif_offset_le s.cif.cif0 22
  have hs := cif_offset_step s.cif.cif0 22 (by omega) (by omega)
  unfold cif_over_range_count
  rw [cif_bit_eq]
  by_cases h : bit_set s.cif.cif0 22 = true
  · rw [if_pos h, get_payload_word_eq pkt _ hr]
    rw [if_pos h] at hs
    simp only [Outcome.bind_ok, h, Bool.true_or, if_true, ho, shr16, and_low16, and_low24,
      to_int16_eq, join_payload_words, int16_of_mod, payload_word_high, Nat.mod_mod]
    rw [hs]
    rfl
  · rw [if_neg h]
    rw [if_neg h] at hs
    have h' : bit_set s.cif.cif0 22 = false := by simpa using h
    simp only [h', Bool.false_or, Bool.false_eq_true, if_false]
    rw [hs, ← ho]
    rfl

theorem cif_sample_rate_eq (pkt : vrt_packet) (s : cif_state)
    (hr : payload_readable pkt = true) (ho : s.offset = cif_offset s.cif.cif0 21) :
    cif_sample_rate pkt s
      = .ok { offset := cif_offset s.cif.cif0 20,
              cif := { s.cif with
                has_sample_rate := bit_set s.cif.cif0 21 || s.cif.has_sample_rate,
                sample_rate := if bit_set s.cif.cif0 21
                  then payload_double pkt (cif_offset s.cif.cif0 21)
                  else s.cif.sample_rate } } := by
  have hb := cif_offset_le s.cif.cif0 21
  have hs := cif_offset_step s.cif.cif0 21 (by omega) (by omega)
  unfold cif_sample_rate
  rw [cif_bit_eq]
  by_cases h : bit_set s.cif.cif0 21 = true
  · rw [if_pos h, get_payload_double_eq pkt _ hr (by omega)]
    rw [if_pos h] at hs
    simp only [Outcome.bind_ok, h, Bool.true_or, if_true, ho, shr16, and_low16, and_low24,
      to_int16_eq, join_payload_words, int16_of_mod, payload_word_high, Nat.mod_mod]
    rw [hs]
    rfl
  · rw [if_neg h]
    rw [if_neg h] at hs
    have h' : bit_set s.cif.cif0 21 = false := by simpa using h
    simp only [h', Bool.false_or, Bool.false_eq_true, if_false]
    rw [hs, ← ho]
    rfl

theorem cif_timestamp_adjustment_eq (pkt : vrt_packet) (s : cif_state)
    (hr : payload_readable pkt = true) (ho : s.offset = cif_offset s.cif.cif0 20) :
    cif_timestamp_adjustment pkt s
      = .ok { offset := cif_offset s.cif.cif0 19,
              cif := { s.cif with
                has_timestamp_adjustment := bit_set s.cif.cif0 20 || s.cif.has_timestamp_adjustment,
                timestamp_adjustment := if bit_set s.cif.cif0 20
                  then payload_word pkt (cif_offset s.cif.cif0 20) * 2 ^ 32
                    + payload_word pkt (cif_offset s.cif.cif0 20 + 1)
                  else s.cif.timestamp_adjustment } } := by
  have hb := cif_offset_le s.cif.cif0 20
  have hs := cif_offset_step s.cif.cif0 20 (by omega) (by omega)
  unfold cif_timestamp_adjustment
  rw [cif_bit_eq]
  by_cases h : bit_set s.cif.cif0 20 = true
  · rw [if_pos h, get_payload_word_eq pkt _ hr, get_payload_word_eq pkt _ hr]
    rw [if_pos h] at hs
    simp only [Outcome.bind_ok, h, Bool.true_or, if_true, ho, shr16, and_low16, and_low24,
      to_int16_eq, join_payload_words, int16_of_mod, payload_word_high, Nat.mod_mod]
    rw [hs]
    rfl
  · rw [if_neg h]
    rw [if_neg h] at hs
    have h' : bit_set s.cif.cif0 20 = false := by simpa using h
    simp only [h', Bool.false_or, Bool.false_eq_true, if_false]
    rw [hs, ← ho]
    rfl

theorem cif_timestamp_calibration_time_eq (pkt : vrt_packet) (s : cif_state)
    (hr : payload_readable pkt = true) (ho : s.offset = cif_offset s.cif.cif0 19) :
    cif_timestamp_calibration_time pkt s
      = .ok { offset := cif_offset s.cif.cif0 18,
              cif := { s.cif with
                has_timestamp_calibration_time := bit_set s.cif.cif0 19 || s.cif.has_timestamp_calibration_time,
                timestamp_calibration_time_int := if bit_set s.cif.cif0 19
                  then payload_word pkt (cif_offset s.cif.cif0 19)
                  else s.cif.timestamp_calibration_time_int,
                timestamp_calibration_time_frac := if bit_set s.cif.cif0 19
                  then payload_word pkt (cif_offset s.cif.cif0 19 + 1) * 2 ^ 32
                    + payload_word pkt (cif_offset s.cif.cif0 19 + 2)
                  else s.cif.timestamp_calibration_time_frac } } := by
  have hb := cif_offset_le s.cif.cif0 19
  have hs := cif_offset_step s.cif.cif0 19 (by omega) (by omega)
  unfold cif_timestamp_calibration_time
  rw [cif_bit_eq]
  by_cases h : bit_set s.cif.cif0 19 = true
  · rw [if_pos h, get_payload_word_eq pkt _ hr, get_payload_word_eq pkt _ hr, get_payload_word_eq pkt _ hr]
    rw [if_pos h] at hs
    simp only [Outcome.bind_ok, h, Bool.true_or, if_true, ho, shr16, and_low16, and_low24,
      to_int16_eq, join_payload_words, int16_of_mod, payload_word_high, Nat.mod_mod]
    rw [hs]
    rfl
  · rw [if_neg h]
    rw [if_neg h] at hs
    have h' : bit_set s.cif.cif0 19 = false := by simpa using h
    simp only [h', Bool.false_or, Bool.false_eq_true, if_false]
    rw [hs, ← ho]
    rfl

theorem cif_temperature_eq (pkt : vrt_packet) (s : cif_state)
    (hr : payload_readable pkt = true) (ho : s.offset = cif_offset s.cif.cif0 18) :
    cif_temperature pkt s
      = .ok { offset := cif_offset s.cif.cif0 17,
              cif := { s.cif with
                has_temperature := bit_set s.cif.cif0 18 || s.cif.has_temperature,
                temperature := if bit_set s.cif.cif0 18
                  then ((float_nearest_q16
                      (int16_of (payload_word pkt (cif_offset s.cif.cif0 18) / 2 ^ 16) * 65536
                        + ((payload_word pkt (cif_offset s.cif.cif0 18) % 2 ^ 16 : Nat) : Int))
                      : Int) : Rat) / 65536
                  else s.cif.temperature,
                temperature_unrounded := if bit_set s.cif.cif0 18
                  then (int16_of (payload_word pkt (cif_offset s.cif.cif0 18) / 2 ^ 16) : Rat)
                    + ((payload_word pkt (cif_offset s.cif.cif0 18) % 2 ^ 16 : Nat) : Rat) / 65536
                  else s.cif.temperature_unrounded } } := by
  have hb := cif_offset_le s.cif.cif0 18
  have hs := cif_offset_step s.cif.cif0 18 (by omega) (by omega)
  unfold cif_temperature
  rw [cif_bit_eq]
  by_cases h : bit_set s.cif.cif0 18 = true
  · rw [if_pos h, get_payload_word_eq pkt _ hr]
    rw [if_pos h] at hs
    simp only [Outcome.bind_ok, h, Bool.true_or, if_true, ho, shr16, and_low16, and_low24,
      to_int16_eq, join_payload_words, int16_of_mod, payload_word_high, Nat.mod_mod]
    rw [hs]
    rfl
  · rw [if_neg h]
    rw [if_neg h] at hs
    have h' : bit_set s.cif.cif0 18 = false := by simpa using h
    simp only [h', Bool.false_or, Bool.false_eq_true, if_false]
    rw [hs, ← ho]
    rfl

theorem cif_device_identifier_eq (pkt : vrt_packet) (s : cif_state)
    (hr : payload_readable pkt = true) (ho : s.offset = cif_offset s.cif.cif0 17) :
    cif_device_identifier pkt s
      = .ok { offset := cif_offset s.cif.cif0 16,
              cif := { s.cif with
                has_device_identifier := bit_set s.cif.cif0 17 || s.cif.has_device_identifier,
                device_identifier_oui := if bit_set s.cif.cif0 17
                  then payload_word pkt (cif_offset s.cif.cif0 17) % 2 ^ 24
                  else s.cif.device_identifier_oui,
                device_identifier_code := if bit_set s.cif.cif0 17
                  then payload_word pkt (cif_offset s.cif.cif0 17 + 1) / 2 ^ 16
                  else s.cif.device_identifier_code } } := by
  have hb := cif_offset_le s.cif.cif0 17
  have hs := cif_offset_step s.cif.cif0 17 (by omega) (by omega)
  unfold cif_device_identifier
  rw [cif_bit_eq]
  by_cases h : bit_set s.cif.cif0 17 = true
  · rw [if_pos h, get_payload_word_eq pkt _ hr, get_payload_word_eq pkt _ hr]
    rw [if_pos h] at hs
    simp only [Outcome.bind_ok, h, Bool.true_or, if_true, ho, shr16, and_low16, and_low24,
      to_int16_eq, join_payload_words, int16_of_mod, payload_word_high, Nat.mod_mod]
    rw [hs]
    rfl
  · rw [if_neg h]
    rw [if_neg h] at hs
    have h' : bit_set s.cif.cif0 17 = false := by simpa using h
    simp only [h', Bool.false_or, Bool.false_eq_true, if_false]
    rw [hs, ← ho]
    rfl

theorem cif_state_and_event_indicators_eq (pkt : vrt_packet) (s : cif_state)
    (hr : payload_readable pkt = true) (ho : s.offset = cif_offset s.cif.cif0 16) :
    cif_state_and_event_indicators pkt s
      = .ok { offset := cif_offset s.cif.cif0 15,
              cif := { s.cif with
                has_state_and_event_indicators := bit_set s.cif.cif0 16 || s.cif.has_state_and_event_indicators,
                state_and_event_indicators := if bit_set s.cif.cif0 16
                  then payload_word pkt (cif_offset s.cif.cif0 16)
                  else s.cif.state_and_event_indicators } } := by
  have hb := cif_offset_le s.cif.cif0 16
  have hs := cif_offset_step s.cif.cif0 16 (by omega) (by omega)
  unfold cif_state_and_event_indicators
  rw [cif_bit_eq]
  by_cases h : bit_set s.cif.cif0 16 = true
  · rw [if_pos h, get_payload_word_eq pkt _ hr]
    rw [if_pos h] at hs
    simp only [Outcome.bind_ok, h, Bool.true_or, if_true, ho, shr16, and_low16, and_low24,
      to_int16_eq, join_payload_words, int16_of_mod, payload_word_high, Nat.mod_mod]
    rw [hs]
    rfl
  · rw [if_neg h]
    rw [if_neg h] at hs
    have h' : bit_set s.cif.cif0 16 = false := by simpa using h
    simp only [h', Bool.false_or, Bool.false_eq_true, if_false]
    rw [hs, ← ho]
    rfl

theorem cif_data_packet_payload_format_eq (pkt : vrt_packet) (s : cif_state)
    (hr : payload_readable pkt = true) (ho : s.offset = cif_offset s.cif.cif0 15) :
    cif_data_packet_payload_format pkt s
      = .ok { offset := cif_offset s.cif.cif0 14,
              cif := { s.cif with
                has_data_packet_payload_format := bit_set s.cif.cif0 15 || s.cif.has_data_packet_payload_format,
                data_packet_payload_format := if bit_set s.cif.cif0 15
                  then payload_word pkt (cif_offset s.cif.cif0 15) * 2 ^ 32
                    + payload_word pkt (cif_offset s.cif.cif0 15 + 1)
                  else s.cif.data_packet_payload_format } } := by
  have hb := cif_offset_le s.cif.cif0 15
  have hs := cif_offset_step s.cif.cif0 15 (by omega) (by omega)
  unfold cif_data_packet_payload_format
  rw [cif_bit_eq]
  by_cases h : bit_set s.cif.cif0 15 = true
  · rw [if_pos h, get_payload_word_eq pkt _ hr, get_payload_word_eq pkt _ hr]
    rw [if_pos h] at hs
    simp only [Outcome.bind_ok, h, Bool.true_or, if_true, ho, shr16, and_low16, and_low24,
      to_int16_eq, join_payload_words, int16_of_mod, payload_word_high, Nat.mod_mod]
    rw [hs]
    rfl
  · rw [if_neg h]
    rw [if_neg h] at hs
    have h' : bit_set s.cif.cif0 15 = false := by simpa using h
    simp only [h', Bool.false_or, Bool.false_eq_true, if_false]
    rw [hs, ← ho]
    rfl

theorem cif_context_field_change_eq (c : vrt_cif_fields) :
    cif_context_field_change c
      = { c with context_field_change := bit_set c.cif0 31 || c.context_field_change } := by
  unfold cif_context_field_change
  rw [cif_bit_eq]
  cases bit_set c.cif0 31
  · rfl
  · rfl

/-- Closed form of the decoder: on a context packet with at least one payload word and a
readable payload it returns 0 and the structure is the table decoding, whatever the
payload length. -/
theorem parse_cif_closed_form (pkt : vrt_packet) (hr : payload_readable pkt = true)
    (ht : pkt.header.packet_type = VRT_PKT_TYPE_IF_CONTEXT
      ∨ pkt.header.packet_type = VRT_PKT_TYPE_EXT_CONTEXT)
    (h1 : 1 ≤ pkt.payload_words) :
    vrt_parse_cif_payload pkt = .ok (0, cif_decoded pkt) := by
  unfold vrt_parse_cif_payload
  rw [if_neg (by rcases ht with h | h <;> simp [h]), if_neg (by omega),
    get_payload_word_eq pkt 0 hr]
  simp only [Outcome.bind_ok, cif_bit_eq]
  rw [cif_context_field_change_eq]
  rw [cif_reference_point_id_eq pkt _ hr]
  on_goal 2 => rfl
  rw [Outcome.bind_ok]
  dsimp only
  rw [cif_bandwidth_eq pkt _ hr]
  on_goal 2 => rfl
  rw [Outcome.bind_ok]
  dsimp only
  rw [cif_if_reference_frequency_eq pkt _ hr]
  on_goal 2 => rfl
  rw [Outcome.bind_ok]
  dsimp only
  rw [cif_rf_reference_frequency_eq pkt _ hr]
  on_goal 2 => rfl
  rw [Outcome.bind_ok]
  dsimp only
  rw [cif_rf_reference_frequency_offset_eq pkt _ hr]
  on_goal 2 => rfl
  rw [Outcome.bind_ok]
  dsimp only
  rw [cif_if_band_offset_eq pkt _ hr]
  on_goal 2 => rfl
  rw [Outcome.bind_ok]
  dsimp only
  rw [cif_reference_level_eq pkt _ hr]
  on_goal 2 => rfl
  rw [Outcome.bind_ok]
  dsimp only
  rw [cif_gain_eq pkt _ hr]
  on_goal 2 => rfl
  rw [Outcome.bind_ok]
  dsimp only
  rw [cif_over_range_count_eq pkt _ hr]
  on_goal 2 => rfl
  rw [Outcome.bind_ok]
  dsimp only
  rw [cif_sample_rate_eq pkt _ hr]
  on_goal 2 => rfl
  rw [Outcome.bind_ok]
  dsimp only
  rw [cif_timestamp_adjustment_eq pkt _ hr]
  on_goal 2 => rfl
  rw [Outcome.bind_ok]
  dsimp only
  rw [cif_timestamp_calibration_time_eq pkt _ hr]
  on_goal 2 => rfl
  rw [Outcome.bind_ok]
  dsimp only
  rw [cif_temperature_eq pkt _ hr]
  on_goal 2 => rfl
  rw [Outcome.bind_ok]
  dsimp only
  rw [cif_device_identifier_eq pkt _ hr]
  on_goal 2 => rfl
  rw [Outcome.bind_ok]
  dsimp only
  rw [cif_state_and_event_indicators_eq pkt _ hr]
  on_goal 2 => rfl
  rw [Outcome.bind_ok]
  dsimp only
  rw [cif_data_packet_payload_format_eq pkt _ hr]
  on_goal 2 => rfl
  simp only [Outcome.bind_ok, vrt_cif_fields.zeroed, Bool.or_false, cif_decoded]

/-! ## Statements on the payload span, the payload helpers and the CIF0 decoder -/

/-- The trailer and the payload span of a parsed packet: with the T bit set the trailer
is the last word of the packet and the payload is the words between the metadata and the
trailer; with the T bit clear, in a packet that declares at least one word, the payload
is the words from the metadata to the end of the packet. -/
theorem parse_payload_span (buf : List Nat) (words : Nat) (pkt : vrt_packet)
    (hw : words ≤ buf.length) (h : vrt_parse_packet buf words = .ok pkt) :
    ((wire_header buf).has_trailer ≠ 0 →
      pkt.trailer.word = wire_word buf ((wire_header buf).packet_size_words - 1) ∧
      meta_words (wire_header buf) + 1 ≤ (wire_header buf).packet_size_words ∧
      pkt.payload = some (buf.drop (meta_words (wire_header buf))) ∧
      pkt.payload_words
        = (wire_header buf).packet_size_words - 1 - meta_words (wire_header buf)) ∧
    ((wire_header buf).has_trailer = 0 → 1 ≤ (wire_header buf).packet_size_words →
      meta_words (wire_header buf) ≤ (wire_header buf).packet_size_words ∧
      pkt.payload = some (buf.drop (meta_words (wire_header buf))) ∧
      pkt.payload_words
        = (wire_header buf).packet_size_words - meta_words (wire_header buf)) := by
  obtain ⟨_, _, hopt, rfl⟩ := parse_ok_record buf words pkt hw h
  constructor
  · intro ht
    have htw : trailer_words (wire_header buf) = 1 := (trailer_flag_iff _).mp ht
    have hopt1 : 1 + optional_words (wire_header buf)
        ≤ (wire_header buf).packet_size_words := by
      rcases hopt with h0 | h1
      · unfold optional_words at h0
        omega
      · exact h1
    have hfit := parsed_fits buf (by omega) (Or.inr hopt1)
    have hpw := parsed_payload_words buf hfit
    refine ⟨?_, by omega, rfl, by omega⟩
    show (if (wire_header buf).has_trailer ≠ 0 then
        ({ word := ntohl (buf.getD ((wire_header buf).packet_size_words - 1) 0) } : vrt_trailer)
      else { word := 0 }).word = _
    rw [if_pos ht]
    rfl
  · intro ht hS
    have htw : trailer_words (wire_header buf) = 0 := by
      unfold trailer_words
      rw [if_neg (not_not.mpr ht)]
    have hfit := parsed_fits buf hS hopt
    have hpw := parsed_payload_words buf hfit
    exact ⟨by omega, rfl, by omega⟩

/-- C11 (evaluation at the failing input): the single word 0 is a packet with the T bit
clear that declares 0 words; the words `[idx, packet_size_words)` are none, yet the parse
succeeds with a payload of `0 - 1 = 2 ^ 64 - 1` words (in `size_t`) over an empty view. -/
theorem vrt_parse_packet_span_wraps :
    (wire_header [0]).has_trailer = 0 ∧
    (wire_header [0]).packet_size_words - meta_words (wire_header [0]) = 0 ∧
    (vrt_parse_packet [0] 1).bind (fun pkt => .ok (pkt.payload_words, pkt.payload))
      = .ok (2 ^ 64 - 1, some []) := by
  decide

/-- C17 (evaluation at the failing input): at the offset `2 ^ 64 - 1` the sum `offset + 1`
is 0 in `size_t`, so the range check of the two double helpers passes for a payload of
one word (a buffer of two words) and the word at index `2 ^ 64 - 1` is accessed. -/
theorem payload_double_offset_wraps :
    size_add (2 ^ 64 - 1) 1 = 0 ∧
    vrt_get_payload_double
      { vrt_packet.zeroed with payload := some [7], payload_words := 1 } (2 ^ 64 - 1)
      = .fault ∧
    vrt_set_payload_double [0, 0] 2 (2 ^ 64 - 1) double_56e6 = .fault := by
  decide

/-- C14: `vrt_parse_cif_payload` returns -1 for every packet whose type is neither
IF Context (4) nor Extension Context (5) and for every packet with no payload word; the
output is then the zeroed structure, with no flag set. -/
theorem vrt_parse_cif_payload_rejects (pkt : vrt_packet)
    (h : (pkt.header.packet_type ≠ 4 ∧ pkt.header.packet_type ≠ 5) ∨ pkt.payload_words < 1) :
    ∃ c, vrt_parse_cif_payload pkt = .ok (-1, c) ∧
      c.context_field_change = false ∧ c.has_reference_point_id = false ∧
      c.has_bandwidth = false ∧ c.has_if_reference_frequency = false ∧
      c.has_rf_reference_frequency = false ∧ c.has_rf_reference_frequency_offset = false ∧
      c.has_if_band_offset = false ∧ c.has_reference_level = false ∧ c.has_gain = false ∧
      c.has_over_range_count = false ∧ c.has_sample_rate = false ∧
      c.has_timestamp_adjustment = false ∧ c.has_timestamp_calibration_time = false ∧
      c.has_temperature = false ∧ c.has_device_identifier = false ∧
      c.has_state_and_event_indicators = false ∧ c.has_data_packet_payload_format = false := by
  refine ⟨vrt_cif_fields.zeroed, ?_, rfl, rfl, rfl, rfl, rfl, rfl, rfl, rfl, rfl, rfl, rfl, rfl,
    rfl, rfl, rfl, rfl, rfl⟩
  unfold vrt_parse_cif_payload
  by_cases ht : pkt.header.packet_type ≠ VRT_PKT_TYPE_IF_CONTEXT ∧
      pkt.header.packet_type ≠ VRT_PKT_TYPE_EXT_CONTEXT
  · rw [if_pos ht]
  · rw [if_neg ht]
    rcases h with h | h
    · exact absurd h ht
    · rw [if_pos h]

theorem vrt_parse_cif_payload_rejects_witness :
    ((test_data_pkt.header.packet_type ≠ 4 ∧ test_data_pkt.header.packet_type ≠ 5)
      ∨ test_data_pkt.payload_words < 1) ∧
    ∃ c, vrt_parse_cif_payload test_data_pkt = .ok (-1, c) ∧
      c.context_field_change = false ∧ c.has_reference_point_id = false ∧
      c.has_bandwidth = false ∧ c.has_if_reference_frequency = false ∧
      c.has_rf_reference_frequency = false ∧ c.has_rf_reference_frequency_offset = false ∧
      c.has_if_band_offset = false ∧ c.has_reference_level = false ∧ c.has_gain = false ∧
      c.has_over_range_count = false ∧ c.has_sample_rate = false ∧
      c.has_timestamp_adjustment = false ∧ c.has_timestamp_calibration_time = false ∧
      c.has_temperature = false ∧ c.has_device_identifier = false ∧
      c.has_state_and_event_indicators = false ∧ c.has_data_packet_payload_format = false :=
  ⟨by decide, vrt_parse_cif_payload_rejects test_data_pkt (by decide)⟩

theorem wire_word_set_self (p : List Nat) (i v : Nat) (hi : i < p.length) (hv : v < 2 ^ 32) :
    wire_word (p.set i (htonl v)) i = v := by
  unfold wire_word
  have e : (p.set i (htonl v)).getD i 0 = htonl v := by
    simp [List.getD, List.getElem?_set, hi]
  rw [e]
  have := ntohl_htonl v
  unfold ntohl at this
  rw [this, Nat.mod_eq_of_lt hv]

theorem getD_set_other (p : List Nat) (i j x : Nat) (h : j ≠ i) :
    (p.set i x).getD j 0 = p.getD j 0 := by
  simp [List.getD, List.getElem?_set, Ne.symm h]

theorem wire_word_set_other (p : List Nat) (i j x : Nat) (h : j ≠ i) :
    wire_word (p.set i x) j = wire_word p j := by
  unfold wire_word
  rw [getD_set_other p i j x h]

/-- The word setter inside the buffer: one store of the big-endian word. -/
theorem set_payload_word_eq (p : List Nat) (n off v : Nat) (hn : n ≤ p.length)
    (ho : off < n) :
    vrt_set_payload_word p n off v = .ok (p.set off (htonl v)) := by
  unfold vrt_set_payload_word store
  rw [if_neg (by omega), if_pos (by omega)]

/-- The double setter inside the buffer: two stores, high half first. -/
theorem set_payload_double_eq (p : List Nat) (n off d : Nat) (hn : n ≤ p.length)
    (ho : off + 1 < n) (hd : d < 2 ^ 64) (hn64 : n < 2 ^ 64) :
    vrt_set_payload_double p n off d
      = .ok ((p.set off (htonl (d / 2 ^ 32))).set (off + 1) (htonl (d % 2 ^ 32))) := by
  have hs : size_add off 1 = off + 1 := by
    unfold size_add SIZE_MOD
    exact Nat.mod_eq_of_lt (by omega)
  have h1 : d / 2 ^ 32 % 2 ^ 32 = d / 2 ^ 32 := by omega
  unfold vrt_set_payload_double store
  rw [hs, if_neg (by omega), if_pos (by omega)]
  rw [Outcome.bind_ok, if_pos (by rw [List.length_set]; omega), shr32, and_low32, h1,
    Nat.mod_mod]

/-- C16: inside the buffer, `vrt_set_payload_word` stores the value as one big-endian
word and `vrt_get_payload_word` at the same offset returns it; `vrt_set_payload_double`
stores the high 32 bits at `off` and the low 32 bits at `off + 1`, big-endian, and
`vrt_get_payload_double` at the same offset returns the same 64-bit pattern; each setter
keeps the length and every other word of the buffer. -/
theorem payload_setters_getters (payload : List Nat) (max_words off v d : Nat)
    (hm : max_words ≤ payload.length) (hm64 : max_words < 2 ^ 64)
    (hv : v < 2 ^ 32) (hd : d < 2 ^ 64) :
    (off < max_words →
      ∃ p, vrt_set_payload_word payload max_words off v = .ok p ∧
        p.length = payload.length ∧ (∀ j, j ≠ off → p.getD j 0 = payload.getD j 0) ∧
        wire_word p off = v ∧
        ∀ pkt : vrt_packet, pkt.payload = some p → off < pkt.payload_words →
          vrt_get_payload_word pkt off = .ok v) ∧
    (off + 1 < max_words →
      ∃ p, vrt_set_payload_double payload max_words off d = .ok p ∧
        p.length = payload.length ∧
        (∀ j, j ≠ off → j ≠ off + 1 → p.getD j 0 = payload.getD j 0) ∧
        wire_word p off = d / 2 ^ 32 ∧ wire_word p (off + 1) = d % 2 ^ 32 ∧
        ∀ pkt : vrt_packet, pkt.payload = some p → off + 1 < pkt.payload_words →
          vrt_get_payload_double pkt off = .ok d) := by
  constructor
  · intro ho
    have hw := wire_word_set_self payload off v (by omega) hv
    refine ⟨_, set_payload_word_eq payload max_words off v hm ho, List.length_set _ _ _,
      fun j hj => getD_set_other payload off j _ hj, hw, ?_⟩
    intro pkt hp hpw
    unfold vrt_get_payload_word
    rw [hp]
    dsimp only
    rw [if_neg (by omega), load_of_lt _ off (by rw [List.length_set]; omega), Outcome.bind_ok]
    exact congrArg Outcome.ok hw
  · intro ho
    have hw1 : wire_word ((payload.set off (htonl (d / 2 ^ 32))).set (off + 1)
        (htonl (d % 2 ^ 32))) off = d / 2 ^ 32 := by
      rw [wire_word_set_other _ _ _ _ (by omega)]
      exact wire_word_set_self payload off _ (by omega) (by omega)
    have hw2 : wire_word ((payload.set off (htonl (d / 2 ^ 32))).set (off + 1)
        (htonl (d % 2 ^ 32))) (off + 1) = d % 2 ^ 32 :=
      wire_word_set_self _ (off + 1) _ (by rw [List.length_set]; omega) (by omega)
    refine ⟨_, set_payload_double_eq payload max_words off d hm ho hd hm64,
      by rw [List.length_set, List.length_set], ?_, hw1, hw2, ?_⟩
    · intro j hj hj1
      rw [getD_set_other _ _ _ _ hj1, getD_set_other _ _ _ _ hj]
    · intro pkt hp hpw
      have hs : size_add off 1 = off + 1 := by
        unfold size_add SIZE_MOD
        exact Nat.mod_eq_of_lt (by omega)
      unfold vrt_get_payload_double
      rw [hp]
      dsimp only
      rw [hs, if_neg (by omega),
        load_of_lt _ off (by rw [List.length_set, List.length_set]; omega), Outcome.bind_ok,
        load_of_lt _ (off + 1) (by rw [List.length_set, List.length_set]; omega),
        Outcome.bind_ok]
      unfold wire_word at hw1 hw2
      unfold ntohl
      rw [hw1, hw2, shl32_or _ _ (by omega)]
      exact congrArg Outcome.ok (by omega)

theorem payload_setters_getters_witness :
    10 ≤ (List.replicate 10 0).length ∧ 10 < 2 ^ 64 ∧ 0xDEADBEEF < 2 ^ 32 ∧
    double_56e6 < 2 ^ 64 ∧
    (1 < 10 →
      ∃ p, vrt_set_payload_word (List.replicate 10 0) 10 1 0xDEADBEEF = .ok p ∧
        p.length = (List.replicate 10 0).length ∧
        (∀ j, j ≠ 1 → p.getD j 0 = (List.replicate 10 0).getD j 0) ∧
        wire_word p 1 = 0xDEADBEEF ∧
        ∀ pkt : vrt_packet, pkt.payload = some p → 1 < pkt.payload_words →
          vrt_get_payload_word pkt 1 = .ok 0xDEADBEEF) ∧
    (1 + 1 < 10 →
      ∃ p, vrt_set_payload_double (List.replicate 10 0) 10 1 double_56e6 = .ok p ∧
        p.length = (List.replicate 10 0).length ∧
        (∀ j, j ≠ 1 → j ≠ 1 + 1 → p.getD j 0 = (List.replicate 10 0).getD j 0) ∧
        wire_word p 1 = double_56e6 / 2 ^ 32 ∧ wire_word p (1 + 1) = double_56e6 % 2 ^ 32 ∧
        ∀ pkt : vrt_packet, pkt.payload = some p → 1 + 1 < pkt.payload_words →
          vrt_get_payload_double pkt 1 = .ok double_56e6) :=
  ⟨by decide, by decide, by decide, by decide,
    payload_setters_getters (List.replicate 10 0) 10 1 0xDEADBEEF double_56e6
      (by decide) (by decide) (by decide) (by decide)⟩

theorem range_sum_mono (f : Nat → Nat) (n m : Nat) (h : n ≤ m) :
    ((List.range n).map f).sum ≤ ((List.range m).map f).sum := by
  induction m with
  | zero =>
    have : n = 0 := by omega
    rw [this]
  | succ m ih =>
    by_cases e : n = m + 1
    · rw [e]
    · have := ih (by omega)
      rw [List.range_succ, List.map_append, List.sum_append]
      omega

theorem cif_offset_anti (c b b' : Nat) (h : b ≤ b') : cif_offset c b' ≤ cif_offset c b := by
  unfold cif_offset
  have := range_sum_mono (fun k => if bit_set c (30 - k) then cif_widths.getD k 0 else 0)
    (30 - b') (30 - b) (by omega)
  omega

/-- A declared field ends inside the words the CIF0 word declares. -/
theorem field_inside (c b : Nat) (h15 : 15 ≤ b) (h30 : b ≤ 30) (h : bit_set c b = true) :
    cif_offset c b + cif_widths.getD (30 - b) 0 ≤ cif_offset c 14 := by
  have hs := cif_offset_step c b (by omega) h30
  rw [if_pos h] at hs
  have := cif_offset_anti c 14 (b - 1) (by omega)
  omega

theorem payload_word_inside (pkt : vrt_packet) (p : List Nat) (off : Nat)
    (hp : pkt.payload = some p) (h : off < pkt.payload_words) :
    payload_word pkt off = wire_word p off := by
  unfold payload_word
  rw [hp]
  dsimp only
  rw [if_pos h]

theorem payload_double_inside (pkt : vrt_packet) (p : List Nat) (off : Nat)
    (hp : pkt.payload = some p) (h : off + 1 < pkt.payload_words) :
    payload_double pkt off = wire_double p off := by
  unfold payload_double wire_double
  rw [if_pos h, payload_word_inside pkt p off hp (by omega),
    payload_word_inside pkt p (off + 1) hp h]

/-- C13: on an IF Context or Extension Context packet whose payload holds every field
its CIF0 word declares, `vrt_parse_cif_payload` returns 0; `cif0` is payload word 0
decoded from big-endian; `context_field_change` is bit 31; for each bit 30..15 the flag is
the bit and, when the bit is set, the value is decoded from the payload words at the
offset 1 plus the widths (1,2,2,2,2,2,1,1,1,2,2,3,1,2,1,2 for bits 30..15) of the set
bits above it, the high word first in a value of two words (for the temperature, the
value before its rounding to a `float` and the `float` stored). -/
theorem vrt_parse_cif_payload_fields (pkt : vrt_packet) (p : List Nat)
    (ht : pkt.header.packet_type = VRT_PKT_TYPE_IF_CONTEXT
      ∨ pkt.header.packet_type = VRT_PKT_TYPE_EXT_CONTEXT)
    (hp : pkt.payload = some p) (hl : pkt.payload_words ≤ p.length)
    (hall : cif_offset (wire_word p 0) 14 ≤ pkt.payload_words) :
    ∃ c, vrt_parse_cif_payload pkt = .ok (0, c) ∧
      c.cif0 = wire_word p 0 ∧
      c.context_field_change = bit_set c.cif0 31 ∧
      c.has_reference_point_id = bit_set c.cif0 30 ∧
      (bit_set c.cif0 30 = true →
        c.reference_point_id = wire_word p (cif_offset c.cif0 30)) ∧
      c.has_bandwidth = bit_set c.cif0 29 ∧
      (bit_set c.cif0 29 = true → c.bandwidth = wire_double p (cif_offset c.cif0 29)) ∧
      c.has_if_reference_frequency = bit_set c.cif0 28 ∧
      (bit_set c.cif0 28 = true →
        c.if_reference_frequency = wire_double p (cif_offset c.cif0 28)) ∧
      c.has_rf_reference_frequency = bit_set c.cif0 27 ∧
      (bit_set c.cif0 27 = true →
        c.rf_reference_frequency = wire_double p (cif_offset c.cif0 27)) ∧
      c.has_rf_reference_frequency_offset = bit_set c.cif0 26 ∧
      (bit_set c.cif0 26 = true →
        c.rf_reference_frequency_offset = wire_double p (cif_offset c.cif0 26)) ∧
      c.has_if_band_offset = bit_set c.cif0 25 ∧
      (bit_set c.cif0 25 = true → c.if_band_offset = wire_double p (cif_offset c.cif0 25)) ∧
      c.has_reference_level = bit_set c.cif0 24 ∧
      (bit_set c.cif0 24 = true → c.reference_level = wire_word p (cif_offset c.cif0 24)) ∧
      c.has_gain = bit_set c.cif0 23 ∧
      (bit_set c.cif0 23 = true →
        c.gain_stage_1 = int16_of (wire_word p (cif_offset c.cif0 23) / 2 ^ 16) ∧
        c.gain_stage_2 = int16_of (wire_word p (cif_offset c.cif0 23))) ∧
      c.has_over_range_count = bit_set c.cif0 22 ∧
      (bit_set c.cif0 22 = true → c.over_range_count = wire_word p (cif_offset c.cif0 22)) ∧
      c.has_sample_rate = bit_set c.cif0 21 ∧
      (bit_set c.cif0 21 = true → c.sample_rate = wire_double p (cif_offset c.cif0 21)) ∧
      c.has_timestamp_adjustment = bit_set c.cif0 20 ∧
      (bit_set c.cif0 20 = true →
        c.timestamp_adjustment = wire_double p (cif_offset c.cif0 20)) ∧
      c.has_timestamp_calibration_time = bit_set c.cif0 19 ∧
      (bit_set c.cif0 19 = true →
        c.timestamp_calibration_time_int = wire_word p (cif_offset c.cif0 19) ∧
        c.timestamp_calibration_time_frac = wire_double p (cif_offset c.cif0 19 + 1)) ∧
      c.has_temperature = bit_set c.cif0 18 ∧
      (bit_set c.cif0 18 = true →
        c.temperature_unrounded
          = (int16_of (wire_word p (cif_offset c.cif0 18) / 2 ^ 16) : Rat)
            + ((wire_word p (cif_offset c.cif0 18) % 2 ^ 16 : Nat) : Rat) / 65536 ∧
        c.temperature
          = ((float_nearest_q16
              (int16_of (wire_word p (cif_offset c.cif0 18) / 2 ^ 16) * 65536
                + ((wire_word p (cif_offset c.cif0 18) % 2 ^ 16 : Nat) : Int)) : Int) : Rat)
            / 65536) ∧
      c.has_device_identifier = bit_set c.cif0 17 ∧
      (bit_set c.cif0 17 = true →
        c.device_identifier_oui = wire_word p (cif_offset c.cif0 17) % 2 ^ 24 ∧
        c.device_identifier_code = wire_word p (cif_offset c.cif0 17 + 1) / 2 ^ 16) ∧
      c.has_state_and_event_indicators = bit_set c.cif0 16 ∧
      (bit_set c.cif0 16 = true →
        c.state_and_event_indicators = wire_word p (cif_offset c.cif0 16)) ∧
      c.has_data_packet_payload_format = bit_set c.cif0 15 ∧
      (bit_set c.cif0 15 = true →
        c.data_packet_payload_format = wire_double p (cif_offset c.cif0 15)) := by
  have h1 : 1 ≤ pkt.payload_words := by
    have : 1 ≤ cif_offset (wire_word p 0) 14 := by unfold cif_offset; omega
    omega
  have hr : payload_readable pkt = true := by
    unfold payload_readable
    rw [hp]
    exact decide_eq_true hl
  have hc : payload_word pkt 0 = wire_word p 0 := payload_word_inside pkt p 0 hp (by omega)
  have hw : ∀ off, off < pkt.payload_words → payload_word pkt off = wire_word p off :=
    fun off h => payload_word_inside pkt p off hp h
  have hd : ∀ off, off + 1 < pkt.payload_words → payload_double pkt off = wire_double p off :=
    fun off h => payload_double_inside pkt p off hp h
  have hin : ∀ b, 15 ≤ b → b ≤ 30 → bit_set (wire_word p 0) b = true →
      cif_offset (wire_word p 0) b + cif_widths.getD (30 - b) 0 ≤ pkt.payload_words :=
    fun b h15 h30 h => le_trans (field_inside _ b h15 h30 h) hall
  refine ⟨cif_decoded pkt, parse_cif_closed_form pkt hr ht h1, hc, ?_⟩
  unfold cif_decoded
  dsimp only
  rw [hc]
  refine ⟨rfl, rfl, ?_, rfl, ?_, rfl, ?_, rfl, ?_, rfl, ?_, rfl, ?_, rfl, ?_, rfl, ?_, rfl, ?_,
    rfl, ?_, rfl, ?_, rfl, ?_, rfl, ?_, rfl, ?_, rfl, ?_, rfl, ?_⟩
  · intro h
    have hb := hin 30 (by omega) (by omega) h
    simp only [cif_widths, List.getD_cons_zero, List.getD_cons_succ, Nat.reduceSub] at hb
    rw [if_pos h]
    rw [hw _ (by omega)]
  · intro h
    have hb := hin 29 (by omega) (by omega) h
    simp only [cif_widths, List.getD_cons_zero, List.getD_cons_succ, Nat.reduceSub] at hb
    rw [if_pos h]
    rw [hd _ (by omega)]
  · intro h
    have hb := hin 28 (by omega) (by omega) h
    simp only [cif_widths, List.getD_cons_zero, List.getD_cons_succ, Nat.reduceSub] at hb
    rw [if_pos h]
    rw [hd _ (by omega)]
  · intro h
    have hb := hin 27 (by omega) (by omega) h
    simp only [cif_widths, List.getD_cons_zero, List.getD_cons_succ, Nat.reduceSub] at hb
    rw [if_pos h]
    rw [hd _ (by omega)]
  · intro h
    have hb := hin 26 (by omega) (by omega) h
    simp only [cif_widths, List.getD_cons_zero, List.getD_cons_succ, Nat.reduceSub] at hb
    rw [if_pos h]
    rw [hd _ (by omega)]
  · intro h
    have hb := hin 25 (by omega) (by omega) h
    simp only [cif_widths, List.getD_cons_zero, List.getD_cons_succ, Nat.reduceSub] at hb
    rw [if_pos h]
    rw [hd _ (by omega)]
  · intro h
    have hb := hin 24 (by omega) (by omega) h
    simp only [cif_widths, List.getD_cons_zero, List.getD_cons_succ, Nat.reduceSub] at hb
    rw [if_pos h]
    rw [hw _ (by omega)]
  · intro h
    have hb := hin 23 (by omega) (by omega) h
    simp only [cif_widths, List.getD_cons_zero, List.getD_cons_succ, Nat.reduceSub] at hb
    rw [if_pos h]
    rw [if_pos h, hw _ (by omega)]
    exact ⟨rfl, rfl⟩
  · intro h
    have hb := hin 22 (by omega) (by omega) h
    simp only [cif_widths, List.getD_cons_zero, List.getD_cons_succ, Nat.reduceSub] at hb
    rw [if_pos h]
    rw [hw _ (by omega)]
  · intro h
    have hb := hin 21 (by omega) (by omega) h
    simp only [cif_widths, List.getD_cons_zero, List.getD_cons_succ, Nat.reduceSub] at hb
    rw [if_pos h]
    rw [hd _ (by omega)]
  · intro h
    have hb := hin 20 (by omega) (by omega) h
    simp only [cif_widths, List.getD_cons_zero, List.getD_cons_succ, Nat.reduceSub] at hb
    rw [if_pos h]
    rw [hw _ (by omega), hw _ (by omega)]
    rfl
  · intro h
    have hb := hin 19 (by omega) (by omega) h
    simp only [cif_widths, List.getD_cons_zero, List.getD_cons_succ, Nat.reduceSub] at hb
    rw [if_pos h]
    rw [if_pos h, hw _ (by omega), hw _ (by omega), hw _ (by omega)]
    exact ⟨rfl, rfl⟩
  · intro h
    have hb := hin 18 (by omega) (by omega) h
    simp only [cif_widths, List.getD_cons_zero, List.getD_cons_succ, Nat.reduceSub] at hb
    rw [if_pos h]
    rw [if_pos h, hw _ (by omega)]
    exact ⟨rfl, rfl⟩
  · intro h
    have hb := hin 17 (by omega) (by omega) h
    simp only [cif_widths, List.getD_cons_zero, List.getD_cons_succ, Nat.reduceSub] at hb
    rw [if_pos h]
    rw [if_pos h, hw _ (by omega), hw _ (by omega)]
    exact ⟨rfl, rfl⟩
  · intro h
    have hb := hin 16 (by omega) (by omega) h
    simp only [cif_widths, List.getD_cons_zero, List.getD_cons_succ, Nat.reduceSub] at hb
    rw [if_pos h]
    rw [hw _ (by omega)]
  · intro h
    have hb := hin 15 (by omega) (by omega) h
    simp only [cif_widths, List.getD_cons_zero, List.getD_cons_succ, Nat.reduceSub] at hb
    rw [if_pos h]
    rw [hw _ (by omega), hw _ (by omega)]
    rfl

theorem vrt_parse_cif_payload_fields_witness :
    (scenario3_pkt.header.packet_type = VRT_PKT_TYPE_IF_CONTEXT
      ∨ scenario3_pkt.header.packet_type = VRT_PKT_TYPE_EXT_CONTEXT) ∧
    scenario3_pkt.payload = some scenario3_payload ∧
    scenario3_pkt.payload_words ≤ scenario3_payload.length ∧
    cif_offset (wire_word scenario3_payload 0) 14 ≤ scenario3_pkt.payload_words ∧
    ∃ c, vrt_parse_cif_payload scenario3_pkt = .ok (0, c) ∧
      c.cif0 = (1 <<< 21) ||| (1 <<< 29) ∧
      c.has_bandwidth = true ∧ c.bandwidth = wire_double scenario3_payload 1 ∧
      c.has_sample_rate = true ∧ c.sample_rate = wire_double scenario3_payload 3 := by
  refine ⟨by decide, rfl, by decide, by decide, ?_⟩
  obtain ⟨c, hc, h0, _, _, _, hb, hbv, _, _, _, _, _, _, _, _, _, _, _, _, _, _, hs, hsv, _⟩ :=
    vrt_parse_cif_payload_fields scenario3_pkt scenario3_payload (by decide) rfl (by decide)
      (by decide)
  have e : c.cif0 = (1 <<< 21) ||| (1 <<< 29) := by rw [h0]; decide
  rw [e] at hb hbv hs hsv
  exact ⟨c, hc, e, by rw [hb]; decide, by rw [hbv (by decide)]; decide, by rw [hs]; decide,
    by rw [hsv (by decide)]; decide⟩

/-- C15: for all 64-bit patterns `bw` and `sr`, the payload built in a buffer of at least
five words by `vrt_set_payload_word(payload, n, 0, (1 << 21) | (1 << 29))`,
`vrt_set_payload_double(payload, n, 1, bw)` and `vrt_set_payload_double(payload, n, 3, sr)`
and placed in an IF Context packet with `payload_words = 5` is decoded with result 0,
`has_bandwidth`, `bandwidth = bw`, `has_sample_rate`, `sample_rate = sr`, and every other
flag clear. -/
theorem setters_decoder_roundtrip (payload : List Nat) (n bw sr : Nat)
    (hn : 5 ≤ n) (hl : n ≤ payload.length) (hn64 : n < 2 ^ 64)
    (hbw : bw < 2 ^ 64) (hsr : sr < 2 ^ 64) :
    ∃ p, (vrt_set_payload_word payload n 0 ((1 <<< 21) ||| (1 <<< 29))).bind
          (fun p1 => (vrt_set_payload_double p1 n 1 bw).bind
            fun p2 => vrt_set_payload_double p2 n 3 sr) = .ok p ∧
      ∀ pkt : vrt_packet, pkt.header.packet_type = VRT_PKT_TYPE_IF_CONTEXT →
        pkt.payload = some p → pkt.payload_words = 5 →
        ∃ c, vrt_parse_cif_payload pkt = .ok (0, c) ∧
          c.has_bandwidth = true ∧ c.bandwidth = bw ∧
          c.has_sample_rate = true ∧ c.sample_rate = sr ∧
          c.context_field_change = false ∧ c.has_reference_point_id = false ∧
          c.has_if_reference_frequency = false ∧ c.has_rf_reference_frequency = false ∧
          c.has_rf_reference_frequency_offset = false ∧ c.has_if_band_offset = false ∧
          c.has_reference_level = false ∧ c.has_gain = false ∧
          c.has_over_range_count = false ∧ c.has_timestamp_adjustment = false ∧
          c.has_timestamp_calibration_time = false ∧ c.has_temperature = false ∧
          c.has_device_identifier = false ∧ c.has_state_and_event_indicators = false ∧
          c.has_data_packet_payload_format = false := by
  have e1 := set_payload_word_eq payload n 0 ((1 <<< 21) ||| (1 <<< 29)) hl (by omega)
  have e2 := set_payload_double_eq (payload.set 0 (htonl ((1 <<< 21) ||| (1 <<< 29)))) n 1 bw
    (by rw [List.length_set]; exact hl) (by omega) hbw hn64
  have e3 := set_payload_double_eq
    (((payload.set 0 (htonl ((1 <<< 21) ||| (1 <<< 29)))).set 1 (htonl (bw / 2 ^ 32))).set
      (1 + 1) (htonl (bw % 2 ^ 32))) n 3 sr
    (by rw [List.length_set, List.length_set, List.length_set]; exact hl) (by omega) hsr hn64
  refine ⟨_, by rw [e1, Outcome.bind_ok, e2, Outcome.bind_ok, e3], ?_⟩
  intro pkt ht hp hpw
  have hlen : pkt.payload_words ≤ (((((payload.set 0 (htonl ((1 <<< 21) ||| (1 <<< 29)))).set 1
      (htonl (bw / 2 ^ 32))).set (1 + 1) (htonl (bw % 2 ^ 32))).set 3
      (htonl (sr / 2 ^ 32))).set (3 + 1) (htonl (sr % 2 ^ 32))).length := by
    simp only [List.length_set]
    omega
  have hr : payload_readable pkt = true := by
    unfold payload_readable
    rw [hp]
    exact decide_eq_true hlen
  have hlp : 5 ≤ payload.length := by omega
  have w0 : payload_word pkt 0 = (1 <<< 21) ||| (1 <<< 29) := by
    rw [payload_word_inside pkt _ 0 hp (by omega)]
    rw [wire_word_set_other _ _ _ _ (by omega), wire_word_set_other _ _ _ _ (by omega),
      wire_word_set_other _ _ _ _ (by omega), wire_word_set_other _ _ _ _ (by omega)]
    exact wire_word_set_self payload 0 _ (by omega) (by decide)
  have w1 : payload_word pkt 1 = bw / 2 ^ 32 := by
    rw [payload_word_inside pkt _ 1 hp (by omega)]
    rw [wire_word_set_other _ _ _ _ (by omega), wire_word_set_other _ _ _ _ (by omega),
      wire_word_set_other _ _ _ _ (by omega)]
    exact wire_word_set_self _ 1 _ (by rw [List.length_set]; omega) (by omega)
  have w2 : payload_word pkt 2 = bw % 2 ^ 32 := by
    rw [payload_word_inside pkt _ 2 hp (by omega)]
    rw [wire_word_set_other _ _ _ _ (by omega), wire_word_set_other _ _ _ _ (by omega)]
    exact wire_word_set_self _ 2 _ (by simp only [List.length_set]; omega) (by omega)
  have w3 : payload_word pkt 3 = sr / 2 ^ 32 := by
    rw [payload_word_inside pkt _ 3 hp (by omega)]
    rw [wire_word_set_other _ _ _ _ (by omega)]
    exact wire_word_set_self _ 3 _ (by simp only [List.length_set]; omega) (by omega)
  have w4 : payload_word pkt 4 = sr % 2 ^ 32 := by
    rw [payload_word_inside pkt _ 4 hp (by omega)]
    exact wire_word_set_self _ 4 _ (by simp only [List.length_set]; omega) (by omega)
  have o29 : cif_offset ((1 <<< 21) ||| (1 <<< 29)) 29 = 1 := by decide
  have o21 : cif_offset ((1 <<< 21) ||| (1 <<< 29)) 21 = 3 := by decide
  have d1 : payload_double pkt 1 = bw := by
    unfold payload_double
    rw [if_pos (by omega), w1, w2]
    omega
  have d3 : payload_double pkt 3 = sr := by
    unfold payload_double
    rw [if_pos (by omega), w3, w4]
    omega
  refine ⟨cif_decoded pkt, parse_cif_closed_form pkt hr (Or.inl ht) (by omega), ?_⟩
  unfold cif_decoded
  dsimp only
  rw [w0, o29, o21, d1, d3]
  refine ⟨by decide, ?_, by decide, ?_, ?_⟩
  · rw [if_pos (by decide)]
  · rw [if_pos (by decide)]
  · decide

theorem setters_decoder_roundtrip_witness :
    5 ≤ 10 ∧ 10 ≤ (List.replicate 10 0).length ∧ 10 < 2 ^ 64 ∧
    double_56e6 < 2 ^ 64 ∧ double_100e6 < 2 ^ 64 ∧
    ∃ p, (vrt_set_payload_word (List.replicate 10 0) 10 0 ((1 <<< 21) ||| (1 <<< 29))).bind
          (fun p1 => (vrt_set_payload_double p1 10 1 double_56e6).bind
            fun p2 => vrt_set_payload_double p2 10 3 double_100e6) = .ok p ∧
      ∀ pkt : vrt_packet, pkt.header.packet_type = VRT_PKT_TYPE_IF_CONTEXT →
        pkt.payload = some p → pkt.payload_words = 5 →
        ∃ c, vrt_parse_cif_payload pkt = .ok (0, c) ∧
          c.has_bandwidth = true ∧ c.bandwidth = double_56e6 ∧
          c.has_sample_rate = true ∧ c.sample_rate = double_100e6 ∧
          c.context_field_change = false ∧ c.has_reference_point_id = false ∧
          c.has_if_reference_frequency = false ∧ c.has_rf_reference_frequency = false ∧
          c.has_rf_reference_frequency_offset = false ∧ c.has_if_band_offset = false ∧
          c.has_reference_level = false ∧ c.has_gain = false ∧
          c.has_over_range_count = false ∧ c.has_timestamp_adjustment = false ∧
          c.has_timestamp_calibration_time = false ∧ c.has_temperature = false ∧
          c.has_device_identifier = false ∧ c.has_state_and_event_indicators = false ∧
          c.has_data_packet_payload_format = false :=
  ⟨by decide, by decide, by decide, by decide, by decide,
    setters_decoder_roundtrip (List.replicate 10 0) 10 double_56e6 double_100e6
      (by decide) (by decide) (by decide) (by decide) (by decide)⟩

/-! ## Statements on the dispatch of context packets -/

/-- The value the loop extracts from the table decoding, for an entry whose bit is set. -/
theorem mapping_value_decoded (pkt : vrt_packet) (m : vrt_mapping)
    (h : bit_set (payload_word pkt 0) m.cif0_bit = true) :
    mapping_value (cif_decoded pkt) m
      = if supported_bit m.cif0_bit = true then some (cif_value pkt m.cif0_bit) else none := by
  unfold mapping_value cif_decoded cif_value supported_bit
  dsimp only
  by_cases h29 : m.cif0_bit = 29
  · rw [h29] at h ⊢
    simp [h]
  by_cases h28 : m.cif0_bit = 28
  · rw [h28] at h ⊢
    simp [h]
  by_cases h27 : m.cif0_bit = 27
  · rw [h27] at h ⊢
    simp [h]
  by_cases h26 : m.cif0_bit = 26
  · rw [h26] at h ⊢
    simp [h]
  by_cases h25 : m.cif0_bit = 25
  · rw [h25] at h ⊢
    simp [h]
  by_cases h21 : m.cif0_bit = 21
  · rw [h21] at h ⊢
    simp [h]
  simp [h29, h28, h27, h26, h25, h21]

/-- One turn of the loop on the table decoding. -/
theorem process_mapping_eq (ctx : iio_context) (pkt : vrt_packet) (m : vrt_mapping)
    (hb : m.cif0_bit < 32) :
    process_mapping ctx pkt (cif_decoded pkt) m = .ok (mapping_write ctx pkt m) := by
  unfold process_mapping mapping_write
  rw [cif_bit_eq]
  have hc : (cif_decoded pkt).cif0 = payload_word pkt 0 := rfl
  rw [hc]
  by_cases hs : pkt.stream_id = m.stream_id
  · rw [if_neg (not_not.mpr hs), if_neg (by omega)]
    cases hbit : bit_set (payload_word pkt 0) m.cif0_bit
    · simp
    · rw [mapping_value_decoded pkt m hbit]
      cases hsup : supported_bit m.cif0_bit
      · cases find_mapping_attr ctx m <;> simp [hs]
      · cases find_mapping_attr ctx m <;> simp [hs]
  · rw [if_pos hs, if_neg (fun h => hs h.1)]

/-- The loop on the table decoding: one write for each entry that has one, in registry
order. -/
theorem process_mappings_eq (ctx : iio_context) (pkt : vrt_packet) (reg : List vrt_mapping)
    (hb : ∀ m ∈ reg, m.cif0_bit < 32) :
    process_mappings ctx pkt (cif_decoded pkt) reg
      = .ok (reg.filterMap (mapping_write ctx pkt)) := by
  induction reg with
  | nil => rfl
  | cons m rest ih =>
    unfold process_mappings
    rw [process_mapping_eq ctx pkt m (hb m (List.mem_cons_self m rest)), Outcome.bind_ok,
      ih (fun x hx => hb x (List.mem_cons_of_mem m hx)), Outcome.bind_ok]
    cases h : mapping_write ctx pkt m
    · rw [List.filterMap_cons_none h]
    · rw [List.filterMap_cons_some h]

/-- Closed form of the dispatch on an IF Context packet with a stream identifier and at
least one payload word. -/
theorem dispatch_closed_form (ctx : iio_context) (reg : List vrt_mapping) (pkt : vrt_packet)
    (ht : pkt.header.packet_type = VRT_PKT_TYPE_IF_CONTEXT) (hs : pkt.has_stream_id = true)
    (hr : payload_readable pkt = true) (h1 : 1 ≤ pkt.payload_words)
    (hb : ∀ m ∈ reg, m.cif0_bit < 32) :
    vrt_process_command_packet (some ctx) reg (some pkt)
      = .ok (0, reg.filterMap (mapping_write ctx pkt)) := by
  unfold vrt_process_command_packet
  dsimp only
  rw [if_neg (not_not.mpr ht), hs, parse_cif_closed_form pkt hr (Or.inl ht) h1]
  simp only [Bool.not_true, Bool.false_eq_true, if_false]
  rw [Outcome.bind_ok]
  dsimp only
  rw [if_neg (by decide), process_mappings_eq ctx pkt reg hb, Outcome.bind_ok]

theorem supported_bit_iff (b : Nat) :
    supported_bit b = true ↔ (b = 21 ∨ b = 25 ∨ b = 26 ∨ b = 27 ∨ b = 28 ∨ b = 29) := by
  unfold supported_bit
  simp only [Bool.or_eq_true, decide_eq_true_eq]
  tauto

theorem filterMap_none (reg : List vrt_mapping) :
    reg.filterMap (fun _ => (none : Option (Nat × Nat))) = [] := by
  induction reg with
  | nil => rfl
  | cons m rest ih => rw [List.filterMap_cons_none rfl, ih]

/-- C18: `vrt_process_command_packet` returns 0 and its attribute writes are made entry
by entry in registry order; an entry has a write only if the stream identifier of the
packet equals the one of the entry, bit `cif0_bit` of CIF0 is set and `cif0_bit` is one
of 21, 25, 26, 27, 28, 29; every other entry has none. (Bit positions are those of a
32-bit word: the shift `1 << cif0_bit` is undefined from 32 on.) -/
theorem dispatch_writes_only_selected (ctx : iio_context) (reg : List vrt_mapping)
    (pkt : vrt_packet) (hr : payload_readable pkt = true)
    (hb : ∀ m ∈ reg, m.cif0_bit < 32) :
    ∃ f : vrt_mapping → Option (Nat × Nat),
      vrt_process_command_packet (some ctx) reg (some pkt) = .ok (0, reg.filterMap f) ∧
      ∀ m, f m ≠ none →
        pkt.stream_id = m.stream_id ∧ bit_set (payload_word pkt 0) m.cif0_bit = true ∧
        (m.cif0_bit = 21 ∨ m.cif0_bit = 25 ∨ m.cif0_bit = 26 ∨ m.cif0_bit = 27
          ∨ m.cif0_bit = 28 ∨ m.cif0_bit = 29) := by
  by_cases ht : pkt.header.packet_type = VRT_PKT_TYPE_IF_CONTEXT
  · by_cases hs : pkt.has_stream_id = true
    · by_cases h1 : 1 ≤ pkt.payload_words
      · refine ⟨mapping_write ctx pkt, dispatch_closed_form ctx reg pkt ht hs hr h1 hb, ?_⟩
        intro m hm
        unfold mapping_write at hm
        by_cases hc : pkt.stream_id = m.stream_id
            ∧ bit_set (payload_word pkt 0) m.cif0_bit = true ∧ supported_bit m.cif0_bit = true
        · exact ⟨hc.1, hc.2.1, (supported_bit_iff _).mp hc.2.2⟩
        · rw [if_neg hc] at hm
          exact absurd rfl hm
      · refine ⟨fun _ => none, ?_, fun m hm => absurd rfl hm⟩
        rw [filterMap_none]
        unfold vrt_process_command_packet vrt_parse_cif_payload
        dsimp only
        rw [if_neg (not_not.mpr ht), hs]
        simp only [Bool.not_true, Bool.false_eq_true, if_false]
        rw [if_neg (fun h => h.1 ht), if_pos (by omega)]
        rfl
    · refine ⟨fun _ => none, ?_, fun m hm => absurd rfl hm⟩
      rw [filterMap_none]
      unfold vrt_process_command_packet
      dsimp only
      have hs' : pkt.has_stream_id = false := by simpa using hs
      rw [if_neg (not_not.mpr ht), hs']
      rfl
  · refine ⟨fun _ => none, ?_, fun m hm => absurd rfl hm⟩
    rw [filterMap_none]
    unfold vrt_process_command_packet
    dsimp only
    rw [if_pos ht]

theorem dispatch_writes_only_selected_witness :
    payload_readable calibration_pkt = true ∧
    (∀ m ∈ calibration_registry, m.cif0_bit < 32) ∧
    bit_set (payload_word calibration_pkt 0) 19 = true ∧
    vrt_process_command_packet (some test_host) calibration_registry (some calibration_pkt)
      = .ok (0, []) ∧
    ∃ f : vrt_mapping → Option (Nat × Nat),
      vrt_process_command_packet (some test_host) calibration_registry (some calibration_pkt)
        = .ok (0, calibration_registry.filterMap f) ∧
      ∀ m, f m ≠ none →
        calibration_pkt.stream_id = m.stream_id ∧
        bit_set (payload_word calibration_pkt 0) m.cif0_bit = true ∧
        (m.cif0_bit = 21 ∨ m.cif0_bit = 25 ∨ m.cif0_bit = 26 ∨ m.cif0_bit = 27
          ∨ m.cif0_bit = 28 ∨ m.cif0_bit = 29) :=
  ⟨by decide, by decide, by decide, by decide,
    dispatch_writes_only_selected test_host calibration_registry calibration_pkt (by decide)
      (by decide)⟩

/-- C19: when every entry of the registry resolves to an attribute of the host, on an
IF Context packet with a stream identifier and a complete payload the attribute writes
are the registry in its order (head first: the entry added last), filtered to the entries
with the stream identifier of the packet whose bit is set in CIF0 and is one of 21, 25,
26, 27, 28, 29, each written to the attribute of the entry with the 64-bit value in the
two payload words at the table offset of its bit; the return is 0. Two entries with the
same stream identifier and bit have a write each. -/
theorem dispatch_write_sequence (ctx : iio_context) (reg : List vrt_mapping)
    (pkt : vrt_packet) (p : List Nat) (attr_of : vrt_mapping → Nat)
    (ht : pkt.header.packet_type = VRT_PKT_TYPE_IF_CONTEXT) (hs : pkt.has_stream_id = true)
    (hp : pkt.payload = some p) (hl : pkt.payload_words ≤ p.length)
    (hall : cif_offset (wire_word p 0) 14 ≤ pkt.payload_words)
    (hb : ∀ m ∈ reg, m.cif0_bit < 32)
    (hres : ∀ m ∈ reg, find_mapping_attr ctx m = some (attr_of m)) :
    vrt_process_command_packet (some ctx) reg (some pkt)
      = .ok (0, (reg.filter fun m =>
            decide (pkt.stream_id = m.stream_id) && bit_set (wire_word p 0) m.cif0_bit
              && supported_bit m.cif0_bit).map
          fun m => (attr_of m, wire_double p (cif_offset (wire_word p 0) m.cif0_bit))) := by
  have h1 : 1 ≤ pkt.payload_words := by
    have : 1 ≤ cif_offset (wire_word p 0) 14 := by unfold cif_offset; omega
    omega
  have hr : payload_readable pkt = true := by
    unfold payload_readable
    rw [hp]
    exact decide_eq_true hl
  have hc : payload_word pkt 0 = wire_word p 0 := payload_word_inside pkt p 0 hp (by omega)
  rw [dispatch_closed_form ctx reg pkt ht hs hr h1 hb]
  refine congrArg (fun ws => Outcome.ok ((0 : Int), ws)) ?_
  clear hb
  induction reg with
  | nil => rfl
  | cons m rest ih =>
    have ihr := ih (fun x hx => hres x (List.mem_cons_of_mem m hx))
    have hm := hres m (List.mem_cons_self m rest)
    by_cases hc3 : pkt.stream_id = m.stream_id
        ∧ bit_set (payload_word pkt 0) m.cif0_bit = true ∧ supported_bit m.cif0_bit = true
    · have hw : mapping_write ctx pkt m
          = some (attr_of m, wire_double p (cif_offset (wire_word p 0) m.cif0_bit)) := by
        unfold mapping_write
        rw [if_pos hc3, hm]
        have h15 : 15 ≤ m.cif0_bit ∧ m.cif0_bit ≤ 30 := by
          rcases (supported_bit_iff _).mp hc3.2.2 with h | h | h | h | h | h <;> omega
        have hin := field_inside (wire_word p 0) m.cif0_bit h15.1 h15.2 (hc ▸ hc3.2.1)
        have hwd : cif_widths.getD (30 - m.cif0_bit) 0 = 2 := by
          rcases (supported_bit_iff _).mp hc3.2.2 with h | h | h | h | h | h <;>
            rw [h] <;> rfl
        unfold cif_value
        rw [hc, payload_double_inside pkt p _ hp (by omega)]
        rfl
      rw [List.filterMap_cons_some hw, ihr, List.filter_cons_of_pos, List.map_cons]
      rw [← hc]
      simp only [hc3.1, hc3.2.1, hc3.2.2, decide_True, Bool.and_self]
    · have hw : mapping_write ctx pkt m = none := by
        unfold mapping_write
        rw [if_neg hc3]
      rw [List.filterMap_cons_none hw, ihr, List.filter_cons_of_neg]
      rw [← hc]
      intro h
      apply hc3
      simp only [Bool.and_eq_true, decide_eq_true_eq] at h
      exact ⟨h.1.1, h.1.2, h.2⟩

theorem dispatch_write_sequence_witness :
    scenario3_pkt.header.packet_type = VRT_PKT_TYPE_IF_CONTEXT ∧
    scenario3_pkt.has_stream_id = true ∧
    scenario3_pkt.payload = some scenario3_payload ∧
    scenario3_pkt.payload_words ≤ scenario3_payload.length ∧
    cif_offset (wire_word scenario3_payload 0) 14 ≤ scenario3_pkt.payload_words ∧
    (∀ m ∈ test_registry, m.cif0_bit < 32) ∧
    (∀ m ∈ test_registry, find_mapping_attr test_host m = some m.attr_name.length) ∧
    test_registry.map (fun m => (m.cif0_bit, m.attr_name))
      = [(29, "rf_bandwidth"), (21, "sampling_frequency")] ∧
    vrt_process_command_packet (some test_host) test_registry (some scenario3_pkt)
      = .ok (0, [("rf_bandwidth".length, double_56e6),
                 ("sampling_frequency".length, double_100e6)]) :=
  ⟨by decide, rfl, rfl, by decide, by decide, by decide, by decide, by decide,
    (dispatch_write_sequence test_host test_registry scenario3_pkt scenario3_payload
      (fun m => m.attr_name.length) (by decide) rfl rfl (by decide) (by decide) (by decide)
      (by decide)).trans (by decide)⟩

/-- C21: with a non-null context and packet, `vrt_process_command_packet` returns 0
without any attribute write when the packet type is not IF Context (4), when the
packet has no stream identifier, and when `vrt_parse_cif_payload` returns a negative
value. -/
theorem dispatch_early_return (ctx : iio_context) (reg : List vrt_mapping) (pkt : vrt_packet)
    (h : pkt.header.packet_type ≠ VRT_PKT_TYPE_IF_CONTEXT ∨ pkt.has_stream_id = false
      ∨ ∃ r c, vrt_parse_cif_payload pkt = .ok (r, c) ∧ r < 0) :
    vrt_process_command_packet (some ctx) reg (some pkt) = .ok (0, []) := by
  unfold vrt_process_command_packet
  dsimp only
  by_cases ht : pkt.header.packet_type ≠ VRT_PKT_TYPE_IF_CONTEXT
  · rw [if_pos ht]
  rw [if_neg ht]
  cases hs : pkt.has_stream_id
  · rfl
  · rcases h with h | h | ⟨r, c, hd, hr⟩
    · exact absurd h ht
    · rw [hs] at h
      cases h
    · rw [hd, Outcome.bind_ok]
      dsimp only
      rw [if_pos hr]
      rfl

theorem dispatch_early_return_witness :
    (test_data_pkt.header.packet_type ≠ VRT_PKT_TYPE_IF_CONTEXT
      ∨ test_data_pkt.has_stream_id = false
      ∨ ∃ r c, vrt_parse_cif_payload test_data_pkt = .ok (r, c) ∧ r < 0) ∧
    vrt_process_command_packet (some test_host) test_registry (some test_data_pkt)
      = .ok (0, []) ∧
    vrt_process_command_packet (some test_host) test_registry
        (some { scenario3_pkt with header := { word := 0x50000000 } }) = .ok (0, []) ∧
    vrt_process_command_packet (some test_host) test_registry
        (some { scenario3_pkt with has_stream_id := false }) = .ok (0, []) ∧
    vrt_process_command_packet (some test_host) test_registry
        (some { scenario3_pkt with payload_words := 0 }) = .ok (0, []) :=
  ⟨Or.inl (by decide),
    dispatch_early_return test_host test_registry test_data_pkt (Or.inl (by decide)),
    dispatch_early_return test_host test_registry _ (Or.inl (by decide)),
    dispatch_early_return test_host test_registry _ (Or.inr (Or.inl rfl)),
    dispatch_early_return test_host test_registry _
      (Or.inr (Or.inr ⟨-1, vrt_cif_fields.zeroed, by decide, by decide⟩))⟩

theorem process_mapping_write_result (ctx : iio_context) (wr : Nat → Nat → Int)
    (pkt : vrt_packet) (cif : vrt_cif_fields) (m : vrt_mapping) :
    process_mapping { ctx with iio_attr_write_double := wr } pkt cif m
      = process_mapping ctx pkt cif m := by
  have hf : find_mapping_attr { ctx with iio_attr_write_double := wr } m
      = find_mapping_attr ctx m := rfl
  unfold process_mapping
  rw [hf]
  cases find_mapping_attr ctx m with
  | none => rfl
  | some attr =>
    cases mapping_value cif m with
    | none => rfl
    | some val =>
      dsimp only
      rw [ite_self, ite_self]

theorem process_mappings_write_result (ctx : iio_context) (wr : Nat → Nat → Int)
    (pkt : vrt_packet) (cif : vrt_cif_fields) (reg : List vrt_mapping) :
    process_mappings { ctx with iio_attr_write_double := wr } pkt cif reg
      = process_mappings ctx pkt cif reg := by
  induction reg with
  | nil => rfl
  | cons m rest ih =>
    unfold process_mappings
    rw [process_mapping_write_result, ih]

theorem bind_ok_inv {α β : Type} (x : Outcome α) (f : α → Outcome β) (b : β)
    (h : x.bind f = .ok b) : ∃ a, x = .ok a ∧ f a = .ok b := by
  cases x with
  | ok a => exact ⟨a, rfl, h⟩
  | err c => cases h
  | fault => cases h

/-- C30: the results of the host-library writes have no effect on the dispatch: for
every registry and packet the call gives the same return value and the same sequence of
attribute writes whatever function gives the results of `iio_attr_write_double`, and the
value it returns with a non-null context and packet is 0. -/
theorem dispatch_ignores_write_results (ctx : iio_context) (reg : List vrt_mapping)
    (pkt : Option vrt_packet) :
    (∀ wr : Nat → Nat → Int,
      vrt_process_command_packet (some { ctx with iio_attr_write_double := wr }) reg pkt
        = vrt_process_command_packet (some ctx) reg pkt) ∧
    (∀ r ws, pkt ≠ none → vrt_process_command_packet (some ctx) reg pkt = .ok (r, ws) →
      r = 0) := by
  constructor
  · intro wr
    cases pkt with
    | none => rfl
    | some p =>
      unfold vrt_process_command_packet
      dsimp only
      simp only [process_mappings_write_result]
  · intro r ws hp h
    cases pkt with
    | none => exact absurd rfl hp
    | some p =>
      unfold vrt_process_command_packet at h
      dsimp only at h
      by_cases ht : p.header.packet_type ≠ VRT_PKT_TYPE_IF_CONTEXT
      · rw [if_pos ht] at h
        injection h with h
        exact (congrArg Prod.fst h).symm
      rw [if_neg ht] at h
      by_cases hs : (!p.has_stream_id) = true
      · rw [if_pos hs] at h
        injection h with h
        exact (congrArg Prod.fst h).symm
      rw [if_neg hs] at h
      obtain ⟨a, _, h2⟩ := bind_ok_inv _ _ _ h
      by_cases hr : a.1 < 0
      · rw [if_pos hr] at h2
        injection h2 with h2
        exact (congrArg Prod.fst h2).symm
      rw [if_neg hr] at h2
      obtain ⟨b, _, h3⟩ := bind_ok_inv _ _ _ h2
      injection h3 with h3
      exact (congrArg Prod.fst h3).symm

theorem dispatch_ignores_write_results_witness :
    (some scenario3_pkt ≠ none) ∧
    vrt_process_command_packet
        (some { test_host with iio_attr_write_double := fun _ _ => -5 }) test_registry
        (some scenario3_pkt)
      = .ok (0, [("rf_bandwidth".length, double_56e6),
                 ("sampling_frequency".length, double_100e6)]) ∧
    ((0 : Int) = 0) :=
  ⟨by decide,
    ((dispatch_ignores_write_results test_host test_registry (some scenario3_pkt)).1
      (fun _ _ => -5)).trans (by decide),
    (dispatch_ignores_write_results test_host test_registry (some scenario3_pkt)).2 0
      [("rf_bandwidth".length, double_56e6), ("sampling_frequency".length, double_100e6)]
      (by decide) (by decide)⟩

/-! ## Statements on the registry -/

/-- C24: a call of `vrt_command_add_mapping` whose allocation succeeds returns 0 and
puts the new entry at the head of the registry, before the previous entries, which keep
their content and order; the entry holds `stream_id`, `cif0_bit`, the attribute kind and
`is_output` as given and the first `min (length, 63)` bytes of `device_name`,
`channel_name` and `attr_name`, a null `channel_name` giving the empty string. -/
theorem vrt_command_add_mapping_prepends (calloc_ok : Bool) (reg : List vrt_mapping)
    (stream_id cif0_bit : Nat) (device_name : String) (attr_type : Nat)
    (channel_name : Option String) (is_output : Bool) (attr_name : String)
    (h : calloc_ok = true) :
    ∃ m, vrt_command_add_mapping calloc_ok reg stream_id cif0_bit device_name attr_type
          channel_name is_output attr_name = (0, m :: reg) ∧
      m.stream_id = stream_id ∧ m.cif0_bit = cif0_bit ∧ m.attr_type = attr_type ∧
      m.is_output = is_output ∧
      m.device_name.data = device_name.data.take 63 ∧
      m.device_name.length = min device_name.length 63 ∧
      (∀ c, channel_name = some c →
        m.channel_name.data = c.data.take 63 ∧ m.channel_name.length = min c.length 63) ∧
      (channel_name = none → m.channel_name = "") ∧
      m.attr_name.data = attr_name.data.take 63 ∧
      m.attr_name.length = min attr_name.length 63 := by
  have hl : ∀ s : String, (snprintf64 s).length = min s.length 63 := by
    intro s
    show (s.data.take 63).length = min s.data.length 63
    rw [List.length_take, Nat.min_comm]
  unfold vrt_command_add_mapping
  rw [h]
  refine ⟨_, rfl, rfl, rfl, rfl, rfl, rfl, hl _, ?_, ?_, rfl, hl _⟩
  · intro c hc
    rw [hc]
    exact ⟨rfl, hl c⟩
  · intro hc
    rw [hc]
    rfl

theorem vrt_command_add_mapping_prepends_witness :
    true = true ∧
    ∃ m, vrt_command_add_mapping true test_registry 0x12345678 25 "ad9361-phy"
          VRT_ATTR_TYPE_DEVICE none false "if_band_offset" = (0, m :: test_registry) ∧
      m.stream_id = 0x12345678 ∧ m.cif0_bit = 25 ∧ m.attr_type = VRT_ATTR_TYPE_DEVICE ∧
      m.is_output = false ∧ m.device_name = "ad9361-phy" ∧ m.channel_name = "" ∧
      m.attr_name = "if_band_offset" := by
  obtain ⟨m, hm, h1, h2, h3, h4, h5, _, _, h8, h9, _⟩ :=
    vrt_command_add_mapping_prepends true test_registry 0x12345678 25 "ad9361-phy"
      VRT_ATTR_TYPE_DEVICE none false "if_band_offset" rfl
  exact ⟨rfl, m, hm, h1, h2, h3, h4, String.ext h5, h8 rfl, String.ext h9⟩

/-! ## Statements on single fields of the CIF0 payload -/

theorem readable_of_some (pkt : vrt_packet) (p : List Nat) (hp : pkt.payload = some p)
    (hl : pkt.payload_words ≤ p.length) : payload_readable pkt = true := by
  unfold payload_readable
  rw [hp]
  exact decide_eq_true hl

theorem wire_word_lt (p : List Nat) (i : Nat) : wire_word p i < 2 ^ 32 := ntohl_lt _

theorem int16_of_range (x : Nat) : -2 ^ 15 ≤ int16_of x ∧ int16_of x ≤ 2 ^ 15 - 1 := by
  unfold int16_of
  split <;> omega

/-- C25: when bit 23 of CIF0 is set and the gain word `val` is inside the payload,
`vrt_parse_cif_payload` sets `has_gain`, `gain_stage_1` is the upper 16 bits of `val` and
`gain_stage_2` the lower 16 bits, each read as a two's-complement integer (a value from
-32768 to 32767, which a `float` holds exactly) and not scaled. -/
theorem vrt_parse_cif_payload_gain (pkt : vrt_packet) (p : List Nat)
    (ht : pkt.header.packet_type = VRT_PKT_TYPE_IF_CONTEXT
      ∨ pkt.header.packet_type = VRT_PKT_TYPE_EXT_CONTEXT)
    (hp : pkt.payload = some p) (hl : pkt.payload_words ≤ p.length)
    (hbit : bit_set (wire_word p 0) 23 = true)
    (hin : cif_offset (wire_word p 0) 23 < pkt.payload_words) :
    ∃ c, vrt_parse_cif_payload pkt = .ok (0, c) ∧ c.has_gain = true ∧
      c.gain_stage_1
        = (if wire_word p (cif_offset (wire_word p 0) 23) / 2 ^ 16 < 2 ^ 15 then
            ((wire_word p (cif_offset (wire_word p 0) 23) / 2 ^ 16 : Nat) : Int)
          else ((wire_word p (cif_offset (wire_word p 0) 23) / 2 ^ 16 : Nat) : Int) - 2 ^ 16) ∧
      c.gain_stage_2
        = (if wire_word p (cif_offset (wire_word p 0) 23) % 2 ^ 16 < 2 ^ 15 then
            ((wire_word p (cif_offset (wire_word p 0) 23) % 2 ^ 16 : Nat) : Int)
          else ((wire_word p (cif_offset (wire_word p 0) 23) % 2 ^ 16 : Nat) : Int) - 2 ^ 16) ∧
      -2 ^ 15 ≤ c.gain_stage_1 ∧ c.gain_stage_1 ≤ 2 ^ 15 - 1 ∧
      -2 ^ 15 ≤ c.gain_stage_2 ∧ c.gain_stage_2 ≤ 2 ^ 15 - 1 := by
  have h1 : 1 ≤ pkt.payload_words := by
    have : 1 ≤ cif_offset (wire_word p 0) 23 := by unfold cif_offset; omega
    omega
  have hc : payload_word pkt 0 = wire_word p 0 := payload_word_inside pkt p 0 hp (by omega)
  have hv := payload_word_inside pkt p _ hp hin
  have hlt := wire_word_lt p (cif_offset (wire_word p 0) 23)
  have e1 : (cif_decoded pkt).gain_stage_1
      = int16_of (wire_word p (cif_offset (wire_word p 0) 23) / 2 ^ 16) := by
    show (if bit_set (payload_word pkt 0) 23 = true then
      int16_of (payload_word pkt (cif_offset (payload_word pkt 0) 23) / 2 ^ 16) else 0) = _
    rw [hc, if_pos hbit, hv]
  have e2 : (cif_decoded pkt).gain_stage_2
      = int16_of (wire_word p (cif_offset (wire_word p 0) 23)) := by
    show (if bit_set (payload_word pkt 0) 23 = true then
      int16_of (payload_word pkt (cif_offset (payload_word pkt 0) 23)) else 0) = _
    rw [hc, if_pos hbit, hv]
  refine ⟨cif_decoded pkt, parse_cif_closed_form pkt (readable_of_some pkt p hp hl) ht h1, ?_,
    ?_, ?_, ?_⟩
  · show bit_set (payload_word pkt 0) 23 = true
    rw [hc]
    exact hbit
  · rw [e1]
    unfold int16_of
    have : wire_word p (cif_offset (wire_word p 0) 23) / 2 ^ 16 % 2 ^ 16
        = wire_word p (cif_offset (wire_word p 0) 23) / 2 ^ 16 := by omega
    rw [this]
    rfl
  · rw [e2]
    rfl
  · rw [e1, e2]
    exact ⟨(int16_of_range _).1, (int16_of_range _).2, (int16_of_range _).1,
      (int16_of_range _).2⟩

theorem q16_identity (val : Nat) (hv : val < 2 ^ 32) :
    int16_of (val / 2 ^ 16) * 65536 + ((val % 2 ^ 16 : Nat) : Int)
      = if val < 2 ^ 31 then (val : Int) else (val : Int) - 2 ^ 32 := by
  unfold int16_of
  split <;> split <;> omega

theorem round_half_even_near (m q : Nat) (hq : 0 < q) :
    q ∣ round_half_even m q ∧ 2 * round_half_even m q ≤ 2 * m + q ∧
    2 * m ≤ 2 * round_half_even m q + q ∧
    (2 * (m % q) = q → round_half_even m q / q % 2 = 0) ∧
    round_half_even m q / q ≤ m / q + 1 := by
  have hdm := Nat.div_add_mod m q
  have hr := Nat.mod_lt m hq
  have e1 : (m / q + 1) * q = m / q * q + q := by ring
  have e2 : q * (m / q) = m / q * q := Nat.mul_comm _ _
  have d1 : m / q * q / q = m / q := Nat.mul_div_cancel _ hq
  have d2 : (m / q + 1) * q / q = m / q + 1 := Nat.mul_div_cancel _ hq
  unfold round_half_even
  split
  · refine ⟨Dvd.intro_left _ rfl, by omega, by omega, fun h => by omega, by rw [d1]; omega⟩
  · split
    · refine ⟨Dvd.intro_left _ rfl, by omega, by omega, fun h => by omega, by rw [d2]⟩
    · split
      · refine ⟨Dvd.intro_left _ rfl, by omega, by omega, fun _ => by rw [d1]; assumption,
          by rw [d1]; omega⟩
      · refine ⟨Dvd.intro_left _ rfl, by omega, by omega, fun _ => by rw [d2]; omega,
          by rw [d2]⟩

theorem float_spacing_q16_pos (m : Nat) : 0 < float_spacing_q16 m := by
  unfold float_spacing_q16
  split_ifs <;> omega

theorem float_spacing_q16_significand (m : Nat) (h : m < 2 ^ 32) :
    m / float_spacing_q16 m < 2 ^ 24 := by
  unfold float_spacing_q16
  split_ifs <;> omega

theorem round_half_even_one (m : Nat) : round_half_even m 1 = m := by
  unfold round_half_even
  simp [Nat.mod_one]

/-- The rounding to `float` gives a multiple of the distance between the `float` values
around, with a significand of at most 24 bits, not farther from the value than half that
distance; a value of less than 24 bits is kept. -/
theorem float_nearest_q16_near (n : Int) (hn : n.natAbs < 2 ^ 32) :
    ((float_spacing_q16 n.natAbs : Nat) : Int) ∣ float_nearest_q16 n ∧
    (float_nearest_q16 n).natAbs / float_spacing_q16 n.natAbs ≤ 2 ^ 24 ∧
    2 * |float_nearest_q16 n - n| ≤ ((float_spacing_q16 n.natAbs : Nat) : Int) ∧
    (n.natAbs < 2 ^ 24 → float_nearest_q16 n = n) := by
  obtain ⟨hd, h1, h2, _, h4⟩ :=
    round_half_even_near n.natAbs (float_spacing_q16 n.natAbs) (float_spacing_q16_pos _)
  have hs := float_spacing_q16_significand n.natAbs hn
  have hsign : n.sign = 1 ∨ n.sign = -1 ∨ (n.sign = 0 ∧ n = 0) := by
    rcases lt_trichotomy n 0 with h | h | h
    · exact Or.inr (Or.inl (Int.sign_eq_neg_one_of_neg h))
    · exact Or.inr (Or.inr ⟨by rw [h]; rfl, h⟩)
    · exact Or.inl (Int.sign_eq_one_of_pos h)
  have hna : (n.natAbs : Int) = |n| := Int.natCast_natAbs n
  have habs : (float_nearest_q16 n).natAbs
      = round_half_even n.natAbs (float_spacing_q16 n.natAbs) ∨ n = 0 := by
    unfold float_nearest_q16
    rcases hsign with h | h | ⟨_, h⟩
    · left; rw [h, one_mul, Int.natAbs_ofNat]
    · left; rw [h, neg_one_mul, Int.natAbs_neg, Int.natAbs_ofNat]
    · exact Or.inr h
  refine ⟨?_, ?_, ?_, ?_⟩
  · unfold float_nearest_q16
    exact Dvd.dvd.mul_left (Int.natCast_dvd_natCast.mpr hd) _
  · rcases habs with h | h
    · rw [h]; omega
    · rw [h]; decide
  · unfold float_nearest_q16
    rcases hsign with h | h | ⟨_, h⟩
    · rw [h, one_mul]
      have hn0 : n = (n.natAbs : Int) := by
        have := Int.sign_mul_natAbs n
        rw [h, one_mul] at this
        exact this.symm
      rcases abs_cases
        ((round_half_even n.natAbs (float_spacing_q16 n.natAbs) : Int) - n) with
        ⟨he, _⟩ | ⟨he, _⟩ <;> rw [he] <;> omega
    · rw [h, neg_one_mul]
      have hn0 : n = -(n.natAbs : Int) := by
        have := Int.sign_mul_natAbs n
        rw [h, neg_one_mul] at this
        exact this.symm
      rcases abs_cases
        (-(round_half_even n.natAbs (float_spacing_q16 n.natAbs) : Int) - n) with
        ⟨he, _⟩ | ⟨he, _⟩ <;> rw [he] <;> omega
    · rw [h]; decide
  · intro h24
    unfold float_nearest_q16 float_spacing_q16
    rw [if_pos h24, round_half_even_one]
    exact Int.sign_mul_natAbs n

/-- C26: when bit 18 of CIF0 is set and the temperature word `val` is inside the payload,
the value `vrt_parse_cif_payload` computes for the temperature before it is rounded to a
`float` (`temperature_unrounded`) is the upper 16 bits of `val` read as a two's-complement
integer plus the lower 16 bits over 65536; this is `val` read as a two's-complement 32-bit
integer, over 65536. The `float` stored in `temperature` is this value rounded: a multiple
of the distance between the `float` values around it with a significand of at most 24
bits, not farther from the value than half that distance, and the value itself when `val`
read as an integer has less than 24 bits. -/
theorem vrt_parse_cif_payload_temperature (pkt : vrt_packet) (p : List Nat)
    (ht : pkt.header.packet_type = VRT_PKT_TYPE_IF_CONTEXT
      ∨ pkt.header.packet_type = VRT_PKT_TYPE_EXT_CONTEXT)
    (hp : pkt.payload = some p) (hl : pkt.payload_words ≤ p.length)
    (hbit : bit_set (wire_word p 0) 18 = true)
    (hin : cif_offset (wire_word p 0) 18 < pkt.payload_words) :
    ∃ c, vrt_parse_cif_payload pkt = .ok (0, c) ∧ c.has_temperature = true ∧
      c.temperature_unrounded
        = ((if wire_word p (cif_offset (wire_word p 0) 18) / 2 ^ 16 < 2 ^ 15 then
              ((wire_word p (cif_offset (wire_word p 0) 18) / 2 ^ 16 : Nat) : Int)
            else ((wire_word p (cif_offset (wire_word p 0) 18) / 2 ^ 16 : Nat) : Int)
              - 2 ^ 16 : Int) : Rat)
          + ((wire_word p (cif_offset (wire_word p 0) 18) % 2 ^ 16 : Nat) : Rat) / 65536 ∧
      c.temperature_unrounded
        = ((if wire_word p (cif_offset (wire_word p 0) 18) < 2 ^ 31 then
              ((wire_word p (cif_offset (wire_word p 0) 18) : Nat) : Int)
            else ((wire_word p (cif_offset (wire_word p 0) 18) : Nat) : Int) - 2 ^ 32 : Int)
            : Rat) / 65536 ∧
      ∃ n : Int,
        n = (if wire_word p (cif_offset (wire_word p 0) 18) < 2 ^ 31 then
              ((wire_word p (cif_offset (wire_word p 0) 18) : Nat) : Int)
            else ((wire_word p (cif_offset (wire_word p 0) 18) : Nat) : Int) - 2 ^ 32) ∧
        c.temperature = ((float_nearest_q16 n : Int) : Rat) / 65536 ∧
        ((float_spacing_q16 n.natAbs : Nat) : Int) ∣ float_nearest_q16 n ∧
        (float_nearest_q16 n).natAbs / float_spacing_q16 n.natAbs ≤ 2 ^ 24 ∧
        2 * |float_nearest_q16 n - n| ≤ ((float_spacing_q16 n.natAbs : Nat) : Int) ∧
        (n.natAbs < 2 ^ 24 → c.temperature = c.temperature_unrounded) := by
  have h1 : 1 ≤ pkt.payload_words := by
    have : 1 ≤ cif_offset (wire_word p 0) 18 := by unfold cif_offset; omega
    omega
  have hc : payload_word pkt 0 = wire_word p 0 := payload_word_inside pkt p 0 hp (by omega)
  have hv := payload_word_inside pkt p _ hp hin
  have hlt := wire_word_lt p (cif_offset (wire_word p 0) 18)
  have e1 : (cif_decoded pkt).temperature_unrounded
      = (int16_of (wire_word p (cif_offset (wire_word p 0) 18) / 2 ^ 16) : Rat)
        + ((wire_word p (cif_offset (wire_word p 0) 18) % 2 ^ 16 : Nat) : Rat) / 65536 := by
    show (if bit_set (payload_word pkt 0) 18 = true then
      (int16_of (payload_word pkt (cif_offset (payload_word pkt 0) 18) / 2 ^ 16) : Rat)
        + ((payload_word pkt (cif_offset (payload_word pkt 0) 18) % 2 ^ 16 : Nat) : Rat) / 65536
      else 0) = _
    rw [hc, if_pos hbit, hv]
  have e2 : (cif_decoded pkt).temperature
      = ((float_nearest_q16
          (int16_of (wire_word p (cif_offset (wire_word p 0) 18) / 2 ^ 16) * 65536
            + ((wire_word p (cif_offset (wire_word p 0) 18) % 2 ^ 16 : Nat) : Int)) : Int)
          : Rat) / 65536 := by
    show (if bit_set (payload_word pkt 0) 18 = true then
      ((float_nearest_q16
          (int16_of (payload_word pkt (cif_offset (payload_word pkt 0) 18) / 2 ^ 16) * 65536
            + ((payload_word pkt (cif_offset (payload_word pkt 0) 18) % 2 ^ 16 : Nat) : Int))
          : Int) : Rat) / 65536
      else 0) = _
    rw [hc, if_pos hbit, hv]
  have e16 : int16_of (wire_word p (cif_offset (wire_word p 0) 18) / 2 ^ 16)
      = (if wire_word p (cif_offset (wire_word p 0) 18) / 2 ^ 16 < 2 ^ 15 then
          ((wire_word p (cif_offset (wire_word p 0) 18) / 2 ^ 16 : Nat) : Int)
        else ((wire_word p (cif_offset (wire_word p 0) 18) / 2 ^ 16 : Nat) : Int) - 2 ^ 16) := by
    unfold int16_of
    have : wire_word p (cif_offset (wire_word p 0) 18) / 2 ^ 16 % 2 ^ 16
        = wire_word p (cif_offset (wire_word p 0) 18) / 2 ^ 16 := by omega
    rw [this]
    rfl
  have hq := q16_identity _ hlt
  have hqr : ((int16_of (wire_word p (cif_offset (wire_word p 0) 18) / 2 ^ 16) * 65536
        + ((wire_word p (cif_offset (wire_word p 0) 18) % 2 ^ 16 : Nat) : Int) : Int) : Rat)
        = ((if wire_word p (cif_offset (wire_word p 0) 18) < 2 ^ 31 then
              ((wire_word p (cif_offset (wire_word p 0) 18) : Nat) : Int)
            else ((wire_word p (cif_offset (wire_word p 0) 18) : Nat) : Int) - 2 ^ 32 : Int)
            : Rat) := congrArg (fun z : Int => (z : Rat)) hq
  have hunr : (cif_decoded pkt).temperature_unrounded
      = ((if wire_word p (cif_offset (wire_word p 0) 18) < 2 ^ 31 then
            ((wire_word p (cif_offset (wire_word p 0) 18) : Nat) : Int)
          else ((wire_word p (cif_offset (wire_word p 0) 18) : Nat) : Int) - 2 ^ 32 : Int)
          : Rat) / 65536 := by
    rw [e1, ← hqr, Int.cast_add, Int.cast_mul, Int.cast_natCast]
    field_simp
  have hnat : (if wire_word p (cif_offset (wire_word p 0) 18) < 2 ^ 31 then
        ((wire_word p (cif_offset (wire_word p 0) 18) : Nat) : Int)
      else ((wire_word p (cif_offset (wire_word p 0) 18) : Nat) : Int) - 2 ^ 32).natAbs
      < 2 ^ 32 := by
    split <;> omega
  obtain ⟨n1, n2, n3, n4⟩ := float_nearest_q16_near _ hnat
  refine ⟨cif_decoded pkt, parse_cif_closed_form pkt (readable_of_some pkt p hp hl) ht h1, ?_,
    ?_, hunr, _, rfl, ?_, n1, n2, n3, ?_⟩
  · show bit_set (payload_word pkt 0) 18 = true
    rw [hc]
    exact hbit
  · rw [e1, e16]
  · rw [e2, hq]
  · intro h24
    rw [e2, hq, n4 h24, hunr]

theorem vrt_parse_cif_payload_gain_witness :
    (gain_temperature_pkt.header.packet_type = VRT_PKT_TYPE_IF_CONTEXT
      ∨ gain_temperature_pkt.header.packet_type = VRT_PKT_TYPE_EXT_CONTEXT) ∧
    gain_temperature_pkt.payload_words ≤ 5 ∧
    wire_word [htonl ((1 <<< 23) ||| (1 <<< 18) ||| (1 <<< 17)), htonl 0xFFFE8001,
      htonl 0xFFFF8000, htonl 0xAB123456, htonl 0xBEEF0001] 1 = 0xFFFE8001 ∧
    ∃ c, vrt_parse_cif_payload gain_temperature_pkt = .ok (0, c) ∧ c.has_gain = true ∧
      c.gain_stage_1 = -2 ∧ c.gain_stage_2 = -32767 := by
  refine ⟨by decide, by decide, by decide, ?_⟩
  obtain ⟨c, hc, hg, h1, h2, _⟩ :=
    vrt_parse_cif_payload_gain gain_temperature_pkt
      [htonl ((1 <<< 23) ||| (1 <<< 18) ||| (1 <<< 17)), htonl 0xFFFE8001,
        htonl 0xFFFF8000, htonl 0xAB123456, htonl 0xBEEF0001]
      (by decide) rfl (by decide) (by decide) (by decide)
  exact ⟨c, hc, hg, h1.trans (by decide), h2.trans (by decide)⟩

/-- Witness of C26: for the temperature word 0x7FFFFFFF the value before rounding is
2147483647 / 65536 and the `float` stored is 32768; for the word 0xFFFF8000 both are
-1 / 2. -/
theorem vrt_parse_cif_payload_temperature_witness :
    (rounded_temperature_pkt.header.packet_type = VRT_PKT_TYPE_IF_CONTEXT
      ∨ rounded_temperature_pkt.header.packet_type = VRT_PKT_TYPE_EXT_CONTEXT) ∧
    rounded_temperature_pkt.payload_words ≤ 2 ∧
    wire_word [htonl (1 <<< 18), htonl 0x7FFFFFFF] 1 = 0x7FFFFFFF ∧
    (∃ c, vrt_parse_cif_payload rounded_temperature_pkt = .ok (0, c) ∧
      c.has_temperature = true ∧ c.temperature_unrounded = 2147483647 / 65536 ∧
      c.temperature = 32768) ∧
    ∃ c, vrt_parse_cif_payload gain_temperature_pkt = .ok (0, c) ∧
      c.has_temperature = true ∧ c.temperature_unrounded = -1 / 2 ∧
      c.temperature = -1 / 2 := by
  refine ⟨by decide, by decide, by decide, ?_, ?_⟩
  · obtain ⟨c, hc, hg, _, h2, n, hn, h3, _⟩ :=
      vrt_parse_cif_payload_temperature rounded_temperature_pkt
        [htonl (1 <<< 18), htonl 0x7FFFFFFF] (by decide) rfl (by decide) (by decide)
        (by decide)
    have e : (if wire_word [htonl (1 <<< 18), htonl 0x7FFFFFFF]
          (cif_offset (wire_word [htonl (1 <<< 18), htonl 0x7FFFFFFF] 0) 18) < 2 ^ 31 then
        ((wire_word [htonl (1 <<< 18), htonl 0x7FFFFFFF]
          (cif_offset (wire_word [htonl (1 <<< 18), htonl 0x7FFFFFFF] 0) 18) : Nat) : Int)
        else ((wire_word [htonl (1 <<< 18), htonl 0x7FFFFFFF]
          (cif_offset (wire_word [htonl (1 <<< 18), htonl 0x7FFFFFFF] 0) 18) : Nat) : Int)
          - 2 ^ 32) = 2147483647 := by decide
    have er : float_nearest_q16 2147483647 = 2147483648 := by decide
    rw [e] at h2 hn
    rw [hn, er] at h3
    refine ⟨c, hc, hg, ?_, ?_⟩
    · rw [h2]; norm_num
    · rw [h3]; norm_num
  · obtain ⟨c, hc, hg, _, h2, n, hn, h3, _⟩ :=
      vrt_parse_cif_payload_temperature gain_temperature_pkt
        [htonl ((1 <<< 23) ||| (1 <<< 18) ||| (1 <<< 17)), htonl 0xFFFE8001,
          htonl 0xFFFF8000, htonl 0xAB123456, htonl 0xBEEF0001]
        (by decide) rfl (by decide) (by decide) (by decide)
    have e : (if wire_word [htonl ((1 <<< 23) ||| (1 <<< 18) ||| (1 <<< 17)),
          htonl 0xFFFE8001, htonl 0xFFFF8000, htonl 0xAB123456, htonl 0xBEEF0001]
          (cif_offset (wire_word [htonl ((1 <<< 23) ||| (1 <<< 18) ||| (1 <<< 17)),
            htonl 0xFFFE8001, htonl 0xFFFF8000, htonl 0xAB123456, htonl 0xBEEF0001] 0) 18)
          < 2 ^ 31 then
        ((wire_word [htonl ((1 <<< 23) ||| (1 <<< 18) ||| (1 <<< 17)), htonl 0xFFFE8001,
          htonl 0xFFFF8000, htonl 0xAB123456, htonl 0xBEEF0001]
          (cif_offset (wire_word [htonl ((1 <<< 23) ||| (1 <<< 18) ||| (1 <<< 17)),
            htonl 0xFFFE8001, htonl 0xFFFF8000, htonl 0xAB123456, htonl 0xBEEF0001] 0) 18)
          : Nat) : Int)
        else ((wire_word [htonl ((1 <<< 23) ||| (1 <<< 18) ||| (1 <<< 17)), htonl 0xFFFE8001,
          htonl 0xFFFF8000, htonl 0xAB123456, htonl 0xBEEF0001]
          (cif_offset (wire_word [htonl ((1 <<< 23) ||| (1 <<< 18) ||| (1 <<< 17)),
            htonl 0xFFFE8001, htonl 0xFFFF8000, htonl 0xAB123456, htonl 0xBEEF0001] 0) 18)
          : Nat) : Int) - 2 ^ 32) = -32768 := by decide
    have er : float_nearest_q16 (-32768) = -32768 := by decide
    rw [e] at h2 hn
    rw [hn, er] at h3
    refine ⟨c, hc, hg, ?_, ?_⟩
    · rw [h2]; norm_num
    · rw [h3]; norm_num

/-- C27: when bit 17 of CIF0 is set and the two words `w0`, `w1` of the device identifier
are inside the payload, `vrt_parse_cif_payload` sets `device_identifier_oui` to
`w0 & 0xFFFFFF`, the low 24 bits of `w0`, and `device_identifier_code` to `w1 >> 16`, the
high 16 bits of `w1`; the field takes two payload words: the block of bit 17 leaves the
offset two words further, where the field of bit 16 is read. -/
theorem vrt_parse_cif_payload_device_identifier (pkt : vrt_packet) (p : List Nat)
    (ht : pkt.header.packet_type = VRT_PKT_TYPE_IF_CONTEXT
      ∨ pkt.header.packet_type = VRT_PKT_TYPE_EXT_CONTEXT)
    (hp : pkt.payload = some p) (hl : pkt.payload_words ≤ p.length)
    (hbit : bit_set (wire_word p 0) 17 = true)
    (hin : cif_offset (wire_word p 0) 17 + 1 < pkt.payload_words) :
    (∃ c, vrt_parse_cif_payload pkt = .ok (0, c) ∧ c.has_device_identifier = true ∧
      c.device_identifier_oui = wire_word p (cif_offset (wire_word p 0) 17) &&& 0xFFFFFF ∧
      c.device_identifier_oui = wire_word p (cif_offset (wire_word p 0) 17) % 2 ^ 24 ∧
      c.device_identifier_code = wire_word p (cif_offset (wire_word p 0) 17 + 1) >>> 16 ∧
      c.device_identifier_code = wire_word p (cif_offset (wire_word p 0) 17 + 1) / 2 ^ 16) ∧
    cif_offset (wire_word p 0) 16 = cif_offset (wire_word p 0) 17 + 2 ∧
    (∀ s : cif_state, cif_bit s.cif.cif0 17 = true →
      ∃ s', cif_device_identifier pkt s = .ok s' ∧ s'.offset = s.offset + 2) := by
  have h1 : 1 ≤ pkt.payload_words := by
    have : 1 ≤ cif_offset (wire_word p 0) 17 := by unfold cif_offset; omega
    omega
  have hr := readable_of_some pkt p hp hl
  have hc : payload_word pkt 0 = wire_word p 0 := payload_word_inside pkt p 0 hp (by omega)
  have hv0 := payload_word_inside pkt p (cif_offset (wire_word p 0) 17) hp (by omega)
  have hv1 := payload_word_inside pkt p (cif_offset (wire_word p 0) 17 + 1) hp hin
  have e1 : (cif_decoded pkt).device_identifier_oui
      = wire_word p (cif_offset (wire_word p 0) 17) % 2 ^ 24 := by
    show (if bit_set (payload_word pkt 0) 17 = true then
      payload_word pkt (cif_offset (payload_word pkt 0) 17) % 2 ^ 24 else 0) = _
    rw [hc, if_pos hbit, hv0]
  have e2 : (cif_decoded pkt).device_identifier_code
      = wire_word p (cif_offset (wire_word p 0) 17 + 1) / 2 ^ 16 := by
    show (if bit_set (payload_word pkt 0) 17 = true then
      payload_word pkt (cif_offset (payload_word pkt 0) 17 + 1) / 2 ^ 16 else 0) = _
    rw [hc, if_pos hbit, hv1]
  refine ⟨⟨cif_decoded pkt, parse_cif_closed_form pkt hr ht h1, ?_, ?_, e1, ?_, e2⟩, ?_, ?_⟩
  · show bit_set (payload_word pkt 0) 17 = true
    rw [hc]
    exact hbit
  · rw [e1, and_low24]
  · rw [e2, shr16]
  · have hs := cif_offset_step (wire_word p 0) 17 (by omega) (by omega)
    rw [if_pos hbit] at hs
    exact hs
  · intro s hs
    unfold cif_device_identifier
    rw [if_pos hs, get_payload_word_eq pkt _ hr, Outcome.bind_ok,
      get_payload_word_eq pkt _ hr, Outcome.bind_ok]
    exact ⟨_, rfl, rfl⟩

theorem vrt_parse_cif_payload_device_identifier_witness :
    (gain_temperature_pkt.header.packet_type = VRT_PKT_TYPE_IF_CONTEXT
      ∨ gain_temperature_pkt.header.packet_type = VRT_PKT_TYPE_EXT_CONTEXT) ∧
    gain_temperature_pkt.payload_words ≤ 5 ∧
    ∃ c, vrt_parse_cif_payload gain_temperature_pkt = .ok (0, c) ∧
      c.has_device_identifier = true ∧
      c.device_identifier_oui = 0x123456 ∧ c.device_identifier_code = 0xBEEF := by
  refine ⟨by decide, by decide, ?_⟩
  obtain ⟨⟨c, hc, hg, _, h1, _, h2⟩, _⟩ :=
    vrt_parse_cif_payload_device_identifier gain_temperature_pkt
      [htonl ((1 <<< 23) ||| (1 <<< 18) ||| (1 <<< 17)), htonl 0xFFFE8001,
        htonl 0xFFFF8000, htonl 0xAB123456, htonl 0xBEEF0001]
      (by decide) rfl (by decide) (by decide) (by decide)
  exact ⟨c, hc, hg, h1.trans (by decide), h2.trans (by decide)⟩

/-! ## The mapping file: lines, tokens, numbers -/

theorem fgets_lines_nil (size : Nat) (cur : List Char) :
    fgets_lines size [] cur = if cur = [] then [] else [cur.reverse] := by
  rw [fgets_lines]

theorem fgets_lines_cons (size : Nat) (c : Char) (f cur : List Char) :
    fgets_lines size (c :: f) cur
      = if c = '\n' ∨ cur.length + 1 = size - 1 then
          (c :: cur).reverse :: fgets_lines size f []
        else fgets_lines size f (c :: cur) := by
  rw [fgets_lines]

/-- Complete lines before a text are read by `fgets` on their own. -/
theorem fgets_lines_after_newline (size : Nat) (b rest cur : List Char) :
    fgets_lines size (b ++ '\n' :: rest) cur
      = fgets_lines size (b ++ ['\n']) cur ++ fgets_lines size rest [] := by
  induction b generalizing cur with
  | nil =>
    show fgets_lines size ('\n' :: rest) cur = fgets_lines size ['\n'] cur ++ _
    rw [fgets_lines_cons, fgets_lines_cons, if_pos (Or.inl rfl), if_pos (Or.inl rfl),
      fgets_lines_nil, if_pos rfl]
    rfl
  | cons c b ih =>
    show fgets_lines size (c :: (b ++ '\n' :: rest)) cur
      = fgets_lines size (c :: (b ++ ['\n'])) cur ++ _
    rw [fgets_lines_cons, fgets_lines_cons]
    by_cases h : c = '\n' ∨ cur.length + 1 = size - 1
    · rw [if_pos h, if_pos h, ih]
      rfl
    · rw [if_neg h, if_neg h, ih]

/-- A line of at most 254 characters and its newline are one result of `fgets`. -/
theorem fgets_lines_short (body rest cur : List Char) (hn : ∀ c ∈ body, c ≠ '\n')
    (hl : cur.length + body.length ≤ 254) :
    fgets_lines 256 (body ++ '\n' :: rest) cur
      = (cur.reverse ++ body ++ ['\n']) :: fgets_lines 256 rest [] := by
  induction body generalizing cur with
  | nil =>
    show fgets_lines 256 ('\n' :: rest) cur = _
    rw [fgets_lines_cons, if_pos (Or.inl rfl)]
    simp
  | cons c b ih =>
    show fgets_lines 256 (c :: (b ++ '\n' :: rest)) cur = _
    have hc : c ≠ '\n' := hn c (List.mem_cons_self c b)
    have hl2 : cur.length + (b.length + 1) ≤ 254 := by simpa using hl
    rw [fgets_lines_cons, if_neg (by rintro (h | h); exact hc h; omega),
      ih (c :: cur) (fun x hx => hn x (List.mem_cons_of_mem c hx))
        (by simp only [List.length_cons]; omega)]
    simp

/-- A last line of at most 254 characters without newline is one result of `fgets`. -/
theorem fgets_lines_last (body cur : List Char) (hn : ∀ c ∈ body, c ≠ '\n')
    (hl : cur.length + body.length ≤ 254) (hne : cur.reverse ++ body ≠ []) :
    fgets_lines 256 body cur = [cur.reverse ++ body] := by
  induction body generalizing cur with
  | nil =>
    rw [fgets_lines_nil]
    have : cur ≠ [] := by
      intro h
      rw [h] at hne
      exact hne rfl
    rw [if_neg this]
    simp
  | cons c b ih =>
    have hc : c ≠ '\n' := hn c (List.mem_cons_self c b)
    have hl2 : cur.length + (b.length + 1) ≤ 254 := by simpa using hl
    rw [fgets_lines_cons, if_neg (by rintro (h | h); exact hc h; omega),
      ih (c :: cur) (fun x hx => hn x (List.mem_cons_of_mem c hx))
        (by simp only [List.length_cons]; omega) (by simp)]
    simp

/-- A run of exactly 255 characters without newline fills one result of `fgets`. -/
theorem fgets_lines_full (body rest cur : List Char) (hn : ∀ c ∈ body, c ≠ '\n')
    (hl : cur.length + body.length = 255) (hb : body ≠ []) :
    fgets_lines 256 (body ++ rest) cur = (cur.reverse ++ body) :: fgets_lines 256 rest [] := by
  induction body generalizing cur with
  | nil => exact absurd rfl hb
  | cons c b ih =>
    show fgets_lines 256 (c :: (b ++ rest)) cur = _
    have hc : c ≠ '\n' := hn c (List.mem_cons_self c b)
    have hl2 : cur.length + (b.length + 1) = 255 := by simpa using hl
    rw [fgets_lines_cons]
    by_cases hbn : b = []
    · subst hbn
      rw [if_pos (Or.inr (by simp at hl2 ⊢; omega))]
      simp
    · rw [if_neg (by
          rintro (h | h)
          · exact hc h
          · have : 0 < b.length := List.length_pos.mpr hbn
            omega),
        ih (c :: cur) (fun x hx => hn x (List.mem_cons_of_mem c hx))
          (by simp only [List.length_cons]; omega) hbn]
      simp

/-- A buffer without NUL is its C string. -/
theorem c_string_self (l : List Char) (h : ∀ c ∈ l, c ≠ Char.ofNat 0) : c_string l = l := by
  unfold c_string
  rw [List.takeWhile_eq_self_iff]
  intro c hc
  exact decide_eq_true (h c hc)

theorem dropWhile_field (f rest delim : List Char) (d : Char)
    (hf : ∀ c ∈ f, delim.contains c = false) (hd : delim.contains d = true) :
    (f ++ d :: rest).dropWhile (fun c => !delim.contains c) = d :: rest := by
  induction f with
  | nil =>
    simp only [List.nil_append, List.dropWhile_cons, hd, Bool.not_true, Bool.false_eq_true,
      if_false]
  | cons c f ih =>
    have hc := hf c (List.mem_cons_self c f)
    simp only [List.cons_append, List.dropWhile_cons, hc, Bool.not_false, if_true]
    exact ih (fun x hx => hf x (List.mem_cons_of_mem c hx))

theorem takeWhile_field (f rest delim : List Char) (d : Char)
    (hf : ∀ c ∈ f, delim.contains c = false) (hd : delim.contains d = true) :
    (f ++ d :: rest).takeWhile (fun c => !delim.contains c) = f := by
  induction f with
  | nil =>
    simp only [List.nil_append, List.takeWhile_cons, hd, Bool.not_true, Bool.false_eq_true,
      if_false]
  | cons c f ih =>
    have hc := hf c (List.mem_cons_self c f)
    simp only [List.cons_append, List.takeWhile_cons, hc, Bool.not_false, if_true]
    rw [ih (fun x hx => hf x (List.mem_cons_of_mem c hx))]

theorem dropWhile_last (f delim : List Char) (hf : ∀ c ∈ f, delim.contains c = false) :
    f.dropWhile (fun c => !delim.contains c) = [] := by
  induction f with
  | nil => rfl
  | cons c f ih =>
    have hc := hf c (List.mem_cons_self c f)
    simp only [List.dropWhile_cons, hc, Bool.not_false, if_true]
    exact ih (fun x hx => hf x (List.mem_cons_of_mem c hx))

/-- The call of `strsep` on a field that a delimiter ends. -/
theorem strsep_field (f rest delim : List Char) (d : Char)
    (hf : ∀ c ∈ f, delim.contains c = false) (hd : delim.contains d = true) :
    strsep (some (f ++ d :: rest)) delim = (some f, some rest) := by
  unfold strsep
  dsimp only
  rw [dropWhile_field f rest delim d hf hd]
  dsimp only
  rw [takeWhile_field f rest delim d hf hd]

/-- The call of `strsep` on a field that the end of the string ends. -/
theorem strsep_last (f delim : List Char) (hf : ∀ c ∈ f, delim.contains c = false) :
    strsep (some f) delim = (some f, none) := by
  unfold strsep
  dsimp only
  rw [dropWhile_last f delim hf]

theorem field_no_delim (f : List Char) (h : is_field f) :
    ∀ c ∈ f, [',', '\r', '\n'].contains c = false := by
  intro c hc
  obtain ⟨h1, h2, h3, _⟩ := h c hc
  simp [h1, h2, h3]

theorem read_tokens_step (n : Nat) (p p' : Option (List Char)) (tok : List Char)
    (h : strsep p [',', '\r', '\n'] = (some tok, p')) :
    read_tokens (n + 1) p = tok :: read_tokens n p' := by
  rw [read_tokens, h]

/-- The seven tokens of a line of seven fields, with or without its line end. -/
theorem read_tokens_line (f1 f2 f3 f4 f5 f6 f7 t : List Char)
    (h1 : is_field f1) (h2 : is_field f2) (h3 : is_field f3) (h4 : is_field f4)
    (h5 : is_field f5) (h6 : is_field f6) (h7 : is_field f7)
    (ht : t = [] ∨ t = ['\n'] ∨ t = ['\r'] ∨ t = ['\r', '\n']) :
    read_tokens 7 (some (mapping_line f1 f2 f3 f4 f5 f6 f7 ++ t))
      = [f1, f2, f3, f4, f5, f6, f7] := by
  have e : mapping_line f1 f2 f3 f4 f5 f6 f7 ++ t
      = f1 ++ ',' :: (f2 ++ ',' :: (f3 ++ ',' :: (f4 ++ ',' :: (f5 ++ ',' :: (f6 ++ ',' ::
          (f7 ++ t)))))) := by
    unfold mapping_line
    simp only [List.append_assoc, List.cons_append]
  have hcomma : [',', '\r', '\n'].contains ',' = true := by decide
  rw [e,
    read_tokens_step 6 _ _ f1 (strsep_field f1 _ _ ',' (field_no_delim f1 h1) hcomma),
    read_tokens_step 5 _ _ f2 (strsep_field f2 _ _ ',' (field_no_delim f2 h2) hcomma),
    read_tokens_step 4 _ _ f3 (strsep_field f3 _ _ ',' (field_no_delim f3 h3) hcomma),
    read_tokens_step 3 _ _ f4 (strsep_field f4 _ _ ',' (field_no_delim f4 h4) hcomma),
    read_tokens_step 2 _ _ f5 (strsep_field f5 _ _ ',' (field_no_delim f5 h5) hcomma),
    read_tokens_step 1 _ _ f6 (strsep_field f6 _ _ ',' (field_no_delim f6 h6) hcomma)]
  rcases ht with rfl | rfl | rfl | rfl
  · rw [List.append_nil,
      read_tokens_step 0 _ _ f7 (strsep_last f7 _ (field_no_delim f7 h7))]
    rfl
  · rw [read_tokens_step 0 _ _ f7
      (strsep_field f7 [] _ '\n' (field_no_delim f7 h7) (by decide))]
    rfl
  · rw [read_tokens_step 0 _ _ f7
      (strsep_field f7 [] _ '\r' (field_no_delim f7 h7) (by decide))]
    rfl
  · rw [read_tokens_step 0 _ _ f7
      (strsep_field f7 ['\n'] _ '\r' (field_no_delim f7 h7) (by decide))]
    rfl

theorem mapping_line_no_nul (f1 f2 f3 f4 f5 f6 f7 t : List Char)
    (h1 : is_field f1) (h2 : is_field f2) (h3 : is_field f3) (h4 : is_field f4)
    (h5 : is_field f5) (h6 : is_field f6) (h7 : is_field f7)
    (ht : t = [] ∨ t = ['\n'] ∨ t = ['\r'] ∨ t = ['\r', '\n']) :
    ∀ c ∈ mapping_line f1 f2 f3 f4 f5 f6 f7 ++ t, c ≠ Char.ofNat 0 := by
  intro c hc
  unfold mapping_line at hc
  simp only [List.mem_append, List.mem_cons] at hc
  have hcomma : (',' : Char) ≠ Char.ofNat 0 := by decide
  have hn : ('\n' : Char) ≠ Char.ofNat 0 := by decide
  have hr : ('\r' : Char) ≠ Char.ofNat 0 := by decide
  rcases hc with (h | h | h | h | h | h | h | h | h | h | h | h | h) | h
  · exact (h1 c h).2.2.2
  · rw [h]; exact hcomma
  · exact (h2 c h).2.2.2
  · rw [h]; exact hcomma
  · exact (h3 c h).2.2.2
  · rw [h]; exact hcomma
  · exact (h4 c h).2.2.2
  · rw [h]; exact hcomma
  · exact (h5 c h).2.2.2
  · rw [h]; exact hcomma
  · exact (h6 c h).2.2.2
  · rw [h]; exact hcomma
  · exact (h7 c h).2.2.2
  · rcases ht with rfl | rfl | rfl | rfl
    · cases h
    · simp only [List.mem_singleton] at h
      rw [h]; exact hn
    · simp only [List.mem_singleton] at h
      rw [h]; exact hr
    · simp only [List.mem_cons, List.mem_singleton, List.not_mem_nil, or_false] at h
      rcases h with h | h
      · rw [h]; exact hr
      · rw [h]; exact hn

theorem mapping_line_head (f1 f2 f3 f4 f5 f6 f7 t : List Char) (h1 : is_field f1)
    (hc : f1.head? ≠ some '#') :
    ¬ ((mapping_line f1 f2 f3 f4 f5 f6 f7 ++ t).head? = some '#'
      ∨ (mapping_line f1 f2 f3 f4 f5 f6 f7 ++ t).head? = some '\n'
      ∨ (mapping_line f1 f2 f3 f4 f5 f6 f7 ++ t).head? = some '\r') := by
  unfold mapping_line
  cases f1 with
  | nil =>
    simp only [List.nil_append, List.cons_append, List.head?_cons]
    decide
  | cons c f =>
    obtain ⟨_, hr, hn, _⟩ := h1 c (List.mem_cons_self c f)
    simp only [List.cons_append, List.head?_cons, Option.some.injEq]
    simp only [List.head?_cons, ne_eq, Option.some.injEq] at hc
    tauto

/-- The loop body on a line of seven fields: one entry more, counted. -/
theorem load_line_seven (st : Int × List vrt_mapping) (f1 f2 f3 f4 f5 f6 f7 t : List Char)
    (h1 : is_field f1) (h2 : is_field f2) (h3 : is_field f3) (h4 : is_field f4)
    (h5 : is_field f5) (h6 : is_field f6) (h7 : is_field f7)
    (ht : t = [] ∨ t = ['\n'] ∨ t = ['\r'] ∨ t = ['\r', '\n'])
    (hc : f1.head? ≠ some '#') :
    load_line true st (mapping_line f1 f2 f3 f4 f5 f6 f7 ++ t)
      = (st.1 + 1, line_mapping f1 f2 f3 f4 f5 f6 f7 :: st.2) := by
  unfold load_line
  dsimp only
  rw [c_string_self _ (mapping_line_no_nul f1 f2 f3 f4 f5 f6 f7 t h1 h2 h3 h4 h5 h6 h7 ht),
    if_neg (mapping_line_head f1 f2 f3 f4 f5 f6 f7 t h1 hc),
    read_tokens_line f1 f2 f3 f4 f5 f6 f7 t h1 h2 h3 h4 h5 h6 h7 ht]
  rfl

/-- The loop body on a line that begins with `#`, carriage return or newline. -/
theorem load_line_skip (calloc_ok : Bool) (st : Int × List vrt_mapping) (c : Char)
    (l : List Char) (hc : c = '#' ∨ c = '\n' ∨ c = '\r') :
    load_line calloc_ok st (c :: l) = st := by
  have h0 : c ≠ Char.ofNat 0 := by
    rcases hc with rfl | rfl | rfl <;> decide
  have hs : (c_string (c :: l)).head? = some c := by
    unfold c_string
    rw [List.takeWhile_cons, if_pos (decide_eq_true h0)]
    rfl
  unfold load_line
  dsimp only
  rw [hs, if_pos (by rcases hc with rfl | rfl | rfl <;> simp)]

theorem mapping_line_no_newline (f1 f2 f3 f4 f5 f6 f7 : List Char)
    (h1 : is_field f1) (h2 : is_field f2) (h3 : is_field f3) (h4 : is_field f4)
    (h5 : is_field f5) (h6 : is_field f6) (h7 : is_field f7) :
    ∀ c ∈ mapping_line f1 f2 f3 f4 f5 f6 f7, c ≠ '\n' := by
  intro c hc
  unfold mapping_line at hc
  simp only [List.mem_append, List.mem_cons] at hc
  have hcomma : (',' : Char) ≠ '\n' := by decide
  rcases hc with h | h | h | h | h | h | h | h | h | h | h | h | h
  · exact (h1 c h).2.2.1
  · rw [h]; exact hcomma
  · exact (h2 c h).2.2.1
  · rw [h]; exact hcomma
  · exact (h3 c h).2.2.1
  · rw [h]; exact hcomma
  · exact (h4 c h).2.2.1
  · rw [h]; exact hcomma
  · exact (h5 c h).2.2.1
  · rw [h]; exact hcomma
  · exact (h6 c h).2.2.1
  · rw [h]; exact hcomma
  · exact (h7 c h).2.2.1

theorem mapping_line_ne_nil (f1 f2 f3 f4 f5 f6 f7 : List Char) :
    mapping_line f1 f2 f3 f4 f5 f6 f7 ≠ [] := by
  unfold mapping_line
  cases f1 <;> simp

/-- The results of `fgets` on a line of seven fields and what follows it, seen through
the loop body: the line gives one entry, and the rest of the file goes on from there. -/
theorem load_lines_seven (st : Int × List vrt_mapping) (after term : List Char)
    (f1 f2 f3 f4 f5 f6 f7 : List Char)
    (h1 : is_field f1) (h2 : is_field f2) (h3 : is_field f3) (h4 : is_field f4)
    (h5 : is_field f5) (h6 : is_field f6) (h7 : is_field f7)
    (hc : f1.head? ≠ some '#')
    (hlen : (mapping_line f1 f2 f3 f4 f5 f6 f7).length < 255)
    (hterm : (term = [] ∧ after = []) ∨ term = ['\n'] ∨ term = ['\r', '\n']) :
    (fgets_lines 256 (mapping_line f1 f2 f3 f4 f5 f6 f7 ++ term ++ after) []).foldl
        (load_line true) st
      = (fgets_lines 256 after []).foldl (load_line true)
          (st.1 + 1, line_mapping f1 f2 f3 f4 f5 f6 f7 :: st.2) := by
  have hnl := mapping_line_no_newline f1 f2 f3 f4 f5 f6 f7 h1 h2 h3 h4 h5 h6 h7
  have hseven := fun t ht =>
    load_line_seven st f1 f2 f3 f4 f5 f6 f7 t h1 h2 h3 h4 h5 h6 h7 ht hc
  rcases hterm with ⟨rfl, rfl⟩ | rfl | rfl
  · rw [List.append_nil, List.append_nil,
      fgets_lines_last _ [] hnl (by simp only [List.length_nil]; omega)
        (by simpa using mapping_line_ne_nil f1 f2 f3 f4 f5 f6 f7),
      fgets_lines_nil]
    have := hseven [] (Or.inl rfl)
    rw [List.append_nil] at this
    simp only [List.reverse_nil, List.nil_append, List.foldl_cons, List.foldl_nil, this,
      if_true]
  · rw [List.append_assoc, List.singleton_append,
      fgets_lines_short _ after [] hnl (by simp only [List.length_nil]; omega)]
    simp only [List.reverse_nil, List.nil_append, List.foldl_cons]
    rw [hseven ['\n'] (Or.inr (Or.inl rfl))]
  · by_cases h254 : (mapping_line f1 f2 f3 f4 f5 f6 f7).length = 254
    · have e : mapping_line f1 f2 f3 f4 f5 f6 f7 ++ ['\r', '\n'] ++ after
          = (mapping_line f1 f2 f3 f4 f5 f6 f7 ++ ['\r']) ++ ([] ++ '\n' :: after) := by
        simp
      have hnr : ∀ c ∈ mapping_line f1 f2 f3 f4 f5 f6 f7 ++ ['\r'], c ≠ '\n' := by
        intro c hc
        rcases List.mem_append.mp hc with h | h
        · exact hnl c h
        · rw [List.mem_singleton.mp h]
          decide
      rw [e, fgets_lines_full _ _ [] hnr (by simp [h254]) (by simp),
        fgets_lines_short [] after [] (by simp) (by simp)]
      simp only [List.reverse_nil, List.nil_append, List.foldl_cons]
      rw [hseven ['\r'] (Or.inr (Or.inr (Or.inl rfl))),
        load_line_skip true _ '\n' [] (Or.inr (Or.inl rfl))]
    · have e : mapping_line f1 f2 f3 f4 f5 f6 f7 ++ ['\r', '\n'] ++ after
          = (mapping_line f1 f2 f3 f4 f5 f6 f7 ++ ['\r']) ++ '\n' :: after := by
        simp
      have hnr : ∀ c ∈ mapping_line f1 f2 f3 f4 f5 f6 f7 ++ ['\r'], c ≠ '\n' := by
        intro c hc
        rcases List.mem_append.mp hc with h | h
        · exact hnl c h
        · rw [List.mem_singleton.mp h]
          decide
      rw [e, fgets_lines_short _ after [] hnr
        (by simp only [List.length_nil, List.length_append, List.length_singleton]; omega)]
      simp only [List.reverse_nil, List.nil_append, List.foldl_cons, List.append_assoc,
        List.singleton_append]
      rw [hseven ['\r', '\n'] (Or.inr (Or.inr (Or.inr rfl)))]

/-- The loader on a file whose first part is complete lines: the results of `fgets` are
those of the first part, then those of the rest. -/
theorem load_mappings_split (calloc_ok : Bool) (reg : List vrt_mapping)
    (before rest : List Char) (hb : before = [] ∨ ∃ b, before = b ++ ['\n']) :
    vrt_command_load_mappings calloc_ok reg (some (before ++ rest))
      = (fgets_lines 256 rest []).foldl (load_line calloc_ok)
          (vrt_command_load_mappings calloc_ok reg (some before)) := by
  unfold vrt_command_load_mappings
  dsimp only
  rcases hb with rfl | ⟨b, rfl⟩
  · rw [List.nil_append, fgets_lines_nil, if_pos rfl]
    rfl
  · rw [List.append_assoc, List.singleton_append, fgets_lines_after_newline,
      List.foldl_append]

theorem isspace_not_digit (c : Char) (h : isspace c = true) : digit_value c = none := by
  unfold isspace at h
  simp only [Bool.or_eq_true, decide_eq_true_eq] at h
  rcases h with ((((h | h) | h) | h) | h) | h <;> rw [h] <;> decide

theorem is_digit_value (base : Nat) (c : Char) (h : is_digit base c = true) :
    ∃ d, digit_value c = some d ∧ d < base := by
  unfold is_digit at h
  cases hd : digit_value c with
  | none =>
    rw [hd] at h
    cases h
  | some d =>
    rw [hd] at h
    exact ⟨d, rfl, of_decide_eq_true h⟩

theorem leading_digits_number (base : Nat) (s : List Char) (h : is_number base s) :
    leading_digits base s = text_digits s := by
  induction s with
  | nil => rfl
  | cons c s ih =>
    obtain ⟨d, hd, hlt⟩ := is_digit_value base c (h c (List.mem_cons_self c s))
    rw [leading_digits, hd]
    dsimp only
    rw [if_pos hlt, ih (fun x hx => h x (List.mem_cons_of_mem c hx))]
    show d :: text_digits s = (digit_value c).getD 0 :: text_digits s
    rw [hd]
    rfl

/-- The function `strtoul` on a text made of digits alone: the number the digits write,
when it fits an `unsigned long`. -/
theorem strtoul_number (base : Nat) (s : List Char) (hb : base ≤ 16)
    (h : is_number base s) (hv : digits_number base (text_digits s) < 2 ^ 64) :
    strtoul s base = digits_number base (text_digits s) := by
  have hhead : ∀ c, s.head? = some c → ∃ d, digit_value c = some d ∧ d < base := by
    intro c hc
    cases s with
    | nil => cases hc
    | cons x s =>
      simp only [List.head?_cons, Option.some.injEq] at hc
      rw [← hc]
      exact is_digit_value base x (h x (List.mem_cons_self x s))
  have hsp : s.dropWhile isspace = s := by
    cases s with
    | nil => rfl
    | cons c s =>
      obtain ⟨d, hd, _⟩ := hhead c rfl
      cases hs : isspace c
      · rw [List.dropWhile_cons, hs]
        rfl
      · rw [isspace_not_digit c hs] at hd
        cases hd
  have hminus : s.head? ≠ some '-' := by
    intro hc
    obtain ⟨d, hd, _⟩ := hhead '-' hc
    rw [show digit_value '-' = none from by decide] at hd
    cases hd
  have hplus : s.head? ≠ some '+' := by
    intro hc
    obtain ⟨d, hd, _⟩ := hhead '+' hc
    rw [show digit_value '+' = none from by decide] at hd
    cases hd
  have hx : ∀ c, (c = 'x' ∨ c = 'X') → (s.drop 1).head? ≠ some c := by
    intro c hc hd
    have hm : c ∈ s := by
      have : c ∈ s.drop 1 := List.mem_of_mem_head? hd
      exact List.mem_of_mem_drop this
    obtain ⟨d, hd2, hlt⟩ := is_digit_value base c (h c hm)
    rcases hc with rfl | rfl
    · have : d = 33 := by
        have e : digit_value 'x' = some 33 := by decide
        rw [e] at hd2
        exact (Option.some.inj hd2).symm
      omega
    · have : d = 33 := by
        have e : digit_value 'X' = some 33 := by decide
        rw [e] at hd2
        exact (Option.some.inj hd2).symm
      omega
  have e2 : (if s.head? = some '-' ∨ s.head? = some '+' then s.drop 1 else s) = s :=
    if_neg (by
      rintro (h | h)
      · exact hminus h
      · exact hplus h)
  have e3 : (if base = 16 ∧ s.head? = some '0'
        ∧ ((s.drop 1).head? = some 'x' ∨ (s.drop 1).head? = some 'X')
        ∧ leading_digits 16 (s.drop 2) ≠ [] then s.drop 2 else s) = s :=
    if_neg (by
      rintro ⟨_, _, h | h, _⟩
      · exact hx 'x' (Or.inl rfl) h
      · exact hx 'X' (Or.inr rfl) h)
  have hvv : List.foldl (fun acc d => acc * base + d) 0 (text_digits s)
      = digits_number base (text_digits s) := rfl
  unfold strtoul
  dsimp only
  rw [hsp, e2, e3, leading_digits_number base s h, hvv, if_neg (by omega)]
  simp only [hminus, decide_False, Bool.false_eq_true, if_false]

/-! ## Statements on the mapping file -/

/-- C22 (evaluation at the failing inputs): a line of six fields that ends with a newline
is loaded and counted, the newline giving an empty seventh token, which is the attribute
name; a line of eight fields is loaded and counted from its first seven fields; only the
line of six fields without newline is skipped. -/
theorem load_mappings_field_count :
    vrt_command_load_mappings true [] (some six_field_line)
      = (1, [{ stream_id := 0x12345678, cif0_bit := 21, device_name := "ad9361-phy",
               attr_type := VRT_ATTR_TYPE_CHANNEL, channel_name := "voltage0",
               is_output := true, attr_name := "" }]) ∧
    vrt_command_load_mappings true [] (some eight_field_line)
      = (1, [{ stream_id := 0x12345678, cif0_bit := 21, device_name := "ad9361-phy",
               attr_type := VRT_ATTR_TYPE_CHANNEL, channel_name := "voltage0",
               is_output := true, attr_name := "sampling_frequency" }]) ∧
    vrt_command_load_mappings true [] (some six_field_last_line) = (0, []) := by
  decide

set_option maxRecDepth 100000 in
/-- C28 (evaluation at the failing input): a file of one comment line of 318 characters,
`#` and 254 blanks followed by a text in the form of a mapping line. The first call of
`fgets` returns the first 255 characters, which are skipped; the second returns the rest
of the same line, which is loaded as a mapping and counted. -/
theorem load_mappings_long_comment :
    long_comment_line.head? = some '#' ∧
    (fgets_lines 256 long_comment_line []).map List.length = [255, 64] ∧
    vrt_command_load_mappings true [] (some long_comment_line)
      = (1, [{ stream_id := 0x12345678, cif0_bit := 21, device_name := "ad9361-phy",
               attr_type := VRT_ATTR_TYPE_CHANNEL, channel_name := "voltage0",
               is_output := true, attr_name := "sampling_frequency" }]) := by
  decide

/-- C29 (evaluation at the failing input): the line
`12345678,21,ad9361-phy,voltage0,true,sampling_frequency` in the six-field format of
`vrt_command.h`. With its newline it is loaded as a channel mapping whose channel name
is the 5th field `true`, whose direction is taken from the 6th field (not an output) and
whose attribute name is empty; without newline, as the last line of a file, it is not
loaded at all. -/
theorem load_mappings_documented_format :
    vrt_command_load_mappings true [] (some documented_line)
      = (1, [{ stream_id := 0x12345678, cif0_bit := 21, device_name := "ad9361-phy",
               attr_type := VRT_ATTR_TYPE_CHANNEL, channel_name := "true",
               is_output := false, attr_name := "" }]) ∧
    vrt_command_load_mappings true []
        (some "12345678,21,ad9361-phy,voltage0,true,sampling_frequency".data) = (0, []) := by
  decide

set_option maxRecDepth 100000 in
/-- C23 (counterexample): a line of 118 characters with seven fields whose third field
has 64 characters is loaded with a device name of 63 characters, not with its third
field. -/
theorem load_mappings_long_name :
    long_name_line.length = 118 ∧
    read_tokens 7 (some long_name_line)
      = ["12345678".data, "21".data, List.replicate 64 'd', "channel".data, "voltage0".data,
         "true".data, "sampling_frequency".data] ∧
    vrt_command_load_mappings true [] (some long_name_line)
      = (1, [{ stream_id := 0x12345678, cif0_bit := 21,
               device_name := String.mk (List.replicate 63 'd'),
               attr_type := VRT_ATTR_TYPE_CHANNEL, channel_name := "voltage0",
               is_output := true, attr_name := "sampling_frequency" }]) := by
  decide

/-- C23 (amended): a line of fewer than 255 characters before its line end, made of
seven comma-separated fields without comma, CR, LF or NUL, not beginning with `#`, ended
by LF, by CR LF or by the end of the file, and standing after complete lines, adds one
entry at the head of the registry when its allocation succeeds, and is counted. The
entry has `stream_id` and `cif0_bit` as `strtoul` reads fields 1 and 2 in base 16 and 10,
cut to 32 bits: the number the field writes when the field is made of digits of the base
and the number is below `2 ^ 32`. Its names are the first 63 bytes of fields 3, 5 and 7
(the whole field when it has at most 63 bytes); its kind is Device for the field 4
`device`, Debug for `debug` and Channel for any other text; `is_output` holds exactly
for the field 6 `true` or `1`. -/
theorem load_mappings_seven_fields (reg : List vrt_mapping) (before after term : List Char)
    (f1 f2 f3 f4 f5 f6 f7 : List Char)
    (h1 : is_field f1) (h2 : is_field f2) (h3 : is_field f3) (h4 : is_field f4)
    (h5 : is_field f5) (h6 : is_field f6) (h7 : is_field f7)
    (hc : f1.head? ≠ some '#')
    (hlen : (mapping_line f1 f2 f3 f4 f5 f6 f7).length < 255)
    (hterm : (term = [] ∧ after = []) ∨ term = ['\n'] ∨ term = ['\r', '\n'])
    (hb : before = [] ∨ ∃ b, before = b ++ ['\n']) :
    ∃ m,
      vrt_command_load_mappings true reg
          (some (before ++ (mapping_line f1 f2 f3 f4 f5 f6 f7 ++ term ++ after)))
        = (fgets_lines 256 after []).foldl (load_line true)
            ((vrt_command_load_mappings true reg (some before)).1 + 1,
              m :: (vrt_command_load_mappings true reg (some before)).2) ∧
      m.stream_id = strtoul f1 16 % 2 ^ 32 ∧
      (is_number 16 f1 → digits_number 16 (text_digits f1) < 2 ^ 32 →
        m.stream_id = digits_number 16 (text_digits f1)) ∧
      m.cif0_bit = strtoul f2 10 % 2 ^ 32 ∧
      (is_number 10 f2 → digits_number 10 (text_digits f2) < 2 ^ 32 →
        m.cif0_bit = digits_number 10 (text_digits f2)) ∧
      m.device_name.data = f3.take 63 ∧ (f3.length ≤ 63 → m.device_name.data = f3) ∧
      (f4 = "device".data → m.attr_type = VRT_ATTR_TYPE_DEVICE) ∧
      (f4 = "debug".data → m.attr_type = VRT_ATTR_TYPE_DEBUG) ∧
      (f4 ≠ "device".data → f4 ≠ "debug".data → m.attr_type = VRT_ATTR_TYPE_CHANNEL) ∧
      m.channel_name.data = f5.take 63 ∧ (f5.length ≤ 63 → m.channel_name.data = f5) ∧
      (m.is_output = true ↔ (f6 = "true".data ∨ f6 = "1".data)) ∧
      m.attr_name.data = f7.take 63 ∧ (f7.length ≤ 63 → m.attr_name.data = f7) := by
  refine ⟨line_mapping f1 f2 f3 f4 f5 f6 f7, ?_, rfl, ?_, rfl, ?_, rfl,
    fun h => List.take_of_length_le h, ?_, ?_, ?_, rfl, fun h => List.take_of_length_le h,
    ?_, rfl, fun h => List.take_of_length_le h⟩
  · rw [load_mappings_split true reg before _ hb]
    exact load_lines_seven _ after term f1 f2 f3 f4 f5 f6 f7 h1 h2 h3 h4 h5 h6 h7 hc hlen
      hterm
  · intro hn hv
    show strtoul f1 16 % 2 ^ 32 = _
    rw [strtoul_number 16 f1 (by omega) hn (by omega), Nat.mod_eq_of_lt hv]
  · intro hn hv
    show strtoul f2 10 % 2 ^ 32 = _
    rw [strtoul_number 10 f2 (by omega) hn (by omega), Nat.mod_eq_of_lt hv]
  · intro h
    show (if f4 = "device".data then VRT_ATTR_TYPE_DEVICE
      else if f4 = "debug".data then VRT_ATTR_TYPE_DEBUG else VRT_ATTR_TYPE_CHANNEL) = _
    rw [if_pos h]
  · intro h
    show (if f4 = "device".data then VRT_ATTR_TYPE_DEVICE
      else if f4 = "debug".data then VRT_ATTR_TYPE_DEBUG else VRT_ATTR_TYPE_CHANNEL) = _
    rw [if_neg (by rw [h]; decide), if_pos h]
  · intro h h'
    show (if f4 = "device".data then VRT_ATTR_TYPE_DEVICE
      else if f4 = "debug".data then VRT_ATTR_TYPE_DEBUG else VRT_ATTR_TYPE_CHANNEL) = _
    rw [if_neg h, if_neg h']
  · show decide (f6 = "true".data ∨ f6 = "1".data) = true ↔ _
    exact decide_eq_true_iff

theorem load_mappings_seven_fields_witness :
    is_field "12345678".data ∧ is_field "29".data ∧ is_field "ad9361-phy".data ∧
    is_field "channel".data ∧ is_field "voltage0".data ∧ is_field "1".data ∧
    is_field "rf_bandwidth".data ∧
    (mapping_line "12345678".data "29".data "ad9361-phy".data "channel".data
      "voltage0".data "1".data "rf_bandwidth".data).length < 255 ∧
    ∃ m, vrt_command_load_mappings true []
          (some ("# mappings\n".data ++ (mapping_line "12345678".data "29".data
            "ad9361-phy".data "channel".data "voltage0".data "1".data "rf_bandwidth".data
            ++ ['\r', '\n'] ++ [])))
        = (1, [m]) ∧
      m.stream_id = 0x12345678 ∧ m.cif0_bit = 29 ∧ m.device_name = "ad9361-phy" ∧
      m.attr_type = VRT_ATTR_TYPE_CHANNEL ∧ m.channel_name = "voltage0" ∧
      m.is_output = true ∧ m.attr_name = "rf_bandwidth" := by
  refine ⟨by decide, by decide, by decide, by decide, by decide, by decide, by decide,
    by decide, ?_⟩
  obtain ⟨m, hm, _, h1, _, h2, _, h3, _, _, h4, _, h5, h6, _, h7⟩ :=
    load_mappings_seven_fields [] "# mappings\n".data [] ['\r', '\n']
      "12345678".data "29".data "ad9361-phy".data "channel".data "voltage0".data "1".data
      "rf_bandwidth".data (by decide) (by decide) (by decide) (by decide) (by decide)
      (by decide) (by decide) (by decide) (by decide) (Or.inr (Or.inr rfl))
      (Or.inr ⟨"# mappings".data, by decide⟩)
  have e0 : vrt_command_load_mappings true [] (some "# mappings\n".data) = (0, []) := by
    decide
  rw [e0, fgets_lines_nil, if_pos rfl] at hm
  exact ⟨m, hm, (h1 (by decide) (by decide)).trans (by decide),
    (h2 (by decide) (by decide)).trans (by decide), String.ext (h3 (by decide)),
    h4 (by decide) (by decide), String.ext (h5 (by decide)), h6.mpr (Or.inr rfl),
    String.ext (h7 (by decide))⟩

/-! ## Dispatch: attribute lookup -/

theorem bind_ok_right {α : Type} (x : Outcome α) : (x.bind fun a => .ok a) = x := by
  cases x <;> rfl

/-- C31: for an entry that matches the packet (same stream identifier, its bit set in
CIF0): when the device is not found there is no attribute; for the kind Channel the channel
is looked up with `(channel_name, is_output)` and, only when that fails, with
`(channel_name, !is_output)`, the attribute being looked up on the first channel found, and
there is no attribute when neither lookup finds the channel; for the kinds Device and Debug
the attribute is looked up on the device and the result depends neither on the channel name
and direction nor on the channel lookups; without an attribute the turn of the loop makes
no write and the loop goes on with the next entry, with one the write goes to it. -/
theorem dispatch_channel_lookup (ctx : iio_context) (pkt : vrt_packet)
    (cif : vrt_cif_fields) (m : vrt_mapping) (rest : List vrt_mapping)
    (hs : pkt.stream_id = m.stream_id) (hb : m.cif0_bit < 32)
    (hbit : cif_bit cif.cif0 m.cif0_bit = true) :
    (ctx.iio_context_find_device m.device_name = none → find_mapping_attr ctx m = none) ∧
    (∀ dev, ctx.iio_context_find_device m.device_name = some dev →
      (m.attr_type = VRT_ATTR_TYPE_CHANNEL →
        (∀ chn, ctx.iio_device_find_channel dev m.channel_name m.is_output = some chn →
          find_mapping_attr ctx m = ctx.iio_channel_find_attr chn m.attr_name) ∧
        (ctx.iio_device_find_channel dev m.channel_name m.is_output = none →
          ∀ chn, ctx.iio_device_find_channel dev m.channel_name (!m.is_output) = some chn →
            find_mapping_attr ctx m = ctx.iio_channel_find_attr chn m.attr_name) ∧
        (ctx.iio_device_find_channel dev m.channel_name m.is_output = none →
          ctx.iio_device_find_channel dev m.channel_name (!m.is_output) = none →
            find_mapping_attr ctx m = none)) ∧
      (m.attr_type = VRT_ATTR_TYPE_DEVICE →
        find_mapping_attr ctx m = ctx.iio_device_find_attr dev m.attr_name) ∧
      (m.attr_type = VRT_ATTR_TYPE_DEBUG →
        find_mapping_attr ctx m = ctx.iio_device_find_debug_attr dev m.attr_name)) ∧
    (m.attr_type = VRT_ATTR_TYPE_DEVICE ∨ m.attr_type = VRT_ATTR_TYPE_DEBUG →
      ∀ (fc : Nat → String → Bool → Option Nat) (fa : Nat → String → Option Nat)
        (cn : String) (o : Bool),
        find_mapping_attr { ctx with iio_device_find_channel := fc, iio_channel_find_attr := fa }
            { m with channel_name := cn, is_output := o }
          = find_mapping_attr ctx m) ∧
    (find_mapping_attr ctx m = none →
      process_mapping ctx pkt cif m = .ok none ∧
      process_mappings ctx pkt cif (m :: rest) = process_mappings ctx pkt cif rest) ∧
    (∀ attr, find_mapping_attr ctx m = some attr →
      process_mapping ctx pkt cif m = .ok ((mapping_value cif m).map fun v => (attr, v))) := by
  have hpm : process_mapping ctx pkt cif m
      = match find_mapping_attr ctx m with
        | none => .ok none
        | some attr => .ok ((mapping_value cif m).map fun v => (attr, v)) := by
    unfold process_mapping
    rw [if_neg (not_not.mpr hs), if_neg (by omega), hbit]
    simp only [Bool.not_true, Bool.false_eq_true, if_false]
    cases find_mapping_attr ctx m with
    | none => rfl
    | some attr =>
      cases mapping_value cif m with
      | none => rfl
      | some val =>
        dsimp only
        rw [ite_self]
        rfl
  refine ⟨?_, ?_, ?_, ?_, ?_⟩
  · intro hd
    unfold find_mapping_attr
    rw [hd]
  · intro dev hd
    refine ⟨fun hk => ⟨?_, ?_, ?_⟩, ?_, ?_⟩
    · intro chn hc
      unfold find_mapping_attr
      rw [hd]
      simp only [hk, if_true, hc]
    · intro hc chn hc2
      unfold find_mapping_attr
      rw [hd]
      simp only [hk, if_true, hc, hc2]
    · intro hc hc2
      unfold find_mapping_attr
      rw [hd]
      simp only [hk, if_true, hc, hc2]
    · intro hk
      unfold find_mapping_attr
      rw [hd]
      have : ¬ m.attr_type = VRT_ATTR_TYPE_CHANNEL := by
        rw [hk]; decide
      dsimp only
      rw [if_neg this, if_pos hk]
    · intro hk
      unfold find_mapping_attr
      rw [hd]
      have h1 : ¬ m.attr_type = VRT_ATTR_TYPE_CHANNEL := by
        rw [hk]; decide
      have h2 : ¬ m.attr_type = VRT_ATTR_TYPE_DEVICE := by
        rw [hk]; decide
      dsimp only
      rw [if_neg h1, if_neg h2, if_pos hk]
  · intro hk fc fa cn o
    have h1 : ¬ m.attr_type = VRT_ATTR_TYPE_CHANNEL := by
      rcases hk with hk | hk <;> rw [hk] <;> decide
    unfold find_mapping_attr
    simp only [h1, if_false]
  · intro hn
    have e : process_mapping ctx pkt cif m = .ok none := by rw [hpm, hn]
    refine ⟨e, ?_⟩
    rw [process_mappings, e, Outcome.bind_ok]
    exact bind_ok_right _
  · intro attr ha
    rw [hpm, ha]

/-- Witness of C31: on the host of the test, which has "voltage0" as an output channel
only, the entry that names it as an input is served by the lookup in the opposite
direction, and the bandwidth of the test packet is written to its attribute. -/
theorem dispatch_channel_lookup_witness :
    scenario3_pkt.stream_id = input_direction_mapping.stream_id ∧
    input_direction_mapping.cif0_bit < 32 ∧
    input_direction_mapping.is_output = false ∧
    test_host.iio_device_find_channel 0 "voltage0" false = none ∧
    test_host.iio_device_find_channel 0 "voltage0" true = some 0 ∧
    find_mapping_attr test_host input_direction_mapping
      = test_host.iio_channel_find_attr 0 input_direction_mapping.attr_name ∧
    process_mapping test_host scenario3_pkt (cif_decoded scenario3_pkt)
      input_direction_mapping = .ok (some (12, double_56e6)) :=
  ⟨by decide, by decide, by decide, by decide, by decide,
   ((dispatch_channel_lookup test_host scenario3_pkt (cif_decoded scenario3_pkt)
      input_direction_mapping [] (by decide) (by decide) (by decide)).2.1 0
      (by decide)).1 (by decide) |>.2.1 (by decide) 0 (by decide),
   by decide⟩

/-! ## The listener loop -/

/-- C32: a turn of the listener loop that receives a datagram parses `received / 4`
words, rounded down, and calls `vrt_process_command_packet` with the record when the
parse succeeds; when it fails, as it does with `-EINVAL` for fewer than 4 bytes and for a
header that declares more words than were received, the attribute writes are none
whatever the context and the registry, and the loop goes on with the next datagram. -/
theorem listener_drops_unparsed (ctx : Option iio_context) (reg : List vrt_mapping)
    (e : listener_event) (rest : List listener_event)
    (hfd : 0 ≤ e.listener_fd) (hrecv : 0 < e.received)
    (hfit : (e.received / 4).toNat ≤ e.buf.length) :
    (4 * (((e.received / 4).toNat : Nat) : Int) ≤ e.received
      ∧ e.received < 4 * (((e.received / 4).toNat : Nat) : Int) + 4) ∧
    (∀ pkt, vrt_parse_packet e.buf (e.received / 4).toNat = .ok pkt →
      listener_datagram ctx reg e.buf e.received
        = (vrt_process_command_packet ctx reg (some pkt)).bind fun r => .ok r.2) ∧
    (∀ c, vrt_parse_packet e.buf (e.received / 4).toNat = .err c →
      (∀ ctx2 reg2, listener_datagram ctx2 reg2 e.buf e.received = .ok []) ∧
      vrt_listener_thread ctx reg (e :: rest) = vrt_listener_thread ctx reg rest) ∧
    (e.received < 4 → vrt_parse_packet e.buf (e.received / 4).toNat = .err (-EINVAL)) ∧
    ((e.received / 4).toNat < (wire_header e.buf).packet_size_words →
      vrt_parse_packet e.buf (e.received / 4).toNat = .err (-EINVAL)) := by
  have hcf := parse_closed_form e.buf (e.received / 4).toNat hfit
  refine ⟨by omega, ?_, ?_, ?_, ?_⟩
  · intro pkt hp
    unfold listener_datagram
    rw [hp]
  · intro c herr
    have hd : ∀ ctx2 reg2, listener_datagram ctx2 reg2 e.buf e.received = .ok [] := by
      intro ctx2 reg2
      unfold listener_datagram
      rw [herr]
    refine ⟨hd, ?_⟩
    rw [vrt_listener_thread, if_neg (by omega), if_neg (by omega), hd ctx reg,
      Outcome.bind_ok]
    simp only [List.nil_append]
    exact bind_ok_right _
  · intro h4
    have h0 : (e.received / 4).toNat = 0 := by omega
    rw [hcf, if_pos h0]
  · intro hlt
    rw [hcf]
    split
    · rfl
    · exact if_pos hlt

/-- Witness of C32: the datagram of 4 words whose header declares 12 is dropped and the
loop handles the datagram that follows it. -/
theorem listener_drops_unparsed_witness :
    (oversized_claim_event.received / 4).toNat = 4 ∧
    (wire_header oversized_claim_event.buf).packet_size_words = 12 ∧
    vrt_parse_packet oversized_claim_event.buf 4 = .err (-EINVAL) ∧
    listener_datagram (some test_host) test_registry oversized_claim_event.buf
      oversized_claim_event.received = .ok [] ∧
    vrt_listener_thread (some test_host) test_registry
        [oversized_claim_event, scenario3_event]
      = vrt_listener_thread (some test_host) test_registry [scenario3_event] ∧
    vrt_listener_thread (some test_host) test_registry [scenario3_event]
      = .ok [(12, double_56e6), (18, double_100e6)] :=
  ⟨by decide, by decide, by decide, by decide,
   ((listener_drops_unparsed (some test_host) test_registry oversized_claim_event
      [scenario3_event] (by decide) (by decide) (by decide)).2.2.1 (-EINVAL)
      (by decide)).2, by decide⟩

/-! ## The discovery loop -/

theorem parse_err_or_ok (buf : List Nat) (words : Nat) (hw : words ≤ buf.length) :
    vrt_parse_packet buf words = .err (-EINVAL)
      ∨ vrt_parse_packet buf words = .ok (parsed_record buf) := by
  rw [parse_closed_form buf words hw]
  split
  · exact Or.inl rfl
  · split
    · exact Or.inl rfl
    · split
      · exact Or.inl rfl
      · exact Or.inr rfl

theorem hex_digit_injective :
    ∀ a < 16, ∀ b < 16, hex_digit a = hex_digit b → a = b := by decide

theorem hex_digit_value : ∀ d < 16, digit_value (hex_digit d) = some d := by decide

theorem hex_digit_mem : ∀ d < 16, hex_digit d ∈ "0123456789abcdef".data := by decide

theorem printf_08x_injective (v w : Nat) (hv : v < 2 ^ 32) (hw : w < 2 ^ 32)
    (h : printf_08x v = printf_08x w) : v = w := by
  unfold printf_08x at h
  simp only [List.map_cons, List.map_nil, List.cons.injEq, and_true] at h
  obtain ⟨h7, h6, h5, h4, h3, h2, h1, h0⟩ := h
  have g7 := hex_digit_injective _ (Nat.mod_lt _ (by decide)) _ (Nat.mod_lt _ (by decide)) h7
  have g6 := hex_digit_injective _ (Nat.mod_lt _ (by decide)) _ (Nat.mod_lt _ (by decide)) h6
  have g5 := hex_digit_injective _ (Nat.mod_lt _ (by decide)) _ (Nat.mod_lt _ (by decide)) h5
  have g4 := hex_digit_injective _ (Nat.mod_lt _ (by decide)) _ (Nat.mod_lt _ (by decide)) h4
  have g3 := hex_digit_injective _ (Nat.mod_lt _ (by decide)) _ (Nat.mod_lt _ (by decide)) h3
  have g2 := hex_digit_injective _ (Nat.mod_lt _ (by decide)) _ (Nat.mod_lt _ (by decide)) h2
  have g1 := hex_digit_injective _ (Nat.mod_lt _ (by decide)) _ (Nat.mod_lt _ (by decide)) h1
  have g0 := hex_digit_injective _ (Nat.mod_lt _ (by decide)) _ (Nat.mod_lt _ (by decide)) h0
  clear h7 h6 h5 h4 h3 h2 h1 h0
  omega

theorem sid_str_injective (v w : Nat) (hv : v < 2 ^ 32) (hw : w < 2 ^ 32)
    (h : sid_str v = sid_str w) : v = w := by
  unfold sid_str at h
  have h2 := congrArg String.data h
  exact printf_08x_injective v w hv hw (List.append_cancel_left h2)

theorem printf_08x_value (v : Nat) (hv : v < 2 ^ 32) :
    digits_number 16 (text_digits (printf_08x v)) = v := by
  unfold printf_08x text_digits digits_number
  simp only [List.map_cons, List.map_nil, List.foldl_cons, List.foldl_nil]
  rw [hex_digit_value _ (Nat.mod_lt _ (by decide)),
    hex_digit_value _ (Nat.mod_lt _ (by decide)),
    hex_digit_value _ (Nat.mod_lt _ (by decide)),
    hex_digit_value _ (Nat.mod_lt _ (by decide)),
    hex_digit_value _ (Nat.mod_lt _ (by decide)),
    hex_digit_value _ (Nat.mod_lt _ (by decide)),
    hex_digit_value _ (Nat.mod_lt _ (by decide)),
    hex_digit_value _ (Nat.mod_lt _ (by decide))]
  simp only [Option.getD_some]
  omega

theorem printf_08x_digits (v : Nat) :
    (printf_08x v).length = 8 ∧ ∀ c ∈ printf_08x v, c ∈ "0123456789abcdef".data := by
  refine ⟨rfl, ?_⟩
  intro c hc
  unfold printf_08x at hc
  simp only [List.map_cons, List.map_nil, List.mem_cons, List.mem_nil_iff, or_false] at hc
  rcases hc with h | h | h | h | h | h | h | h <;> rw [h] <;>
    exact hex_digit_mem _ (Nat.mod_lt _ (by decide))

/-- The devices after one turn of the discovery loop: the name of the announced stream
identifier is added when no device has it. -/
theorem discovery_turn_devices (start_time : timeval) (devices : List String)
    (e : discovery_event) (hadd : e.add_device_ok = true)
    (hfit : (e.received / 4).toNat ≤ e.buf.length) :
    ∃ leave, discovery_turn start_time devices e
      = .ok ((match announced_sid e with
              | some sid =>
                if sid_str sid ∈ devices then devices else devices ++ [sid_str sid]
              | none => devices), leave) := by
  unfold discovery_turn announced_sid
  by_cases hr : e.received < 0
  · rw [if_pos hr, if_pos hr]
    exact ⟨true, rfl⟩
  · rw [if_neg hr, if_neg hr]
    rcases parse_err_or_ok e.buf (e.received / 4).toNat hfit with h | h
    · rw [h]
      exact ⟨false, rfl⟩
    · rw [h]
      dsimp only
      refine ⟨decide (elapsed_ms start_time e.current_time ≥ 2000), ?_⟩
      have hx : ∀ d : List String,
          (if elapsed_ms start_time e.current_time ≥ 2000 then
              (Outcome.ok (d, true) : Outcome (List String × Bool))
            else Outcome.ok (d, false))
          = Outcome.ok (d, decide (elapsed_ms start_time e.current_time ≥ 2000)) := by
        intro d
        by_cases c : elapsed_ms start_time e.current_time ≥ 2000
        · rw [if_pos c, decide_eq_true c]
        · rw [if_neg c, decide_eq_false c]
      rw [hx]
      have hcm : ∀ a : String, devices.contains a = true ↔ a ∈ devices := fun a => by simp
      by_cases ht : (parsed_record e.buf).header.packet_type = VRT_PKT_TYPE_IF_CONTEXT
      · have hs : (parsed_record e.buf).has_stream_id = true := by
          show has_sid (parsed_record e.buf).header = true
          unfold has_sid
          rw [ht]
          decide
        rw [if_pos ⟨ht, hs⟩, if_pos ht, hadd]
        dsimp only
        by_cases hm : sid_str (parsed_record e.buf).stream_id ∈ devices
        · rw [if_pos hm, if_pos ((hcm _).mpr hm)]
        · rw [if_neg hm, if_neg (fun hc => hm ((hcm _).mp hc))]
          rfl
      · rw [if_neg (fun hc => ht hc.1), if_neg ht]

theorem announced_sid_lt (e : discovery_event) (sid : Nat)
    (hfit : (e.received / 4).toNat ≤ e.buf.length) (h : announced_sid e = some sid) :
    sid < 2 ^ 32 := by
  unfold announced_sid at h
  by_cases hr : e.received < 0
  · rw [if_pos hr] at h; cases h
  · rw [if_neg hr] at h
    rcases parse_err_or_ok e.buf (e.received / 4).toNat hfit with hp | hp
    · rw [hp] at h; cases h
    · rw [hp] at h
      dsimp only at h
      by_cases ht : (parsed_record e.buf).header.packet_type = VRT_PKT_TYPE_IF_CONTEXT
      · rw [if_pos ht] at h
        injection h with h
        rw [← h]
        show (if has_sid _ then ntohl (e.buf.getD 1 0) else 0) < 2 ^ 32
        split
        · exact ntohl_lt _
        · decide
      · rw [if_neg ht] at h; cases h

/-- The discovery loop returns, and its devices are those it started with and the names
of the stream identifiers announced by the datagrams it read, each once. -/
theorem discovery_loop_devices (start_time : timeval) (events : List discovery_event)
    (hadd : ∀ e ∈ events, e.add_device_ok = true)
    (hfit : ∀ e ∈ events, (e.received / 4).toNat ≤ e.buf.length) :
    ∀ devices : List String, devices.Nodup →
      ∃ devices2 handled rest,
        discovery_loop start_time devices events = .ok (devices2, rest) ∧
        events = handled ++ rest ∧ devices2.Nodup ∧
        ∀ n, n ∈ devices2 ↔
          n ∈ devices ∨ ∃ sid, sid ∈ handled.filterMap announced_sid ∧ n = sid_str sid := by
  induction events with
  | nil =>
    intro devices hnd
    exact ⟨devices, [], [], rfl, rfl, hnd, fun n => by simp⟩
  | cons e es ih =>
    intro devices hnd
    obtain ⟨leave, hturn⟩ := discovery_turn_devices start_time devices e
      (hadd e (List.mem_cons_self e es)) (hfit e (List.mem_cons_self e es))
    have hnd1 : (match announced_sid e with
              | some sid =>
                if sid_str sid ∈ devices then devices else devices ++ [sid_str sid]
              | none => devices).Nodup := by
      cases announced_sid e with
      | none => exact hnd
      | some sid =>
        dsimp only
        by_cases hm : sid_str sid ∈ devices
        · rw [if_pos hm]; exact hnd
        · rw [if_neg hm]
          refine List.Nodup.append hnd (List.nodup_singleton _) (fun a ha hb => hm ?_)
          rw [List.mem_singleton] at hb
          rw [← hb]
          exact ha
    have hmem1 : ∀ n, n ∈ (match announced_sid e with
              | some sid =>
                if sid_str sid ∈ devices then devices else devices ++ [sid_str sid]
              | none => devices)
          ↔ n ∈ devices ∨ ∃ sid, announced_sid e = some sid ∧ n = sid_str sid := by
      intro n
      cases announced_sid e with
      | none => simp
      | some sid =>
        dsimp only
        by_cases hm : sid_str sid ∈ devices
        · rw [if_pos hm]
          constructor
          · exact Or.inl
          · rintro (h | ⟨s, hs, rfl⟩)
            · exact h
            · injection hs with hs
              rw [← hs]; exact hm
        · rw [if_neg hm]
          simp only [List.mem_append, List.mem_singleton, Option.some.injEq]
          constructor
          · rintro (h | h)
            · exact Or.inl h
            · exact Or.inr ⟨sid, rfl, h⟩
          · rintro (h | ⟨s, hs, h⟩)
            · exact Or.inl h
            · rw [← hs] at h; exact Or.inr h
    generalize (match announced_sid e with
              | some sid =>
                if sid_str sid ∈ devices then devices else devices ++ [sid_str sid]
              | none => devices) = devices1 at hturn hnd1 hmem1
    cases leave with
    | true =>
      refine ⟨devices1, [e], es, ?_, rfl, hnd1, ?_⟩
      · rw [discovery_loop, hturn]; rfl
      · intro n
        rw [hmem1 n]
        cases h : announced_sid e with
        | none =>
          rw [List.filterMap_cons_none h]
          simp
        | some s =>
          rw [List.filterMap_cons_some h]
          simp
    | false =>
      obtain ⟨devices2, handled, rest, hloop, hev, hnd2, hmem2⟩ :=
        ih (fun x hx => hadd x (List.mem_cons_of_mem e hx))
          (fun x hx => hfit x (List.mem_cons_of_mem e hx)) devices1 hnd1
      refine ⟨devices2, e :: handled, rest, ?_, ?_, hnd2, ?_⟩
      · rw [discovery_loop, hturn]; exact hloop
      · rw [hev]; rfl
      · intro n
        rw [hmem2 n, hmem1 n]
        cases h : announced_sid e with
        | none =>
          rw [List.filterMap_cons_none h]
          simp
        | some s =>
          rw [List.filterMap_cons_some h]
          simp only [Option.some.injEq, List.mem_cons]
          constructor
          · rintro ((h1 | ⟨x, hx, h1⟩) | ⟨x, hx, h1⟩)
            · exact Or.inl h1
            · exact Or.inr ⟨x, Or.inl hx.symm, h1⟩
            · exact Or.inr ⟨x, Or.inr hx, h1⟩
          · rintro (h1 | ⟨x, hx | hx, h1⟩)
            · exact Or.inl (Or.inl h1)
            · exact Or.inl (Or.inr ⟨x, hx.symm, h1⟩)
            · exact Or.inr ⟨x, hx, h1⟩

theorem announced_sid_iff (e : discovery_event) (sid : Nat) :
    announced_sid e = some sid ↔
      0 ≤ e.received ∧ ∃ pkt, vrt_parse_packet e.buf (e.received / 4).toNat = .ok pkt ∧
        pkt.header.packet_type = VRT_PKT_TYPE_IF_CONTEXT ∧ pkt.stream_id = sid := by
  unfold announced_sid
  by_cases hr : e.received < 0
  · rw [if_pos hr]
    constructor
    · intro h; cases h
    · rintro ⟨h, _⟩; omega
  · rw [if_neg hr]
    cases hp : vrt_parse_packet e.buf (e.received / 4).toNat with
    | fault =>
      constructor
      · intro h; cases h
      · rintro ⟨_, pkt, h, _⟩; cases h
    | err c =>
      constructor
      · intro h; cases h
      · rintro ⟨_, pkt, h, _⟩; cases h
    | ok pkt =>
      dsimp only
      by_cases ht : pkt.header.packet_type = VRT_PKT_TYPE_IF_CONTEXT
      · rw [if_pos ht]
        constructor
        · intro h
          injection h with h
          exact ⟨by omega, pkt, rfl, ht, h⟩
        · rintro ⟨_, p, h, _, h3⟩
          injection h with h
          rw [h, h3]
      · rw [if_neg ht]
        constructor
        · intro h; cases h
        · rintro ⟨_, p, h, h2, _⟩
          injection h with h
          rw [← h] at h2
          exact absurd h2 ht

/-- C33: in the discovery loop, with `iio_context_add_device` succeeding, a turn adds a
device exactly when the datagram parses, the packet is of type IF Context and no device
has the name of its stream identifier, and the device added has this name; the name is
`vrt_device_` followed by eight characters among `0123456789abcdef` that write the stream
identifier in base 16, so two 32-bit stream identifiers with the same name are equal; the
loop returns, and from devices of different names it leaves devices of different names:
those it started with and the names of the stream identifiers announced by the datagrams
it read; started without a device, it leaves as many devices as different stream
identifiers were announced. -/
theorem discovery_one_device_per_stream (start_time : timeval) (devices : List String)
    (events : List discovery_event)
    (hadd : ∀ e ∈ events, e.add_device_ok = true)
    (hfit : ∀ e ∈ events, (e.received / 4).toNat ≤ e.buf.length)
    (hnd : devices.Nodup) :
    (∀ e ∈ events, ∀ devs : List String, ∃ leave,
      discovery_turn start_time devs e
        = .ok ((match announced_sid e with
                | some sid => if sid_str sid ∈ devs then devs else devs ++ [sid_str sid]
                | none => devs), leave)) ∧
    (∀ e sid, announced_sid e = some sid ↔
      0 ≤ e.received ∧ ∃ pkt, vrt_parse_packet e.buf (e.received / 4).toNat = .ok pkt ∧
        pkt.header.packet_type = VRT_PKT_TYPE_IF_CONTEXT ∧ pkt.stream_id = sid) ∧
    (∀ sid, (sid_str sid).data = "vrt_device_".data ++ printf_08x sid ∧
      (printf_08x sid).length = 8 ∧
      (∀ c ∈ printf_08x sid, c ∈ "0123456789abcdef".data) ∧
      (sid < 2 ^ 32 → digits_number 16 (text_digits (printf_08x sid)) = sid)) ∧
    (∀ a b, a < 2 ^ 32 → b < 2 ^ 32 → sid_str a = sid_str b → a = b) ∧
    ∃ devices2 handled rest,
      discovery_loop start_time devices events = .ok (devices2, rest) ∧
      events = handled ++ rest ∧ devices2.Nodup ∧
      (∀ n, n ∈ devices2 ↔
        n ∈ devices ∨ ∃ sid, sid ∈ handled.filterMap announced_sid ∧ n = sid_str sid) ∧
      (devices = [] →
        devices2.length = ((handled.filterMap announced_sid).dedup).length) := by
  refine ⟨fun e he devs => discovery_turn_devices start_time devs e (hadd e he) (hfit e he),
    announced_sid_iff,
    fun sid => ⟨rfl, (printf_08x_digits sid).1, (printf_08x_digits sid).2,
      printf_08x_value sid⟩,
    sid_str_injective, ?_⟩
  obtain ⟨devices2, handled, rest, hloop, hev, hnd2, hmem⟩ :=
    discovery_loop_devices start_time events hadd hfit devices hnd
  refine ⟨devices2, handled, rest, hloop, hev, hnd2, hmem, ?_⟩
  intro h0
  have hlt : ∀ sid ∈ (handled.filterMap announced_sid).dedup, sid < 2 ^ 32 := by
    intro sid hs
    rw [List.mem_dedup, List.mem_filterMap] at hs
    obtain ⟨e, he, hs⟩ := hs
    exact announced_sid_lt e sid
      (hfit e (by rw [hev]; exact List.mem_append_left _ he)) hs
  have hnd3 : (((handled.filterMap announced_sid).dedup).map sid_str).Nodup :=
    List.Nodup.map_on (fun a ha b hb h => sid_str_injective a b (hlt a ha) (hlt b hb) h)
      (List.nodup_dedup _)
  have hperm : devices2.Perm (((handled.filterMap announced_sid).dedup).map sid_str) := by
    rw [List.perm_ext_iff_of_nodup hnd2 hnd3]
    intro n
    rw [hmem n, h0, List.mem_map]
    simp only [List.not_mem_nil, false_or, List.mem_dedup]
    constructor
    · rintro ⟨sid, hs, rfl⟩; exact ⟨sid, hs, rfl⟩
    · rintro ⟨sid, hs, rfl⟩; exact ⟨sid, hs, rfl⟩
  rw [hperm.length_eq, List.length_map]

/-- Witness of C33: the IF Context packet of the unit test received three times, the
third time after the deadline, and once more after it: the loop adds one device,
`vrt_device_12345678`, and leaves the last datagram unread. -/
theorem discovery_one_device_per_stream_witness :
    discovery_loop ⟨0, 0⟩ []
        [early_context_event, early_context_event, late_context_event, early_context_event]
      = .ok (["vrt_device_12345678"], [early_context_event]) ∧
    ∃ devices2 handled rest,
      discovery_loop ⟨0, 0⟩ []
          [early_context_event, early_context_event, late_context_event,
            early_context_event]
        = .ok (devices2, rest) ∧
      [early_context_event, early_context_event, late_context_event, early_context_event]
        = handled ++ rest ∧ devices2.Nodup ∧
      (∀ n, n ∈ devices2 ↔
        n ∈ ([] : List String)
          ∨ ∃ sid, sid ∈ handled.filterMap announced_sid ∧ n = sid_str sid) ∧
      (([] : List String) = [] →
        devices2.length = ((handled.filterMap announced_sid).dedup).length) :=
  ⟨by decide,
   (discovery_one_device_per_stream ⟨0, 0⟩ []
      [early_context_event, early_context_event, late_context_event, early_context_event]
      (by decide) (by decide) (by decide)).2.2.2.2⟩

/-- C34 (evaluation at the failing input): a datagram that does not parse, handled
3000 ms after the loop started, does not end the discovery loop: the turn goes back to
`recv` without reading the clock, the IF Context packet that comes next is still read and
its device added, and any number of such datagrams are read one after the other. -/
theorem discovery_deadline_skipped :
    elapsed_ms ⟨0, 0⟩ late_garbage_event.current_time = 3000 ∧
    vrt_parse_packet late_garbage_event.buf (late_garbage_event.received / 4).toNat
      = .err (-EINVAL) ∧
    discovery_turn ⟨0, 0⟩ [] late_garbage_event = .ok ([], false) ∧
    discovery_turn ⟨0, 0⟩ [] late_context_event = .ok (["vrt_device_12345678"], true) ∧
    discovery_loop ⟨0, 0⟩ [] [late_garbage_event, late_context_event]
      = .ok (["vrt_device_12345678"], []) ∧
    discovery_loop ⟨0, 0⟩ []
        [late_garbage_event, late_garbage_event, late_garbage_event, late_context_event,
          early_context_event]
      = .ok (["vrt_device_12345678"], [early_context_event]) := by
  decide

/-! ## Parser and serialiser: bounds and frame -/

/-- C35: when `vrt_parse_packet` succeeds on a packet whose declared size `S` is at least
1, the header and metadata words (indices below `idx = meta_words`), the payload view
(`payload_words` words from index `idx`) and the trailer (index `S - 1`) do not overlap, all
lie below `S`, and `S ≤ words`: `idx + payload_words + (1 if trailer) = S`. -/
theorem vrt_parse_packet_stays_inside (buf : List Nat) (words : Nat) (pkt : vrt_packet)
    (hw : words ≤ buf.length) (hS : 1 ≤ (wire_header buf).packet_size_words)
    (h : vrt_parse_packet buf words = .ok pkt) :
    meta_words (wire_header buf) + pkt.payload_words + trailer_words (wire_header buf)
      = (wire_header buf).packet_size_words ∧
    (wire_header buf).packet_size_words ≤ words ∧
    pkt.header = wire_header buf ∧
    (pkt.has_stream_id = true →
      pkt.stream_id = wire_word buf 1 ∧ 1 < meta_words (wire_header buf)) ∧
    (pkt.has_class_id = true →
      pkt.class_id = (wire_word buf (1 + sid_words (wire_header buf)) <<< 32)
        ||| wire_word buf (1 + sid_words (wire_header buf) + 1) ∧
      1 + sid_words (wire_header buf) + 1 < meta_words (wire_header buf)) ∧
    (pkt.has_timestamp_int = true →
      pkt.timestamp_int
        = wire_word buf (1 + sid_words (wire_header buf) + class_words (wire_header buf)) ∧
      1 + sid_words (wire_header buf) + class_words (wire_header buf)
        < meta_words (wire_header buf)) ∧
    (pkt.has_timestamp_frac = true →
      pkt.timestamp_frac
        = (wire_word buf (1 + sid_words (wire_header buf) + class_words (wire_header buf)
            + tsi_words (wire_header buf)) <<< 32)
          ||| wire_word buf (1 + sid_words (wire_header buf) + class_words (wire_header buf)
            + tsi_words (wire_header buf) + 1) ∧
      1 + sid_words (wire_header buf) + class_words (wire_header buf)
        + tsi_words (wire_header buf) + 1 < meta_words (wire_header buf)) ∧
    pkt.payload = some (buf.drop (meta_words (wire_header buf))) ∧
    (∀ i, i < pkt.payload_words →
      (buf.drop (meta_words (wire_header buf))).getD i 0
        = buf.getD (meta_words (wire_header buf) + i) 0 ∧
      meta_words (wire_header buf) + i
        < (wire_header buf).packet_size_words - trailer_words (wire_header buf)) ∧
    (pkt.has_trailer = true →
      pkt.trailer.word = wire_word buf ((wire_header buf).packet_size_words - 1) ∧
      (wire_header buf).packet_size_words - 1
        = meta_words (wire_header buf) + pkt.payload_words) := by
  obtain ⟨_, hle, hopt, rfl⟩ := parse_ok_record buf words pkt hw h
  have hfit := parsed_fits buf hS hopt
  have hpw := parsed_payload_words buf hfit
  refine ⟨by omega, hle, rfl, ?_, ?_, ?_, ?_, rfl, ?_, ?_⟩
  · intro hs
    have hs' : has_sid (wire_header buf) = true := hs
    refine ⟨?_, ?_⟩
    · show (if has_sid (wire_header buf) then ntohl (buf.getD 1 0) else 0) = _
      rw [if_pos hs']; rfl
    · unfold meta_words sid_words; rw [if_pos hs']; omega
  · intro hc
    have hc' : (wire_header buf).has_class_id ≠ 0 := of_decide_eq_true hc
    refine ⟨?_, ?_⟩
    · show (if (wire_header buf).has_class_id ≠ 0 then _ else 0) = _
      rw [if_pos hc']; rfl
    · unfold meta_words class_words; rw [if_pos hc']; omega
  · intro hi
    have hi' : (wire_header buf).ts_integer_format ≠ VRT_TSI_NONE := of_decide_eq_true hi
    refine ⟨?_, ?_⟩
    · show (if (wire_header buf).ts_integer_format ≠ VRT_TSI_NONE then _ else 0) = _
      rw [if_pos hi']; rfl
    · unfold meta_words tsi_words; rw [if_pos hi']; omega
  · intro hf
    have hf' : (wire_header buf).ts_fractional_format ≠ VRT_TSF_NONE := of_decide_eq_true hf
    refine ⟨?_, ?_⟩
    · show (if (wire_header buf).ts_fractional_format ≠ VRT_TSF_NONE then _ else 0) = _
      rw [if_pos hf']; rfl
    · unfold meta_words tsf_words; rw [if_pos hf']; omega
  · intro i hi
    refine ⟨?_, by omega⟩
    simp only [List.getD_eq_getElem?_getD, List.getElem?_drop]
  · intro ht
    have ht' : (wire_header buf).has_trailer ≠ 0 := of_decide_eq_true ht
    have htw : trailer_words (wire_header buf) = 1 := by
      unfold trailer_words; rw [if_pos ht']
    refine ⟨?_, by omega⟩
    show vrt_trailer.word (if (wire_header buf).has_trailer ≠ 0 then _ else _) = _
    rw [if_pos ht']; rfl

/-- Witness of C35: the 10-word IF Context packet of the unit test has 4 header and
metadata words and 6 payload words. -/
theorem vrt_parse_packet_stays_inside_witness :
    10 ≤ test_context_buf.length ∧ 1 ≤ (wire_header test_context_buf).packet_size_words ∧
    vrt_parse_packet test_context_buf 10 = .ok test_context_pkt ∧
    meta_words (wire_header test_context_buf) = 4 ∧
    test_context_pkt.payload_words = 6 ∧
    meta_words (wire_header test_context_buf) + test_context_pkt.payload_words
      + trailer_words (wire_header test_context_buf)
      = (wire_header test_context_buf).packet_size_words :=
  ⟨by decide, by decide, by decide, by decide, by decide,
   (vrt_parse_packet_stays_inside test_context_buf 10 test_context_pkt (by decide)
      (by decide) (by decide)).1⟩

theorem generate_null_payload (pkt : vrt_packet) (buf : List Nat) (mw : Nat)
    (hp : pkt.payload = none) :
    vrt_generate_packet pkt buf mw
      = vrt_generate_packet { pkt with payload_words := 0 } buf mw := by
  unfold vrt_generate_packet gen_payload
  simp only [hp]
  rfl

theorem generate_closed_count (pkt : vrt_packet) (buf : List Nat) (mw : Nat)
    (hmw1 : 1 ≤ mw) (hcap : mw ≤ buf.length) (hmw : mw < 2 ^ 64)
    (hpw : 4 * payload_count pkt < 2 ^ 64) (hr : payload_readable pkt = true) :
    vrt_generate_packet pkt buf mw =
      if mw < serialised_words pkt then .err (-ENOBUFS)
      else .ok (((serialised_words pkt : Nat) : Int),
        htonl (pkt.header.set_packet_size_words (serialised_words pkt)).word
          :: (body_chunks pkt ++ buf.drop (serialised_words pkt))) := by
  cases hp : pkt.payload with
  | some p =>
    have e : payload_count pkt = pkt.payload_words := by
      unfold payload_count; rw [hp]
    exact generate_closed pkt buf mw hmw1 hcap hmw (by omega) hr
  | none =>
    have hs : serialised_words { pkt with payload_words := 0 } = serialised_words pkt := by
      simp only [serialised_words, payload_count, hp]
    have hb : body_chunks { pkt with payload_words := 0 } = body_chunks pkt := by
      simp only [body_chunks, payload_chunk, hp]
      rfl
    rw [generate_null_payload pkt buf mw hp,
      generate_closed { pkt with payload_words := 0 } buf mw hmw1 hcap hmw (by norm_num)
        (by simp only [payload_readable, hp]),
      hs, hb]

/-- C36: for a record whose payload pointer, when not null, refers to `payload_words`
words of a byte size that fits `size_t`, and a buffer of `max_words ≥ 1` words, with
`N = 1 + optional words + payload words + trailer word` (no payload word behind a null
pointer): `vrt_generate_packet` returns `-ENOBUFS` exactly when `N > max_words`, and
otherwise returns `N` and leaves every word of the buffer from index `N` on as it was. -/
theorem vrt_generate_packet_enobufs_iff (pkt : vrt_packet) (buf : List Nat)
    (max_words : Nat) (hmw1 : 1 ≤ max_words) (hcap : max_words ≤ buf.length)
    (hmw : max_words < 2 ^ 64) (hpw : 4 * payload_count pkt < 2 ^ 64)
    (hr : payload_readable pkt = true) :
    serialised_words pkt
      = 1 + (sid_words pkt.header + class_words pkt.header + tsi_words pkt.header
          + tsf_words pkt.header) + payload_count pkt + trailer_words pkt.header ∧
    serialised_words pkt < 2 ^ 64 ∧
    (vrt_generate_packet pkt buf max_words = .err (-ENOBUFS)
      ↔ max_words < serialised_words pkt) ∧
    (serialised_words pkt ≤ max_words →
      ∃ out, vrt_generate_packet pkt buf max_words
          = .ok (((serialised_words pkt : Nat) : Int), out) ∧
        out.length = buf.length ∧
        out.drop (serialised_words pkt) = buf.drop (serialised_words pkt) ∧
        ∀ i, serialised_words pkt ≤ i → out.getD i 0 = buf.getD i 0) := by
  have hbl := body_chunks_length pkt hr
  have hN : serialised_words pkt
      = 1 + (sid_words pkt.header + class_words pkt.header + tsi_words pkt.header
          + tsf_words pkt.header) + payload_count pkt + trailer_words pkt.header := by
    unfold serialised_words meta_words; omega
  have b1 := sid_words_le pkt.header
  have b2 := class_words_le pkt.header
  have b3 := tsi_words_le pkt.header
  have b4 := tsf_words_le pkt.header
  have b5 := trailer_words_le pkt.header
  refine ⟨hN, by omega, ?_, ?_⟩
  · rw [generate_closed_count pkt buf max_words hmw1 hcap hmw hpw hr]
    by_cases c : max_words < serialised_words pkt
    · rw [if_pos c]; exact ⟨fun _ => c, fun _ => rfl⟩
    · rw [if_neg c]; exact ⟨Outcome.noConfusion, fun h => absurd h c⟩
  · intro hle
    rw [generate_closed_count pkt buf max_words hmw1 hcap hmw hpw hr, if_neg (by omega)]
    have hd : (htonl (pkt.header.set_packet_size_words (serialised_words pkt)).word
          :: (body_chunks pkt ++ buf.drop (serialised_words pkt))).drop (serialised_words pkt)
        = buf.drop (serialised_words pkt) := by
      rw [← hbl, List.drop_succ_cons, List.drop_left]
    refine ⟨_, rfl, ?_, hd, ?_⟩
    · simp only [List.length_cons, List.length_append, List.length_drop]
      omega
    · intro i hi
      have e : ∀ l : List Nat, l.getD i 0
          = (l.drop (serialised_words pkt)).getD (i - serialised_words pkt) 0 := by
        intro l
        simp only [List.getD_eq_getElem?_getD, List.getElem?_drop]
        congr 2; omega
      rw [e, hd, ← e]

/-- Witness of C36: the record of the unit test needs 8 words; with a buffer of 10
words the 8 words are returned, with 7 the result is `-ENOBUFS`. -/
theorem vrt_generate_packet_enobufs_iff_witness :
    4 * payload_count test_data_pkt < 2 ^ 64 ∧ payload_readable test_data_pkt = true ∧
    serialised_words test_data_pkt = 8 ∧
    (vrt_generate_packet test_data_pkt (List.replicate 10 0) 7 = .err (-ENOBUFS)
      ↔ 7 < serialised_words test_data_pkt) ∧
    vrt_generate_packet test_data_pkt (List.replicate 10 0) 7 = .err (-ENOBUFS) :=
  ⟨by decide, by decide, by decide,
   (vrt_generate_packet_enobufs_iff test_data_pkt (List.replicate 10 0) 7 (by decide)
      (by decide) (by decide) (by decide) (by decide)).2.2.1, by decide⟩

theorem set_size_fields (h : vrt_header) (v : Nat) :
    (h.set_packet_size_words v).packet_type = h.packet_type ∧
    (h.set_packet_size_words v).has_class_id = h.has_class_id ∧
    (h.set_packet_size_words v).has_trailer = h.has_trailer ∧
    (h.set_packet_size_words v).reserved = h.reserved ∧
    (h.set_packet_size_words v).ts_integer_format = h.ts_integer_format ∧
    (h.set_packet_size_words v).ts_fractional_format = h.ts_fractional_format ∧
    (h.set_packet_size_words v).packet_count = h.packet_count ∧
    (h.set_packet_size_words v).packet_size_words = v % 2 ^ 16 := by
  simp only [vrt_header.set_packet_size_words, vrt_header.packet_type,
    vrt_header.has_class_id, vrt_header.has_trailer, vrt_header.reserved,
    vrt_header.ts_integer_format, vrt_header.ts_fractional_format, vrt_header.packet_count,
    vrt_header.packet_size_words]
  generalize h.word = w
  refine ⟨?_, ?_, ?_, ?_, ?_, ?_, ?_, ?_⟩ <;> omega

theorem set_size_twice (h : vrt_header) (v w : Nat) :
    (h.set_packet_size_words v).set_packet_size_words w = h.set_packet_size_words w := by
  simp only [vrt_header.set_packet_size_words, vrt_header.mk.injEq]
  generalize h.word = x
  omega

theorem generate_size_field_unused (pkt : vrt_packet) (buf : List Nat) (mw v : Nat) :
    vrt_generate_packet { pkt with header := pkt.header.set_packet_size_words v } buf mw
      = vrt_generate_packet pkt buf mw := by
  obtain ⟨e1, e2, e3, _, e5, e6, _, _⟩ := set_size_fields pkt.header v
  have e0 := has_sid_congr pkt.header (pkt.header.set_packet_size_words v) e1
  unfold vrt_generate_packet gen_stream_id gen_class_id gen_timestamp_int gen_timestamp_frac
    gen_payload gen_trailer gen_header
  simp only [e0, e2, e3, e5, e6, set_size_twice]

theorem generate_ends_in_header (pkt : vrt_packet) (buf : List Nat) (mw : Nat) (n : Int)
    (out : List Nat) (h : vrt_generate_packet pkt buf mw = .ok (n, out)) :
    ∃ s, gen_header pkt s = .ok (n, out) := by
  unfold vrt_generate_packet at h
  obtain ⟨s1, _, h⟩ := bind_ok_inv _ _ _ h
  obtain ⟨s2, _, h⟩ := bind_ok_inv _ _ _ h
  obtain ⟨s3, _, h⟩ := bind_ok_inv _ _ _ h
  obtain ⟨s4, _, h⟩ := bind_ok_inv _ _ _ h
  obtain ⟨s5, _, h⟩ := bind_ok_inv _ _ _ h
  obtain ⟨s6, _, h⟩ := bind_ok_inv _ _ _ h
  exact ⟨s6, h⟩

theorem gen_header_ok (pkt : vrt_packet) (s : gen_state) (n : Int) (out : List Nat)
    (h : gen_header pkt s = .ok (n, out)) :
    n = to_ssize s.idx ∧
    out.getD 0 0 = htonl (pkt.header.set_packet_size_words s.idx).word := by
  unfold gen_header store at h
  simp only [] at h
  by_cases c : 0 < s.buf.length
  · rw [if_pos c] at h
    simp only [Outcome.bind_ok, Outcome.ok.injEq, Prod.mk.injEq] at h
    obtain ⟨hn, ho⟩ := h
    refine ⟨hn.symm, ?_⟩
    rw [← ho]
    cases hb : s.buf with
    | nil => rw [hb] at c; simp at c
    | cons x rest => simp
  · rw [if_neg c] at h
    cases h

theorem to_ssize_low (a : Nat) : (to_ssize a % 2 ^ 16).toNat = a % 2 ^ 16 := by
  unfold to_ssize SIZE_MOD
  split <;> omega

/-- C37: when `vrt_generate_packet` succeeds with result `n`, word 0 of the output,
decoded from big-endian, is the header word of the record with its low 16 bits replaced by
`n mod 2 ^ 16`: the packet type, the class and trailer bits, the two reserved bits, TSI, TSF
and the packet count are those of the record, the size field is `n mod 2 ^ 16`; and the
call gives the same result whatever `packet_size_words` holds in the record. -/
theorem vrt_generate_packet_header_word (pkt : vrt_packet) (buf : List Nat)
    (max_words : Nat) (n : Int) (out : List Nat) (hw : pkt.header.word < 2 ^ 32)
    (h : vrt_generate_packet pkt buf max_words = .ok (n, out)) :
    wire_word out 0 = pkt.header.word / 2 ^ 16 * 2 ^ 16 + (n % 2 ^ 16).toNat ∧
    (wire_header out).packet_type = pkt.header.packet_type ∧
    (wire_header out).has_class_id = pkt.header.has_class_id ∧
    (wire_header out).has_trailer = pkt.header.has_trailer ∧
    (wire_header out).reserved = pkt.header.reserved ∧
    (wire_header out).ts_integer_format = pkt.header.ts_integer_format ∧
    (wire_header out).ts_fractional_format = pkt.header.ts_fractional_format ∧
    (wire_header out).packet_count = pkt.header.packet_count ∧
    (wire_header out).packet_size_words = (n % 2 ^ 16).toNat ∧
    (∀ v, vrt_generate_packet
        { pkt with header := pkt.header.set_packet_size_words v } buf max_words
      = vrt_generate_packet pkt buf max_words) := by
  obtain ⟨s, hs⟩ := generate_ends_in_header pkt buf max_words n out h
  obtain ⟨hn, ho⟩ := gen_header_ok pkt s n out hs
  have hlow := to_ssize_low s.idx
  rw [← hn] at hlow
  have hword : ntohl (out.getD 0 0) = (pkt.header.set_packet_size_words s.idx).word := by
    rw [ho, ntohl_htonl]
    apply Nat.mod_eq_of_lt
    unfold vrt_header.set_packet_size_words
    simp only []
    omega
  have hhdr : wire_header out = pkt.header.set_packet_size_words s.idx := by
    unfold wire_header; rw [hword]
  obtain ⟨e1, e2, e3, e4, e5, e6, e7, e8⟩ := set_size_fields pkt.header s.idx
  rw [hhdr, hlow]
  refine ⟨?_, e1, e2, e3, e4, e5, e6, e7, e8, generate_size_field_unused pkt buf max_words⟩
  show ntohl (out.getD 0 0) = _
  rw [hword]
  rfl

/-- Witness of C37: the record of the unit test is serialised to 8 words and the
generated header word is 0x14600008. -/
theorem vrt_generate_packet_header_word_witness :
    test_data_pkt.header.word < 2 ^ 32 ∧
    wire_word [htonl 0x14600008, htonl 0x87654321, htonl 1000000, htonl 0, htonl 2000000,
        0xDEADBEEF, 0xCAFEBABE, htonl 0x80, 0, 0] 0
      = test_data_pkt.header.word / 2 ^ 16 * 2 ^ 16 + ((8 : Int) % 2 ^ 16).toNat ∧
    wire_word [htonl 0x14600008, htonl 0x87654321, htonl 1000000, htonl 0, htonl 2000000,
        0xDEADBEEF, 0xCAFEBABE, htonl 0x80, 0, 0] 0 = 0x14600008 :=
  ⟨by decide,
   (vrt_generate_packet_header_word test_data_pkt (List.replicate 10 0) 10 8
      [htonl 0x14600008, htonl 0x87654321, htonl 1000000, htonl 0, htonl 2000000,
       0xDEADBEEF, 0xCAFEBABE, htonl 0x80, 0, 0] (by decide) (by decide)).1, by decide⟩

theorem take_agree (a b : List Nat) (S i : Nat) (h : a.take S = b.take S) (hi : i < S) :
    a.getD i 0 = b.getD i 0 := by
  have := congrArg (fun l => l.getD i 0) h
  simpa [List.getD_eq_getElem?_getD, List.getElem?_take, hi] using this

theorem wire_header_agree (a b : List Nat) (S : Nat) (h : a.take S = b.take S) (hS : 1 ≤ S) :
    wire_header b = wire_header a := by
  unfold wire_header; rw [take_agree a b S 0 h (by omega)]

theorem parsed_record_agree (buf1 buf2 : List Nat)
    (hS : 1 ≤ (wire_header buf1).packet_size_words)
    (hopt : optional_words (wire_header buf1) = 0
      ∨ 1 + optional_words (wire_header buf1) ≤ (wire_header buf1).packet_size_words)
    (hagree : buf1.take (wire_header buf1).packet_size_words
      = buf2.take (wire_header buf1).packet_size_words) :
    parsed_record buf2
      = { parsed_record buf1 with
          payload := some (buf2.drop (meta_words (wire_header buf1))) } := by
  have h0 : buf2.getD 0 0 = buf1.getD 0 0 := (take_agree _ _ _ 0 hagree (by omega)).symm
  have hg : ∀ i, i < (wire_header buf1).packet_size_words → buf2.getD i 0 = buf1.getD i 0 :=
    fun i hi => (take_agree _ _ _ i hagree hi).symm
  unfold optional_words at hopt
  have c1 := sid_words_cases (wire_header buf1)
  have c2 := class_words_cases (wire_header buf1)
  have c3 := tsi_words_cases (wire_header buf1)
  have c4 := tsf_words_cases (wire_header buf1)
  have c5 := trailer_words_cases (wire_header buf1)
  have f2 := class_flag_iff (wire_header buf1)
  have f3 := tsi_flag_iff (wire_header buf1)
  have f4 := tsf_flag_iff (wire_header buf1)
  have f5 := trailer_flag_iff (wire_header buf1)
  have f1 : has_sid (wire_header buf1) = true → sid_words (wire_header buf1) = 1 := by
    intro h; unfold sid_words; rw [if_pos h]
  unfold parsed_record
  simp only []
  rw [h0]
  rw [show vrt_header.mk (ntohl (buf1.getD 0 0)) = wire_header buf1 from rfl]
  rw [vrt_packet.mk.injEq]
  refine ⟨rfl, ?_, ?_, ?_, ?_, rfl, rfl, ?_, rfl, rfl, rfl, rfl, rfl⟩
  · split
    · next h => rw [hg 1 (by have := f1 h; omega)]
    · rfl
  · split
    · next h =>
      have := f2.mp h
      rw [hg _ (show 1 + sid_words _ < _ by omega), hg _ (show 1 + sid_words _ + 1 < _ by omega)]
    · rfl
  · split
    · next h =>
      have := f3.mp h
      rw [hg _ (show 1 + sid_words _ + class_words _ < _ by omega)]
    · rfl
  · split
    · next h =>
      have := f4.mp h
      rw [hg _ (show 1 + sid_words _ + class_words _ + tsi_words _ < _ by omega),
        hg _ (show 1 + sid_words _ + class_words _ + tsi_words _ + 1 < _ by omega)]
    · rfl
  · split
    · next h =>
      have := f5.mp h
      rw [hg _ (show (wire_header buf1).packet_size_words - 1 < _ by omega)]
    · rfl
theorem take_shorter_agree (a b : List Nat) (S n : Nat) (h : a.take S = b.take S)
    (hn : n ≤ S) : a.take n = b.take n := by
  have e : ∀ l : List Nat, l.take n = (l.take S).take n := by
    intro l; rw [List.take_take, min_eq_left hn]
  rw [e a, e b, h]

/-- C38: two buffers that agree on the first `S` words, `S ≥ 1` being the size declared
in word 0, parsed with any two lengths of at least `S`, give the same error code or both
succeed, neither call reads outside its buffer, and on success the two records differ at
most in the payload pointer: the header, the presence flags, the metadata values, the
trailer and `payload_words` are equal, and so are the `payload_words` payload words. -/
theorem vrt_parse_packet_depends_on_packet (buf1 buf2 : List Nat) (words1 words2 : Nat)
    (hw1 : words1 ≤ buf1.length) (hw2 : words2 ≤ buf2.length)
    (hS : 1 ≤ (wire_header buf1).packet_size_words)
    (hagree : buf1.take (wire_header buf1).packet_size_words
      = buf2.take (wire_header buf1).packet_size_words)
    (h1 : (wire_header buf1).packet_size_words ≤ words1)
    (h2 : (wire_header buf1).packet_size_words ≤ words2) :
    (∀ e, vrt_parse_packet buf1 words1 = .err e ↔ vrt_parse_packet buf2 words2 = .err e) ∧
    vrt_parse_packet buf1 words1 ≠ .fault ∧ vrt_parse_packet buf2 words2 ≠ .fault ∧
    (∀ pkt1, vrt_parse_packet buf1 words1 = .ok pkt1 →
      ∃ pkt2 p1 p2, vrt_parse_packet buf2 words2 = .ok pkt2 ∧
        pkt2 = { pkt1 with payload := some p2 } ∧ pkt1.payload = some p1 ∧
        p1.take pkt1.payload_words = p2.take pkt1.payload_words) := by
  have hh := wire_header_agree buf1 buf2 _ hagree hS
  have e1 := parse_closed_form buf1 words1 hw1
  have e2 := parse_closed_form buf2 words2 hw2
  rw [show vrt_header.mk (ntohl (buf1.getD 0 0)) = wire_header buf1 from rfl] at e1
  rw [show vrt_header.mk (ntohl (buf2.getD 0 0)) = wire_header buf2 from rfl, hh] at e2
  rw [if_neg (by omega), if_neg (by omega)] at e1 e2
  rw [e1, e2]
  by_cases hc : optional_words (wire_header buf1) ≠ 0 ∧
      (wire_header buf1).packet_size_words < 1 + optional_words (wire_header buf1)
  · rw [if_pos hc, if_pos hc]
    exact ⟨fun _ => Iff.rfl, Outcome.noConfusion, Outcome.noConfusion,
      fun _ h => Outcome.noConfusion h⟩
  · rw [if_neg hc, if_neg hc]
    refine ⟨fun e => ⟨Outcome.noConfusion, Outcome.noConfusion⟩, Outcome.noConfusion,
      Outcome.noConfusion, ?_⟩
    intro pkt1 hp
    injection hp with hp
    subst hp
    have hopt : optional_words (wire_header buf1) = 0
        ∨ 1 + optional_words (wire_header buf1) ≤ (wire_header buf1).packet_size_words := by
      by_cases h0 : optional_words (wire_header buf1) = 0
      · exact Or.inl h0
      · exact Or.inr (by
          by_contra hlt
          exact hc ⟨h0, by omega⟩)
    have hfit := parsed_fits buf1 hS hopt
    have hpw := parsed_payload_words buf1 hfit
    refine ⟨parsed_record buf2, buf1.drop (meta_words (wire_header buf1)),
      buf2.drop (meta_words (wire_header buf1)), rfl,
      parsed_record_agree buf1 buf2 hS hopt hagree, rfl, ?_⟩
    rw [List.take_drop, List.take_drop,
      take_shorter_agree buf1 buf2 _ _ hagree (by omega)]
/-- Witness of C38: the 10-word IF Context packet of the unit test followed by two more
words, parsed with 12 words, gives the record of the packet alone. -/
theorem vrt_parse_packet_depends_on_packet_witness :
    10 ≤ test_context_buf.length ∧ 12 ≤ (test_context_buf ++ [7, 9]).length ∧
    (wire_header test_context_buf).packet_size_words = 10 ∧
    ∃ pkt2 p1 p2, vrt_parse_packet (test_context_buf ++ [7, 9]) 12 = .ok pkt2 ∧
      pkt2 = { test_context_pkt with payload := some p2 } ∧
      test_context_pkt.payload = some p1 ∧
      p1.take test_context_pkt.payload_words = p2.take test_context_pkt.payload_words :=
  ⟨by decide, by decide, by decide,
   (vrt_parse_packet_depends_on_packet test_context_buf (test_context_buf ++ [7, 9]) 10 12
      (by decide) (by decide) (by decide) (by decide) (by decide) (by decide)).2.2.2
      test_context_pkt (by decide)⟩

/-! ## Loader: order of the registry -/

/-- The loop body does not look at the registry it extends. -/
theorem load_line_entry (st : Int × List vrt_mapping) (line : List Char) :
    load_line true st line
      = (st.1 + (((line_entry line).toList.length : Nat) : Int),
         (line_entry line).toList ++ st.2) := by
  unfold line_entry load_line vrt_command_add_mapping
  dsimp only
  by_cases c1 : (c_string line).head? = some '#' ∨ (c_string line).head? = some '\n'
      ∨ (c_string line).head? = some '\r'
  · rw [if_pos c1, if_pos c1]
    simp
  · rw [if_neg c1, if_neg c1]
    by_cases c2 : (read_tokens 7 (some (c_string line))).length = 7
    · rw [if_pos c2, if_pos c2]
      simp
    · rw [if_neg c2, if_neg c2]
      simp

/-- The loop of the loader: the entries of the lines, last line first, before the
registry it started from. -/
theorem load_lines_entries (lines : List (List Char)) (st : Int × List vrt_mapping) :
    lines.foldl (load_line true) st
      = (st.1 + (((lines.filterMap line_entry).length : Nat) : Int),
         (lines.filterMap line_entry).reverse ++ st.2) := by
  induction lines generalizing st with
  | nil => simp
  | cons l rest ih =>
    rw [List.foldl_cons, ih, load_line_entry]
    cases h : line_entry l with
    | none =>
      rw [List.filterMap_cons_none h]
      simp
    | some m =>
      rw [List.filterMap_cons_some h]
      simp only [Option.toList, List.length_cons, List.length_nil, List.reverse_cons,
        List.append_assoc, List.singleton_append, Prod.mk.injEq, and_true]
      push_cast
      omega

/-- C39: with allocations that succeed, the registry after `vrt_command_load_mappings`
holds the entries of the lines of the file (each result of `fgets` that gives one), the
last line first and the first line last, followed by the entries it held before, and the
value returned is their number; a line of seven fields gives the mapping of its fields, a
line that begins with `#` none; so on one IF Context packet the attribute writes of the
entries of a file are made in the reverse of the file order, before those of the entries
held before. -/
theorem load_mappings_reverse_order (E : List vrt_mapping) (f : List Char)
    (ctx : iio_context) (pkt : vrt_packet)
    (ht : pkt.header.packet_type = VRT_PKT_TYPE_IF_CONTEXT) (hs : pkt.has_stream_id = true)
    (hr : payload_readable pkt = true) (h1 : 1 ≤ pkt.payload_words)
    (hb : ∀ m ∈ (vrt_command_load_mappings true E (some f)).2, m.cif0_bit < 32) :
    (vrt_command_load_mappings true E (some f)).2
      = ((fgets_lines 256 f []).filterMap line_entry).reverse ++ E ∧
    (vrt_command_load_mappings true E (some f)).1
      = ((((fgets_lines 256 f []).filterMap line_entry).length : Nat) : Int) ∧
    (∀ f1 f2 f3 f4 f5 f6 f7 t : List Char,
      is_field f1 → is_field f2 → is_field f3 → is_field f4 → is_field f5 → is_field f6 →
      is_field f7 → (t = [] ∨ t = ['\n'] ∨ t = ['\r'] ∨ t = ['\r', '\n']) →
      f1.head? ≠ some '#' →
      line_entry (mapping_line f1 f2 f3 f4 f5 f6 f7 ++ t)
        = some (line_mapping f1 f2 f3 f4 f5 f6 f7)) ∧
    (∀ l, line_entry ('#' :: l) = none) ∧
    vrt_process_command_packet (some ctx) (vrt_command_load_mappings true E (some f)).2
        (some pkt)
      = .ok (0, (((fgets_lines 256 f []).filterMap line_entry).filterMap
            (mapping_write ctx pkt)).reverse
          ++ E.filterMap (mapping_write ctx pkt)) := by
  have hreg : (vrt_command_load_mappings true E (some f)).2
      = ((fgets_lines 256 f []).filterMap line_entry).reverse ++ E := by
    unfold vrt_command_load_mappings
    dsimp only
    rw [load_lines_entries]
  refine ⟨hreg, ?_, ?_, ?_, ?_⟩
  · unfold vrt_command_load_mappings
    dsimp only
    rw [load_lines_entries]
    simp
  · intro f1 f2 f3 f4 f5 f6 f7 t g1 g2 g3 g4 g5 g6 g7 gt gc
    unfold line_entry
    rw [load_line_seven (0, []) f1 f2 f3 f4 f5 f6 f7 t g1 g2 g3 g4 g5 g6 g7 gt gc]
    rfl
  · intro l
    unfold line_entry
    rw [load_line_skip true (0, []) '#' l (Or.inl rfl)]
    rfl
  · rw [dispatch_closed_form ctx _ pkt ht hs hr h1 hb, hreg, List.filterMap_append,
      List.filterMap_reverse]

set_option maxRecDepth 100000 in
/-- Witness of C39: the file with the line of bit 21 before the line of bit 29 gives the
registry of the test, bit 29 first, and on the packet of the test the bandwidth is written
before the sample rate. -/
theorem load_mappings_reverse_order_witness :
    (fgets_lines 256 two_line_file []).filterMap line_entry = test_registry.reverse ∧
    (vrt_command_load_mappings true [] (some two_line_file)).2 = test_registry ∧
    vrt_process_command_packet (some test_host)
        (vrt_command_load_mappings true [] (some two_line_file)).2 (some scenario3_pkt)
      = .ok (0, (((fgets_lines 256 two_line_file []).filterMap line_entry).filterMap
            (mapping_write test_host scenario3_pkt)).reverse
          ++ ([] : List vrt_mapping).filterMap (mapping_write test_host scenario3_pkt)) ∧
    (((fgets_lines 256 two_line_file []).filterMap line_entry).filterMap
        (mapping_write test_host scenario3_pkt)).reverse
      = [(12, double_56e6), (18, double_100e6)] :=
  ⟨by decide, by decide,
   (load_mappings_reverse_order [] two_line_file test_host scenario3_pkt (by decide)
      (by decide) (by decide) (by decide) (by decide)).2.2.2.2, by decide⟩

end Vita49
